import Mathlib

/-!
# Trajectory evaluation and derivative engine (`NewEvalManager`)

A shallow embedding of `itomp_cio_planner/src/optimization/new_eval_manager.cpp` and of
`ItompPlannerNode::updateTrajectoryToBestResult` of
`itomp_cio_planner/src/planner/itomp_planner_node.cpp`.

Conventions of the embedding.

* The `double` values of the manager state (cost matrix, torques, trajectories) are
  rationals: the values of finite doubles.  The members are embedded in exact
  arithmetic, where a division whose divisor is zero has no value (`fdiv` returns
  `none`); statements about them are statements about the exact values of the
  formulas of the code.
* Rounding, overflow and NaN are followed on `Double`, a model of IEEE 754 binary64
  with rounding to nearest, ties to even.  `computeDerivativesDouble` is the member
  `computeDerivatives` with the arithmetic of its own statements in doubles; the
  numerical claims about what `computeDerivatives` writes are settled on it.
* Point, column and parameter indices are naturals.  `Eigen::MatrixXd` and
  `std::vector` are a size together with a total indexing function; reading or
  writing outside the size is outside the contract of the C++ containers.
* Classes whose code is not part of the sources (the two trajectory stores, the
  rigid body dynamics routines, the ground manager, the planning group) are
  taken as parameters, bundled in `Collaborators`.
* The registered cost functions (the vector owned by the singleton
  `TrajectoryCostManager`) are passed as a list.
* The evaluation and derivative operations return, next to the new manager state
  and the C++ return value, the list of the calls they made to cost functions
  and of the changing calls they made to the trajectory stores, in order.
* The static pointer `ref_evaluation_manager_` reaches the member functions as an
  `Option`: `none` when it designates the manager the function is called on,
  `some r` when it designates another manager with state `r`.  Its life cycle
  is followed on `Process`, the pointer together with the managers alive by
  address.
* Propagation works point by point; `PointState` is the part of the manager that
  belongs to one point, and the loops of the propagation are characterised by
  functions on it (`fullPropagationOfPoint`, `partialPropagationOfPoint`).
* The function-local static array of `printTrajectoryCost` is passed in and returned,
  together with the list of the subscripts used on it; what is written to `cout`
  is left out.
-/

namespace itomp_cio_planner

/-! ## Plain data -/

/-- Three dimensional vector (`Eigen::Vector3d`). -/
structure Vector3 where
  x : ℚ
  y : ℚ
  z : ℚ
deriving DecidableEq

/-- Zero vector. -/
def Vector3.zero : Vector3 := ⟨0, 0, 0⟩

/-- Cross product `a.cross(b)`. -/
def Vector3.cross (a b : Vector3) : Vector3 :=
  ⟨a.y * b.z - a.z * b.y, a.z * b.x - a.x * b.z, a.x * b.y - a.y * b.x⟩

/-- Spatial 6-vector (`RigidBodyDynamics::Math::SpatialVector`): components 0..2 are
the torque, components 3..5 the force. -/
structure SpatialVector where
  torque : Vector3
  force : Vector3
deriving DecidableEq

/-- The constant `SpatialVectorZero`. -/
def SpatialVectorZero : SpatialVector := ⟨Vector3.zero, Vector3.zero⟩

/-- Component tags `ItompTrajectory::COMPONENT_TYPE_*`. -/
inductive ComponentType where
  | POSITION
  | VELOCITY
  | ACCELERATION
deriving DecidableEq

/-- Sub component tags `ItompTrajectory::SUB_COMPONENT_TYPE_*`. -/
inductive SubComponentType where
  | JOINT
  | CONTACT_POSITION
  | CONTACT_FORCE
deriving DecidableEq

/-- Location of one scalar parameter in the trajectory (`ItompTrajectoryIndex`). -/
structure ItompTrajectoryIndex where
  point : Nat
  component : ComponentType
  sub_component : SubComponentType
  element : Nat
deriving DecidableEq

/-- Trajectory type tag `Trajectory::TRAJECTORY_TYPE_POSITION`. -/
def TRAJECTORY_TYPE_POSITION : Nat := 0

/-- Trajectory type tag `Trajectory::TRAJECTORY_TYPE_VELOCITY`. -/
def TRAJECTORY_TYPE_VELOCITY : Nat := 1

/-- Trajectory type tag `Trajectory::TRAJECTORY_TYPE_ACCELERATION`. -/
def TRAJECTORY_TYPE_ACCELERATION : Nat := 2

/-- A `std::vector`: its size and its elements. -/
structure StdVector (α : Type) where
  size : Nat
  elem : Nat → α

/-- Assignment `v[i] = x`. -/
def StdVector.set {α : Type} (v : StdVector α) (i : Nat) (x : α) : StdVector α :=
  { v with elem := fun k => if k = i then x else v.elem k }

/-- Dense real matrix (`Eigen::MatrixXd`). -/
structure MatrixXd where
  rows : Nat
  cols : Nat
  coeff : Nat → Nat → ℚ

/-- All-zero matrix `Eigen::MatrixXd::Zero(rows, cols)`. -/
def MatrixXd.Zero (rows cols : Nat) : MatrixXd :=
  { rows := rows, cols := cols, coeff := fun _ _ => 0 }

/-- Assignment `m(i, j) = v`. -/
def MatrixXd.set (m : MatrixXd) (i j : Nat) (v : ℚ) : MatrixXd :=
  { m with coeff := fun r c => if r = i ∧ c = j then v else m.coeff r c }

/-- Sum of a block: `m.block(startRow, startCol, blockRows, blockCols).sum()`. -/
def MatrixXd.blockSum (m : MatrixXd) (startRow startCol blockRows blockCols : Nat) : ℚ :=
  ((List.range blockRows).map fun i =>
    ((List.range blockCols).map fun j => m.coeff (startRow + i) (startCol + j)).sum).sum

/-- Sum of all entries, `m.sum()`. -/
def MatrixXd.sum (m : MatrixXd) : ℚ :=
  m.blockSum 0 0 m.rows m.cols

/-- Division in exact arithmetic: `none` for a zero divisor, where the doubles of the
code give a NaN or an infinity.  The non-finite results that doubles reach by
overflow are outside exact arithmetic; they are followed on `Double.div`. -/
def fdiv (a b : ℚ) : Option ℚ :=
  if b = 0 then none else some (a / b)

/-- Counted loop `for (int i = b; i < e; ++i) s = body(i, s)`. -/
def forLoop {σ : Type} (b e : Nat) (body : Nat → σ → σ) (s : σ) : σ :=
  (List.range' b (e - b)).foldl (fun acc i => body i acc) s

/-- Loop over a `std::vector` with its index,
`for (int c = c0; c < c0 + v.size(); ++c) s = body(c, v[c - c0], s)`. -/
def forEachFrom {α σ : Type} (body : Nat → α → σ → σ) : List α → Nat → σ → σ
  | [], _, s => s
  | x :: xs, c, s => forEachFrom body xs (c + 1) (body c x s)

/-! ## State of the evaluation manager -/

/-- Working state of the rigid body model (`RigidBodyDynamics::Model`): the number of
bodies and the per-body arrays that propagation reads and writes.  The contents
of the arrays are only handled by the dynamics routines, so their type `K` is
left open. -/
structure Model (K : Type) where
  mBodies : Nat
  f : K
  X_lambda : K
  X_base : K
  v : K
  a : K
  c : K

/-- Contact variable of one contact at one trajectory point (`ContactVariables`):
free pose, force of every sub contact point, projected position of every sub
contact point. -/
structure ContactVariables where
  position : Vector3
  orientation : Vector3
  point_force : Nat → Vector3
  projected_point_positions_ : Nat → Vector3

/-- Contact of the planning group (`ItompContactPoint`): the body it is attached to
(`getRBDLBodyId`) and the body id of each sub contact point
(`getContactPointRBDLIds`). -/
structure ItompContactPoint where
  rbdl_body_id : Nat
  contact_point_rbdl_ids : Nat → Nat

/-- Joint of the planning group with its set of affected body ids. -/
structure ItompRobotJoint where
  rbdl_affected_body_ids_ : List Nat

/-- Planning group (`ItompPlanningGroup`), read only. -/
structure ItompPlanningGroup where
  num_contacts : Nat
  contact_points_ : Nat → ItompContactPoint
  group_joints_ : Nat → ItompRobotJoint

/-- Parameter trajectory of the legacy interface (`ParameterTrajectory`): the
position and velocity parameter matrices and its shape queries. -/
structure ParameterTrajectory where
  position : MatrixXd
  velocity : MatrixXd
  has_velocity : Bool
  num_elements : Nat
  num_joints : Nat

/-- Fields of `NewEvalManager`.  `F` is the state of the full trajectory store, `T`
the state of the itomp trajectory store, `K` the per-body data of the dynamics
model and `R` a robot state.  The members that only cost functions and the
visualisation read (robot model, planning scene, start times, collision
objects) are left out. -/
structure NewEvalManager (F T K R : Type) where
  full_trajectory_ : F
  parameter_trajectory_ : ParameterTrajectory
  itomp_trajectory_ : T
  planning_group_ : ItompPlanningGroup
  last_trajectory_feasible_ : Bool
  parameter_modified_ : Bool
  best_cost_ : ℚ
  rbdl_models_ : StdVector (Model K)
  joint_torques_ : StdVector (List ℚ)
  external_forces_ : StdVector (StdVector SpatialVector)
  contact_variables_ : StdVector (StdVector ContactVariables)
  evaluation_cost_matrix_ : MatrixXd
  robot_state_ : StdVector R

/-- Registered cost function (`TrajectoryCost`), over the manager type `M`.
`evaluate m i` is the pair (returned feasibility, value left in the `cost` output
argument) of `evaluate(this, i, cost)`. -/
structure TrajectoryCost (M : Type) where
  weight : ℚ
  evaluate : M → Nat → Bool × ℚ
  isInvariant : M → ItompTrajectoryIndex → Bool

/-- Call made by the manager to a cost function (identified by its position `c` in
the cost function vector) or to a trajectory store, with its arguments and, for
the cost function queries, what the call reported. -/
inductive Call where
  | preEvaluate (c : Nat)
  | postEvaluate (c : Nat)
  | isInvariant (c : Nat) (index : ItompTrajectoryIndex) (result : Bool)
  | evaluate (c : Nat) (point : Nat) (cost : ℚ) (feasible : Bool)
  | updateFromParameterTrajectory
  | directChangeForDerivatives (value : ℚ) (type point element : Nat) (first : Bool)
  | restoreBackupTrajectories
  | directChangeForDerivativeComputation (parameter_index : Nat) (value : ℚ) (first : Bool)
  | restoreTrajectory
deriving DecidableEq

/-- Outcome of a member function: the manager afterwards, the returned value and the
calls made, in order. -/
structure Ret (M α : Type) where
  mgr : M
  value : α
  calls : List Call

/-- Local state of the loops of `evaluatePointRange`. -/
structure EvalState (M : Type) where
  mgr : M
  is_feasible : Bool
  calls : List Call

section CostMatrix

variable {F T K R : Type}

/-- Assignment `cost_matrix(i, c) = v` on the manager's cost matrix. -/
def NewEvalManager.setCost (self : NewEvalManager F T K R) (i c : Nat) (v : ℚ) :
    NewEvalManager F T K R :=
  { self with evaluation_cost_matrix_ := self.evaluation_cost_matrix_.set i c v }

/-- Resize and reset at the head of `evaluatePointRange` (the `cost weight changed`
branch): a column count different from the number of cost functions replaces
the matrix by a zero matrix with the same rows. -/
def NewEvalManager.resetCostMatrix (self : NewEvalManager F T K R) (num : Nat) :
    NewEvalManager F T K R :=
  if num ≠ self.evaluation_cost_matrix_.cols then
    { self with evaluation_cost_matrix_ := MatrixXd.Zero self.evaluation_cost_matrix_.rows num }
  else self

/-- Body of the inner loop of the evaluated branch:
`is_feasible &= cost_functions[c]->evaluate(this, i, cost);`
`cost_matrix(i, c) = cost_functions[c]->getWeight() * cost;`. -/
def evaluatePoint (cf : TrajectoryCost (NewEvalManager F T K R)) (c i : Nat)
    (st : EvalState (NewEvalManager F T K R)) : EvalState (NewEvalManager F T K R) :=
  let r := cf.evaluate st.mgr i
  { mgr := st.mgr.setCost i c (cf.weight * r.2)
    is_feasible := st.is_feasible && r.1
    calls := st.calls ++ [Call.evaluate c i r.2 r.1] }

/-- Body of the inner loop of the invariant branch: `cost_matrix(i, c) = 0.0;`. -/
def zeroPoint (c i : Nat) (st : EvalState (NewEvalManager F T K R)) :
    EvalState (NewEvalManager F T K R) :=
  { st with mgr := st.mgr.setCost i c 0 }

/-- Body of the loop over cost functions of the overload of `evaluatePointRange`
taking an `ItompTrajectoryIndex` (lines 327-345). -/
def evaluateCostFunction (point_begin point_end : Nat) (index : ItompTrajectoryIndex)
    (c : Nat) (cf : TrajectoryCost (NewEvalManager F T K R))
    (st : EvalState (NewEvalManager F T K R)) : EvalState (NewEvalManager F T K R) :=
  let inv := cf.isInvariant st.mgr index
  let st1 : EvalState (NewEvalManager F T K R) :=
    { st with calls := st.calls ++ [Call.isInvariant c index inv] }
  if inv then forLoop point_begin point_end (zeroPoint c) st1
  else forLoop point_begin point_end (evaluatePoint cf c) st1

/-- The loops of the overload `evaluatePointRange(point_begin, point_end, cost_matrix,
index)`
(lines 318-345): the local state when the loop over cost functions is left.
Every call in the class passes the member `evaluation_cost_matrix_` as
`cost_matrix`, so the reference argument is the member. -/
def NewEvalManager.evaluatePointRangeLoops
    (cost_functions : List (TrajectoryCost (NewEvalManager F T K R)))
    (self : NewEvalManager F T K R) (point_begin point_end : Nat)
    (index : ItompTrajectoryIndex) : EvalState (NewEvalManager F T K R) :=
  forEachFrom (evaluateCostFunction point_begin point_end index) cost_functions 0
    { mgr := self.resetCostMatrix cost_functions.length, is_feasible := true, calls := [] }

/-- The overload `evaluatePointRange(point_begin, point_end, cost_matrix, index)`.
After the loops, `is_feasible = false; return is_feasible;` (lines 346-347). -/
def NewEvalManager.evaluatePointRange
    (cost_functions : List (TrajectoryCost (NewEvalManager F T K R)))
    (self : NewEvalManager F T K R) (point_begin point_end : Nat)
    (index : ItompTrajectoryIndex) : Ret (NewEvalManager F T K R) Bool :=
  let st := self.evaluatePointRangeLoops cost_functions point_begin point_end index
  let is_feasible := st.is_feasible
  let is_feasible := (fun _ => false) is_feasible
  { mgr := st.mgr, value := is_feasible, calls := st.calls }

/-- Body of the loop over cost functions of the overload of `evaluatePointRange`
taking `(type, element)` (lines 362-382): the invariance test is commented out,
every cost function is evaluated. -/
def evaluateCostFunctionLegacy (point_begin point_end : Nat)
    (c : Nat) (cf : TrajectoryCost (NewEvalManager F T K R))
    (st : EvalState (NewEvalManager F T K R)) : EvalState (NewEvalManager F T K R) :=
  forLoop point_begin point_end (evaluatePoint cf c) st

/-- The loops of the overload
`evaluatePointRange(point_begin, point_end, cost_matrix, type, element)` (lines 353-382).
The body reads neither `type` nor `element`, which the embedding leaves out. -/
def NewEvalManager.evaluatePointRangeLegacyLoops
    (cost_functions : List (TrajectoryCost (NewEvalManager F T K R)))
    (self : NewEvalManager F T K R) (point_begin point_end : Nat) :
    EvalState (NewEvalManager F T K R) :=
  forEachFrom (evaluateCostFunctionLegacy point_begin point_end) cost_functions 0
    { mgr := self.resetCostMatrix cost_functions.length, is_feasible := true, calls := [] }

/-- The overload `evaluatePointRange(point_begin, point_end, cost_matrix, type, element)`.
After the loops, `is_feasible = false; return is_feasible;` (lines 383-384). -/
def NewEvalManager.evaluatePointRangeLegacy
    (cost_functions : List (TrajectoryCost (NewEvalManager F T K R)))
    (self : NewEvalManager F T K R) (point_begin point_end : Nat) :
    Ret (NewEvalManager F T K R) Bool :=
  let st := self.evaluatePointRangeLegacyLoops cost_functions point_begin point_end
  let is_feasible := st.is_feasible
  let is_feasible := (fun _ => false) is_feasible
  { mgr := st.mgr, value := is_feasible, calls := st.calls }

end CostMatrix

/-! ## Collaborators -/

/-- The classes and routines the manager calls whose code is not part of the
sources, as functions on the states `F` (full trajectory store) and `T` (itomp
trajectory store) and on the dynamics model.

* `ItompTrajectory`: `directChangeForDerivativeComputation` returns the changed
  store and the affected range `(point_begin, point_end)`.
* `FullTrajectory`: `directChangeForDerivatives` likewise; `getJointRow t type point`
  is `getComponentTrajectory(TRAJECTORY_COMPONENT_JOINT, type).row(point)`.
* `GroundManager::getNearestGroundPosition` returns
  `(proj_position, proj_orientation, contact_normal)`.
* The three dynamics updates return the changed model and the joint torques. -/
structure Collaborators (F T K : Type) where
  directChangeForDerivativeComputation : T → Nat → ℚ → Bool → T × Nat × Nat
  getTrajectoryIndex : T → Nat → ItompTrajectoryIndex
  restoreTrajectory : T → T
  getTrajectoryPoint : T → ComponentType → SubComponentType → Nat → List ℚ
  getContactVariables : T → Nat → StdVector ContactVariables → StdVector ContactVariables
  getParameterJointIndex : T → Nat → Nat
  getNumPoints : F → Nat
  hasVelocity : F → Bool
  hasAcceleration : F → Bool
  updateFromParameterTrajectory : F → ParameterTrajectory → ItompPlanningGroup → F
  directChangeForDerivatives :
    F → ℚ → ItompPlanningGroup → Nat → Nat → Nat → Bool → F × Nat × Nat
  restoreBackupTrajectories : F → F
  getJointRow : F → Nat → Nat → List ℚ
  getContactVariablesFull : F → Nat → StdVector ContactVariables → StdVector ContactVariables
  getNearestGroundPosition : Vector3 → Vector3 → Vector3 × Vector3 × Vector3
  ComputeProjectedPointPositions :
    ContactVariables → Vector3 → Vector3 → Model K → ItompContactPoint → ContactVariables
  NUM_ENDEFFECTOR_CONTACT_POINTS : Nat
  updateFullKinematicsAndDynamics : Model K → List ℚ → List ℚ → List ℚ → List ℚ →
    Option (StdVector SpatialVector) → Model K × List ℚ
  updatePartialDynamics : Model K → List ℚ → List ℚ → List ℚ → List ℚ →
    Option (StdVector SpatialVector) → Model K × List ℚ
  updatePartialKinematicsAndDynamics : Model K → List ℚ → List ℚ → List ℚ → List ℚ →
    Option (StdVector SpatialVector) → List Nat → Model K × List ℚ

/-! ## Propagation -/

section Propagation

variable {F T K R : Type}

/-- The block `// compute contact variables` (lines 423-437, 501-521, 610-625): the
contact variables of `point` are read from the trajectory (`fromTrajectory` is
the store's `getContactVariables(point, contact_variables_[point])`), then each
contact is projected on the ground. -/
def computeContactVariables (env : Collaborators F T K)
    (fromTrajectory : StdVector ContactVariables → StdVector ContactVariables)
    (self : NewEvalManager F T K R) (point : Nat) : NewEvalManager F T K R :=
  let cv0 := fromTrajectory (self.contact_variables_.elem point)
  let self1 : NewEvalManager F T K R :=
    { self with contact_variables_ := self.contact_variables_.set point cv0 }
  forLoop 0 self1.planning_group_.num_contacts (fun i s =>
    let cv := (s.contact_variables_.elem point).elem i
    let g := env.getNearestGroundPosition cv.position cv.orientation
    let cv1 := env.ComputeProjectedPointPositions cv g.1 g.2.1 (s.rbdl_models_.elem point)
      (s.planning_group_.contact_points_ i)
    let cvs := (s.contact_variables_.elem point).set i cv1
    { s with contact_variables_ := s.contact_variables_.set point cvs }) self1

/-- The block `// compute external forces` (lines 439-459, 523-549, 627-647): for
every contact `i` and sub contact point `c` the spatial force
`(position x force, force)` is assigned to `external_forces_[point][rbdl_point_id]`. -/
def computeExternalForces (env : Collaborators F T K)
    (self : NewEvalManager F T K R) (point : Nat) : NewEvalManager F T K R :=
  forLoop 0 self.planning_group_.num_contacts (fun i s =>
    forLoop 0 env.NUM_ENDEFFECTOR_CONTACT_POINTS (fun c s =>
      let rbdl_point_id := (s.planning_group_.contact_points_ i).contact_point_rbdl_ids c
      let point_position := ((s.contact_variables_.elem point).elem i).projected_point_positions_ c
      let contact_force := ((s.contact_variables_.elem point).elem i).point_force c
      let contact_torque := point_position.cross contact_force
      let ext_force := (s.external_forces_.elem point).set rbdl_point_id
        ⟨contact_torque, contact_force⟩
      { s with external_forces_ := s.external_forces_.set point ext_force })
      s) self

/-- Store the outcome `(model, torques)` of a dynamics update of `point`, which the
C++ routines write through their reference arguments `rbdl_models_[point]` and
`joint_torques_[point]`. -/
def NewEvalManager.storeDynamics (self : NewEvalManager F T K R) (point : Nat)
    (r : Model K × List ℚ) : NewEvalManager F T K R :=
  { self with
    rbdl_models_ := self.rbdl_models_.set point r.1
    joint_torques_ := self.joint_torques_.set point r.2 }

/-- The member `performFullForwardKinematicsAndDynamics(point_begin, point_end)`. -/
def NewEvalManager.performFullForwardKinematicsAndDynamics (env : Collaborators F T K)
    (self : NewEvalManager F T K R) (point_begin point_end : Nat) : NewEvalManager F T K R :=
  forLoop point_begin point_end (fun point s =>
    let q := env.getTrajectoryPoint s.itomp_trajectory_ .POSITION .JOINT point
    let q_dot := env.getTrajectoryPoint s.itomp_trajectory_ .VELOCITY .JOINT point
    let q_ddot := env.getTrajectoryPoint s.itomp_trajectory_ .ACCELERATION .JOINT point
    let s1 := computeContactVariables env (env.getContactVariables s.itomp_trajectory_ point) s point
    let s2 := computeExternalForces env s1 point
    s2.storeDynamics point
      (env.updateFullKinematicsAndDynamics (s2.rbdl_models_.elem point) q q_dot q_ddot
        (s2.joint_torques_.elem point) (some (s2.external_forces_.elem point)))) self

/-- The state read through the static pointer `ref_evaluation_manager_`: `none` says
that the pointer designates this very instance, `some r` that it designates
another instance whose state is `r`. -/
def refState (ref_evaluation_manager_ : Option (NewEvalManager F T K R))
    (self : NewEvalManager F T K R) : NewEvalManager F T K R :=
  ref_evaluation_manager_.getD self

/-- The member `performPartialForwardKinematicsAndDynamics(point_begin, point_end, index)`
(lines 572-665). -/
def NewEvalManager.performPartialForwardKinematicsAndDynamics (env : Collaborators F T K)
    (ref_evaluation_manager_ : Option (NewEvalManager F T K R))
    (self : NewEvalManager F T K R) (point_begin point_end : Nat)
    (index : ItompTrajectoryIndex) : NewEvalManager F T K R :=
  let dynamics_only := decide (index.sub_component ≠ SubComponentType.JOINT)
  -- copy only variables will be updated
  let self1 := forLoop point_begin point_end (fun point s =>
    let r := (refState ref_evaluation_manager_ s).rbdl_models_.elem point
    let m := s.rbdl_models_.elem point
    let m1 : Model K := { m with f := r.f }
    let m2 : Model K :=
      if !dynamics_only then
        { m1 with X_lambda := r.X_lambda, X_base := r.X_base, v := r.v, a := r.a, c := r.c }
      else m1
    { s with rbdl_models_ := s.rbdl_models_.set point m2 }) self
  forLoop point_begin point_end (fun point s =>
    let q := env.getTrajectoryPoint s.itomp_trajectory_ .POSITION .JOINT point
    let q_dot := env.getTrajectoryPoint s.itomp_trajectory_ .VELOCITY .JOINT point
    let q_ddot := env.getTrajectoryPoint s.itomp_trajectory_ .ACCELERATION .JOINT point
    if dynamics_only then
      let s1 := computeContactVariables env (env.getContactVariables s.itomp_trajectory_ point) s point
      let s2 := computeExternalForces env s1 point
      s2.storeDynamics point
        (env.updatePartialDynamics (s2.rbdl_models_.elem point) q q_dot q_ddot
          (s2.joint_torques_.elem point) (some (s2.external_forces_.elem point)))
    else
      let r := refState ref_evaluation_manager_ s
      let s1 : NewEvalManager F T K R :=
        { s with
          contact_variables_ := s.contact_variables_.set point (r.contact_variables_.elem point)
          joint_torques_ := s.joint_torques_.set point (r.joint_torques_.elem point)
          external_forces_ := s.external_forces_.set point (r.external_forces_.elem point) }
      s1.storeDynamics point
        (env.updatePartialKinematicsAndDynamics (s1.rbdl_models_.elem point) q q_dot q_ddot
          (s1.joint_torques_.elem point) (some (s1.external_forces_.elem point))
          (s1.planning_group_.group_joints_
            (env.getParameterJointIndex s1.itomp_trajectory_ index.element)).rbdl_affected_body_ids_))
    self1

/-- The member
`performPartialForwardKinematicsAndDynamics(point_begin, point_end, parameter_element)`
(lines 466-570). -/
def NewEvalManager.performPartialForwardKinematicsAndDynamicsLegacy (env : Collaborators F T K)
    (ref_evaluation_manager_ : Option (NewEvalManager F T K R))
    (self : NewEvalManager F T K R) (point_begin point_end : Nat)
    (parameter_element : Nat) : NewEvalManager F T K R :=
  if !env.hasVelocity self.full_trajectory_ || !env.hasAcceleration self.full_trajectory_ then
    self
  else
    let self1 := forLoop point_begin point_end (fun point s =>
      let r := (refState ref_evaluation_manager_ s).rbdl_models_.elem point
      { s with rbdl_models_ := s.rbdl_models_.set point r }) self
    let dynamics_only := decide (parameter_element ≥ self1.parameter_trajectory_.num_joints)
    forLoop point_begin point_end (fun point s =>
      let q := env.getJointRow s.full_trajectory_ TRAJECTORY_TYPE_POSITION point
      let q_dot := env.getJointRow s.full_trajectory_ TRAJECTORY_TYPE_VELOCITY point
      let q_ddot := env.getJointRow s.full_trajectory_ TRAJECTORY_TYPE_ACCELERATION point
      if dynamics_only then
        let s1 := computeContactVariables env
          (env.getContactVariablesFull s.full_trajectory_ point) s point
        let s2 := computeExternalForces env s1 point
        s2.storeDynamics point
          (env.updatePartialDynamics (s2.rbdl_models_.elem point) q q_dot q_ddot
            (s2.joint_torques_.elem point) (some (s2.external_forces_.elem point)))
      else
        let r := refState ref_evaluation_manager_ s
        let s1 : NewEvalManager F T K R :=
          { s with
            contact_variables_ := s.contact_variables_.set point (r.contact_variables_.elem point)
            joint_torques_ := s.joint_torques_.set point (r.joint_torques_.elem point)
            external_forces_ := s.external_forces_.set point (r.external_forces_.elem point) }
        s1.storeDynamics point
          (env.updatePartialKinematicsAndDynamics (s1.rbdl_models_.elem point) q q_dot q_ddot
            (s1.joint_torques_.elem point) (some (s1.external_forces_.elem point))
            (s1.planning_group_.group_joints_ parameter_element).rbdl_affected_body_ids_))
      self1

end Propagation

/-! ## Evaluation and derivatives -/

section Operations

variable {F T K R : Type}

/-- Modelled from the spec: `TrajectoryCostManager::getNumActiveCostFunctions()`, whose
code is not part of the sources, is the number `C` of registered cost functions,
the size of the vector that `getCostFunctionVector()` returns. -/
def getNumActiveCostFunctions (cost_functions : List (TrajectoryCost (NewEvalManager F T K R))) :
    Nat :=
  cost_functions.length

/-- Modelled from the spec: `getTrajectoryCost()`, declared in the class header that is
not part of the sources, is the total cost, the sum of the cost matrix
(`return total cost (sum of matrix)`). -/
def NewEvalManager.getTrajectoryCost (self : NewEvalManager F T K R) : ℚ :=
  self.evaluation_cost_matrix_.sum

/-- The head of `evaluate()` (lines 161-165): a parameter trajectory marked as modified
is pushed into the full trajectory and the mark is cleared. -/
def NewEvalManager.pushParameterTrajectory (env : Collaborators F T K)
    (self : NewEvalManager F T K R) : NewEvalManager F T K R × List Call :=
  if self.parameter_modified_ then
    ({ self with
        full_trajectory_ := env.updateFromParameterTrajectory self.full_trajectory_
          self.parameter_trajectory_ self.planning_group_
        parameter_modified_ := false }, [Call.updateFromParameterTrajectory])
  else (self, [])

/-- The member `evaluate()` (lines 159-183).  Its call
`evaluatePointRange(0, n, evaluation_cost_matrix_)` has three arguments; it is
taken to be the `(type, element)` overload with both trailing arguments
defaulted in the class header, the overload whose body evaluates every cost
function.  The hooks take the manager as a pointer to const and are recorded
as calls. -/
def NewEvalManager.evaluate (env : Collaborators F T K)
    (cost_functions : List (TrajectoryCost (NewEvalManager F T K R)))
    (self : NewEvalManager F T K R) : Ret (NewEvalManager F T K R) ℚ :=
  let pushed := self.pushParameterTrajectory env
  let self1 := pushed.1
  let self2 := self1.performFullForwardKinematicsAndDynamics env 0
    (env.getNumPoints self1.full_trajectory_)
  let pre := (List.range cost_functions.length).map Call.preEvaluate
  let r := self2.evaluatePointRangeLegacy cost_functions 0 (env.getNumPoints self2.full_trajectory_)
  let self3 : NewEvalManager F T K R := { r.mgr with last_trajectory_feasible_ := r.value }
  let post := (List.range cost_functions.length).map Call.postEvaluate
  { mgr := self3, value := self3.getTrajectoryCost, calls := pushed.2 ++ pre ++ r.calls ++ post }

/-- The member `evaluateParameterPoint` (lines 286-297); the value is the range
`(full_point_begin, full_point_end)` written to the reference arguments. -/
def NewEvalManager.evaluateParameterPoint (env : Collaborators F T K)
    (cost_functions : List (TrajectoryCost (NewEvalManager F T K R)))
    (ref_evaluation_manager_ : Option (NewEvalManager F T K R))
    (self : NewEvalManager F T K R) (value : ℚ) (type point element : Nat) (first : Bool) :
    Ret (NewEvalManager F T K R) (Nat × Nat) :=
  let d := env.directChangeForDerivatives self.full_trajectory_ value self.planning_group_
    type point element first
  let self1 : NewEvalManager F T K R := { self with full_trajectory_ := d.1 }
  let full_point_begin := d.2.1
  let full_point_end := d.2.2
  let self2 := self1.performPartialForwardKinematicsAndDynamicsLegacy env
    ref_evaluation_manager_ full_point_begin full_point_end element
  let r := self2.evaluatePointRangeLegacy cost_functions full_point_begin full_point_end
  { mgr := r.mgr, value := (full_point_begin, full_point_end),
    calls := Call.directChangeForDerivatives value type point element first :: r.calls }

/-- The member `evaluateParameterPointItomp` (lines 299-312); the value is the range
`(point_begin, point_end)` written to the reference arguments. -/
def NewEvalManager.evaluateParameterPointItomp (env : Collaborators F T K)
    (cost_functions : List (TrajectoryCost (NewEvalManager F T K R)))
    (ref_evaluation_manager_ : Option (NewEvalManager F T K R))
    (self : NewEvalManager F T K R) (value : ℚ) (parameter_index : Nat) (first : Bool) :
    Ret (NewEvalManager F T K R) (Nat × Nat) :=
  let d := env.directChangeForDerivativeComputation self.itomp_trajectory_ parameter_index
    value first
  let self1 : NewEvalManager F T K R := { self with itomp_trajectory_ := d.1 }
  let point_begin := d.2.1
  let point_end := d.2.2
  let index := env.getTrajectoryIndex self1.itomp_trajectory_ parameter_index
  let point_end := if index.point = point_end then point_end + 1 else point_end
  let self2 := self1.performPartialForwardKinematicsAndDynamics env ref_evaluation_manager_
    point_begin point_end index
  let r := self2.evaluatePointRange cost_functions point_begin point_end index
  { mgr := r.mgr, value := (point_begin, point_end),
    calls := Call.directChangeForDerivativeComputation parameter_index value first :: r.calls }

/-- The member `computeDerivatives(parameter_index, parameters, derivative_out, eps)`
(lines 239-256) in exact arithmetic; the value is the array `derivative_out`
afterwards.  The same member with rounding, overflow and NaN is
`computeDerivativesDouble`. -/
def NewEvalManager.computeDerivatives (env : Collaborators F T K)
    (cost_functions : List (TrajectoryCost (NewEvalManager F T K R)))
    (ref_evaluation_manager_ : Option (NewEvalManager F T K R))
    (self : NewEvalManager F T K R) (parameter_index : Nat) (parameters : Nat → ℚ)
    (derivative_out : Nat → Option ℚ) (eps : ℚ) :
    Ret (NewEvalManager F T K R) (Nat → Option ℚ) :=
  let num_cost_functions := getNumActiveCostFunctions cost_functions
  let value := parameters parameter_index
  let r1 := self.evaluateParameterPointItomp env cost_functions ref_evaluation_manager_
    (value + eps) parameter_index true
  let delta_plus := r1.mgr.evaluation_cost_matrix_.blockSum r1.value.1 0
    (r1.value.2 - r1.value.1) num_cost_functions
  let r2 := r1.mgr.evaluateParameterPointItomp env cost_functions ref_evaluation_manager_
    (value - eps) parameter_index false
  let delta_minus := r2.mgr.evaluation_cost_matrix_.blockSum r2.value.1 0
    (r2.value.2 - r2.value.1) num_cost_functions
  let derivative_out := Function.update derivative_out parameter_index
    (fdiv (delta_plus - delta_minus) (2 * eps))
  { mgr := { r2.mgr with itomp_trajectory_ := env.restoreTrajectory r2.mgr.itomp_trajectory_ },
    value := derivative_out,
    calls := r1.calls ++ r2.calls ++ [Call.restoreTrajectory] }

/-- The member `computeCostDerivatives` (lines 258-284); the value is the pair of the
arrays `derivative_out` and `cost_derivative_out` afterwards, the latter
indexed by cost function, then by parameter. -/
def NewEvalManager.computeCostDerivatives (env : Collaborators F T K)
    (cost_functions : List (TrajectoryCost (NewEvalManager F T K R)))
    (ref_evaluation_manager_ : Option (NewEvalManager F T K R))
    (self : NewEvalManager F T K R) (parameter_index : Nat) (parameters : Nat → ℚ)
    (derivative_out : Nat → Option ℚ) (cost_derivative_out : Nat → Nat → Option ℚ) (eps : ℚ) :
    Ret (NewEvalManager F T K R) ((Nat → Option ℚ) × (Nat → Nat → Option ℚ)) :=
  let num_cost_functions := getNumActiveCostFunctions cost_functions
  let value := parameters parameter_index
  let r1 := self.evaluateParameterPointItomp env cost_functions ref_evaluation_manager_
    (value + eps) parameter_index true
  let delta_plus := r1.mgr.evaluation_cost_matrix_.blockSum r1.value.1 0
    (r1.value.2 - r1.value.1) num_cost_functions
  let cost_delta_plus : Nat → ℚ := fun i =>
    r1.mgr.evaluation_cost_matrix_.blockSum r1.value.1 i (r1.value.2 - r1.value.1) 1
  let r2 := r1.mgr.evaluateParameterPointItomp env cost_functions ref_evaluation_manager_
    (value - eps) parameter_index false
  let delta_minus := r2.mgr.evaluation_cost_matrix_.blockSum r2.value.1 0
    (r2.value.2 - r2.value.1) num_cost_functions
  let cost_delta_minus : Nat → ℚ := fun i =>
    r2.mgr.evaluation_cost_matrix_.blockSum r2.value.1 i (r2.value.2 - r2.value.1) 1
  let derivative_out := Function.update derivative_out parameter_index
    (fdiv (delta_plus - delta_minus) (2 * eps))
  let cost_derivative_out := forLoop 0 num_cost_functions (fun i out =>
    Function.update out i (Function.update (out i) parameter_index
      (fdiv (cost_delta_plus i - cost_delta_minus i) (2 * eps)))) cost_derivative_out
  { mgr := { r2.mgr with itomp_trajectory_ := env.restoreTrajectory r2.mgr.itomp_trajectory_ },
    value := (derivative_out, cost_derivative_out),
    calls := r1.calls ++ r2.calls ++ [Call.restoreTrajectory] }

/-- The legacy member `setParameters(const std::vector<Eigen::MatrixXd>&)` (lines 680-692);
`parameters` is indexed by trajectory type.  `setParameterModified()` sets the
flag `parameter_modified_`. -/
def NewEvalManager.setParameters (self : NewEvalManager F T K R) (parameters : Nat → MatrixXd) :
    NewEvalManager F T K R :=
  let p1 : ParameterTrajectory :=
    { self.parameter_trajectory_ with position := parameters TRAJECTORY_TYPE_POSITION }
  let p2 : ParameterTrajectory :=
    if p1.has_velocity then { p1 with velocity := parameters TRAJECTORY_TYPE_VELOCITY } else p1
  { self with parameter_trajectory_ := p2, parameter_modified_ := true }

/-- Output arguments of the legacy `computeDerivatives`: the arrays `out`, `d_p`, `d_m`
and the optional table `cost_der` (absent for a null pointer). -/
structure LegacyDerivatives where
  out : Nat → Option ℚ
  d_p : Nat → ℚ
  d_m : Nat → ℚ
  cost_der : Option (Nat → Nat → Option ℚ)

/-- Local state of the loop over elements of the legacy `computeDerivatives`. -/
structure LegacyLoopState (M : Type) where
  mgr : M
  res : LegacyDerivatives
  calls : List Call

/-- Body of the loop over elements `i` of the legacy `computeDerivatives`
(lines 199-233). -/
def computeDerivativesLegacyStep (env : Collaborators F T K)
    (cost_functions : List (TrajectoryCost (NewEvalManager F T K R)))
    (ref_evaluation_manager_ : Option (NewEvalManager F T K R))
    (parameters : Nat → MatrixXd) (type point : Nat) (eps : ℚ) (i : Nat)
    (st : LegacyLoopState (NewEvalManager F T K R)) : LegacyLoopState (NewEvalManager F T K R) :=
  let num_cost_functions := getNumActiveCostFunctions cost_functions
  let value := (parameters type).coeff point i
  let r1 := st.mgr.evaluateParameterPoint env cost_functions ref_evaluation_manager_
    (value + eps) type point i true
  let delta_plus := r1.mgr.evaluation_cost_matrix_.blockSum r1.value.1 0
    (r1.value.2 - r1.value.1) num_cost_functions
  let cost_der1 := st.res.cost_der.map fun cd =>
    forLoop 0 num_cost_functions (fun j cd =>
      let dp := r1.mgr.evaluation_cost_matrix_.blockSum r1.value.1 j (r1.value.2 - r1.value.1) 1
      Function.update cd j (Function.update (cd j) i (some dp))) cd
  let r2 := r1.mgr.evaluateParameterPoint env cost_functions ref_evaluation_manager_
    (value - eps) type point i false
  let delta_minus := r2.mgr.evaluation_cost_matrix_.blockSum r2.value.1 0
    (r2.value.2 - r2.value.1) num_cost_functions
  let out := Function.update st.res.out i (fdiv (delta_plus - delta_minus) (2 * eps))
  let d_p := Function.update st.res.d_p i delta_plus
  let d_m := Function.update st.res.d_m i delta_minus
  let cost_der2 := cost_der1.map fun cd =>
    forLoop 0 num_cost_functions (fun j cd =>
      let dm := r2.mgr.evaluation_cost_matrix_.blockSum r2.value.1 j (r2.value.2 - r2.value.1) 1
      Function.update cd j (Function.update (cd j) i
        ((cd j i).bind fun dp => fdiv (dp - dm) (2 * eps)))) cd
  { mgr := { r2.mgr with
      full_trajectory_ := env.restoreBackupTrajectories r2.mgr.full_trajectory_ },
    res := { out := out, d_p := d_p, d_m := d_m, cost_der := cost_der2 },
    calls := st.calls ++ r1.calls ++ r2.calls ++ [Call.restoreBackupTrajectories] }

/-- The legacy member
`computeDerivatives(parameters, type, point, out, eps, d_p, d_m, cost_der)` (lines 185-237). -/
def NewEvalManager.computeDerivativesLegacy (env : Collaborators F T K)
    (cost_functions : List (TrajectoryCost (NewEvalManager F T K R)))
    (ref_evaluation_manager_ : Option (NewEvalManager F T K R))
    (self : NewEvalManager F T K R) (parameters : Nat → MatrixXd) (type point : Nat)
    (res : LegacyDerivatives) (eps : ℚ) : Ret (NewEvalManager F T K R) LegacyDerivatives :=
  let self1 := self.setParameters parameters
  let self2 : NewEvalManager F T K R :=
    { self1 with
      full_trajectory_ := env.updateFromParameterTrajectory self1.full_trajectory_
        self1.parameter_trajectory_ self1.planning_group_
      parameter_modified_ := false }
  let st := forLoop 0 self2.parameter_trajectory_.num_elements
    (computeDerivativesLegacyStep env cost_functions ref_evaluation_manager_ parameters type
      point eps)
    { mgr := self2, res := res, calls := [Call.updateFromParameterTrajectory] }
  { mgr := st.mgr, value := st.res, calls := st.calls }

end Operations

/-! ## A concrete robot: one joint, every point a free parameter -/

/-- Modelled from the spec: a trajectory store (section 4.1) for a robot with one joint
in which every point is a keyframe, so that parameter `p` is the joint position
at point `p` and changing it affects the point range `[p, p + 1)`.  A
first-of-pair change snapshots the positions, a restore puts the last snapshot
back. -/
structure KeyframeStore where
  position : List ℚ
  backup : List (List ℚ)
deriving DecidableEq

/-- Modelled from the spec: the direct change of one parameter of a `KeyframeStore`,
returning the store and the affected range. -/
def KeyframeStore.directChange (t : KeyframeStore) (parameter_index : Nat) (value : ℚ)
    (first : Bool) : KeyframeStore × Nat × Nat :=
  ({ position := t.position.set parameter_index value,
     backup := if first then t.position :: t.backup else t.backup },
   parameter_index, parameter_index + 1)

/-- Modelled from the spec: restoring a `KeyframeStore` to the last snapshot. -/
def KeyframeStore.restore (t : KeyframeStore) : KeyframeStore :=
  match t.backup with
  | [] => t
  | b :: bs => { position := b, backup := bs }

/-- Modelled from the spec: pushing the parameter trajectory into a `KeyframeStore`: row
`i` of the position parameters is the joint position of point `i`. -/
def KeyframeStore.updateFromParameterTrajectory (t : KeyframeStore) (p : ParameterTrajectory) :
    KeyframeStore :=
  { t with position := (List.range t.position.length).map fun i => p.position.coeff i 0 }

/-- Collaborators of the one-joint robot without contacts: both stores are
`KeyframeStore`s, the dynamics routines leave the model and the torques as they
are. -/
def keyframeCollaborators : Collaborators KeyframeStore KeyframeStore Unit where
  directChangeForDerivativeComputation := KeyframeStore.directChange
  getTrajectoryIndex := fun _ p =>
    { point := p, component := .POSITION, sub_component := .JOINT, element := 0 }
  restoreTrajectory := KeyframeStore.restore
  getTrajectoryPoint := fun t component _ point =>
    match component with
    | .POSITION => [t.position.getD point 0]
    | _ => [0]
  getContactVariables := fun _ _ cv => cv
  getParameterJointIndex := fun _ element => element
  getNumPoints := fun t => t.position.length
  hasVelocity := fun _ => true
  hasAcceleration := fun _ => true
  updateFromParameterTrajectory := fun t p _ => t.updateFromParameterTrajectory p
  directChangeForDerivatives := fun t value _ _ point _ first => t.directChange point value first
  restoreBackupTrajectories := KeyframeStore.restore
  getJointRow := fun t type point =>
    if type = TRAJECTORY_TYPE_POSITION then [t.position.getD point 0] else [0]
  getContactVariablesFull := fun _ _ cv => cv
  getNearestGroundPosition := fun position orientation => (position, orientation, ⟨0, 0, 1⟩)
  ComputeProjectedPointPositions := fun cv _ _ _ _ => cv
  NUM_ENDEFFECTOR_CONTACT_POINTS := 4
  updateFullKinematicsAndDynamics := fun model _ _ _ tau _ => (model, tau)
  updatePartialDynamics := fun model _ _ _ tau _ => (model, tau)
  updatePartialKinematicsAndDynamics := fun model _ _ _ tau _ _ => (model, tau)

/-- The largest finite double, `std::numeric_limits<double>::max()`. -/
def DBL_MAX : ℚ := (2 ^ 53 - 1) * 2 ^ 971

/-- A freshly set up manager of the one-joint robot whose trajectory has the joint
positions `q`: no contacts, zero cost matrix with one row per point and `cols`
columns, parameter trajectory holding `q`. -/
def keyframeManager (q : List ℚ) (cols : Nat) :
    NewEvalManager KeyframeStore KeyframeStore Unit Unit where
  full_trajectory_ := { position := q, backup := [] }
  parameter_trajectory_ :=
    { position := { rows := q.length, cols := 1, coeff := fun i _ => q.getD i 0 }
      velocity := MatrixXd.Zero q.length 1
      has_velocity := false
      num_elements := 1
      num_joints := 1 }
  itomp_trajectory_ := { position := q, backup := [] }
  planning_group_ :=
    { num_contacts := 0
      contact_points_ := fun _ => { rbdl_body_id := 0, contact_point_rbdl_ids := fun _ => 0 }
      group_joints_ := fun _ => { rbdl_affected_body_ids_ := [1] } }
  last_trajectory_feasible_ := false
  parameter_modified_ := true
  best_cost_ := DBL_MAX
  rbdl_models_ :=
    { size := q.length
      elem := fun _ => { mBodies := 2, f := (), X_lambda := (), X_base := (), v := (), a := (), c := () } }
  joint_torques_ := { size := q.length, elem := fun _ => [0] }
  external_forces_ :=
    { size := q.length, elem := fun _ => { size := 2, elem := fun _ => SpatialVectorZero } }
  contact_variables_ :=
    { size := q.length
      elem := fun _ =>
        { size := 0
          elem := fun _ =>
            { position := Vector3.zero, orientation := Vector3.zero,
              point_force := fun _ => Vector3.zero,
              projected_point_positions_ := fun _ => Vector3.zero } } }
  evaluation_cost_matrix_ := MatrixXd.Zero q.length cols
  robot_state_ := { size := q.length, elem := fun _ => () }

/-- Cost function that reports the constant cost `k`, feasible, and never declares
itself invariant. -/
def constantCost {M : Type} (k w : ℚ) : TrajectoryCost M where
  weight := w
  evaluate := fun _ _ => (true, k)
  isInvariant := fun _ _ => false

/-- Cost function of the one-joint robot whose cost at a point is `g` of the joint
position of that point; always feasible, never invariant. -/
def positionCost (g : ℚ → ℚ) (w : ℚ) :
    TrajectoryCost (NewEvalManager KeyframeStore KeyframeStore Unit Unit) where
  weight := w
  evaluate := fun m i => (true, g (m.itomp_trajectory_.position.getD i 0))
  isInvariant := fun _ _ => false

/-- Cost function of the one-joint robot: the squared joint position of the point. -/
def squaredPositionCost (w : ℚ) :
    TrajectoryCost (NewEvalManager KeyframeStore KeyframeStore Unit Unit) :=
  positionCost (fun x => x ^ 2) w

/-- Value at `x` of the polynomial with the coefficients `coeffs`, lowest degree
first. -/
def polyEval : List ℚ → ℚ → ℚ
  | [], _ => 0
  | a :: q, x => a + x * polyEval q x

/-- Value at `x` of the derivative of the polynomial with the coefficients `coeffs`. -/
def polyDerivEval : List ℚ → ℚ → ℚ
  | [], _ => 0
  | _ :: q, x => polyEval q x + x * polyDerivEval q x

/-- Cost function of the one-joint robot: a polynomial of the joint position of the
point. -/
def polynomialPositionCost (coeffs : List ℚ) (w : ℚ) :
    TrajectoryCost (NewEvalManager KeyframeStore KeyframeStore Unit Unit) :=
  positionCost (polyEval coeffs) w

/-! ## Predicates and auxiliary definitions of the analysis -/

section Analysis

variable {F T K R : Type}

/-- The feasibility an `evaluate` call reported; `true` for every other call. -/
def Call.feasible : Call → Bool
  | Call.evaluate _ _ _ feasible => feasible
  | _ => true

/-- The manager `m2` differs from `m1` at most in the cost matrix. -/
def SameExceptCost (m1 m2 : NewEvalManager F T K R) : Prop :=
  m2 = { m1 with evaluation_cost_matrix_ := m2.evaluation_cost_matrix_ }

/-- What the evaluated branch reports for point `i` of column `c`, when the inner loop
was entered in state `st` at `point_begin`: the cost function is called on the
state the loop has reached at `i`. -/
def reported (cf : TrajectoryCost (NewEvalManager F T K R)) (c point_begin : Nat)
    (st : EvalState (NewEvalManager F T K R)) (i : Nat) : Bool × ℚ :=
  cf.evaluate (forLoop point_begin i (evaluatePoint cf c) st).mgr i

/-- The calls of the evaluated branch over `[b, e)` for column `c`. -/
def evaluateCalls (c b e : Nat) (rep : Nat → Bool × ℚ) : List Call :=
  (List.range' b (e - b)).map (fun i => Call.evaluate c i (rep i).2 (rep i).1)

/-- Invariant of the loop over cost functions of the overload with an index, when the
loop reaches column `c`; `self0` is the manager the loop was entered with. -/
structure RangeInv (cfs : List (TrajectoryCost (NewEvalManager F T K R)))
    (self0 : NewEvalManager F T K R) (b e : Nat) (index : ItompTrajectoryIndex) (c : Nat)
    (st : EvalState (NewEvalManager F T K R)) : Prop where
  same : SameExceptCost self0 st.mgr
  rows : st.mgr.evaluation_cost_matrix_.rows = self0.evaluation_cost_matrix_.rows
  cols : st.mgr.evaluation_cost_matrix_.cols = self0.evaluation_cost_matrix_.cols
  frame : ∀ i j, ¬ (j < c ∧ b ≤ i ∧ i < e) →
    st.mgr.evaluation_cost_matrix_.coeff i j = self0.evaluation_cost_matrix_.coeff i j
  feasible : st.is_feasible = st.calls.all Call.feasible
  shape : ∀ ev, ev ∈ st.calls →
    (∃ j r, j < c ∧ ev = Call.isInvariant j index r) ∨
    (∃ j i cost feas, j < c ∧ b ≤ i ∧ i < e ∧ ev = Call.evaluate j i cost feas)
  asked : ∀ j, j < c → ∃ r, Call.isInvariant j index r ∈ st.calls ∧
    ∀ r2, Call.isInvariant j index r2 ∈ st.calls → r2 = r
  skipped : ∀ j i, Call.isInvariant j index true ∈ st.calls → b ≤ i → i < e →
    st.mgr.evaluation_cost_matrix_.coeff i j = 0
  evaluated : ∀ j cf i, cfs[j]? = some cf → Call.isInvariant j index false ∈ st.calls →
    b ≤ i → i < e →
    ∃ cost feas, Call.evaluate j i cost feas ∈ st.calls ∧
      (∀ cost2 feas2, Call.evaluate j i cost2 feas2 ∈ st.calls → cost2 = cost ∧ feas2 = feas) ∧
      st.mgr.evaluation_cost_matrix_.coeff i j = cf.weight * cost
  genuineEvaluate : ∀ j i cost feas, Call.evaluate j i cost feas ∈ st.calls →
    Call.isInvariant j index false ∈ st.calls ∧
    ∃ cf m, cfs[j]? = some cf ∧ SameExceptCost self0 m ∧ cf.evaluate m i = (feas, cost)
  genuineInvariant : ∀ j r, Call.isInvariant j index r ∈ st.calls →
    ∃ cf m, cfs[j]? = some cf ∧ SameExceptCost self0 m ∧ cf.isInvariant m index = r

/-- Invariant of the loop over cost functions of the `(type, element)` overload, when
the loop reaches column `c`. -/
structure LegacyInv (cfs : List (TrajectoryCost (NewEvalManager F T K R)))
    (self0 : NewEvalManager F T K R) (b e : Nat) (c : Nat)
    (st : EvalState (NewEvalManager F T K R)) : Prop where
  same : SameExceptCost self0 st.mgr
  rows : st.mgr.evaluation_cost_matrix_.rows = self0.evaluation_cost_matrix_.rows
  cols : st.mgr.evaluation_cost_matrix_.cols = self0.evaluation_cost_matrix_.cols
  frame : ∀ i j, ¬ (j < c ∧ b ≤ i ∧ i < e) →
    st.mgr.evaluation_cost_matrix_.coeff i j = self0.evaluation_cost_matrix_.coeff i j
  feasible : st.is_feasible = st.calls.all Call.feasible
  shape : ∀ ev, ev ∈ st.calls →
    ∃ j i cost feas, j < c ∧ b ≤ i ∧ i < e ∧ ev = Call.evaluate j i cost feas
  evaluated : ∀ j cf i, cfs[j]? = some cf → j < c → b ≤ i → i < e →
    ∃ cost feas, Call.evaluate j i cost feas ∈ st.calls ∧
      (∀ cost2 feas2, Call.evaluate j i cost2 feas2 ∈ st.calls → cost2 = cost ∧ feas2 = feas) ∧
      st.mgr.evaluation_cost_matrix_.coeff i j = cf.weight * cost
  genuineEvaluate : ∀ j i cost feas, Call.evaluate j i cost feas ∈ st.calls →
    ∃ cf m, cfs[j]? = some cf ∧ SameExceptCost self0 m ∧ cf.evaluate m i = (feas, cost)

/-- The manager `m2` differs from `m1` at most in the per-point dynamics state: the
dynamics models, the joint torques, the external forces, the contact variables. -/
def SameExceptDynamics (m1 m2 : NewEvalManager F T K R) : Prop :=
  m2 = { m1 with
    rbdl_models_ := m2.rbdl_models_
    joint_torques_ := m2.joint_torques_
    external_forces_ := m2.external_forces_
    contact_variables_ := m2.contact_variables_ }

/-- Cost function that reports the cost `k` but declares itself invariant for every
index. -/
def invariantCost {M : Type} (k w : ℚ) : TrajectoryCost M where
  weight := w
  evaluate := fun _ _ => (true, k)
  isInvariant := fun _ _ => true

/-- The manager on which `evaluate()` runs the cost functions: after the push of the
parameters and the full propagation. -/
def NewEvalManager.evaluatePropagated (env : Collaborators F T K)
    (self : NewEvalManager F T K R) : NewEvalManager F T K R :=
  (self.pushParameterTrajectory env).1.performFullForwardKinematicsAndDynamics env 0
    (env.getNumPoints (self.pushParameterTrajectory env).1.full_trajectory_)

/-- The calls to a trajectory store. -/
def Call.isStoreCall : Call → Bool
  | Call.updateFromParameterTrajectory => true
  | Call.directChangeForDerivatives _ _ _ _ _ => true
  | Call.restoreBackupTrajectories => true
  | Call.directChangeForDerivativeComputation _ _ _ => true
  | Call.restoreTrajectory => true
  | _ => false

/-- A cost function whose answers do not depend on the manager it is called on: it
reports one constant cost, and its invariance declaration for an index is the
same on every manager. -/
def IsConstantCost {M : Type} (cf : TrajectoryCost M) : Prop :=
  (∃ k, ∀ m i, (cf.evaluate m i).2 = k) ∧
  ∀ m1 m2 index, cf.isInvariant m1 index = cf.isInvariant m2 index

/-- Contract of the itomp trajectory store: a restore undoes the direct changes made
since the first-of-pair snapshot. -/
def RestoreContract (env : Collaborators F T K) : Prop :=
  ∀ (t : T) (p : Nat) (v1 v2 : ℚ),
    env.restoreTrajectory
      (env.directChangeForDerivativeComputation
        (env.directChangeForDerivativeComputation t p v1 true).1 p v2 false).1 = t

/-- Contract of the full trajectory store: a restore of the backup undoes the direct
changes made since the first-of-pair snapshot. -/
def RestoreContractLegacy (env : Collaborators F T K) : Prop :=
  ∀ (t : F) (group : ItompPlanningGroup) (type point element : Nat) (v1 v2 : ℚ),
    env.restoreBackupTrajectories
      (env.directChangeForDerivatives
        (env.directChangeForDerivatives t v1 group type point element true).1
        v2 group type point element false).1 = t

/-- The store calls of one element of the legacy `computeDerivatives`. -/
def legacyStoreCalls (parameters : Nat → MatrixXd) (type point : Nat) (eps : ℚ) (i : Nat) :
    List Call :=
  [Call.directChangeForDerivatives ((parameters type).coeff point i + eps) type point i true,
   Call.directChangeForDerivatives ((parameters type).coeff point i - eps) type point i false,
   Call.restoreBackupTrajectories]

/-- A cost function that reads nothing of the manager but its itomp trajectory store. -/
def ReadsTrajectoryOnly (cf : TrajectoryCost (NewEvalManager F T K R)) : Prop :=
  ∀ m1 m2 : NewEvalManager F T K R, m1.itomp_trajectory_ = m2.itomp_trajectory_ →
    cf.evaluate m1 = cf.evaluate m2 ∧ cf.isInvariant m1 = cf.isInvariant m2

/-- The manager `m2` differs from `m1` at most in what a derivative computation works
on: the itomp trajectory store, the per-point dynamics state and the cost
matrix. -/
def SameExceptEvaluation (m1 m2 : NewEvalManager F T K R) : Prop :=
  m2 = { m1 with
    itomp_trajectory_ := m2.itomp_trajectory_
    rbdl_models_ := m2.rbdl_models_
    joint_torques_ := m2.joint_torques_
    external_forces_ := m2.external_forces_
    contact_variables_ := m2.contact_variables_
    evaluation_cost_matrix_ := m2.evaluation_cost_matrix_ }

/-- The spatial force `(position x force, force)` that the force block assigns for sub
contact point `c` of a contact whose variables are `cv`. -/
def contactSpatialForce (cv : ContactVariables) (c : Nat) : SpatialVector :=
  ⟨(cv.projected_point_positions_ c).cross (cv.point_force c), cv.point_force c⟩

/-- The pairs (contact, sub contact point) in the order in which the two nested loops
of the force block visit them. -/
def contactOrder (num_contacts num_points : Nat) : List (Nat × Nat) :=
  (List.range num_contacts).flatMap fun i => (List.range num_points).map fun c => (i, c)

/-- Body id of a pair (contact, sub contact point): `getContactPointRBDLIds(c)` of
contact `i`. -/
def ItompPlanningGroup.pointId (group : ItompPlanningGroup) (ic : Nat × Nat) : Nat :=
  (group.contact_points_ ic.1).contact_point_rbdl_ids ic.2

/-- The assignments of the force block, made for the pairs of `order` one after the
other, on the external forces `ext` of one point. -/
def assignExternalForces (group : ItompPlanningGroup) (cvs : StdVector ContactVariables)
    (order : List (Nat × Nat)) (ext : StdVector SpatialVector) : StdVector SpatialVector :=
  order.foldl (fun ext ic =>
    ext.set (group.pointId ic) (contactSpatialForce (cvs.elem ic.1) ic.2)) ext

/-- The projections of the contact block, made for the contacts of `order` one after
the other, on the contact variables `cvs` of one point. -/
def projectContacts (env : Collaborators F T K) (group : ItompPlanningGroup) (model : Model K)
    (order : List Nat) (cvs : StdVector ContactVariables) : StdVector ContactVariables :=
  order.foldl (fun cvs i =>
    let cv := cvs.elem i
    let g := env.getNearestGroundPosition cv.position cv.orientation
    cvs.set i (env.ComputeProjectedPointPositions cv g.1 g.2.1 model (group.contact_points_ i)))
    cvs

/-- Assignment `external_forces_[point] = ext`. -/
def NewEvalManager.withForces (self : NewEvalManager F T K R) (point : Nat)
    (ext : StdVector SpatialVector) : NewEvalManager F T K R :=
  { self with external_forces_ := self.external_forces_.set point ext }

/-- Assignment `contact_variables_[point] = cvs`. -/
def NewEvalManager.withContacts (self : NewEvalManager F T K R) (point : Nat)
    (cvs : StdVector ContactVariables) : NewEvalManager F T K R :=
  { self with contact_variables_ := self.contact_variables_.set point cvs }

/-- The per-point dynamics state of a manager: `rbdl_models_[point]`,
`joint_torques_[point]`, `external_forces_[point]`, `contact_variables_[point]`. -/
structure PointState (K : Type) where
  model : Model K
  torques : List ℚ
  forces : StdVector SpatialVector
  contacts : StdVector ContactVariables

/-- The per-point dynamics state of `point`. -/
def NewEvalManager.pointState (m : NewEvalManager F T K R) (point : Nat) : PointState K :=
  { model := m.rbdl_models_.elem point
    torques := m.joint_torques_.elem point
    forces := m.external_forces_.elem point
    contacts := m.contact_variables_.elem point }

/-- The manager with the per-point dynamics state of `point` replaced. -/
def NewEvalManager.setPointState (m : NewEvalManager F T K R) (point : Nat)
    (ps : PointState K) : NewEvalManager F T K R :=
  { m with
    rbdl_models_ := m.rbdl_models_.set point ps.model
    joint_torques_ := m.joint_torques_.set point ps.torques
    external_forces_ := m.external_forces_.set point ps.forces
    contact_variables_ := m.contact_variables_.set point ps.contacts }

/-- The contact block followed by the force block, on the state of one point, with
the contacts projected in the order `contacts` and the forces assigned in the
order `pairs`. -/
def contactAndForceBlocksIn (env : Collaborators F T K) (group : ItompPlanningGroup)
    (fromTrajectory : StdVector ContactVariables → StdVector ContactVariables)
    (contacts : List Nat) (pairs : List (Nat × Nat)) (ps : PointState K) : PointState K :=
  let cvs := projectContacts env group ps.model contacts (fromTrajectory ps.contacts)
  let ext := assignExternalForces group cvs pairs ps.forces
  { ps with forces := ext, contacts := cvs }

/-- The contact block followed by the force block, on the state of one point, in the
order of the loops of the source. -/
def contactAndForceBlocks (env : Collaborators F T K) (group : ItompPlanningGroup)
    (fromTrajectory : StdVector ContactVariables → StdVector ContactVariables)
    (ps : PointState K) : PointState K :=
  contactAndForceBlocksIn env group fromTrajectory (List.range group.num_contacts)
    (contactOrder group.num_contacts env.NUM_ENDEFFECTOR_CONTACT_POINTS) ps

/-- One pass of the loop of `performFullForwardKinematicsAndDynamics`, on the state of
`point`. -/
def fullPropagationOfPoint (env : Collaborators F T K) (t : T) (group : ItompPlanningGroup)
    (point : Nat) (ps : PointState K) : PointState K :=
  let q := env.getTrajectoryPoint t .POSITION .JOINT point
  let q_dot := env.getTrajectoryPoint t .VELOCITY .JOINT point
  let q_ddot := env.getTrajectoryPoint t .ACCELERATION .JOINT point
  let ps1 := contactAndForceBlocks env group (env.getContactVariables t point) ps
  let r := env.updateFullKinematicsAndDynamics ps1.model q q_dot q_ddot ps1.torques
    (some ps1.forces)
  { ps1 with model := r.1, torques := r.2 }

/-- The first loop of the overload of `performPartialForwardKinematicsAndDynamics` with
an index (lines 580-592), on the model `m` of one point: `f` is copied from the
model `r` of the canonical instance, the kinematic arrays only if the change is
not dynamics-only. -/
def copyUpdatedVariables (dynamics_only : Bool) (r m : Model K) : Model K :=
  let m1 : Model K := { m with f := r.f }
  if !dynamics_only then
    { m1 with X_lambda := r.X_lambda, X_base := r.X_base, v := r.v, a := r.a, c := r.c }
  else m1

/-- One pass of the first loop of the overload with an index, on the state `ps` of one
point; `rs` is the state of that point in the canonical instance. -/
def partialCopyOfPoint (index : ItompTrajectoryIndex) (rs ps : PointState K) : PointState K :=
  let dynamics_only := decide (index.sub_component ≠ SubComponentType.JOINT)
  { ps with model := copyUpdatedVariables dynamics_only rs.model ps.model }

/-- One pass of the second loop of the overload with an index (lines 601-662), on the
state `ps` of `point`; `rs` is the state of `point` in the canonical instance. -/
def partialUpdateOfPoint (env : Collaborators F T K) (t : T) (group : ItompPlanningGroup)
    (index : ItompTrajectoryIndex) (point : Nat) (rs ps : PointState K) : PointState K :=
  let dynamics_only := decide (index.sub_component ≠ SubComponentType.JOINT)
  let q := env.getTrajectoryPoint t .POSITION .JOINT point
  let q_dot := env.getTrajectoryPoint t .VELOCITY .JOINT point
  let q_ddot := env.getTrajectoryPoint t .ACCELERATION .JOINT point
  if dynamics_only then
    let ps1 := contactAndForceBlocks env group (env.getContactVariables t point) ps
    let r := env.updatePartialDynamics ps1.model q q_dot q_ddot ps1.torques (some ps1.forces)
    { ps1 with model := r.1, torques := r.2 }
  else
    let r := env.updatePartialKinematicsAndDynamics ps.model q q_dot q_ddot rs.torques
      (some rs.forces)
      (group.group_joints_ (env.getParameterJointIndex t index.element)).rbdl_affected_body_ids_
    { model := r.1, torques := r.2, forces := rs.forces, contacts := rs.contacts }

/-- One pass of each of the two loops of the overload of
`performPartialForwardKinematicsAndDynamics` with an index, on the state `ps` of
`point`; `rs` is the state of `point` in the canonical instance. -/
def partialPropagationOfPoint (env : Collaborators F T K) (t : T) (group : ItompPlanningGroup)
    (index : ItompTrajectoryIndex) (point : Nat) (rs ps : PointState K) : PointState K :=
  partialUpdateOfPoint env t group index point rs (partialCopyOfPoint index rs ps)

/-- One pass of the second loop of the legacy overload (lines 484-567), on the state
`ps` of `point`; `rs` is the state of `point` in the canonical instance. -/
def partialUpdateOfPointLegacy (env : Collaborators F T K) (t : F)
    (group : ItompPlanningGroup) (num_joints parameter_element : Nat) (point : Nat)
    (rs ps : PointState K) : PointState K :=
  let dynamics_only := decide (parameter_element ≥ num_joints)
  let q := env.getJointRow t TRAJECTORY_TYPE_POSITION point
  let q_dot := env.getJointRow t TRAJECTORY_TYPE_VELOCITY point
  let q_ddot := env.getJointRow t TRAJECTORY_TYPE_ACCELERATION point
  if dynamics_only then
    let ps1 := contactAndForceBlocks env group (env.getContactVariablesFull t point) ps
    let r := env.updatePartialDynamics ps1.model q q_dot q_ddot ps1.torques (some ps1.forces)
    { ps1 with model := r.1, torques := r.2 }
  else
    let r := env.updatePartialKinematicsAndDynamics ps.model q q_dot q_ddot rs.torques
      (some rs.forces) (group.group_joints_ parameter_element).rbdl_affected_body_ids_
    { model := r.1, torques := r.2, forces := rs.forces, contacts := rs.contacts }

/-- One pass of each of the two loops of the legacy overload of
`performPartialForwardKinematicsAndDynamics`, past its early return, on the state
`ps` of `point`; `rs` is the state of `point` in the canonical instance.  The
first loop copies the whole model. -/
def partialPropagationOfPointLegacy (env : Collaborators F T K) (t : F)
    (group : ItompPlanningGroup) (num_joints parameter_element : Nat) (point : Nat)
    (rs ps : PointState K) : PointState K :=
  partialUpdateOfPointLegacy env t group num_joints parameter_element point rs
    { ps with model := rs.model }

/-- The state of `point` read through the static pointer, when this instance holds
the state `ps` there. -/
def refPointState (ref_evaluation_manager_ : Option (NewEvalManager F T K R)) (point : Nat)
    (ps : PointState K) : PointState K :=
  match ref_evaluation_manager_ with
  | none => ps
  | some r => r.pointState point

/-- Sum of two spatial vectors. -/
def SpatialVector.add (a b : SpatialVector) : SpatialVector :=
  ⟨⟨a.torque.x + b.torque.x, a.torque.y + b.torque.y, a.torque.z + b.torque.z⟩,
   ⟨a.force.x + b.force.x, a.force.y + b.force.y, a.force.z + b.force.z⟩⟩

/-- The accumulation the specification describes for the body `id`: the sum, over the
pairs (contact, sub contact point) of `pairs` attached to `id`, of the spatial
force `(position x force, force)` of the pair. -/
def accumulatedExternalForce (group : ItompPlanningGroup) (cvs : StdVector ContactVariables)
    (pairs : List (Nat × Nat)) (id : Nat) : SpatialVector :=
  ((pairs.filter fun ic => group.pointId ic = id).map fun ic =>
    contactSpatialForce (cvs.elem ic.1) ic.2).foldl SpatialVector.add SpatialVectorZero

/-- The projection of one contact. -/
def projectContact (env : Collaborators F T K) (group : ItompPlanningGroup) (model : Model K)
    (i : Nat) (cv : ContactVariables) : ContactVariables :=
  let g := env.getNearestGroundPosition cv.position cv.orientation
  env.ComputeProjectedPointPositions cv g.1 g.2.1 model (group.contact_points_ i)

/-- The one-joint robot with one point and two contacts of four sub contact points
each: the sub contact points of contact 0 have the body ids `ids0` and the
force `f0`, those of contact 1 the body ids `ids1` and the force `f1`; every
projected position is `(1, 0, 0)`, the external forces of the ten bodies are
zero. -/
def twoContactManager (ids0 ids1 : Nat → Nat) (f0 f1 : Vector3) :
    NewEvalManager KeyframeStore KeyframeStore Unit Unit :=
  { keyframeManager [0] 1 with
    planning_group_ :=
      { num_contacts := 2
        contact_points_ := fun i =>
          { rbdl_body_id := i + 1, contact_point_rbdl_ids := if i = 0 then ids0 else ids1 }
        group_joints_ := fun _ => { rbdl_affected_body_ids_ := [1] } }
    external_forces_ :=
      { size := 1, elem := fun _ => { size := 10, elem := fun _ => SpatialVectorZero } }
    contact_variables_ :=
      { size := 1
        elem := fun _ =>
          { size := 2
            elem := fun i =>
              { position := Vector3.zero, orientation := Vector3.zero,
                point_force := fun _ => if i = 0 then f0 else f1,
                projected_point_positions_ := fun _ => ⟨1, 0, 0⟩ } } } }

/-- The kinematic quantities that the dynamics-only path is said to keep equal to those
of the canonical instance: the models `m1` and `m2` have the same body
transforms `X_lambda` and `X_base`, velocities `v` and accelerations `a`. -/
def Model.SameKinematics (m1 m2 : Model K) : Prop :=
  m1.X_lambda = m2.X_lambda ∧ m1.X_base = m2.X_base ∧ m1.v = m2.v ∧ m1.a = m2.a

/-- The dynamics-only update does not modify kinematic quantities. -/
def KeepsKinematics (env : Collaborators F T K) : Prop :=
  ∀ m q q_dot q_ddot tau ext,
    Model.SameKinematics (env.updatePartialDynamics m q q_dot q_ddot tau ext).1 m

/-- Kinematic quantities of one body. -/
structure BodyKinematics (B : Type) where
  X_lambda : B
  X_base : B
  v : B
  a : B
  c : B
deriving DecidableEq

/-- Modelled from the spec: the rigid body dynamics library (section 6, `Dynamics Model`),
whose routines `updateFullKinematicsAndDynamics`, `updatePartialDynamics` and
`updatePartialKinematicsAndDynamics` are not part of the sources.  Forward
kinematics gives the kinematic quantities of a body from `q`, `q_dot`, `q_ddot`;
inverse dynamics gives the body forces and the joint torques from the number
of bodies, the kinematic quantities of the bodies and the external forces. -/
structure DynamicsModel (B : Type) where
  forwardKinematics : Nat → List ℚ → List ℚ → List ℚ → BodyKinematics B
  inverseDynamics : Nat → (Nat → BodyKinematics B) → Option (StdVector SpatialVector) →
    (Nat → B) × List ℚ

/-- The kinematic quantities of body `i` held by a model. -/
def Model.kinematics {B : Type} (m : Model (Nat → B)) (i : Nat) : BodyKinematics B :=
  { X_lambda := m.X_lambda i, X_base := m.X_base i, v := m.v i, a := m.a i, c := m.c i }

/-- The model with the kinematic quantities of every body replaced. -/
def Model.withKinematics {B : Type} (m : Model (Nat → B)) (kin : Nat → BodyKinematics B) :
    Model (Nat → B) :=
  { m with
    X_lambda := fun i => (kin i).X_lambda
    X_base := fun i => (kin i).X_base
    v := fun i => (kin i).v
    a := fun i => (kin i).a
    c := fun i => (kin i).c }

/-- Modelled from the spec: `propagateFull(model_state, q, qdot, qddot, external_forces)`,
forward kinematics of every body followed by inverse dynamics. -/
def DynamicsModel.updateFullKinematicsAndDynamics {B : Type} (d : DynamicsModel B)
    (model : Model (Nat → B)) (q q_dot q_ddot : List ℚ) (_tau : List ℚ)
    (ext : Option (StdVector SpatialVector)) : Model (Nat → B) × List ℚ :=
  let m1 := model.withKinematics fun i => d.forwardKinematics i q q_dot q_ddot
  let r := d.inverseDynamics m1.mBodies m1.kinematics ext
  ({ m1 with f := r.1 }, r.2)

/-- Modelled from the spec: the dynamics-only mode, which `recomputes only force/torque
given already-valid kinematic state`: inverse dynamics on the kinematic
quantities the model holds. -/
def DynamicsModel.updatePartialDynamics {B : Type} (d : DynamicsModel B)
    (model : Model (Nat → B)) (_q _q_dot _q_ddot : List ℚ) (_tau : List ℚ)
    (ext : Option (StdVector SpatialVector)) : Model (Nat → B) × List ℚ :=
  let r := d.inverseDynamics model.mBodies model.kinematics ext
  ({ model with f := r.1 }, r.2)

/-- Modelled from the spec: `propagatePartial(model_state, q, qdot, qddot, external_forces,
affected_body_ids)`, forward kinematics `restricted to the set of bodies
downstream of the changed joint`, the other bodies keeping the state the model
holds, followed by inverse dynamics. -/
def DynamicsModel.updatePartialKinematicsAndDynamics {B : Type} (d : DynamicsModel B)
    (model : Model (Nat → B)) (q q_dot q_ddot : List ℚ) (_tau : List ℚ)
    (ext : Option (StdVector SpatialVector)) (body_ids : List Nat) :
    Model (Nat → B) × List ℚ :=
  let m1 := model.withKinematics fun i =>
    if i ∈ body_ids then d.forwardKinematics i q q_dot q_ddot else model.kinematics i
  let r := d.inverseDynamics m1.mBodies m1.kinematics ext
  ({ m1 with f := r.1 }, r.2)

/-- Modelled from the spec: dynamics of a base (body 0) carrying one joint that moves
every other body: the kinematic quantities of a moved body are the joint
position, velocity and acceleration; the force of a body is its acceleration
plus its transform minus the vertical external force on it, the joint torque
the sum of the body forces. -/
def linkDynamics : DynamicsModel ℚ where
  forwardKinematics := fun i q q_dot q_ddot =>
    if i = 0 then { X_lambda := 0, X_base := 0, v := 0, a := 0, c := 0 }
    else { X_lambda := q.getD 0 0, X_base := q.getD 0 0, v := q_dot.getD 0 0,
           a := q_ddot.getD 0 0, c := 0 }
  inverseDynamics := fun n kin ext =>
    let f : Nat → ℚ := fun i =>
      (kin i).a + (kin i).X_base - (match ext with
        | none => 0
        | some e => (e.elem i).force.z)
    (f, [((List.range n).map f).sum])

/-- Modelled from the spec: a trajectory store (section 4.1) for a robot with one joint and
one contact in which every point is a keyframe: with `n` points, parameter
`p < n` is the joint position of point `p` and parameter `n + p` the vertical
force of every sub contact point of the contact at point `p`; changing either
affects the point range `[p, p + 1)`. -/
structure ContactStore where
  position : List ℚ
  force : List ℚ
  backup : List (List ℚ × List ℚ)
deriving DecidableEq

/-- Modelled from the spec: the direct change of one parameter of a `ContactStore`. -/
def ContactStore.directChange (t : ContactStore) (parameter_index : Nat) (value : ℚ)
    (first : Bool) : ContactStore × Nat × Nat :=
  let n := t.position.length
  let backup := if first then (t.position, t.force) :: t.backup else t.backup
  if parameter_index < n then
    ({ position := t.position.set parameter_index value, force := t.force, backup := backup },
      parameter_index, parameter_index + 1)
  else
    ({ position := t.position, force := t.force.set (parameter_index - n) value,
       backup := backup },
      parameter_index - n, parameter_index - n + 1)

/-- Modelled from the spec: restoring a `ContactStore` to the last snapshot. -/
def ContactStore.restore (t : ContactStore) : ContactStore :=
  match t.backup with
  | [] => t
  | b :: bs => { position := b.1, force := b.2, backup := bs }

/-- Modelled from the spec: the trajectory index of a parameter of a `ContactStore`. -/
def ContactStore.getTrajectoryIndex (t : ContactStore) (parameter_index : Nat) :
    ItompTrajectoryIndex :=
  if parameter_index < t.position.length then
    { point := parameter_index, component := .POSITION, sub_component := .JOINT, element := 0 }
  else
    { point := parameter_index - t.position.length, component := .POSITION,
      sub_component := .CONTACT_FORCE, element := 0 }

/-- Modelled from the spec: reading the contact variables of a point from a
`ContactStore`: the force of every sub contact point of contact 0. -/
def ContactStore.getContactVariables (t : ContactStore) (point : Nat)
    (cvs : StdVector ContactVariables) : StdVector ContactVariables :=
  cvs.set 0 { cvs.elem 0 with point_force := fun _ => ⟨0, 0, t.force.getD point 0⟩ }

/-- Collaborators of the one-joint robot with one contact: both stores are
`ContactStore`s, the ground is the plane the contact lies on, every sub contact
point is projected on the projected position of the contact, the dynamics
routines are those of `linkDynamics`. -/
def contactCollaborators : Collaborators ContactStore ContactStore (Nat → ℚ) where
  directChangeForDerivativeComputation := ContactStore.directChange
  getTrajectoryIndex := ContactStore.getTrajectoryIndex
  restoreTrajectory := ContactStore.restore
  getTrajectoryPoint := fun t component _ point =>
    match component with
    | .POSITION => [t.position.getD point 0]
    | _ => [0]
  getContactVariables := ContactStore.getContactVariables
  getParameterJointIndex := fun _ element => element
  getNumPoints := fun t => t.position.length
  hasVelocity := fun _ => true
  hasAcceleration := fun _ => true
  updateFromParameterTrajectory := fun t p _ =>
    { t with position := (List.range t.position.length).map fun i => p.position.coeff i 0 }
  directChangeForDerivatives := fun t value _ _ point element first =>
    t.directChange (if element = 0 then point else t.position.length + point) value first
  restoreBackupTrajectories := ContactStore.restore
  getJointRow := fun t type point =>
    if type = TRAJECTORY_TYPE_POSITION then [t.position.getD point 0] else [0]
  getContactVariablesFull := ContactStore.getContactVariables
  getNearestGroundPosition := fun position orientation => (position, orientation, ⟨0, 0, 1⟩)
  ComputeProjectedPointPositions := fun cv position _ _ _ =>
    { cv with projected_point_positions_ := fun _ => position }
  NUM_ENDEFFECTOR_CONTACT_POINTS := 4
  updateFullKinematicsAndDynamics := linkDynamics.updateFullKinematicsAndDynamics
  updatePartialDynamics := linkDynamics.updatePartialDynamics
  updatePartialKinematicsAndDynamics := linkDynamics.updatePartialKinematicsAndDynamics

/-- A manager of the one-joint robot with one contact whose trajectory has the joint
positions `q` and the contact forces `force`: six bodies (the base, the link
and the four sub contact points, bodies 2 to 5, all moved by the joint), zero
cost matrix with `cols` columns; the moved bodies of every model hold the
transform `x`, everything else of the per-point dynamics state is zero. -/
def contactManager (q force : List ℚ) (cols : Nat) (x : ℚ) :
    NewEvalManager ContactStore ContactStore (Nat → ℚ) Unit where
  full_trajectory_ := { position := q, force := force, backup := [] }
  parameter_trajectory_ :=
    { position := { rows := q.length, cols := 1, coeff := fun i _ => q.getD i 0 }
      velocity := MatrixXd.Zero q.length 1
      has_velocity := false
      num_elements := 2
      num_joints := 1 }
  itomp_trajectory_ := { position := q, force := force, backup := [] }
  planning_group_ :=
    { num_contacts := 1
      contact_points_ := fun _ => { rbdl_body_id := 1, contact_point_rbdl_ids := fun c => c + 2 }
      group_joints_ := fun _ => { rbdl_affected_body_ids_ := [1, 2, 3, 4, 5] } }
  last_trajectory_feasible_ := false
  parameter_modified_ := false
  best_cost_ := DBL_MAX
  rbdl_models_ :=
    { size := q.length
      elem := fun _ =>
        { mBodies := 6, f := fun _ => 0, X_lambda := fun i => if i = 0 then 0 else x,
          X_base := fun i => if i = 0 then 0 else x, v := fun _ => 0, a := fun _ => 0,
          c := fun _ => 0 } }
  joint_torques_ := { size := q.length, elem := fun _ => [0] }
  external_forces_ :=
    { size := q.length, elem := fun _ => { size := 6, elem := fun _ => SpatialVectorZero } }
  contact_variables_ :=
    { size := q.length
      elem := fun _ =>
        { size := 1
          elem := fun _ =>
            { position := Vector3.zero, orientation := Vector3.zero,
              point_force := fun _ => Vector3.zero,
              projected_point_positions_ := fun _ => Vector3.zero } } }
  evaluation_cost_matrix_ := MatrixXd.Zero q.length cols
  robot_state_ := { size := q.length, elem := fun _ => () }

/-- The collaborators of the one-joint robot with one contact, with a full trajectory
that has no velocity. -/
def contactCollaboratorsNoVelocity : Collaborators ContactStore ContactStore (Nat → ℚ) :=
  { contactCollaborators with hasVelocity := fun _ => false }

/-- Resize of a `std::vector`, `resize(n, val)`: the first `n` elements are kept, new
elements are copies of `val`. -/
def StdVector.resize {α : Type} (v : StdVector α) (n : Nat) (val : α) : StdVector α :=
  { size := n, elem := fun k => if k < v.size ∧ k < n then v.elem k else val }

/-- The classes and routines that the constructors and `initialize` call whose code is
not part of the sources.

* `TrajectoryFactory::CreateParameterTrajectory`, `ItompTrajectory::getNumPoints`,
  `FullTrajectory::getComponentSize(TRAJECTORY_COMPONENT_JOINT)`.
* `VectorXd n` is `Eigen::VectorXd(n)`, whose coefficients are not specified.
* `newRobotState` is `robot_state::RobotState(robot_model_->getMoveitRobotModel())`,
  `defaultContactVariables` a default constructed `ContactVariables`.
* `X_base_r model id` is `model.X_base[id].r` and `X_base_E model id` is
  `exponential_map::RotationToExponentialMap(model.X_base[id].E)`.
* `InverseDynamics` returns the changed model and the joint torques.
* The stores' `setContactVariables`, `interpolateContactVariables`,
  `interpolateStartEnd`, `computeParameterToTrajectoryIndexMap`,
  `interpolateKeyframes`. -/
structure SetupCollaborators (F T K R : Type) where
  CreateParameterTrajectory : F → ItompPlanningGroup → ParameterTrajectory
  getNumPointsItomp : T → Nat
  getComponentSize : F → Nat
  VectorXd : Nat → List ℚ
  newRobotState : R
  defaultContactVariables : ContactVariables
  PlanningParameters_getNumContacts : Nat
  setVariable : ContactVariables → ℚ → ContactVariables
  X_base_r : Model K → Nat → Vector3
  X_base_E : Model K → Nat → Vector3
  InverseDynamics : Model K → List ℚ → List ℚ → List ℚ → List ℚ →
    Option (StdVector SpatialVector) → Model K × List ℚ
  setContactVariablesFull : F → Nat → StdVector ContactVariables → F
  setContactVariables : T → Nat → StdVector ContactVariables → T
  interpolateContactVariables : F → F
  interpolateStartEnd : T → SubComponentType → T
  computeParameterToTrajectoryIndexMap : T → ItompPlanningGroup → T
  interpolateKeyframes : T → ItompPlanningGroup → T

/-- The default constructor (lines 27-34), as far as the members go: the three members
of its initializer list; the other members are default constructed, the
vectors and the matrix empty.  `unbound` gives the values that stand for the
null pointers and for the elements of the empty containers. -/
def NewEvalManager.defaultConstructed (unbound : NewEvalManager F T K R) :
    NewEvalManager F T K R :=
  { unbound with
    last_trajectory_feasible_ := false
    parameter_modified_ := true
    best_cost_ := DBL_MAX
    rbdl_models_ := { unbound.rbdl_models_ with size := 0 }
    joint_torques_ := { unbound.joint_torques_ with size := 0 }
    external_forces_ := { unbound.external_forces_ with size := 0 }
    contact_variables_ := { unbound.contact_variables_ with size := 0 }
    evaluation_cost_matrix_ := { unbound.evaluation_cost_matrix_ with rows := 0, cols := 0 }
    robot_state_ := { unbound.robot_state_ with size := 0 } }

/-- The copy constructor (lines 36-68), as far as the members go: the members of the
initializer list are copied, the full trajectory is cloned, the parameter
trajectory created from the clone, the itomp trajectory and the robot states
copied. -/
def NewEvalManager.copyConstructed (setup : SetupCollaborators F T K R)
    (manager : NewEvalManager F T K R) : NewEvalManager F T K R :=
  let full_trajectory_ := manager.full_trajectory_
  let itomp_trajectory_ := manager.itomp_trajectory_
  { full_trajectory_ := full_trajectory_
    parameter_trajectory_ := setup.CreateParameterTrajectory full_trajectory_
      manager.planning_group_
    itomp_trajectory_ := itomp_trajectory_
    planning_group_ := manager.planning_group_
    last_trajectory_feasible_ := manager.last_trajectory_feasible_
    parameter_modified_ := manager.parameter_modified_
    best_cost_ := manager.best_cost_
    rbdl_models_ := manager.rbdl_models_
    joint_torques_ := manager.joint_torques_
    external_forces_ := manager.external_forces_
    contact_variables_ := manager.contact_variables_
    evaluation_cost_matrix_ := manager.evaluation_cost_matrix_
    robot_state_ :=
      { size := setup.getNumPointsItomp itomp_trajectory_
        elem := manager.robot_state_.elem } }

/-- The assignment `operator=` (lines 74-110), as far as the members go. -/
def NewEvalManager.assign (setup : SetupCollaborators F T K R)
    (self manager : NewEvalManager F T K R) : NewEvalManager F T K R :=
  let full_trajectory_ := manager.full_trajectory_
  let itomp_trajectory_ := manager.itomp_trajectory_
  { full_trajectory_ := full_trajectory_
    parameter_trajectory_ := setup.CreateParameterTrajectory full_trajectory_
      manager.planning_group_
    itomp_trajectory_ := itomp_trajectory_
    planning_group_ := manager.planning_group_
    last_trajectory_feasible_ := manager.last_trajectory_feasible_
    parameter_modified_ := manager.parameter_modified_
    best_cost_ := manager.best_cost_
    rbdl_models_ := manager.rbdl_models_
    joint_torques_ := manager.joint_torques_
    external_forces_ := manager.external_forces_
    contact_variables_ := manager.contact_variables_
    evaluation_cost_matrix_ := manager.evaluation_cost_matrix_
    robot_state_ :=
      { size := setup.getNumPointsItomp itomp_trajectory_
        elem := fun i =>
          if i < setup.getNumPointsItomp itomp_trajectory_ then manager.robot_state_.elem i
          else self.robot_state_.elem i } }

/-- Counted loop whose body can fail (an assertion, a block outside its vector): the
loop stops at the first failure, which is the failure of the loop. -/
def tryForLoop {σ : Type} (b e : Nat) (body : Nat → σ → Option σ) (s : σ) : Option σ :=
  (List.range' b (e - b)).foldl (fun acc i => acc.bind (body i)) (some s)

/-- What the body of the loop over the sub contact points `j` of contact `i` in
`initializeContactVariables` (lines 838-858) assigns, on the contact variables of
the contact and the local `ext_forces`, when the block `tau.block(0, 0, 3, 1)`
lies within `tau`. -/
def initializeContactPointAssign (setup : SetupCollaborators F T K R)
    (group : ItompPlanningGroup) (model : Model K) (tau : List ℚ) (i j : Nat)
    (st : ContactVariables × StdVector SpatialVector) :
    ContactVariables × StdVector SpatialVector :=
  let rbdl_body_id := (group.contact_points_ i).contact_point_rbdl_ids j
  let contact_position := setup.X_base_r model rbdl_body_id
  let k : ℚ := 0 / (group.num_contacts : ℚ)
  let contact_force : Vector3 := ⟨k * tau.getD 0 0, k * tau.getD 1 0, k * tau.getD 2 0⟩
  let contact_torque := contact_position.cross contact_force
  let cv := st.1
  ({ cv with point_force := fun c => if c = j then contact_force else cv.point_force c },
    st.2.set rbdl_body_id ⟨contact_torque, contact_force⟩)

/-- Body of the loop over the sub contact points `j` of contact `i` in
`initializeContactVariables` (lines 838-858).  The statement
`contact_force = 0.0 / num_contacts * tau.block(0, 0, 3, 1)` takes the first three
rows of `tau`, which has one row per joint (`q.rows()`): with fewer than three
rows the block does not lie within the vector, Eigen's assertion fails (or the
read is out of bounds), and the result is `none`. -/
def initializeContactPoint (setup : SetupCollaborators F T K R) (group : ItompPlanningGroup)
    (model : Model K) (tau : List ℚ) (i j : Nat)
    (st : ContactVariables × StdVector SpatialVector) :
    Option (ContactVariables × StdVector SpatialVector) :=
  if tau.length < 3 then none
  else some (initializeContactPointAssign setup group model tau i j st)

/-- Body of the loop over the contacts `i` in `initializeContactVariables`
(lines 829-859), on the contact variables of the point and the local
`ext_forces`; `r` is the outcome `(model, tau)` of the dynamics update of the
point. -/
def initializeContact (env : Collaborators F T K) (setup : SetupCollaborators F T K R)
    (group : ItompPlanningGroup) (r : Model K × List ℚ) (i : Nat)
    (st : StdVector ContactVariables × StdVector SpatialVector) :
    Option (StdVector ContactVariables × StdVector SpatialVector) :=
  let rbdl_body_id := (group.contact_points_ i).rbdl_body_id
  let cv0 := setup.setVariable (st.1.elem i) 0
  let cv1 : ContactVariables :=
    { cv0 with
      position := setup.X_base_r r.1 rbdl_body_id
      orientation := setup.X_base_E r.1 rbdl_body_id }
  (tryForLoop 0 env.NUM_ENDEFFECTOR_CONTACT_POINTS
    (initializeContactPoint setup group r.1 r.2 i) (cv1, st.2)).map fun st1 =>
      (st.1.set i st1.1, st1.2)

/-- Body of the loop over the points in `initializeContactVariables` (lines 811-872);
`none` when a block of `tau` was taken outside the vector. -/
def initializeContactVariablesOfPoint (env : Collaborators F T K)
    (setup : SetupCollaborators F T K R) (point : Nat) (s : NewEvalManager F T K R) :
    Option (NewEvalManager F T K R) :=
  let q := env.getJointRow s.full_trajectory_ TRAJECTORY_TYPE_POSITION point
  let q_dot := env.getJointRow s.full_trajectory_ TRAJECTORY_TYPE_VELOCITY point
  let q_ddot := env.getJointRow s.full_trajectory_ TRAJECTORY_TYPE_ACCELERATION point
  let r := env.updateFullKinematicsAndDynamics (s.rbdl_models_.elem point) q q_dot q_ddot
    (setup.VectorXd q.length) none
  let ext0 : StdVector SpatialVector := { size := r.1.mBodies, elem := fun _ => SpatialVectorZero }
  (tryForLoop 0 s.planning_group_.num_contacts
    (initializeContact env setup s.planning_group_ r)
    (s.contact_variables_.elem point, ext0)).map fun st =>
      let r2 := setup.InverseDynamics r.1 q q_dot q_ddot r.2 (some st.2)
      { s with
        rbdl_models_ := s.rbdl_models_.set point r2.1
        contact_variables_ := s.contact_variables_.set point st.1
        full_trajectory_ := setup.setContactVariablesFull s.full_trajectory_ point st.1
        itomp_trajectory_ := setup.setContactVariables s.itomp_trajectory_ point st.1 }

/-- The member `initializeContactVariables()` (lines 796-876); `none` is the failure of
its `ROS_ASSERT` or of a block of `tau` taken outside the vector. -/
def NewEvalManager.initializeContactVariables (env : Collaborators F T K)
    (setup : SetupCollaborators F T K R) (self : NewEvalManager F T K R) :
    Option (NewEvalManager F T K R) :=
  let num_contacts := self.planning_group_.num_contacts
  if num_contacts ≠ setup.PlanningParameters_getNumContacts then none
  else
    let cv1 := self.contact_variables_.resize (env.getNumPoints self.full_trajectory_)
      { size := 0, elem := fun _ => setup.defaultContactVariables }
    let cv2 := forLoop 0 cv1.size (fun i cv =>
      cv.set i ((cv.elem i).resize num_contacts setup.defaultContactVariables)) cv1
    let self1 : NewEvalManager F T K R := { self with contact_variables_ := cv2 }
    if !env.hasVelocity self1.full_trajectory_ || !env.hasAcceleration self1.full_trajectory_ then
      some self1
    else
      (tryForLoop 0 (env.getNumPoints self1.full_trajectory_)
        (initializeContactVariablesOfPoint env setup) self1).map fun self2 =>
          let t1 := setup.interpolateStartEnd self2.itomp_trajectory_ .CONTACT_POSITION
          { self2 with
            full_trajectory_ := setup.interpolateContactVariables self2.full_trajectory_
            itomp_trajectory_ := setup.interpolateStartEnd t1 .CONTACT_FORCE }

/-- The member `initialize(...)` (lines 112-157), as far as the members of the embedding
go; `cost_functions` is the vector that `buildActiveCostFunctions(this)` leaves,
`rbdl_robot_model` is `robot_model->getRBDLRobotModel()`.  `none` is the failure of
`initializeContactVariables`: of its `ROS_ASSERT` or of a block of `tau`. -/
def NewEvalManager.initialize (env : Collaborators F T K) (setup : SetupCollaborators F T K R)
    (cost_functions : List (TrajectoryCost (NewEvalManager F T K R)))
    (self : NewEvalManager F T K R) (full_trajectory : F) (itomp_trajectory : T)
    (rbdl_robot_model : Model K) (planning_group : ItompPlanningGroup) :
    Option (NewEvalManager F T K R) :=
  let n := env.getNumPoints full_trajectory
  let num_joints := setup.getComponentSize full_trajectory
  let self1 : NewEvalManager F T K R :=
    { self with
      full_trajectory_ := full_trajectory
      itomp_trajectory_ := itomp_trajectory
      planning_group_ := planning_group
      evaluation_cost_matrix_ := MatrixXd.Zero n (getNumActiveCostFunctions cost_functions)
      rbdl_models_ := self.rbdl_models_.resize n rbdl_robot_model
      joint_torques_ := self.joint_torques_.resize n (setup.VectorXd num_joints)
      external_forces_ := self.external_forces_.resize n
        { size := rbdl_robot_model.mBodies, elem := fun _ => SpatialVectorZero }
      robot_state_ :=
        { size := n
          elem := fun i => if i < n then setup.newRobotState else self.robot_state_.elem i } }
  (self1.initializeContactVariables env setup).map fun self2 =>
    let t1 := setup.computeParameterToTrajectoryIndexMap self2.itomp_trajectory_ planning_group
    { self2 with
      parameter_trajectory_ := setup.CreateParameterTrajectory self2.full_trajectory_
        planning_group
      itomp_trajectory_ := setup.interpolateKeyframes t1 planning_group }

/-- The state of the process as far as the managers go: the static pointer
`NewEvalManager::ref_evaluation_manager_` (`none` is `NULL`, `some a` the manager at
address `a`) and the managers alive, by address. -/
structure Process (F T K R : Type) where
  ref_evaluation_manager_ : Option Nat
  objects : Nat → Option (NewEvalManager F T K R)

/-- The process before any manager is constructed: the static pointer is `NULL`
(line 25). -/
def Process.start : Process F T K R :=
  { ref_evaluation_manager_ := none, objects := fun _ => none }

/-- The operations on managers, with the address `this` of the manager they are called
on and their arguments. -/
inductive Operation (F T K : Type) where
  | construct (this : Nat)
  | copyConstruct (this manager : Nat)
  | assign (this manager : Nat)
  | callInitialize (this : Nat) (full_trajectory : F) (itomp_trajectory : T)
      (rbdl_robot_model : Model K) (planning_group : ItompPlanningGroup)
  | evaluate (this : Nat)
  | computeDerivatives (this parameter_index : Nat) (parameters : Nat → ℚ) (eps : ℚ)
  | computeCostDerivatives (this parameter_index : Nat) (parameters : Nat → ℚ) (eps : ℚ)
  | computeDerivativesLegacy (this : Nat) (parameters : Nat → MatrixXd) (type point : Nat)
      (eps : ℚ)

/-- The process with the manager at address `this` replaced. -/
def Process.store (w : Process F T K R) (this : Nat) (m : NewEvalManager F T K R) :
    Process F T K R :=
  { w with objects := fun a => if a = this then some m else w.objects a }

/-- What the manager at `this` reads through the static pointer: `some none` when the
pointer designates `this` itself, `some (some r)` when it designates another
manager alive with state `r`, `none` when the pointer is `NULL` or dangling. -/
def Process.canonical (w : Process F T K R) (this : Nat) :
    Option (Option (NewEvalManager F T K R)) :=
  match w.ref_evaluation_manager_ with
  | none => none
  | some a => if a = this then some none else (w.objects a).map some

/-- One operation on the process.  `none` stands for what C++ leaves undefined (an
operation on an address that holds no manager, a construction on an address
that holds one, a derivative computation while the static pointer designates no
manager alive) and for the failure of an assertion. -/
def Process.step (env : Collaborators F T K) (setup : SetupCollaborators F T K R)
    (cost_functions : List (TrajectoryCost (NewEvalManager F T K R)))
    (unbound : NewEvalManager F T K R) (w : Process F T K R) :
    Operation F T K → Option (Process F T K R)
  | .construct this =>
    match w.objects this with
    | some _ => none
    | none =>
      let w1 := w.store this unbound.defaultConstructed
      -- if (ref_evaluation_manager_ == NULL) ref_evaluation_manager_ = this;
      if w1.ref_evaluation_manager_ = none then
        some { w1 with ref_evaluation_manager_ := some this }
      else some w1
  | .copyConstruct this manager =>
    match w.objects this, w.objects manager with
    | none, some m => some (w.store this (m.copyConstructed setup))
    | _, _ => none
  | .assign this manager =>
    match w.objects this, w.objects manager with
    | some t, some m => some (w.store this (t.assign setup m))
    | _, _ => none
  | .callInitialize this full_trajectory itomp_trajectory rbdl_robot_model planning_group =>
    (w.objects this).bind fun t =>
      ( NewEvalManager.initialize env setup cost_functions t full_trajectory itomp_trajectory
        rbdl_robot_model planning_group).map fun t1 => w.store this t1
  | .evaluate this =>
    (w.objects this).map fun t => w.store this (t.evaluate env cost_functions).mgr
  | .computeDerivatives this parameter_index parameters eps =>
    (w.objects this).bind fun t =>
      (w.canonical this).map fun ref =>
        w.store this (t.computeDerivatives env cost_functions ref parameter_index parameters
          (fun _ => none) eps).mgr
  | .computeCostDerivatives this parameter_index parameters eps =>
    (w.objects this).bind fun t =>
      (w.canonical this).map fun ref =>
        w.store this (t.computeCostDerivatives env cost_functions ref parameter_index
          parameters (fun _ => none) (fun _ _ => none) eps).mgr
  | .computeDerivativesLegacy this parameters type point eps =>
    (w.objects this).bind fun t =>
      (w.canonical this).map fun ref =>
        w.store this (t.computeDerivativesLegacy env cost_functions ref parameters type point
          { out := fun _ => none, d_p := fun _ => 0, d_m := fun _ => 0, cost_der := none }
          eps).mgr

/-- A sequence of operations on the process. -/
def Process.run (env : Collaborators F T K) (setup : SetupCollaborators F T K R)
    (cost_functions : List (TrajectoryCost (NewEvalManager F T K R)))
    (unbound : NewEvalManager F T K R) :
    List (Operation F T K) → Process F T K R → Option (Process F T K R)
  | [], w => some w
  | op :: ops, w =>
    (w.step env setup cost_functions unbound op).bind
      (Process.run env setup cost_functions unbound ops)

/-- The static pointer after an operation met with the pointer `p`: a default
construction met with `NULL` sets it to the constructed manager, nothing else
changes it. -/
def Process.pointerAfter (p : Option Nat) : Operation F T K → Option Nat
  | .construct this =>
    match p with
    | none => some this
    | some a => some a
  | _ => p

/-- Set-up collaborators of the one-joint robot without contacts: the parameter
trajectory holds the joint positions, nothing is interpolated. -/
def keyframeSetup : SetupCollaborators KeyframeStore KeyframeStore Unit Unit where
  CreateParameterTrajectory := fun t _ =>
    { position := { rows := t.position.length, cols := 1, coeff := fun i _ => t.position.getD i 0 }
      velocity := MatrixXd.Zero t.position.length 1
      has_velocity := false
      num_elements := 1
      num_joints := 1 }
  getNumPointsItomp := fun t => t.position.length
  getComponentSize := fun _ => 1
  VectorXd := fun n => List.replicate n 0
  newRobotState := ()
  defaultContactVariables :=
    { position := Vector3.zero, orientation := Vector3.zero,
      point_force := fun _ => Vector3.zero,
      projected_point_positions_ := fun _ => Vector3.zero }
  PlanningParameters_getNumContacts := 0
  setVariable := fun cv _ => cv
  X_base_r := fun _ _ => Vector3.zero
  X_base_E := fun _ _ => Vector3.zero
  InverseDynamics := fun model _ _ _ tau _ => (model, tau)
  setContactVariablesFull := fun t _ _ => t
  setContactVariables := fun t _ _ => t
  interpolateContactVariables := fun t => t
  interpolateStartEnd := fun t _ => t
  computeParameterToTrajectoryIndexMap := fun t _ => t
  interpolateKeyframes := fun t _ => t

/-- The dynamics routines of the collaborators are those of the dynamics model `d`. -/
def HasDynamicsModel {B : Type} (env : Collaborators F T (Nat → B)) (d : DynamicsModel B) :
    Prop :=
  env.updateFullKinematicsAndDynamics = d.updateFullKinematicsAndDynamics ∧
  env.updatePartialDynamics = d.updatePartialDynamics ∧
  env.updatePartialKinematicsAndDynamics = d.updatePartialKinematicsAndDynamics

/-- The projection of the sub contact points does not read the dynamics model
(`surface contact points are fixed offsets from the contact's reference frame,
transformed by the projected pose`). -/
def ProjectionIgnoresModel (env : Collaborators F T K) : Prop :=
  ∀ cv position orientation (m1 m2 : Model K) contact_point,
    env.ComputeProjectedPointPositions cv position orientation m1 contact_point
      = env.ComputeProjectedPointPositions cv position orientation m2 contact_point

/-- What makes this instance and the canonical instance in sync at point `pt` for the
change at `index`.  For a dynamics-only change: the kinematic quantities that
this instance holds at `pt` are those of its trajectory at `pt`.  For a
kinematics-affecting change: the canonical instance holds at `pt` the
contact variables and the external forces that the contact block and the force
block compute for the trajectory of this instance and, for the bodies outside the
affected set of the changed joint, the kinematic quantities of that
trajectory. -/
def InSync {B : Type} (env : Collaborators F T (Nat → B)) (d : DynamicsModel B)
    (ref_evaluation_manager_ : Option (NewEvalManager F T (Nat → B) R))
    (self : NewEvalManager F T (Nat → B) R) (index : ItompTrajectoryIndex) (pt : Nat) : Prop :=
  let q := env.getTrajectoryPoint self.itomp_trajectory_ .POSITION .JOINT pt
  let q_dot := env.getTrajectoryPoint self.itomp_trajectory_ .VELOCITY .JOINT pt
  let q_ddot := env.getTrajectoryPoint self.itomp_trajectory_ .ACCELERATION .JOINT pt
  if index.sub_component ≠ SubComponentType.JOINT then
    ∀ i, (self.rbdl_models_.elem pt).kinematics i = d.forwardKinematics i q q_dot q_ddot
  else
    let rs := (refState ref_evaluation_manager_ self).pointState pt
    let blocks := contactAndForceBlocks env self.planning_group_
      (env.getContactVariables self.itomp_trajectory_ pt) (self.pointState pt)
    rs.contacts = blocks.contacts ∧ rs.forces = blocks.forces ∧
    ∀ i, i ∉ (self.planning_group_.group_joints_
        (env.getParameterJointIndex self.itomp_trajectory_
          index.element)).rbdl_affected_body_ids_ →
      rs.model.kinematics i = d.forwardKinematics i q q_dot q_ddot

/-- The managers `m1` and `m2` differ at most in the cost matrix and in the per-point
dynamics state of the points other than `i`. -/
def SamePointView (i : Nat) (m1 m2 : NewEvalManager F T K R) : Prop :=
  m1.full_trajectory_ = m2.full_trajectory_ ∧
  m1.parameter_trajectory_ = m2.parameter_trajectory_ ∧
  m1.itomp_trajectory_ = m2.itomp_trajectory_ ∧
  m1.planning_group_ = m2.planning_group_ ∧
  m1.last_trajectory_feasible_ = m2.last_trajectory_feasible_ ∧
  m1.parameter_modified_ = m2.parameter_modified_ ∧
  m1.best_cost_ = m2.best_cost_ ∧
  m1.robot_state_ = m2.robot_state_ ∧
  m1.pointState i = m2.pointState i

/-- A cost function whose cost at a point reads, of the per-point dynamics state, only
that of the point, and does not read the cost matrix. -/
def ReadsPointOnly (cf : TrajectoryCost (NewEvalManager F T K R)) : Prop :=
  ∀ (m1 m2 : NewEvalManager F T K R) (i : Nat), SamePointView i m1 m2 →
    cf.evaluate m1 i = cf.evaluate m2 i

/-- This instance after the direct change of parameter `parameter_index` to `value` in
its itomp trajectory store. -/
def NewEvalManager.perturbed (env : Collaborators F T K) (self : NewEvalManager F T K R)
    (parameter_index : Nat) (value : ℚ) (first : Bool) : NewEvalManager F T K R :=
  { self with itomp_trajectory_ :=
      (env.directChangeForDerivativeComputation self.itomp_trajectory_ parameter_index value
        first).1 }

/-- The canonical instance of the scenario of the stale kinematic quantities: the
one-joint robot with one contact, joint position 3 and contact force 1,
after `evaluate()`. -/
def canonicalOfScenario : NewEvalManager ContactStore ContactStore (Nat → ℚ) Unit :=
  ((contactManager [3] [1] 1 0).evaluate contactCollaborators [constantCost 2 1]).mgr

/-- The worker of the scenario: a copy of the canonical instance on which the
derivative for parameter 0, the joint position, was computed with `eps = 1`. -/
def workerOfScenario : NewEvalManager ContactStore ContactStore (Nat → ℚ) Unit :=
  (canonicalOfScenario.computeDerivatives contactCollaborators [constantCost 2 1]
    (some canonicalOfScenario) 0 (fun _ => 3) (fun _ => none) 1).mgr





/-! ### Further members of the manager, calls on the process, the planner node -/

/-- The legacy member `getParameters(std::vector<Eigen::MatrixXd>&)` (lines 667-678); the
value is the vector `parameters` afterwards, indexed by trajectory type. -/
def NewEvalManager.getParameters (self : NewEvalManager F T K R) (parameters : Nat → MatrixXd) :
    Nat → MatrixXd :=
  let parameters1 := Function.update parameters TRAJECTORY_TYPE_POSITION
    self.parameter_trajectory_.position
  if self.parameter_trajectory_.has_velocity then
    Function.update parameters1 TRAJECTORY_TYPE_VELOCITY self.parameter_trajectory_.velocity
  else parameters1



/-- The call `performPartialForwardKinematicsAndDynamics(point_begin, point_end, index)` on
the manager at address `this` of the process; `none` as for `Process.step`. -/
def Process.partialCallWithIndex (env : Collaborators F T K) (w : Process F T K R)
    (this point_begin point_end : Nat) (index : ItompTrajectoryIndex) :
    Option (Process F T K R) :=
  (w.objects this).bind fun t =>
    (w.canonical this).map fun ref =>
      w.store this (t.performPartialForwardKinematicsAndDynamics env ref point_begin point_end
        index)

/-- The call
`performPartialForwardKinematicsAndDynamics(point_begin, point_end, parameter_element)` on
the manager at address `this` of the process; `none` as for `Process.step`. -/
def Process.partialCallLegacy (env : Collaborators F T K) (w : Process F T K R)
    (this point_begin point_end parameter_element : Nat) : Option (Process F T K R) :=
  (w.objects this).bind fun t =>
    (w.canonical this).map fun ref =>
      w.store this (t.performPartialForwardKinematicsAndDynamicsLegacy env ref point_begin
        point_end parameter_element)

/-- Set-up collaborators of the one-joint robot with one contact: the parameter
trajectory holds the joint positions, the position of a body is its transform
along the first axis, inverse dynamics is that of `linkDynamics`, nothing is
interpolated. -/
def contactSetup : SetupCollaborators ContactStore ContactStore (Nat → ℚ) Unit where
  CreateParameterTrajectory := fun t _ =>
    { position := { rows := t.position.length, cols := 1, coeff := fun i _ => t.position.getD i 0 }
      velocity := MatrixXd.Zero t.position.length 1
      has_velocity := false
      num_elements := 2
      num_joints := 1 }
  getNumPointsItomp := fun t => t.position.length
  getComponentSize := fun _ => 1
  VectorXd := fun n => List.replicate n 0
  newRobotState := ()
  defaultContactVariables :=
    { position := Vector3.zero, orientation := Vector3.zero,
      point_force := fun _ => Vector3.zero,
      projected_point_positions_ := fun _ => Vector3.zero }
  PlanningParameters_getNumContacts := 1
  setVariable := fun cv _ => cv
  X_base_r := fun model id => ⟨model.X_base id, 0, 0⟩
  X_base_E := fun _ _ => Vector3.zero
  InverseDynamics := fun model _ _ _ _ ext =>
    ({ model with f := (linkDynamics.inverseDynamics model.mBodies model.kinematics ext).1 },
      (linkDynamics.inverseDynamics model.mBodies model.kinematics ext).2)
  setContactVariablesFull := fun t _ _ => t
  setContactVariables := fun t _ _ => t
  interpolateContactVariables := fun t => t
  interpolateStartEnd := fun t _ => t
  computeParameterToTrajectoryIndexMap := fun t _ => t
  interpolateKeyframes := fun t _ => t

/-- The process of the scenario of the canonical instance: the canonical instance at
address 0, designated by the static pointer, and a copy of it at address 1. -/
def processOfScenario : Process ContactStore ContactStore (Nat → ℚ) Unit :=
  { ref_evaluation_manager_ := some 0
    objects := fun a =>
      if a = 0 then some canonicalOfScenario
      else if a = 1 then some (canonicalOfScenario.copyConstructed contactSetup)
      else none }

/-- Outcome of `printTrajectoryCost`: the manager afterwards, the function-local static
array `cost_vec` afterwards and the indices with which the array was subscripted,
in order.  The text written to `cout` is left out. -/
structure PrintOutcome (M : Type) where
  mgr : M
  cost_vec : Nat → List ℚ
  accesses : List Nat

/-- Number of vectors of the function-local static array of `printTrajectoryCost`,
`static std::vector<double> cost_vec[3]` (line 729). -/
def COST_VEC_LENGTH : Nat := 3

/-- The loop of lines 731-737 on the static array and the list of its subscripts: for
every cost function `c` the sum of column `c` of the cost matrix is appended to
`cost_vec[c]`. -/
def appendSubCosts (num_cost_functions : Nat) (cost_matrix : MatrixXd)
    (st : (Nat → List ℚ) × List Nat) : (Nat → List ℚ) × List Nat :=
  forLoop 0 num_cost_functions (fun c st =>
    let sub_cost := cost_matrix.blockSum 0 c cost_matrix.rows 1
    (Function.update st.1 c (st.1 c ++ [sub_cost]), st.2 ++ [c])) st

/-- The subscripts of the dump of lines 739-750, made when `cost_vec[0]` holds 15000
entries: `cost_vec[c]` for every row `i < 15000` and every cost function `c`. -/
def dumpAccesses (num_cost_functions : Nat) : List Nat :=
  forLoop 0 15000 (fun _ acc =>
    forLoop 0 num_cost_functions (fun c acc => acc ++ [c]) acc) []

/-- The member `printTrajectoryCost(iteration, details)` (lines 704-794).  The static local
`cost_vec`, which lives from the first printing call to the end of the process,
is passed in and returned: `cost_vec c` is the vector `cost_vec[c]`, and the
array has the vectors `0, 1, 2`. -/
def NewEvalManager.printTrajectoryCost
    (cost_functions : List (TrajectoryCost (NewEvalManager F T K R)))
    (cost_vec : Nat → List ℚ) (self : NewEvalManager F T K R) (_iteration : Int)
    (details : Bool) : PrintOutcome (NewEvalManager F T K R) :=
  let cost := self.evaluation_cost_matrix_.sum
  let is_best := decide (cost < self.best_cost_)
  let self1 : NewEvalManager F T K R := if is_best then { self with best_cost_ := cost } else self
  if !details || !is_best then
    { mgr := self1, cost_vec := cost_vec, accesses := [] }
  else
    let st := appendSubCosts cost_functions.length self1.evaluation_cost_matrix_ (cost_vec, [])
    let size_test := [0]
    let dump := if (st.1 0).length = 15000 then dumpAccesses cost_functions.length else []
    { mgr := self1, cost_vec := st.1, accesses := st.2 ++ size_test ++ dump }

/-- The member `resetBestTrajectoryCost()` (lines 878-881). -/
def NewEvalManager.resetBestTrajectoryCost (self : NewEvalManager F T K R) :
    NewEvalManager F T K R :=
  { self with best_cost_ := DBL_MAX }

/-- The call `resetBestTrajectoryCost()` on the manager at address `this` of the process;
`none` when the address holds no manager. -/
def Process.resetBestTrajectoryCost (w : Process F T K R) (this : Nat) :
    Option (Process F T K R) :=
  (w.objects this).map fun t => w.store this t.resetBestTrajectoryCost

/-- What the planner node reads of an optimizer (`ItompOptimizer`, whose code is not part
of the sources): the values of `getBestCost()` and of `isSucceed()`. -/
structure ItompOptimizer where
  getBestCost : ℚ
  isSucceed : Bool

/-- The accessors of `ItompCIOTrajectory`, declared in a header that is not part of the
sources, that `updateTrajectoryToBestResult` calls, on the state `J` of a
trajectory object: the joint trajectory and the contact trajectory, read and
assigned as matrices. -/
structure TrajectoryAccessors (J : Type) where
  getTrajectory : J → MatrixXd
  setTrajectory : J → MatrixXd → J
  getContactTrajectory : J → MatrixXd
  setContactTrajectory : J → MatrixXd → J

/-- The members of `ItompPlannerNode` that `updateTrajectoryToBestResult` reads and writes
(`itomp_planner_node.cpp`).  `trajectory_` and the elements of `threadTrajectories_`
point to objects allocated one by one (lines 52-57), which are held by value
here. -/
structure ItompPlannerNode (J : Type) where
  trajectory_ : J
  threadTrajectories_ : StdVector J
  optimizers_ : StdVector ItompOptimizer
  last_min_cost_trajectory_ : Nat

/-- Body of the loop `// find best cost result` (lines 287-295) on the node and the
local `best_cost`. -/
def findBestCostResult {J : Type} (i : Nat) (st : ItompPlannerNode J × ℚ) :
    ItompPlannerNode J × ℚ :=
  let threadCost := (st.1.optimizers_.elem i).getBestCost
  if threadCost < st.2 && (st.1.optimizers_.elem i).isSucceed then
    ({ st.1 with last_min_cost_trajectory_ := i }, threadCost)
  else st

/-- Body of the loop that copies the result to the thread trajectories
(lines 302-309). -/
def copyResultToThread {J : Type} (acc : TrajectoryAccessors J) (i : Nat)
    (s : ItompPlannerNode J) : ItompPlannerNode J :=
  if i ≠ s.last_min_cost_trajectory_ then
    let t1 := acc.setTrajectory (s.threadTrajectories_.elem i) (acc.getTrajectory s.trajectory_)
    let t2 := acc.setContactTrajectory t1 (acc.getContactTrajectory s.trajectory_)
    { s with threadTrajectories_ := s.threadTrajectories_.set i t2 }
  else s

/-- The member `ItompPlannerNode::updateTrajectoryToBestResult` (lines 279-310);
`num_trajectories` is `PlanningParameters::getInstance()->getNumTrajectories()`.  The
argument `groupName` is not read. -/
def ItompPlannerNode.updateTrajectoryToBestResult {J : Type} (acc : TrajectoryAccessors J)
    (num_trajectories : Nat) (self : ItompPlannerNode J) : ItompPlannerNode J :=
  let self1 : ItompPlannerNode J := { self with last_min_cost_trajectory_ := 0 }
  let best_cost := DBL_MAX
  let st := forLoop 0 num_trajectories findBestCostResult (self1, best_cost)
  let self2 := st.1
  -- copy the result
  let selected := self2.threadTrajectories_.elem self2.last_min_cost_trajectory_
  let t1 := acc.setTrajectory self2.trajectory_ (acc.getTrajectory selected)
  let t2 := acc.setContactTrajectory t1 (acc.getContactTrajectory selected)
  let self3 : ItompPlannerNode J := { self2 with trajectory_ := t2 }
  forLoop 0 num_trajectories (copyResultToThread acc) self3

/-- Contract of the accessors of `ItompCIOTrajectory`: a matrix assigned is the matrix
read back, and assigning the contact trajectory leaves the joint trajectory. -/
def TrajectoryAccessors.GetSet {J : Type} (acc : TrajectoryAccessors J) : Prop :=
  (∀ t m, acc.getTrajectory (acc.setTrajectory t m) = m) ∧
  (∀ t m, acc.getContactTrajectory (acc.setContactTrajectory t m) = m) ∧
  (∀ t m, acc.getTrajectory (acc.setContactTrajectory t m) = acc.getTrajectory t)

/-- Optimizer `i` qualifies as result: it succeeded and its best cost is below the
largest finite double. -/
def ItompPlannerNode.Qualifies {J : Type} (self : ItompPlannerNode J) (i : Nat) : Prop :=
  (self.optimizers_.elem i).isSucceed = true ∧ (self.optimizers_.elem i).getBestCost < DBL_MAX

/-- A trajectory object that is the pair of its joint and contact trajectories, with
the plain accessors. -/
def pairAccessors : TrajectoryAccessors (MatrixXd × MatrixXd) where
  getTrajectory := fun t => t.1
  setTrajectory := fun t m => (m, t.2)
  getContactTrajectory := fun t => t.2
  setContactTrajectory := fun t m => (t.1, m)

/-- A node with two threads whose optimizers succeeded with the best costs 5 and 3;
the joint trajectory of thread `i` has `i + 1` rows. -/
def twoThreadNode : ItompPlannerNode (MatrixXd × MatrixXd) where
  trajectory_ := (MatrixXd.Zero 1 1, MatrixXd.Zero 1 1)
  threadTrajectories_ :=
    { size := 2, elem := fun i => (MatrixXd.Zero (i + 1) 1, MatrixXd.Zero 1 1) }
  optimizers_ :=
    { size := 2
      elem := fun i => { getBestCost := (if i = 0 then 5 else 3), isSucceed := true } }
  last_min_cost_trajectory_ := 0

/-- This instance after the direct change `directChangeForDerivatives(value, group, type,
point, element, first)` in its full trajectory store, the change the legacy
`evaluateParameterPoint` makes. -/
def NewEvalManager.perturbedLegacy (env : Collaborators F T K) (self : NewEvalManager F T K R)
    (value : ℚ) (type point element : Nat) (first : Bool) : NewEvalManager F T K R :=
  { self with full_trajectory_ :=
      (env.directChangeForDerivatives self.full_trajectory_ value self.planning_group_ type point
        element first).1 }

/-- Cost function whose cost at a point is the square of the first joint torque of the
point; always feasible, never invariant. -/
def squaredTorqueCost (w : ℚ) : TrajectoryCost (NewEvalManager F T K R) where
  weight := w
  evaluate := fun m i => (true, ((m.joint_torques_.elem i).getD 0 0) ^ 2)
  isInvariant := fun _ _ => false

/-- The canonical instance of the scenario of the order of the derivatives: the one-joint
robot with one contact, joint position 3 and contact force 1, after `evaluate()`
with the squared joint torque as cost. -/
def canonicalWithTorqueCost : NewEvalManager ContactStore ContactStore (Nat → ℚ) Unit :=
  ((contactManager [3] [1] 1 0).evaluate contactCollaborators [squaredTorqueCost 1]).mgr

/-- The parameters of the scenario: the joint position 3 and the contact force 1. -/
def parametersOfScenario : Nat → ℚ := fun i => if i = 0 then 3 else 1

/-! ### Doubles -/

/-- A value of the type `double` (IEEE 754 binary64): a finite value given by its sign
and its magnitude (a zero has a sign), an infinity, or a NaN. -/
inductive Double where
  | finite (negative : Bool) (magnitude : ℚ)
  | infinite (negative : Bool)
  | nan
deriving DecidableEq

/-- The rational value of a finite double; 0 for the others. -/
def Double.toRat : Double → ℚ
  | .finite negative magnitude => if negative then -magnitude else magnitude
  | _ => 0

/-- Whether the double is finite, `std::isfinite`. -/
def Double.isFinite : Double → Bool
  | .finite _ _ => true
  | _ => false

/-- The integer nearest to `x`, the even one of the two when `x` lies half way. -/
def roundNearestEven (x : ℚ) : ℤ :=
  if x - ⌊x⌋ < 1 / 2 then ⌊x⌋
  else if 1 / 2 < x - ⌊x⌋ then ⌊x⌋ + 1
  else if ⌊x⌋ % 2 = 0 then ⌊x⌋ else ⌊x⌋ + 1

/-- The distance between neighbouring doubles around the magnitude `m`: `2 ^ (e - 52)`
for `2 ^ e <= m < 2 ^ (e + 1)`, and `2 ^ (-1074)` in the subnormal range. -/
def Double.quantum (m : ℚ) : ℚ :=
  (2 : ℚ) ^ (max (Int.log 2 m) (-1022) - 52)

/-- Rounding of a magnitude to the grid of the doubles, to nearest, ties to even (the
default rounding mode). -/
def Double.roundMagnitude (m : ℚ) : ℚ :=
  roundNearestEven (m / Double.quantum m) * Double.quantum m

/-- The double with the given sign nearest to the magnitude `m`; an infinity when the
rounded magnitude exceeds the largest finite double. -/
def Double.ofSignMagnitude (negative : Bool) (m : ℚ) : Double :=
  if DBL_MAX < Double.roundMagnitude m then .infinite negative
  else .finite negative (Double.roundMagnitude m)

/-- The double nearest to the rational `q`. -/
def Double.ofRat (q : ℚ) : Double :=
  Double.ofSignMagnitude (decide (q < 0)) |q|

/-- Negation `-a`. -/
def Double.neg : Double → Double
  | .finite negative magnitude => .finite (!negative) magnitude
  | .infinite negative => .infinite (!negative)
  | .nan => .nan

/-- Sum `a + b` of two doubles: the exact sum, rounded; infinities of opposite sign
give a NaN. -/
def Double.add : Double → Double → Double
  | .nan, _ => .nan
  | _, .nan => .nan
  | .infinite s, .infinite t => if s = t then .infinite s else .nan
  | .infinite s, .finite _ _ => .infinite s
  | .finite _ _, .infinite t => .infinite t
  | .finite s a, .finite t b =>
    let x := (Double.finite s a).toRat + (Double.finite t b).toRat
    if x = 0 then .finite (s && t) 0 else Double.ofSignMagnitude (decide (x < 0)) |x|

/-- Difference `a - b`. -/
def Double.sub (a b : Double) : Double :=
  a.add b.neg

/-- Product `a * b`: the exact product, rounded; zero times infinity is a NaN. -/
def Double.mul : Double → Double → Double
  | .nan, _ => .nan
  | _, .nan => .nan
  | .infinite s, .infinite t => .infinite (xor s t)
  | .infinite s, .finite t b => if b = 0 then .nan else .infinite (xor s t)
  | .finite s a, .infinite t => if a = 0 then .nan else .infinite (xor s t)
  | .finite s a, .finite t b => Double.ofSignMagnitude (xor s t) (a * b)

/-- Quotient `a / b`: the exact quotient, rounded; zero by zero and infinity by
infinity are a NaN, a non-zero value by zero is an infinity. -/
def Double.div : Double → Double → Double
  | .nan, _ => .nan
  | _, .nan => .nan
  | .infinite _, .infinite _ => .nan
  | .infinite s, .finite t _ => .infinite (xor s t)
  | .finite s _, .infinite t => .finite (xor s t) 0
  | .finite s a, .finite t b =>
    if b = 0 then (if a = 0 then .nan else .infinite (xor s t))
    else Double.ofSignMagnitude (xor s t) (a / b)

/-- The entries of a block in the order in which they are added: column by column, the
storage order of `Eigen::MatrixXd`.  The entry `(i, j)`, which the evaluation
loops assign as the product `weight * cost` of two doubles, is the double
nearest to the exact product that the embedding holds. -/
def MatrixXd.blockEntries (m : MatrixXd) (startRow startCol blockRows blockCols : Nat) :
    List Double :=
  (List.range blockCols).flatMap fun j =>
    (List.range blockRows).map fun i => Double.ofRat (m.coeff (startRow + i) (startCol + j))

/-- Sum of a list of doubles as a reduction makes it: the first entry, to which the
others are added one after the other; the sum of no entry is 0. -/
def Double.sum : List Double → Double
  | [] => .finite false 0
  | a :: rest => rest.foldl Double.add a

/-- Sum of a block in doubles: `m.block(startRow, startCol, blockRows, blockCols).sum()`. -/
def MatrixXd.blockSumDouble (m : MatrixXd) (startRow startCol blockRows blockCols : Nat) :
    Double :=
  Double.sum (m.blockEntries startRow startCol blockRows blockCols)

/-- The member `computeDerivatives(parameter_index, parameters, derivative_out, eps)`
(lines 239-256) with the arithmetic of its own statements in doubles: the
perturbed values `value + eps` and `value - eps`, the two sums of the block of
the cost matrix, their difference, `2 * eps` and the quotient.  `parameters` and
`eps` give the values of the doubles passed; the value returned is the array
`derivative_out` afterwards.  The trajectory store of the embedding holds
finite values: the result is `none` when a perturbed value is not finite. -/
def NewEvalManager.computeDerivativesDouble (env : Collaborators F T K)
    (cost_functions : List (TrajectoryCost (NewEvalManager F T K R)))
    (ref_evaluation_manager_ : Option (NewEvalManager F T K R))
    (self : NewEvalManager F T K R) (parameter_index : Nat) (parameters : Nat → ℚ)
    (derivative_out : Nat → Double) (eps : ℚ) :
    Option (Ret (NewEvalManager F T K R) (Nat → Double)) :=
  let num_cost_functions := getNumActiveCostFunctions cost_functions
  let value := Double.ofRat (parameters parameter_index)
  let eps := Double.ofRat eps
  if (value.add eps).isFinite && (value.sub eps).isFinite then
    let r1 := self.evaluateParameterPointItomp env cost_functions ref_evaluation_manager_
      (value.add eps).toRat parameter_index true
    let delta_plus := r1.mgr.evaluation_cost_matrix_.blockSumDouble r1.value.1 0
      (r1.value.2 - r1.value.1) num_cost_functions
    let r2 := r1.mgr.evaluateParameterPointItomp env cost_functions ref_evaluation_manager_
      (value.sub eps).toRat parameter_index false
    let delta_minus := r2.mgr.evaluation_cost_matrix_.blockSumDouble r2.value.1 0
      (r2.value.2 - r2.value.1) num_cost_functions
    let derivative_out := Function.update derivative_out parameter_index
      ((delta_plus.sub delta_minus).div ((Double.ofRat 2).mul eps))
    some
      { mgr := { r2.mgr with itomp_trajectory_ := env.restoreTrajectory r2.mgr.itomp_trajectory_ },
        value := derivative_out,
        calls := r1.calls ++ r2.calls ++ [Call.restoreTrajectory] }
  else none

/-- The sum `delta_plus` (or `delta_minus`) that `computeDerivatives` forms in doubles after
the call `evaluateParameterPointItomp(value, parameter_index, point_begin,
point_end, first)`: the sum of the block of the cost matrix over the range the
call reports. -/
def NewEvalManager.perturbedSumDouble (env : Collaborators F T K)
    (cost_functions : List (TrajectoryCost (NewEvalManager F T K R)))
    (ref_evaluation_manager_ : Option (NewEvalManager F T K R))
    (self : NewEvalManager F T K R) (value : ℚ) (parameter_index : Nat) (first : Bool) :
    Double :=
  let r := self.evaluateParameterPointItomp env cost_functions ref_evaluation_manager_ value
    parameter_index first
  r.mgr.evaluation_cost_matrix_.blockSumDouble r.value.1 0 (r.value.2 - r.value.1)
    (getNumActiveCostFunctions cost_functions)

end Analysis

/-! ## Loop rules -/

theorem forLoop_empty {σ : Type} (b e : Nat) (body : Nat → σ → σ) (s : σ) (h : e ≤ b) :
    forLoop b e body s = s := by
  simp [forLoop, Nat.sub_eq_zero_of_le h]

theorem forLoop_succ {σ : Type} (b e : Nat) (body : Nat → σ → σ) (s : σ) (h : b ≤ e) :
    forLoop b (e + 1) body s = body e (forLoop b e body s) := by
  have h1 : e + 1 - b = (e - b) + 1 := by omega
  have h2 : b + (e - b) = e := by omega
  simp [forLoop, h1, List.range'_concat, List.foldl_append, h2]

/-- Invariant rule for the counted loop. -/
theorem forLoop_inv {σ : Type} (P : Nat → σ → Prop) (b e : Nat) (body : Nat → σ → σ) (s : σ)
    (hbe : b ≤ e) (h0 : P b s)
    (hstep : ∀ i t, b ≤ i → i < e → P i t → P (i + 1) (body i t)) :
    P e (forLoop b e body s) := by
  induction e with
  | zero =>
    have hb : b = 0 := by omega
    subst hb
    simpa [forLoop] using h0
  | succ n ih =>
    rcases Nat.lt_or_ge n b with hlt | hge
    · have hb : b = n + 1 := by omega
      subst hb
      rw [forLoop_empty _ _ _ _ (Nat.le_refl _)]
      exact h0
    · rw [forLoop_succ _ _ _ _ hge]
      exact hstep n _ hge (Nat.lt_succ_self n)
        (ih hge (fun i t hbi hin hP => hstep i t hbi (Nat.lt_succ_of_lt hin) hP))

/-- A property kept by every iteration is kept by the counted loop. -/
theorem forLoop_preserves {σ : Type} (P : σ → Prop) (b e : Nat) (body : Nat → σ → σ) (s : σ)
    (h0 : P s) (hstep : ∀ i t, b ≤ i → i < e → P t → P (body i t)) :
    P (forLoop b e body s) := by
  rcases Nat.lt_or_ge e b with hlt | hge
  · rw [forLoop_empty _ _ _ _ (Nat.le_of_lt hlt)]
    exact h0
  · exact forLoop_inv (fun _ t => P t) b e body s hge h0 hstep

theorem forEachFrom_append {α σ : Type} (body : Nat → α → σ → σ) (xs ys : List α) (c : Nat)
    (s : σ) :
    forEachFrom body (xs ++ ys) c s = forEachFrom body ys (c + xs.length) (forEachFrom body xs c s) := by
  induction xs generalizing c s with
  | nil => simp [forEachFrom]
  | cons x xs ih =>
    show forEachFrom body (xs ++ ys) (c + 1) (body c x s) = _
    rw [ih]
    simp only [forEachFrom, List.length_cons]
    congr 1
    omega

/-- Invariant rule for the loop over a vector: `P k` holds of the state when the loop
reaches index `k`. -/
theorem forEachFrom_inv {α σ : Type} (P : Nat → σ → Prop) (body : Nat → α → σ → σ)
    (xs : List α) (s : σ) (h0 : P 0 s)
    (hstep : ∀ k x t, xs[k]? = some x → P k t → P (k + 1) (body k x t)) :
    P xs.length (forEachFrom body xs 0 s) := by
  suffices h : ∀ (ys zs : List α) (t : σ), xs = ys ++ zs → P ys.length t →
      P xs.length (forEachFrom body zs ys.length t) from h [] xs s rfl h0
  intro ys zs
  induction zs generalizing ys with
  | nil =>
    intro t hx hP
    simp only [List.append_nil] at hx
    subst hx
    simpa [forEachFrom] using hP
  | cons z zs ih =>
    intro t hx hP
    simp only [forEachFrom]
    have hx2 : xs = (ys ++ [z]) ++ zs := by simp [hx]
    have hz : xs[ys.length]? = some z := by
      rw [hx, List.getElem?_append_right (Nat.le_refl _)]
      simp
    have := ih (ys ++ [z]) (body ys.length z t) hx2
      (by simpa using hstep ys.length z t hz hP)
    simpa using this

/-! ## Analysis of `evaluatePointRange` -/

section EvaluateAnalysis

variable {F T K R : Type}

theorem SameExceptCost.rfl_same (m : NewEvalManager F T K R) : SameExceptCost m m := by
  cases m
  rfl

theorem SameExceptCost.trans_same {m1 m2 m3 : NewEvalManager F T K R}
    (h12 : SameExceptCost m1 m2) (h23 : SameExceptCost m2 m3) : SameExceptCost m1 m3 := by
  cases m1
  cases m2
  cases m3
  simp only [SameExceptCost, NewEvalManager.mk.injEq] at *
  simp_all

theorem SameExceptCost.of_setCost (m : NewEvalManager F T K R) (i c : Nat) (v : ℚ) :
    SameExceptCost m (m.setCost i c v) := by
  cases m
  rfl

theorem SameExceptCost.of_resetCostMatrix (m : NewEvalManager F T K R) (n : Nat) :
    SameExceptCost m (m.resetCostMatrix n) := by
  unfold NewEvalManager.resetCostMatrix
  split
  · cases m
    rfl
  · exact SameExceptCost.rfl_same m

/-- Effect of the inner loop of the evaluated branch. -/
theorem evaluateLoop_spec (cf : TrajectoryCost (NewEvalManager F T K R)) (c b e : Nat)
    (st : EvalState (NewEvalManager F T K R)) :
    (forLoop b e (evaluatePoint cf c) st).calls = st.calls ++ (List.range' b (e - b)).map
        (fun i => Call.evaluate c i (reported cf c b st i).2 (reported cf c b st i).1)
    ∧ (forLoop b e (evaluatePoint cf c) st).is_feasible
        = (st.is_feasible && (List.range' b (e - b)).all (fun i => (reported cf c b st i).1))
    ∧ SameExceptCost st.mgr (forLoop b e (evaluatePoint cf c) st).mgr
    ∧ (forLoop b e (evaluatePoint cf c) st).mgr.evaluation_cost_matrix_.rows
        = st.mgr.evaluation_cost_matrix_.rows
    ∧ (forLoop b e (evaluatePoint cf c) st).mgr.evaluation_cost_matrix_.cols
        = st.mgr.evaluation_cost_matrix_.cols
    ∧ ∀ i j, (forLoop b e (evaluatePoint cf c) st).mgr.evaluation_cost_matrix_.coeff i j
        = if j = c ∧ b ≤ i ∧ i < e then cf.weight * (reported cf c b st i).2
          else st.mgr.evaluation_cost_matrix_.coeff i j := by
  rcases Nat.lt_or_ge e b with hlt | hge
  · rw [forLoop_empty _ _ _ _ (Nat.le_of_lt hlt)]
    have h0 : e - b = 0 := by omega
    refine ⟨by simp [h0], by simp [h0], SameExceptCost.rfl_same _, rfl, rfl, ?_⟩
    intro i j
    have : ¬ (j = c ∧ b ≤ i ∧ i < e) := by omega
    simp [this]
  · induction e with
    | zero =>
      have hb : b = 0 := by omega
      subst hb
      refine ⟨by simp [forLoop], by simp [forLoop], SameExceptCost.rfl_same _, rfl, rfl, ?_⟩
      intro i j
      simp [forLoop]
    | succ n ih =>
      rcases Nat.lt_or_ge n b with hlt | hge2
      · have hb : b = n + 1 := by omega
        subst hb
        rw [forLoop_empty _ _ _ _ (Nat.le_refl _)]
        refine ⟨by simp, by simp, SameExceptCost.rfl_same _, rfl, rfl, ?_⟩
        intro i j
        have : ¬ (j = c ∧ n + 1 ≤ i ∧ i < n + 1) := by omega
        simp [this]
      · obtain ⟨h1, h2, h3, h4, h5, h6⟩ := ih hge2
        rw [forLoop_succ _ _ _ _ hge2]
        have hlen : n + 1 - b = (n - b) + 1 := by omega
        have hbn : b + (n - b) = n := by omega
        refine ⟨?_, ?_, ?_, ?_, ?_, ?_⟩
        · simp only [evaluatePoint, h1, hlen, List.range'_concat, List.map_append,
            List.append_assoc, List.map_cons, List.map_nil, Nat.one_mul, hbn]
          rfl
        · simp only [evaluatePoint, h2, hlen, List.range'_concat, List.all_append,
            List.all_cons, List.all_nil, Nat.one_mul, hbn, Bool.and_true, Bool.and_assoc]
          rfl
        · exact SameExceptCost.trans_same h3 (SameExceptCost.of_setCost _ _ _ _)
        · simpa [evaluatePoint, NewEvalManager.setCost, MatrixXd.set] using h4
        · simpa [evaluatePoint, NewEvalManager.setCost, MatrixXd.set] using h5
        · intro i j
          simp only [evaluatePoint, NewEvalManager.setCost, MatrixXd.set]
          by_cases hij : i = n ∧ j = c
          · obtain ⟨hi, hj⟩ := hij
            subst hi
            subst hj
            simp [hge2, reported]
          · rw [if_neg hij, h6 i j]
            by_cases hc : j = c ∧ b ≤ i ∧ i < n
            · have hc2 : j = c ∧ b ≤ i ∧ i < n + 1 := ⟨hc.1, hc.2.1, by omega⟩
              rw [if_pos hc, if_pos hc2]
            · have hc2 : ¬ (j = c ∧ b ≤ i ∧ i < n + 1) := by
                intro h
                apply hc
                refine ⟨h.1, h.2.1, ?_⟩
                rcases Nat.lt_or_ge i n with h3 | h3
                · exact h3
                · exact absurd ⟨by omega, h.1⟩ hij
              rw [if_neg hc, if_neg hc2]

/-- Effect of the inner loop of the invariant branch. -/
theorem zeroLoop_spec (c b e : Nat) (st : EvalState (NewEvalManager F T K R)) :
    (forLoop b e (zeroPoint c) st).calls = st.calls
    ∧ (forLoop b e (zeroPoint c) st).is_feasible = st.is_feasible
    ∧ SameExceptCost st.mgr (forLoop b e (zeroPoint c) st).mgr
    ∧ (forLoop b e (zeroPoint c) st).mgr.evaluation_cost_matrix_.rows
        = st.mgr.evaluation_cost_matrix_.rows
    ∧ (forLoop b e (zeroPoint c) st).mgr.evaluation_cost_matrix_.cols
        = st.mgr.evaluation_cost_matrix_.cols
    ∧ ∀ i j, (forLoop b e (zeroPoint c) st).mgr.evaluation_cost_matrix_.coeff i j
        = if j = c ∧ b ≤ i ∧ i < e then 0 else st.mgr.evaluation_cost_matrix_.coeff i j := by
  rcases Nat.lt_or_ge e b with hlt | hge
  · rw [forLoop_empty _ _ _ _ (Nat.le_of_lt hlt)]
    refine ⟨rfl, rfl, SameExceptCost.rfl_same _, rfl, rfl, ?_⟩
    intro i j
    have : ¬ (j = c ∧ b ≤ i ∧ i < e) := by omega
    simp [this]
  · refine forLoop_inv (fun k t => t.calls = st.calls ∧ t.is_feasible = st.is_feasible
        ∧ SameExceptCost st.mgr t.mgr
        ∧ t.mgr.evaluation_cost_matrix_.rows = st.mgr.evaluation_cost_matrix_.rows
        ∧ t.mgr.evaluation_cost_matrix_.cols = st.mgr.evaluation_cost_matrix_.cols
        ∧ ∀ i j, t.mgr.evaluation_cost_matrix_.coeff i j
            = if j = c ∧ b ≤ i ∧ i < k then 0 else st.mgr.evaluation_cost_matrix_.coeff i j)
      b e (zeroPoint c) st hge ?_ ?_
    · refine ⟨rfl, rfl, SameExceptCost.rfl_same _, rfl, rfl, ?_⟩
      intro i j
      have : ¬ (j = c ∧ b ≤ i ∧ i < b) := by omega
      simp [this]
    · rintro k t hbk hke ⟨h1, h2, h3, h4, h5, h6⟩
      refine ⟨h1, h2, SameExceptCost.trans_same h3 (SameExceptCost.of_setCost _ _ _ _), h4, h5, ?_⟩
      intro i j
      simp only [zeroPoint, NewEvalManager.setCost, MatrixXd.set]
      by_cases hij : i = k ∧ j = c
      · obtain ⟨hi, hj⟩ := hij
        subst hi
        subst hj
        simp [hbk]
      · rw [if_neg hij, h6 i j]
        by_cases hc : j = c ∧ b ≤ i ∧ i < k
        · have hc2 : j = c ∧ b ≤ i ∧ i < k + 1 := ⟨hc.1, hc.2.1, by omega⟩
          rw [if_pos hc, if_pos hc2]
        · have hc2 : ¬ (j = c ∧ b ≤ i ∧ i < k + 1) := by
            intro h
            apply hc
            refine ⟨h.1, h.2.1, ?_⟩
            rcases Nat.lt_or_ge i k with h3 | h3
            · exact h3
            · exact absurd ⟨by omega, h.1⟩ hij
          rw [if_neg hc, if_neg hc2]

theorem mem_evaluateCalls (c b e : Nat) (rep : Nat → Bool × ℚ) (ev : Call) :
    ev ∈ evaluateCalls c b e rep ↔
      ∃ i, b ≤ i ∧ i < e ∧ ev = Call.evaluate c i (rep i).2 (rep i).1 := by
  simp only [evaluateCalls, List.mem_map, List.mem_range'_1]
  constructor
  · rintro ⟨i, ⟨hb, he⟩, rfl⟩
    exact ⟨i, hb, by omega, rfl⟩
  · rintro ⟨i, hb, he, rfl⟩
    exact ⟨i, ⟨hb, by omega⟩, rfl⟩

theorem evaluateCalls_all_feasible (c b e : Nat) (rep : Nat → Bool × ℚ) :
    (evaluateCalls c b e rep).all Call.feasible
      = (List.range' b (e - b)).all (fun i => (rep i).1) := by
  unfold evaluateCalls
  induction List.range' b (e - b) with
  | nil => rfl
  | cons x xs ih => simp [List.all_cons, Call.feasible, ih]

/-- Effect of one iteration of the loop over cost functions of the overload with an
index: the invariance query and then either branch. -/
theorem evaluateCostFunction_spec (b e : Nat) (index : ItompTrajectoryIndex) (c : Nat)
    (cf : TrajectoryCost (NewEvalManager F T K R)) (st : EvalState (NewEvalManager F T K R)) :
    ∃ rep : Nat → Bool × ℚ,
      (evaluateCostFunction b e index c cf st).calls
          = st.calls ++ Call.isInvariant c index (cf.isInvariant st.mgr index)
              :: (if cf.isInvariant st.mgr index then [] else evaluateCalls c b e rep)
      ∧ (evaluateCostFunction b e index c cf st).is_feasible
          = (st.is_feasible &&
              (if cf.isInvariant st.mgr index then [] else evaluateCalls c b e rep).all
                Call.feasible)
      ∧ SameExceptCost st.mgr (evaluateCostFunction b e index c cf st).mgr
      ∧ (evaluateCostFunction b e index c cf st).mgr.evaluation_cost_matrix_.rows
          = st.mgr.evaluation_cost_matrix_.rows
      ∧ (evaluateCostFunction b e index c cf st).mgr.evaluation_cost_matrix_.cols
          = st.mgr.evaluation_cost_matrix_.cols
      ∧ (∀ i j, (evaluateCostFunction b e index c cf st).mgr.evaluation_cost_matrix_.coeff i j
          = if j = c ∧ b ≤ i ∧ i < e then
              (if cf.isInvariant st.mgr index then 0 else cf.weight * (rep i).2)
            else st.mgr.evaluation_cost_matrix_.coeff i j)
      ∧ (∀ i, ∃ m, SameExceptCost st.mgr m ∧ cf.evaluate m i = rep i) := by
  by_cases hinv : cf.isInvariant st.mgr index = true
  · refine ⟨fun i => cf.evaluate st.mgr i, ?_⟩
    obtain ⟨h1, h2, h3, h4, h5, h6⟩ := zeroLoop_spec c b e
      ({ st with calls := st.calls ++ [Call.isInvariant c index (cf.isInvariant st.mgr index)] } :
        EvalState (NewEvalManager F T K R))
    simp only [evaluateCostFunction, hinv, if_true]
    rw [hinv] at h1 h2 h3 h4 h5 h6
    refine ⟨by simpa using h1, by simpa using h2, h3, h4, h5, ?_, ?_⟩
    · intro i j
      rw [h6 i j]
    · intro i
      exact ⟨st.mgr, SameExceptCost.rfl_same _, rfl⟩
  · have hinv2 : cf.isInvariant st.mgr index = false := by simpa using hinv
    refine ⟨reported cf c b
      ({ st with calls := st.calls ++ [Call.isInvariant c index false] } :
        EvalState (NewEvalManager F T K R)), ?_⟩
    obtain ⟨h1, h2, h3, h4, h5, h6⟩ := evaluateLoop_spec cf c b e
      ({ st with calls := st.calls ++ [Call.isInvariant c index false] } :
        EvalState (NewEvalManager F T K R))
    simp only [evaluateCostFunction, hinv2, if_false, Bool.false_eq_true]
    refine ⟨?_, ?_, h3, h4, h5, ?_, ?_⟩
    · rw [h1]
      simp [evaluateCalls]
    · rw [h2, evaluateCalls_all_feasible]
    · intro i j
      rw [h6 i j]
    · intro i
      refine ⟨_, ?_, rfl⟩
      exact (evaluateLoop_spec cf c b i
        ({ st with calls := st.calls ++ [Call.isInvariant c index false] } :
          EvalState (NewEvalManager F T K R))).2.2.1

theorem RangeInv.initIndex (cfs : List (TrajectoryCost (NewEvalManager F T K R)))
    (self0 : NewEvalManager F T K R) (b e : Nat) (index : ItompTrajectoryIndex) :
    RangeInv cfs self0 b e index 0 { mgr := self0, is_feasible := true, calls := [] } where
  same := SameExceptCost.rfl_same _
  rows := rfl
  cols := rfl
  frame := fun _ _ _ => rfl
  feasible := rfl
  shape := fun _ h => absurd h (List.not_mem_nil _)
  asked := fun _ h => absurd h (Nat.not_lt_zero _)
  skipped := fun _ _ h => absurd h (List.not_mem_nil _)
  evaluated := fun _ _ _ _ h => absurd h (List.not_mem_nil _)
  genuineEvaluate := fun _ _ _ _ h => absurd h (List.not_mem_nil _)
  genuineInvariant := fun _ _ h => absurd h (List.not_mem_nil _)

theorem RangeInv.stepIndex {cfs : List (TrajectoryCost (NewEvalManager F T K R))}
    {self0 : NewEvalManager F T K R} {b e : Nat} {index : ItompTrajectoryIndex} {c : Nat}
    {st : EvalState (NewEvalManager F T K R)} (inv : RangeInv cfs self0 b e index c st)
    (cf : TrajectoryCost (NewEvalManager F T K R)) (hcf : cfs[c]? = some cf) :
    RangeInv cfs self0 b e index (c + 1) (evaluateCostFunction b e index c cf st) := by
  obtain ⟨rep, hcalls, hfeas, hsame, hrows, hcols, hcoeff, hgen⟩ :=
    evaluateCostFunction_spec b e index c cf st
  have hmem : ∀ ev, ev ∈ (evaluateCostFunction b e index c cf st).calls ↔
      ev ∈ st.calls ∨ ev = Call.isInvariant c index (cf.isInvariant st.mgr index) ∨
        (cf.isInvariant st.mgr index = false ∧
          ∃ i, b ≤ i ∧ i < e ∧ ev = Call.evaluate c i (rep i).2 (rep i).1) := by
    intro ev
    rw [hcalls]
    cases hr : cf.isInvariant st.mgr index <;>
      simp [mem_evaluateCalls]
  have hold : ∀ ev, ev ∈ st.calls → ev ∈ (evaluateCostFunction b e index c cf st).calls :=
    fun ev h => (hmem ev).2 (Or.inl h)
  have noInv : ∀ r, Call.isInvariant c index r ∉ st.calls := by
    intro r h
    rcases inv.shape _ h with ⟨j, r2, hj, heq⟩ | ⟨j, i, cost, feas, hj, _, _, heq⟩
    · injection heq with h1
      omega
    · cases heq
  have noEval : ∀ i cost feas, Call.evaluate c i cost feas ∉ st.calls := by
    intro i cost feas h
    rcases inv.shape _ h with ⟨j, r2, hj, heq⟩ | ⟨j, i2, cost2, feas2, hj, _, _, heq⟩
    · cases heq
    · injection heq with h1
      omega
  have oldInv : ∀ j r, Call.isInvariant j index r ∈ st.calls → j < c := by
    intro j r h
    rcases inv.shape _ h with ⟨j2, r2, hj, heq⟩ | ⟨j2, i, cost, feas, hj, _, _, heq⟩
    · injection heq with h1
      omega
    · cases heq
  have oldEval : ∀ j i cost feas, Call.evaluate j i cost feas ∈ st.calls → j < c := by
    intro j i cost feas h
    rcases inv.shape _ h with ⟨j2, r2, hj, heq⟩ | ⟨j2, i2, cost2, feas2, hj, _, _, heq⟩
    · cases heq
    · injection heq with h1
      omega
  have hother : ∀ i j, j ≠ c →
      (evaluateCostFunction b e index c cf st).mgr.evaluation_cost_matrix_.coeff i j
        = st.mgr.evaluation_cost_matrix_.coeff i j := by
    intro i j hj
    rw [hcoeff i j, if_neg (fun h => hj h.1)]
  refine ⟨SameExceptCost.trans_same inv.same hsame, hrows.trans inv.rows, hcols.trans inv.cols,
    ?_, ?_, ?_, ?_, ?_, ?_, ?_, ?_⟩
  · -- frame
    intro i j hij
    rw [hcoeff i j]
    have h1 : ¬ (j = c ∧ b ≤ i ∧ i < e) := fun h => hij ⟨by omega, h.2⟩
    rw [if_neg h1]
    exact inv.frame i j (fun h => hij ⟨by omega, h.2⟩)
  · -- feasible
    rw [hfeas, hcalls, inv.feasible]
    simp [List.all_append, Call.feasible]
  · -- shape
    intro ev hev
    rcases (hmem ev).1 hev with h | h | ⟨_, i, hb, he, h⟩
    · rcases inv.shape ev h with ⟨j, r, hj, heq⟩ | ⟨j, i, cost, feas, hj, hb, he, heq⟩
      · exact Or.inl ⟨j, r, by omega, heq⟩
      · exact Or.inr ⟨j, i, cost, feas, by omega, hb, he, heq⟩
    · exact Or.inl ⟨c, _, by omega, h⟩
    · exact Or.inr ⟨c, i, _, _, by omega, hb, he, h⟩
  · -- asked
    intro j hj
    rcases Nat.lt_or_ge j c with hlt | hge
    · obtain ⟨r, hr, huniq⟩ := inv.asked j hlt
      refine ⟨r, hold _ hr, ?_⟩
      intro r2 h2
      rcases (hmem _).1 h2 with h | h | ⟨_, i, _, _, h⟩
      · exact huniq r2 h
      · injection h with h1
        omega
      · cases h
    · have hjc : j = c := by omega
      subst hjc
      refine ⟨cf.isInvariant st.mgr index, (hmem _).2 (Or.inr (Or.inl rfl)), ?_⟩
      intro r2 h2
      rcases (hmem _).1 h2 with h | h | ⟨_, i, _, _, h⟩
      · exact absurd h (noInv r2)
      · injection h
      · cases h
  · -- skipped
    intro j i hin hb he
    rcases (hmem _).1 hin with h | h | ⟨_, i2, _, _, h⟩
    · have hj := oldInv j _ h
      rw [hother i j (by omega)]
      exact inv.skipped j i h hb he
    · injection h with h1 _ h3
      subst h1
      rw [hcoeff i j, if_pos ⟨rfl, hb, he⟩, ← h3]
      rfl
    · cases h
  · -- evaluated
    intro j cf2 i hcf2 hin hb he
    rcases (hmem _).1 hin with h | h | ⟨_, i2, _, _, h⟩
    · have hj := oldInv j _ h
      obtain ⟨cost, feas, hc1, hc2, hc3⟩ := inv.evaluated j cf2 i hcf2 h hb he
      refine ⟨cost, feas, hold _ hc1, ?_, ?_⟩
      · intro cost2 feas2 h2
        rcases (hmem _).1 h2 with h3 | h3 | ⟨_, i3, _, _, h3⟩
        · exact hc2 cost2 feas2 h3
        · cases h3
        · injection h3 with h4
          omega
      · rw [hother i j (by omega)]
        exact hc3
    · injection h with h1 _ h3
      subst h1
      have hcfeq : cf2 = cf := by
        rw [hcf] at hcf2
        exact (Option.some.inj hcf2).symm
      subst hcfeq
      refine ⟨(rep i).2, (rep i).1, (hmem _).2 (Or.inr (Or.inr ⟨h3.symm, i, hb, he, rfl⟩)), ?_, ?_⟩
      · intro cost2 feas2 h2
        rcases (hmem _).1 h2 with h4 | h4 | ⟨_, i3, _, _, h4⟩
        · exact absurd h4 (noEval _ _ _)
        · cases h4
        · injection h4 with _ h5 h6 h7
          subst h5
          exact ⟨h6, h7⟩
      · rw [hcoeff i j, if_pos ⟨rfl, hb, he⟩, ← h3]
        rfl
    · cases h
  · -- genuineEvaluate
    intro j i cost feas hin
    rcases (hmem _).1 hin with h | h | ⟨hr, i2, hb, he, h⟩
    · obtain ⟨h1, cf2, m, h2, h3, h4⟩ := inv.genuineEvaluate j i cost feas h
      exact ⟨hold _ h1, cf2, m, h2, h3, h4⟩
    · cases h
    · injection h with h1 h2 h3 h4
      subst h1
      subst h2
      refine ⟨(hmem _).2 (Or.inr (Or.inl (by rw [hr]))), cf, ?_⟩
      obtain ⟨m, hm1, hm2⟩ := hgen i
      refine ⟨m, hcf, SameExceptCost.trans_same inv.same hm1, ?_⟩
      rw [hm2, h3, h4]
  · -- genuineInvariant
    intro j r hin
    rcases (hmem _).1 hin with h | h | ⟨_, i2, _, _, h⟩
    · exact inv.genuineInvariant j r h
    · injection h with h1 _ h3
      subst h1
      exact ⟨cf, st.mgr, hcf, inv.same, h3.symm⟩
    · cases h

/-- The invariant holds when the loops of the overload with an index are left. -/
theorem evaluatePointRangeLoops_inv (cfs : List (TrajectoryCost (NewEvalManager F T K R)))
    (self : NewEvalManager F T K R) (b e : Nat) (index : ItompTrajectoryIndex) :
    RangeInv cfs (self.resetCostMatrix cfs.length) b e index cfs.length
      (self.evaluatePointRangeLoops cfs b e index) :=
  forEachFrom_inv (fun c st => RangeInv cfs (self.resetCostMatrix cfs.length) b e index c st)
    (evaluateCostFunction b e index) cfs _ (RangeInv.initIndex _ _ _ _ _)
    (fun _ x _ hx hP => hP.stepIndex x hx)

theorem LegacyInv.initLegacy (cfs : List (TrajectoryCost (NewEvalManager F T K R)))
    (self0 : NewEvalManager F T K R) (b e : Nat) :
    LegacyInv cfs self0 b e 0 { mgr := self0, is_feasible := true, calls := [] } where
  same := SameExceptCost.rfl_same _
  rows := rfl
  cols := rfl
  frame := fun _ _ _ => rfl
  feasible := rfl
  shape := fun _ h => absurd h (List.not_mem_nil _)
  evaluated := fun _ _ _ _ h => absurd h (Nat.not_lt_zero _)
  genuineEvaluate := fun _ _ _ _ h => absurd h (List.not_mem_nil _)

theorem LegacyInv.stepLegacy {cfs : List (TrajectoryCost (NewEvalManager F T K R))}
    {self0 : NewEvalManager F T K R} {b e : Nat} {c : Nat}
    {st : EvalState (NewEvalManager F T K R)} (inv : LegacyInv cfs self0 b e c st)
    (cf : TrajectoryCost (NewEvalManager F T K R)) (hcf : cfs[c]? = some cf) :
    LegacyInv cfs self0 b e (c + 1) (evaluateCostFunctionLegacy b e c cf st) := by
  obtain ⟨hcalls, hfeas, hsame, hrows, hcols, hcoeff⟩ := evaluateLoop_spec cf c b e st
  have hmem : ∀ ev, ev ∈ (evaluateCostFunctionLegacy b e c cf st).calls ↔
      ev ∈ st.calls ∨ ∃ i, b ≤ i ∧ i < e ∧
        ev = Call.evaluate c i (reported cf c b st i).2 (reported cf c b st i).1 := by
    intro ev
    show ev ∈ (forLoop b e (evaluatePoint cf c) st).calls ↔ _
    rw [hcalls, List.mem_append]
    exact or_congr Iff.rfl (mem_evaluateCalls c b e (reported cf c b st) ev)
  have hold : ∀ ev, ev ∈ st.calls → ev ∈ (evaluateCostFunctionLegacy b e c cf st).calls :=
    fun ev h => (hmem ev).2 (Or.inl h)
  have oldEval : ∀ j i cost feas, Call.evaluate j i cost feas ∈ st.calls → j < c := by
    intro j i cost feas h
    obtain ⟨j2, i2, cost2, feas2, hj, _, _, heq⟩ := inv.shape _ h
    injection heq with h1
    omega
  have hother : ∀ i j, j ≠ c →
      (evaluateCostFunctionLegacy b e c cf st).mgr.evaluation_cost_matrix_.coeff i j
        = st.mgr.evaluation_cost_matrix_.coeff i j := by
    intro i j hj
    show (forLoop b e (evaluatePoint cf c) st).mgr.evaluation_cost_matrix_.coeff i j = _
    rw [hcoeff i j, if_neg (fun h => hj h.1)]
  refine ⟨SameExceptCost.trans_same inv.same hsame, hrows.trans inv.rows, hcols.trans inv.cols,
    ?_, ?_, ?_, ?_, ?_⟩
  · intro i j hij
    show (forLoop b e (evaluatePoint cf c) st).mgr.evaluation_cost_matrix_.coeff i j = _
    rw [hcoeff i j]
    have h1 : ¬ (j = c ∧ b ≤ i ∧ i < e) := fun h => hij ⟨by omega, h.2⟩
    rw [if_neg h1]
    exact inv.frame i j (fun h => hij ⟨by omega, h.2⟩)
  · show (forLoop b e (evaluatePoint cf c) st).is_feasible
      = (forLoop b e (evaluatePoint cf c) st).calls.all Call.feasible
    rw [hfeas, hcalls, inv.feasible, List.all_append]
    congr 1
    exact (evaluateCalls_all_feasible c b e (reported cf c b st)).symm
  · intro ev hev
    rcases (hmem ev).1 hev with h | ⟨i, hb, he, h⟩
    · obtain ⟨j, i, cost, feas, hj, hb, he, heq⟩ := inv.shape ev h
      exact ⟨j, i, cost, feas, by omega, hb, he, heq⟩
    · exact ⟨c, i, _, _, by omega, hb, he, h⟩
  · intro j cf2 i hcf2 hj hb he
    rcases Nat.lt_or_ge j c with hlt | hge
    · obtain ⟨cost, feas, hc1, hc2, hc3⟩ := inv.evaluated j cf2 i hcf2 hlt hb he
      refine ⟨cost, feas, hold _ hc1, ?_, ?_⟩
      · intro cost2 feas2 h2
        rcases (hmem _).1 h2 with h3 | ⟨i3, _, _, h3⟩
        · exact hc2 cost2 feas2 h3
        · injection h3 with h4
          omega
      · rw [hother i j (by omega)]
        exact hc3
    · have hjc : j = c := by omega
      subst hjc
      have hcfeq : cf2 = cf := by
        rw [hcf] at hcf2
        exact (Option.some.inj hcf2).symm
      subst hcfeq
      refine ⟨(reported cf2 j b st i).2, (reported cf2 j b st i).1,
        (hmem _).2 (Or.inr ⟨i, hb, he, rfl⟩), ?_, ?_⟩
      · intro cost2 feas2 h2
        rcases (hmem _).1 h2 with h4 | ⟨i3, _, _, h4⟩
        · exact absurd (oldEval _ _ _ _ h4) (Nat.lt_irrefl _)
        · injection h4 with _ h5 h6 h7
          subst h5
          exact ⟨h6, h7⟩
      · show (forLoop b e (evaluatePoint cf2 j) st).mgr.evaluation_cost_matrix_.coeff i j = _
        rw [hcoeff i j, if_pos ⟨rfl, hb, he⟩]
  · intro j i cost feas hin
    rcases (hmem _).1 hin with h | ⟨i2, hb, he, h⟩
    · exact inv.genuineEvaluate j i cost feas h
    · injection h with h1 h2 h3 h4
      subst h1
      subst h2
      refine ⟨cf, (forLoop b i (evaluatePoint cf j) st).mgr, hcf,
        SameExceptCost.trans_same inv.same (evaluateLoop_spec cf j b i st).2.2.1, ?_⟩
      show reported cf j b st i = (feas, cost)
      rw [h3, h4]

/-- The invariant holds when the loops of the `(type, element)` overload are left. -/
theorem evaluatePointRangeLegacyLoops_inv
    (cfs : List (TrajectoryCost (NewEvalManager F T K R)))
    (self : NewEvalManager F T K R) (b e : Nat) :
    LegacyInv cfs (self.resetCostMatrix cfs.length) b e cfs.length
      (self.evaluatePointRangeLegacyLoops cfs b e) :=
  forEachFrom_inv (fun c st => LegacyInv cfs (self.resetCostMatrix cfs.length) b e c st)
    (evaluateCostFunctionLegacy b e) cfs _ (LegacyInv.initLegacy _ _ _ _)
    (fun _ x _ hx hP => hP.stepLegacy x hx)

theorem resetCostMatrix_of_cols (self : NewEvalManager F T K R) (n : Nat)
    (h : self.evaluation_cost_matrix_.cols = n) : self.resetCostMatrix n = self := by
  simp [NewEvalManager.resetCostMatrix, h]

theorem resetCostMatrix_rows (self : NewEvalManager F T K R) (n : Nat) :
    (self.resetCostMatrix n).evaluation_cost_matrix_.rows = self.evaluation_cost_matrix_.rows := by
  unfold NewEvalManager.resetCostMatrix
  split <;> rfl

theorem resetCostMatrix_cols (self : NewEvalManager F T K R) (n : Nat) :
    (self.resetCostMatrix n).evaluation_cost_matrix_.cols = n := by
  unfold NewEvalManager.resetCostMatrix
  split
  · rfl
  · rename_i h
    exact (not_not.mp h).symm

end EvaluateAnalysis

/-! ## Frame of the propagation -/

section PropagationFrame

variable {F T K R : Type}

theorem SameExceptDynamics.rfl_dyn (m : NewEvalManager F T K R) : SameExceptDynamics m m := by
  cases m
  rfl

theorem SameExceptDynamics.trans_dyn {m1 m2 m3 : NewEvalManager F T K R}
    (h12 : SameExceptDynamics m1 m2) (h23 : SameExceptDynamics m2 m3) :
    SameExceptDynamics m1 m3 := by
  cases m1
  cases m2
  cases m3
  simp only [SameExceptDynamics, NewEvalManager.mk.injEq] at *
  simp_all

theorem SameExceptDynamics.of_fields (m : NewEvalManager F T K R)
    (a : StdVector (Model K)) (b : StdVector (List ℚ)) (c : StdVector (StdVector SpatialVector))
    (d : StdVector (StdVector ContactVariables)) :
    SameExceptDynamics m
      { m with
        rbdl_models_ := a
        joint_torques_ := b
        external_forces_ := c
        contact_variables_ := d } := by
  cases m
  rfl

theorem computeContactVariables_frame (env : Collaborators F T K)
    (fromTrajectory : StdVector ContactVariables → StdVector ContactVariables)
    (self : NewEvalManager F T K R) (point : Nat) :
    SameExceptDynamics self (computeContactVariables env fromTrajectory self point) := by
  unfold computeContactVariables
  apply forLoop_preserves (fun t => SameExceptDynamics self t)
  · exact SameExceptDynamics.of_fields self _ _ _ _
  · intro i t _ _ ht
    exact ht.trans_dyn (SameExceptDynamics.of_fields t _ _ _ _)

theorem computeExternalForces_frame (env : Collaborators F T K)
    (self : NewEvalManager F T K R) (point : Nat) :
    SameExceptDynamics self (computeExternalForces env self point) := by
  unfold computeExternalForces
  apply forLoop_preserves (fun t => SameExceptDynamics self t)
  · exact SameExceptDynamics.rfl_dyn self
  · intro i t _ _ ht
    apply forLoop_preserves (fun t => SameExceptDynamics self t)
    · exact ht
    · intro c u _ _ hu
      exact hu.trans_dyn (SameExceptDynamics.of_fields u _ _ _ _)

theorem storeDynamics_frame (self : NewEvalManager F T K R) (point : Nat)
    (r : Model K × List ℚ) : SameExceptDynamics self (self.storeDynamics point r) :=
  SameExceptDynamics.of_fields self _ _ _ _

theorem performFull_frame (env : Collaborators F T K) (self : NewEvalManager F T K R)
    (point_begin point_end : Nat) :
    SameExceptDynamics self
      (self.performFullForwardKinematicsAndDynamics env point_begin point_end) := by
  unfold NewEvalManager.performFullForwardKinematicsAndDynamics
  apply forLoop_preserves (fun t => SameExceptDynamics self t)
  · exact SameExceptDynamics.rfl_dyn self
  · intro i t _ _ ht
    exact ((ht.trans_dyn (computeContactVariables_frame env _ t i)).trans_dyn
      (computeExternalForces_frame env _ i)).trans_dyn (storeDynamics_frame _ _ _)

theorem performPartial_frame (env : Collaborators F T K)
    (ref : Option (NewEvalManager F T K R)) (self : NewEvalManager F T K R)
    (point_begin point_end : Nat) (index : ItompTrajectoryIndex) :
    SameExceptDynamics self
      (self.performPartialForwardKinematicsAndDynamics env ref point_begin point_end index) := by
  unfold NewEvalManager.performPartialForwardKinematicsAndDynamics
  apply forLoop_preserves (fun t => SameExceptDynamics self t)
  · apply forLoop_preserves (fun t => SameExceptDynamics self t)
    · exact SameExceptDynamics.rfl_dyn self
    · intro i t _ _ ht
      exact ht.trans_dyn (SameExceptDynamics.of_fields t _ _ _ _)
  · intro i t _ _ ht
    dsimp only
    split
    · exact ((ht.trans_dyn (computeContactVariables_frame env _ t i)).trans_dyn
        (computeExternalForces_frame env _ i)).trans_dyn (storeDynamics_frame _ _ _)
    · exact (ht.trans_dyn (SameExceptDynamics.of_fields t _ _ _ _)).trans_dyn
        (storeDynamics_frame _ _ _)

theorem performPartialLegacy_frame (env : Collaborators F T K)
    (ref : Option (NewEvalManager F T K R)) (self : NewEvalManager F T K R)
    (point_begin point_end : Nat) (parameter_element : Nat) :
    SameExceptDynamics self
      (self.performPartialForwardKinematicsAndDynamicsLegacy env ref point_begin point_end
        parameter_element) := by
  unfold NewEvalManager.performPartialForwardKinematicsAndDynamicsLegacy
  split
  · exact SameExceptDynamics.rfl_dyn self
  · apply forLoop_preserves (fun t => SameExceptDynamics self t)
    · apply forLoop_preserves (fun t => SameExceptDynamics self t)
      · exact SameExceptDynamics.rfl_dyn self
      · intro i t _ _ ht
        exact ht.trans_dyn (SameExceptDynamics.of_fields t _ _ _ _)
    · intro i t _ _ ht
      dsimp only
      split
      · exact ((ht.trans_dyn (computeContactVariables_frame env _ t i)).trans_dyn
          (computeExternalForces_frame env _ i)).trans_dyn (storeDynamics_frame _ _ _)
      · exact (ht.trans_dyn (SameExceptDynamics.of_fields t _ _ _ _)).trans_dyn
          (storeDynamics_frame _ _ _)

end PropagationFrame

/-! ## Sums of matrix blocks -/

theorem list_range_map_sum (n : Nat) (f : Nat → ℚ) :
    ((List.range n).map f).sum = ∑ i in Finset.range n, f i := by
  induction n with
  | zero => simp
  | succ n ih => simp [List.range_succ, Finset.sum_range_succ, ih]

theorem blockSum_eq_sum (m : MatrixXd) (startRow startCol blockRows blockCols : Nat) :
    m.blockSum startRow startCol blockRows blockCols
      = ∑ i in Finset.range blockRows, ∑ j in Finset.range blockCols,
          m.coeff (startRow + i) (startCol + j) := by
  unfold MatrixXd.blockSum
  rw [list_range_map_sum]
  exact Finset.sum_congr rfl (fun i _ => list_range_map_sum _ _)

/-- The block of the rows `[b, e)` and the first `n` columns, as a sum over the points
of the range. -/
theorem blockSum_range (m : MatrixXd) (b e n : Nat) :
    m.blockSum b 0 (e - b) n
      = ∑ i in Finset.Ico b e, ∑ j in Finset.range n, m.coeff i j := by
  rw [blockSum_eq_sum]
  rcases Nat.lt_or_ge e b with hlt | hge
  · have h0 : e - b = 0 := by omega
    simp [h0, Finset.Ico_eq_empty_of_le (Nat.le_of_lt hlt)]
  · rw [Finset.sum_Ico_eq_sum_range]
    simp

/-- The block of the rows `[b, e)` of the single column `j`. -/
theorem blockSum_column (m : MatrixXd) (b e j : Nat) :
    m.blockSum b j (e - b) 1 = ∑ i in Finset.Ico b e, m.coeff i j := by
  rw [blockSum_eq_sum]
  rcases Nat.lt_or_ge e b with hlt | hge
  · have h0 : e - b = 0 := by omega
    simp [h0, Finset.Ico_eq_empty_of_le (Nat.le_of_lt hlt)]
  · rw [Finset.sum_Ico_eq_sum_range]
    simp

/-! ## Claims on `evaluatePointRange` -/

section EvaluateClaims

variable {F T K R : Type}

/-- C1: for a call of `evaluatePointRange(point_begin, point_end, cost_matrix, index)` on a
matrix that already has one column per registered cost function, for every
cost function `c` whose invariance query answered `false` (the call
`isInvariant(this, index)` made on it, on a manager that differs from the one at
entry at most in the cost matrix) and every point `i` of the range, `evaluate`
is called exactly once on `(c, i)`, again on such a manager, and afterwards
`cost_matrix(i, c)` is `weight(c)` times the cost that call reported.  The
`(type, element)` overload does the same for every cost function. -/
theorem evaluatePointRange_writes_weighted_cost
    (cfs : List (TrajectoryCost (NewEvalManager F T K R))) (self : NewEvalManager F T K R)
    (point_begin point_end : Nat) (index : ItompTrajectoryIndex)
    (hcols : self.evaluation_cost_matrix_.cols = cfs.length)
    (c : Nat) (hc : c < cfs.length) (i : Nat) (hb : point_begin ≤ i) (he : i < point_end) :
    (Call.isInvariant c index false ∈
        (self.evaluatePointRange cfs point_begin point_end index).calls →
      (∃ m, SameExceptCost self m ∧ cfs[c].isInvariant m index = false) ∧
      ∃ cost feasible,
        Call.evaluate c i cost feasible ∈
          (self.evaluatePointRange cfs point_begin point_end index).calls ∧
        (∀ cost2 feasible2, Call.evaluate c i cost2 feasible2 ∈
          (self.evaluatePointRange cfs point_begin point_end index).calls →
            cost2 = cost ∧ feasible2 = feasible) ∧
        (∃ m, SameExceptCost self m ∧ cfs[c].evaluate m i = (feasible, cost)) ∧
        (self.evaluatePointRange cfs point_begin point_end
          index).mgr.evaluation_cost_matrix_.coeff i c = cfs[c].weight * cost) ∧
    (∃ cost feasible,
        Call.evaluate c i cost feasible ∈
          (self.evaluatePointRangeLegacy cfs point_begin point_end).calls ∧
        (∀ cost2 feasible2, Call.evaluate c i cost2 feasible2 ∈
          (self.evaluatePointRangeLegacy cfs point_begin point_end).calls →
            cost2 = cost ∧ feasible2 = feasible) ∧
        (∃ m, SameExceptCost self m ∧ cfs[c].evaluate m i = (feasible, cost)) ∧
        (self.evaluatePointRangeLegacy cfs point_begin
          point_end).mgr.evaluation_cost_matrix_.coeff i c = cfs[c].weight * cost) := by
  have hget : cfs[c]? = some cfs[c] := List.getElem?_eq_getElem hc
  constructor
  · intro hnot
    have inv := evaluatePointRangeLoops_inv cfs self point_begin point_end index
    rw [resetCostMatrix_of_cols self _ hcols] at inv
    obtain ⟨cost, feas, h1, h2, h3⟩ := inv.evaluated c cfs[c] i hget hnot hb he
    obtain ⟨_, cf, m, g1, g2, g3⟩ := inv.genuineEvaluate c i cost feas h1
    rw [hget] at g1
    cases g1
    obtain ⟨cf2, m2, k1, k2, k3⟩ := inv.genuineInvariant c false hnot
    rw [hget] at k1
    cases k1
    exact ⟨⟨m2, k2, k3⟩, cost, feas, h1, h2, ⟨m, g2, g3⟩, h3⟩
  · have inv := evaluatePointRangeLegacyLoops_inv cfs self point_begin point_end
    rw [resetCostMatrix_of_cols self _ hcols] at inv
    obtain ⟨cost, feas, h1, h2, h3⟩ := inv.evaluated c cfs[c] i hget hc hb he
    obtain ⟨cf, m, g1, g2, g3⟩ := inv.genuineEvaluate c i cost feas h1
    rw [hget] at g1
    cases g1
    exact ⟨cost, feas, h1, h2, ⟨m, g2, g3⟩, h3⟩

/-- Witness of C1: one cost function of weight 1 that reports the cost 2, one point. -/
theorem evaluatePointRange_writes_weighted_cost_witness :
    ∃ cost feasible,
      Call.evaluate 0 0 cost feasible ∈
        ((keyframeManager [0] 1).evaluatePointRange [constantCost 2 1] 0 1
          ⟨0, .POSITION, .JOINT, 0⟩).calls ∧
      ((keyframeManager [0] 1).evaluatePointRange [constantCost 2 1] 0 1
          ⟨0, .POSITION, .JOINT, 0⟩).mgr.evaluation_cost_matrix_.coeff 0 0
        = (constantCost 2 1 :
            TrajectoryCost (NewEvalManager KeyframeStore KeyframeStore Unit Unit)).weight * cost := by
  obtain ⟨_, cost, feasible, h1, _, _, h4⟩ :=
    (evaluatePointRange_writes_weighted_cost [constantCost 2 1] (keyframeManager [0] 1) 0 1
      ⟨0, .POSITION, .JOINT, 0⟩ rfl 0 (by decide) 0 (by decide) (by decide)).1 (by decide)
  exact ⟨cost, feasible, h1, h4⟩

/-- C2: for a call of `evaluatePointRange(point_begin, point_end, cost_matrix, index)` and a
cost function `c` whose invariance query answered `true` (the call
`isInvariant(this, index)` made on it, on the manager after the column check of
the matrix), afterwards `cost_matrix(i, c)` is 0 for every point `i` of the
range and `evaluate` was not called on `c` for any point. -/
theorem evaluatePointRange_invariant_zero_filled
    (cfs : List (TrajectoryCost (NewEvalManager F T K R))) (self : NewEvalManager F T K R)
    (point_begin point_end : Nat) (index : ItompTrajectoryIndex) (c : Nat)
    (hinv : Call.isInvariant c index true ∈
      (self.evaluatePointRange cfs point_begin point_end index).calls) :
    (∃ cf m, cfs[c]? = some cf ∧ SameExceptCost (self.resetCostMatrix cfs.length) m ∧
      cf.isInvariant m index = true) ∧
    (∀ i, point_begin ≤ i → i < point_end →
      (self.evaluatePointRange cfs point_begin point_end
        index).mgr.evaluation_cost_matrix_.coeff i c = 0) ∧
    (∀ i cost feasible, Call.evaluate c i cost feasible ∉
      (self.evaluatePointRange cfs point_begin point_end index).calls) := by
  have inv := evaluatePointRangeLoops_inv cfs self point_begin point_end index
  refine ⟨inv.genuineInvariant c true hinv, fun i hb he => inv.skipped c i hinv hb he, ?_⟩
  intro i cost feasible hin
  have hfalse := (inv.genuineEvaluate c i cost feasible hin).1
  have hc : c < cfs.length := by
    rcases inv.shape _ hinv with ⟨j, r, hj, heq⟩ | ⟨j, i2, cost2, feas2, _, _, _, heq⟩
    · injection heq with h1
      omega
    · cases heq
  obtain ⟨r, _, huniq⟩ := inv.asked c hc
  have h1 := huniq true hinv
  have h2 := huniq false hfalse
  rw [← h1] at h2
  cases h2

/-- Witness of C2: a cost function that declares itself invariant, one point, on a
matrix whose entry was 5 before. -/
theorem evaluatePointRange_invariant_zero_filled_witness :
    ((keyframeManager [0] 1).setCost 0 0 5).evaluation_cost_matrix_.coeff 0 0 = 5 ∧
    (((keyframeManager [0] 1).setCost 0 0 5).evaluatePointRange [invariantCost 2 1] 0 1
        ⟨0, .POSITION, .JOINT, 0⟩).mgr.evaluation_cost_matrix_.coeff 0 0 = 0 :=
  ⟨by simp [NewEvalManager.setCost, MatrixXd.set],
    (evaluatePointRange_invariant_zero_filled [invariantCost 2 1]
      ((keyframeManager [0] 1).setCost 0 0 5) 0 1 ⟨0, .POSITION, .JOINT, 0⟩ 0
      (by decide)).2.1 0 (by decide) (by decide)⟩

/-- C3: on a range in which the only evaluated sample is feasible, both overloads of
`evaluatePointRange` return `false`, although the conjunction they accumulated
in `is_feasible` is `true`. -/
theorem evaluatePointRange_feasible_range_returns_false :
    ((keyframeManager [0] 1).evaluatePointRange [constantCost 2 1] 0 1
        ⟨0, .POSITION, .JOINT, 0⟩).value = false ∧
    ((keyframeManager [0] 1).evaluatePointRangeLoops [constantCost 2 1] 0 1
        ⟨0, .POSITION, .JOINT, 0⟩).is_feasible = true ∧
    ((keyframeManager [0] 1).evaluatePointRangeLegacy [constantCost 2 1] 0 1).value = false ∧
    ((keyframeManager [0] 1).evaluatePointRangeLegacyLoops [constantCost 2 1] 0 1).is_feasible
      = true := by
  refine ⟨rfl, ?_, rfl, ?_⟩ <;> decide

end EvaluateClaims

/-! ## Claims on `evaluate` -/

section EvaluateFull

variable {F T K R : Type}

theorem SameExceptCost.full_eq {m1 m2 : NewEvalManager F T K R} (h : SameExceptCost m1 m2) :
    m2.full_trajectory_ = m1.full_trajectory_ := by
  rw [h]

theorem SameExceptCost.itomp_eq {m1 m2 : NewEvalManager F T K R} (h : SameExceptCost m1 m2) :
    m2.itomp_trajectory_ = m1.itomp_trajectory_ := by
  rw [h]

theorem SameExceptDynamics.full_eq_dyn {m1 m2 : NewEvalManager F T K R}
    (h : SameExceptDynamics m1 m2) : m2.full_trajectory_ = m1.full_trajectory_ := by
  rw [h]

theorem SameExceptDynamics.itomp_eq_dyn {m1 m2 : NewEvalManager F T K R}
    (h : SameExceptDynamics m1 m2) : m2.itomp_trajectory_ = m1.itomp_trajectory_ := by
  rw [h]

theorem SameExceptDynamics.cost_eq_dyn {m1 m2 : NewEvalManager F T K R}
    (h : SameExceptDynamics m1 m2) :
    m2.evaluation_cost_matrix_ = m1.evaluation_cost_matrix_ := by
  rw [h]

theorem pushParameterTrajectory_cost (env : Collaborators F T K)
    (self : NewEvalManager F T K R) :
    (self.pushParameterTrajectory env).1.evaluation_cost_matrix_
      = self.evaluation_cost_matrix_ := by
  unfold NewEvalManager.pushParameterTrajectory
  split <;> rfl

theorem evaluate_full_trajectory (env : Collaborators F T K)
    (cfs : List (TrajectoryCost (NewEvalManager F T K R))) (self : NewEvalManager F T K R) :
    (self.evaluate env cfs).mgr.full_trajectory_
      = (self.evaluatePropagated env).full_trajectory_ := by
  have h := evaluatePointRangeLegacyLoops_inv cfs (self.evaluatePropagated env) 0
    (env.getNumPoints (self.evaluatePropagated env).full_trajectory_)
  exact (h.same.full_eq).trans (SameExceptCost.of_resetCostMatrix _ _).full_eq

theorem evaluate_inv (env : Collaborators F T K)
    (cfs : List (TrajectoryCost (NewEvalManager F T K R))) (self : NewEvalManager F T K R) :
    LegacyInv cfs ((self.evaluatePropagated env).resetCostMatrix cfs.length) 0
      (env.getNumPoints (self.evaluate env cfs).mgr.full_trajectory_) cfs.length
      ((self.evaluatePropagated env).evaluatePointRangeLegacyLoops cfs 0
        (env.getNumPoints (self.evaluate env cfs).mgr.full_trajectory_)) := by
  rw [evaluate_full_trajectory]
  exact evaluatePointRangeLegacyLoops_inv cfs (self.evaluatePropagated env) 0
    (env.getNumPoints (self.evaluatePropagated env).full_trajectory_)

theorem evaluate_mem_evaluate (env : Collaborators F T K)
    (cfs : List (TrajectoryCost (NewEvalManager F T K R))) (self : NewEvalManager F T K R)
    (c i : Nat) (cost : ℚ) (feasible : Bool) :
    Call.evaluate c i cost feasible ∈ (self.evaluate env cfs).calls ↔
      Call.evaluate c i cost feasible ∈
        ((self.evaluatePropagated env).evaluatePointRangeLegacyLoops cfs 0
          (env.getNumPoints (self.evaluatePropagated env).full_trajectory_)).calls := by
  have hpush : Call.evaluate c i cost feasible ∉ (self.pushParameterTrajectory env).2 := by
    unfold NewEvalManager.pushParameterTrajectory
    split <;> simp
  show Call.evaluate c i cost feasible ∈
    (self.pushParameterTrajectory env).2 ++ (List.range cfs.length).map Call.preEvaluate
      ++ ((self.evaluatePropagated env).evaluatePointRangeLegacyLoops cfs 0
          (env.getNumPoints (self.evaluatePropagated env).full_trajectory_)).calls
      ++ (List.range cfs.length).map Call.postEvaluate ↔ _
  simp [hpush]

theorem pushParameterTrajectory_itomp (env : Collaborators F T K)
    (self : NewEvalManager F T K R) :
    (self.pushParameterTrajectory env).1.itomp_trajectory_ = self.itomp_trajectory_ := by
  unfold NewEvalManager.pushParameterTrajectory
  split <;> rfl

theorem evaluatePropagated_itomp (env : Collaborators F T K) (self : NewEvalManager F T K R) :
    (self.evaluatePropagated env).itomp_trajectory_ = self.itomp_trajectory_ :=
  (performFull_frame env _ _ _).itomp_eq_dyn.trans (pushParameterTrajectory_itomp env self)

/-- What `evaluate()` returns and leaves in the cost matrix. -/
theorem evaluate_spec (env : Collaborators F T K)
    (cfs : List (TrajectoryCost (NewEvalManager F T K R))) (self : NewEvalManager F T K R) :
    (self.evaluate env cfs).value
        = ∑ i in Finset.range (self.evaluate env cfs).mgr.evaluation_cost_matrix_.rows,
            ∑ c in Finset.range (self.evaluate env cfs).mgr.evaluation_cost_matrix_.cols,
              (self.evaluate env cfs).mgr.evaluation_cost_matrix_.coeff i c
    ∧ (self.evaluate env cfs).mgr.evaluation_cost_matrix_.rows
        = self.evaluation_cost_matrix_.rows
    ∧ (self.evaluate env cfs).mgr.evaluation_cost_matrix_.cols = cfs.length
    ∧ (∀ (i c : Nat) (hc : c < cfs.length),
        i < env.getNumPoints (self.evaluate env cfs).mgr.full_trajectory_ →
        ∃ cost feasible,
          Call.evaluate c i cost feasible ∈ (self.evaluate env cfs).calls ∧
          (∀ cost2 feasible2, Call.evaluate c i cost2 feasible2 ∈ (self.evaluate env cfs).calls →
            cost2 = cost ∧ feasible2 = feasible) ∧
          (∃ m, m.itomp_trajectory_ = self.itomp_trajectory_ ∧
            cfs[c].evaluate m i = (feasible, cost)) ∧
          (self.evaluate env cfs).mgr.evaluation_cost_matrix_.coeff i c
            = cfs[c].weight * cost) := by
  have inv := evaluate_inv env cfs self
  have hfull := evaluate_full_trajectory env cfs self
  refine ⟨?_, ?_, ?_, ?_⟩
  · show (self.evaluate env cfs).mgr.evaluation_cost_matrix_.blockSum 0 0 _ _ = _
    rw [blockSum_eq_sum]
    simp only [Nat.zero_add]
    rfl
  · have h1 := inv.rows
    rw [hfull] at h1
    have h2 : (self.evaluatePropagated env).evaluation_cost_matrix_
        = self.evaluation_cost_matrix_ :=
      (performFull_frame env _ _ _).cost_eq_dyn.trans (pushParameterTrajectory_cost env self)
    exact h1.trans ((resetCostMatrix_rows _ _).trans (by rw [h2]))
  · have h1 := inv.cols
    rw [hfull] at h1
    exact h1.trans (resetCostMatrix_cols _ _)
  · intro i c hc hi
    have hget : cfs[c]? = some cfs[c] := List.getElem?_eq_getElem hc
    obtain ⟨cost, feas, h1, h2, h3⟩ := inv.evaluated c cfs[c] i hget hc (Nat.zero_le _) hi
    obtain ⟨cf, m, g1, g2, g3⟩ := inv.genuineEvaluate c i cost feas h1
    rw [hget] at g1
    cases g1
    rw [hfull] at h1 h2 h3
    refine ⟨cost, feas, (evaluate_mem_evaluate env cfs self c i cost feas).2 h1, ?_,
      ⟨m, ?_, g3⟩, h3⟩
    · intro cost2 feas2 hin
      exact h2 cost2 feas2 ((evaluate_mem_evaluate env cfs self c i cost2 feas2).1 hin)
    · rw [g2.itomp_eq, (SameExceptCost.of_resetCostMatrix _ _).itomp_eq]
      exact evaluatePropagated_itomp env self

/-- C4: `evaluate()` returns the sum of all entries of the cost matrix it leaves; that
matrix has the rows it had and one column per cost function, and for every
point `i` below the number of points and every cost function `c` its entry is
`weight(c)` times the cost that the single call of `evaluate` on `(c, i)`
reported.  In particular, with one point, one row and a single cost function
of weight 1 that always reports the cost 2, `evaluate()` returns 2. -/
theorem evaluate_returns_total_cost (env : Collaborators F T K)
    (cfs : List (TrajectoryCost (NewEvalManager F T K R))) (self : NewEvalManager F T K R) :
    (self.evaluate env cfs).value
        = ∑ i in Finset.range (self.evaluate env cfs).mgr.evaluation_cost_matrix_.rows,
            ∑ c in Finset.range (self.evaluate env cfs).mgr.evaluation_cost_matrix_.cols,
              (self.evaluate env cfs).mgr.evaluation_cost_matrix_.coeff i c
    ∧ (self.evaluate env cfs).mgr.evaluation_cost_matrix_.rows
        = self.evaluation_cost_matrix_.rows
    ∧ (self.evaluate env cfs).mgr.evaluation_cost_matrix_.cols = cfs.length
    ∧ (∀ (i c : Nat) (hc : c < cfs.length),
        i < env.getNumPoints (self.evaluate env cfs).mgr.full_trajectory_ →
        ∃ cost feasible,
          Call.evaluate c i cost feasible ∈ (self.evaluate env cfs).calls ∧
          (∀ cost2 feasible2, Call.evaluate c i cost2 feasible2 ∈ (self.evaluate env cfs).calls →
            cost2 = cost ∧ feasible2 = feasible) ∧
          (∃ m, m.itomp_trajectory_ = self.itomp_trajectory_ ∧
            cfs[c].evaluate m i = (feasible, cost)) ∧
          (self.evaluate env cfs).mgr.evaluation_cost_matrix_.coeff i c
            = cfs[c].weight * cost)
    ∧ (∀ cf, cfs = [cf] → cf.weight = 1 → (∀ m i, (cf.evaluate m i).2 = 2) →
        self.evaluation_cost_matrix_.rows = 1 →
        env.getNumPoints (self.evaluate env cfs).mgr.full_trajectory_ = 1 →
        (self.evaluate env cfs).value = 2) := by
  obtain ⟨hval, hrows, hcols, hentries⟩ := evaluate_spec env cfs self
  refine ⟨hval, hrows, hcols, hentries, ?_⟩
  intro cf hcfs hw hconst hr hn
  subst hcfs
  obtain ⟨cost, feas, _, _, ⟨m, _, hm⟩, hcoeff⟩ := hentries 0 0 (by simp) (by omega)
  have hcost : cost = 2 := by
    have h2 := hconst m 0
    have h3 : cf.evaluate m 0 = (feas, cost) := hm
    rw [h3] at h2
    exact h2
  rw [hval, hrows, hcols, hr]
  simp only [List.length_singleton, Finset.sum_range_one]
  rw [hcoeff]
  simp [hw, hcost]

/-- Witness of C4: the scenario of the specification, a trajectory of one point with
`q = 0` and one cost function of weight 1 that reports the constant cost 2. -/
theorem evaluate_returns_total_cost_witness :
    ((keyframeManager [0] 1).evaluate keyframeCollaborators [constantCost 2 1]).value = 2 :=
  (evaluate_returns_total_cost keyframeCollaborators [constantCost 2 1]
    (keyframeManager [0] 1)).2.2.2.2 (constantCost 2 1) rfl rfl (fun _ _ => rfl) rfl
    (by decide)

end EvaluateFull

/-! ## Analysis of the perturbed evaluation -/

section Perturbed

variable {F T K R : Type}

theorem evaluatePointRange_same (cfs : List (TrajectoryCost (NewEvalManager F T K R)))
    (self : NewEvalManager F T K R) (b e : Nat) (index : ItompTrajectoryIndex) :
    SameExceptCost self (self.evaluatePointRange cfs b e index).mgr :=
  (SameExceptCost.of_resetCostMatrix self cfs.length).trans_same
    (evaluatePointRangeLoops_inv cfs self b e index).same

theorem evaluatePointRangeLegacy_same (cfs : List (TrajectoryCost (NewEvalManager F T K R)))
    (self : NewEvalManager F T K R) (b e : Nat) :
    SameExceptCost self (self.evaluatePointRangeLegacy cfs b e).mgr :=
  (SameExceptCost.of_resetCostMatrix self cfs.length).trans_same
    (evaluatePointRangeLegacyLoops_inv cfs self b e).same

theorem evaluatePointRange_no_store_call (cfs : List (TrajectoryCost (NewEvalManager F T K R)))
    (self : NewEvalManager F T K R) (b e : Nat) (index : ItompTrajectoryIndex) :
    (self.evaluatePointRange cfs b e index).calls.filter Call.isStoreCall = [] := by
  rw [List.filter_eq_nil_iff]
  intro ev hev
  rcases (evaluatePointRangeLoops_inv cfs self b e index).shape ev hev with
    ⟨j, r, _, heq⟩ | ⟨j, i, cost, feas, _, _, _, heq⟩ <;> subst heq <;> simp [Call.isStoreCall]

theorem evaluatePointRangeLegacy_no_store_call
    (cfs : List (TrajectoryCost (NewEvalManager F T K R)))
    (self : NewEvalManager F T K R) (b e : Nat) :
    (self.evaluatePointRangeLegacy cfs b e).calls.filter Call.isStoreCall = [] := by
  rw [List.filter_eq_nil_iff]
  intro ev hev
  obtain ⟨j, i, cost, feas, _, _, _, heq⟩ :=
    (evaluatePointRangeLegacyLoops_inv cfs self b e).shape ev hev
  subst heq
  simp [Call.isStoreCall]

/-- Every entry of the evaluated range after `evaluatePointRange` with an index: zero
when the invariance query of its cost function answered `true`, else the weight
times the reported cost; both queries were made on managers that differ from
the one at entry at most in the cost matrix. -/
theorem evaluatePointRange_entry (cfs : List (TrajectoryCost (NewEvalManager F T K R)))
    (self : NewEvalManager F T K R) (b e : Nat) (index : ItompTrajectoryIndex)
    (j : Nat) (hj : j < cfs.length) (i : Nat) (hb : b ≤ i) (he : i < e) :
    ∃ m1 m2, SameExceptCost self m1 ∧ SameExceptCost self m2 ∧
      (self.evaluatePointRange cfs b e index).mgr.evaluation_cost_matrix_.coeff i j
        = if cfs[j].isInvariant m1 index then 0
          else cfs[j].weight * (cfs[j].evaluate m2 i).2 := by
  have inv := evaluatePointRangeLoops_inv cfs self b e index
  have hreset := SameExceptCost.of_resetCostMatrix self cfs.length
  have hget : cfs[j]? = some cfs[j] := List.getElem?_eq_getElem hj
  obtain ⟨r, hr, _⟩ := inv.asked j hj
  obtain ⟨cf, m1, g1, g2, g3⟩ := inv.genuineInvariant j r hr
  rw [hget] at g1
  cases g1
  cases r with
  | true =>
    refine ⟨m1, m1, hreset.trans_same g2, hreset.trans_same g2, ?_⟩
    rw [g3]
    exact inv.skipped j i hr hb he
  | false =>
    obtain ⟨cost, feas, h1, _, h3⟩ := inv.evaluated j cfs[j] i hget hr hb he
    obtain ⟨_, cf, m2, k1, k2, k3⟩ := inv.genuineEvaluate j i cost feas h1
    rw [hget] at k1
    cases k1
    refine ⟨m1, m2, hreset.trans_same g2, hreset.trans_same k2, ?_⟩
    rw [g3, k3]
    simpa using h3

/-- The trajectory store after `evaluateParameterPointItomp` is the store the direct
change returned. -/
theorem evaluateParameterPointItomp_itomp (env : Collaborators F T K)
    (cfs : List (TrajectoryCost (NewEvalManager F T K R)))
    (ref : Option (NewEvalManager F T K R)) (self : NewEvalManager F T K R)
    (value : ℚ) (p : Nat) (first : Bool) :
    (self.evaluateParameterPointItomp env cfs ref value p first).mgr.itomp_trajectory_
      = (env.directChangeForDerivativeComputation self.itomp_trajectory_ p value first).1 := by
  unfold NewEvalManager.evaluateParameterPointItomp
  dsimp only
  rw [(evaluatePointRange_same cfs _ _ _ _).itomp_eq, (performPartial_frame env ref _ _ _ _).itomp_eq_dyn]

/-- The range `evaluateParameterPointItomp` reports: the one of the direct change, with
its end moved by one when it equals the point of the changed parameter. -/
theorem evaluateParameterPointItomp_range (env : Collaborators F T K)
    (cfs : List (TrajectoryCost (NewEvalManager F T K R)))
    (ref : Option (NewEvalManager F T K R)) (self : NewEvalManager F T K R)
    (value : ℚ) (p : Nat) (first : Bool) :
    (self.evaluateParameterPointItomp env cfs ref value p first).value
      = ((env.directChangeForDerivativeComputation self.itomp_trajectory_ p value first).2.1,
          if (env.getTrajectoryIndex
                (env.directChangeForDerivativeComputation self.itomp_trajectory_ p value first).1
                p).point
              = (env.directChangeForDerivativeComputation self.itomp_trajectory_ p value first).2.2
          then (env.directChangeForDerivativeComputation self.itomp_trajectory_ p value first).2.2 + 1
          else (env.directChangeForDerivativeComputation self.itomp_trajectory_ p value first).2.2) :=
  rfl

theorem evaluateParameterPointItomp_store_calls (env : Collaborators F T K)
    (cfs : List (TrajectoryCost (NewEvalManager F T K R)))
    (ref : Option (NewEvalManager F T K R)) (self : NewEvalManager F T K R)
    (value : ℚ) (p : Nat) (first : Bool) :
    (self.evaluateParameterPointItomp env cfs ref value p first).calls.filter Call.isStoreCall
      = [Call.directChangeForDerivativeComputation p value first] := by
  unfold NewEvalManager.evaluateParameterPointItomp
  dsimp only
  rw [List.filter_cons_of_pos (by rfl), evaluatePointRange_no_store_call]

/-- Every entry of the range `evaluateParameterPointItomp` reports: zero or weight times
reported cost, the cost function being asked on managers that hold the changed
trajectory store. -/
theorem evaluateParameterPointItomp_entry (env : Collaborators F T K)
    (cfs : List (TrajectoryCost (NewEvalManager F T K R)))
    (ref : Option (NewEvalManager F T K R)) (self : NewEvalManager F T K R)
    (value : ℚ) (p : Nat) (first : Bool) (j : Nat) (hj : j < cfs.length) (i : Nat)
    (hb : (self.evaluateParameterPointItomp env cfs ref value p first).value.1 ≤ i)
    (he : i < (self.evaluateParameterPointItomp env cfs ref value p first).value.2) :
    ∃ m1 m2,
      m1.itomp_trajectory_
        = (env.directChangeForDerivativeComputation self.itomp_trajectory_ p value first).1 ∧
      m2.itomp_trajectory_
        = (env.directChangeForDerivativeComputation self.itomp_trajectory_ p value first).1 ∧
      (self.evaluateParameterPointItomp env cfs ref value p
          first).mgr.evaluation_cost_matrix_.coeff i j
        = if cfs[j].isInvariant m1
              (env.getTrajectoryIndex
                (env.directChangeForDerivativeComputation self.itomp_trajectory_ p value first).1 p)
          then 0
          else cfs[j].weight * (cfs[j].evaluate m2 i).2 := by
  unfold NewEvalManager.evaluateParameterPointItomp at hb he ⊢
  dsimp only at hb he ⊢
  obtain ⟨m1, m2, h1, h2, h3⟩ := evaluatePointRange_entry cfs _ _ _ _ j hj i hb he
  refine ⟨m1, m2, ?_, ?_, h3⟩
  · rw [h1.itomp_eq, (performPartial_frame env ref _ _ _ _).itomp_eq_dyn]
  · rw [h2.itomp_eq, (performPartial_frame env ref _ _ _ _).itomp_eq_dyn]

end Perturbed

/-! ## Claims on the derivatives -/

section Derivatives

variable {F T K R : Type}

/-- The value `computeDerivatives` writes, as sums over the two reported ranges. -/
theorem computeDerivatives_spec (env : Collaborators F T K)
    (cfs : List (TrajectoryCost (NewEvalManager F T K R)))
    (ref : Option (NewEvalManager F T K R)) (self : NewEvalManager F T K R)
    (p : Nat) (parameters : Nat → ℚ) (derivative_out : Nat → Option ℚ) (eps : ℚ) :
    (self.computeDerivatives env cfs ref p parameters derivative_out eps).value p
      = fdiv
          ((∑ i in Finset.Ico
                (self.evaluateParameterPointItomp env cfs ref (parameters p + eps) p true).value.1
                (self.evaluateParameterPointItomp env cfs ref (parameters p + eps) p true).value.2,
              ∑ c in Finset.range cfs.length,
                (self.evaluateParameterPointItomp env cfs ref (parameters p + eps) p
                  true).mgr.evaluation_cost_matrix_.coeff i c)
            - (∑ i in Finset.Ico
                ((self.evaluateParameterPointItomp env cfs ref (parameters p + eps) p
                  true).mgr.evaluateParameterPointItomp env cfs ref (parameters p - eps) p
                  false).value.1
                ((self.evaluateParameterPointItomp env cfs ref (parameters p + eps) p
                  true).mgr.evaluateParameterPointItomp env cfs ref (parameters p - eps) p
                  false).value.2,
              ∑ c in Finset.range cfs.length,
                ((self.evaluateParameterPointItomp env cfs ref (parameters p + eps) p
                  true).mgr.evaluateParameterPointItomp env cfs ref (parameters p - eps) p
                  false).mgr.evaluation_cost_matrix_.coeff i c))
          (2 * eps)
    ∧ (∀ q, q ≠ p →
        (self.computeDerivatives env cfs ref p parameters derivative_out eps).value q
          = derivative_out q)
    ∧ (self.evaluateParameterPointItomp env cfs ref (parameters p + eps) p
          true).mgr.itomp_trajectory_
        = (env.directChangeForDerivativeComputation self.itomp_trajectory_ p
            (parameters p + eps) true).1
    ∧ ((self.evaluateParameterPointItomp env cfs ref (parameters p + eps) p
          true).mgr.evaluateParameterPointItomp env cfs ref (parameters p - eps) p
          false).mgr.itomp_trajectory_
        = (env.directChangeForDerivativeComputation
            (env.directChangeForDerivativeComputation self.itomp_trajectory_ p
              (parameters p + eps) true).1 p (parameters p - eps) false).1 := by
  refine ⟨?_, ?_, evaluateParameterPointItomp_itomp _ _ _ _ _ _ _, ?_⟩
  · show Function.update derivative_out p _ p = _
    rw [Function.update_same, ← blockSum_range, ← blockSum_range]
    rfl
  · intro q hq
    show Function.update derivative_out p _ q = _
    rw [Function.update_noteq hq]
  · rw [evaluateParameterPointItomp_itomp, evaluateParameterPointItomp_itomp]

/-- C5: `computeDerivatives(p, parameters, derivative_out, eps)` writes
`derivative_out[p] = (S_plus - S_minus) / (2 * eps)` and no other entry, where
`S_plus` sums the cost matrix over all cost function columns and the rows of
the range reported by `evaluateParameterPointItomp` for `parameters(p) + eps`
(first of the pair) and `S_minus` is the same sum after the second call, for
`parameters(p) - eps`, over the range that call reports; each call works on the
trajectory store returned by its direct change. -/
theorem computeDerivatives_central_difference (env : Collaborators F T K)
    (cfs : List (TrajectoryCost (NewEvalManager F T K R)))
    (ref : Option (NewEvalManager F T K R)) (self : NewEvalManager F T K R)
    (p : Nat) (parameters : Nat → ℚ) (derivative_out : Nat → Option ℚ) (eps : ℚ) :
    (self.computeDerivatives env cfs ref p parameters derivative_out eps).value p
      = fdiv
          ((∑ i in Finset.Ico
                (self.evaluateParameterPointItomp env cfs ref (parameters p + eps) p true).value.1
                (self.evaluateParameterPointItomp env cfs ref (parameters p + eps) p true).value.2,
              ∑ c in Finset.range cfs.length,
                (self.evaluateParameterPointItomp env cfs ref (parameters p + eps) p
                  true).mgr.evaluation_cost_matrix_.coeff i c)
            - (∑ i in Finset.Ico
                ((self.evaluateParameterPointItomp env cfs ref (parameters p + eps) p
                  true).mgr.evaluateParameterPointItomp env cfs ref (parameters p - eps) p
                  false).value.1
                ((self.evaluateParameterPointItomp env cfs ref (parameters p + eps) p
                  true).mgr.evaluateParameterPointItomp env cfs ref (parameters p - eps) p
                  false).value.2,
              ∑ c in Finset.range cfs.length,
                ((self.evaluateParameterPointItomp env cfs ref (parameters p + eps) p
                  true).mgr.evaluateParameterPointItomp env cfs ref (parameters p - eps) p
                  false).mgr.evaluation_cost_matrix_.coeff i c))
          (2 * eps)
    ∧ (∀ q, q ≠ p →
        (self.computeDerivatives env cfs ref p parameters derivative_out eps).value q
          = derivative_out q)
    ∧ (self.evaluateParameterPointItomp env cfs ref (parameters p + eps) p
          true).mgr.itomp_trajectory_
        = (env.directChangeForDerivativeComputation self.itomp_trajectory_ p
            (parameters p + eps) true).1
    ∧ ((self.evaluateParameterPointItomp env cfs ref (parameters p + eps) p
          true).mgr.evaluateParameterPointItomp env cfs ref (parameters p - eps) p
          false).mgr.itomp_trajectory_
        = (env.directChangeForDerivativeComputation
            (env.directChangeForDerivativeComputation self.itomp_trajectory_ p
              (parameters p + eps) true).1 p (parameters p - eps) false).1 :=
  computeDerivatives_spec env cfs ref self p parameters derivative_out eps

/-- Witness of C5: the one-joint robot with the squared position cost, `q = 3`,
`eps = 1`: `S_plus = 16`, `S_minus = 4`, the entry written is `(16 - 4) / 2`. -/
theorem computeDerivatives_central_difference_witness :
    ((keyframeManager [3] 1).computeDerivatives keyframeCollaborators [squaredPositionCost 1]
        none 0 (fun _ => 3) (fun _ => none) 1).value 0 = some 6 := by
  rw [(computeDerivatives_central_difference keyframeCollaborators [squaredPositionCost 1] none
    (keyframeManager [3] 1) 0 (fun _ => 3) (fun _ => none) 1).1]
  simp [NewEvalManager.evaluateParameterPointItomp, NewEvalManager.evaluatePointRange,
    NewEvalManager.evaluatePointRangeLoops, forEachFrom, evaluateCostFunction, forLoop,
    evaluatePoint, squaredPositionCost, positionCost, NewEvalManager.setCost, MatrixXd.set,
    NewEvalManager.resetCostMatrix, keyframeManager, MatrixXd.Zero,
    NewEvalManager.performPartialForwardKinematicsAndDynamics, keyframeCollaborators,
    computeContactVariables, computeExternalForces, NewEvalManager.storeDynamics, StdVector.set,
    KeyframeStore.directChange, fdiv, refState]
  norm_num

/-- The loop that writes the per cost function derivatives. -/
theorem costDerivativeLoop_spec (n p : Nat) (g : Nat → Option ℚ) (out : Nat → Nat → Option ℚ) :
    forLoop 0 n (fun i out => Function.update out i (Function.update (out i) p (g i))) out
      = fun j => if j < n then Function.update (out j) p (g j) else out j := by
  refine forLoop_inv
    (fun k t => t = fun j => if j < k then Function.update (out j) p (g j) else out j)
    0 n _ out (Nat.zero_le _) ?_ ?_
  · funext j
    simp
  · intro k t _ _ ht
    subst ht
    funext j
    by_cases hjk : j = k
    · subst hjk
      simp
    · rw [Function.update_noteq hjk]
      by_cases hlt : j < k
      · have : j < k + 1 := by omega
        simp [hlt, this]
      · have : ¬ j < k + 1 := by omega
        simp [hlt, this]

/-- C6: for every registered cost function `j`, `computeCostDerivatives` writes
`cost_derivative_out[j][p] = (P_j - M_j) / (2 * eps)`, where `P_j` is the sum of
column `j` of the cost matrix over the range reported after the perturbation
by `+eps` and `M_j` the sum of column `j` over the range reported after the
perturbation by `-eps`. -/
theorem computeCostDerivatives_per_cost (env : Collaborators F T K)
    (cfs : List (TrajectoryCost (NewEvalManager F T K R)))
    (ref : Option (NewEvalManager F T K R)) (self : NewEvalManager F T K R)
    (p : Nat) (parameters : Nat → ℚ) (derivative_out : Nat → Option ℚ)
    (cost_derivative_out : Nat → Nat → Option ℚ) (eps : ℚ) (j : Nat) (hj : j < cfs.length) :
    (self.computeCostDerivatives env cfs ref p parameters derivative_out cost_derivative_out
        eps).value.2 j p
      = fdiv
          ((∑ i in Finset.Ico
                (self.evaluateParameterPointItomp env cfs ref (parameters p + eps) p true).value.1
                (self.evaluateParameterPointItomp env cfs ref (parameters p + eps) p true).value.2,
              (self.evaluateParameterPointItomp env cfs ref (parameters p + eps) p
                true).mgr.evaluation_cost_matrix_.coeff i j)
            - (∑ i in Finset.Ico
                ((self.evaluateParameterPointItomp env cfs ref (parameters p + eps) p
                  true).mgr.evaluateParameterPointItomp env cfs ref (parameters p - eps) p
                  false).value.1
                ((self.evaluateParameterPointItomp env cfs ref (parameters p + eps) p
                  true).mgr.evaluateParameterPointItomp env cfs ref (parameters p - eps) p
                  false).value.2,
              ((self.evaluateParameterPointItomp env cfs ref (parameters p + eps) p
                true).mgr.evaluateParameterPointItomp env cfs ref (parameters p - eps) p
                false).mgr.evaluation_cost_matrix_.coeff i j))
          (2 * eps) := by
  unfold NewEvalManager.computeCostDerivatives
  dsimp only
  rw [costDerivativeLoop_spec]
  have hj2 : j < getNumActiveCostFunctions cfs := hj
  simp only [hj2, if_true, Function.update_same]
  rw [blockSum_column, blockSum_column]

/-- Witness of C6: the one-joint robot with the squared position cost, `q = 3`,
`eps = 1`: the derivative of the only cost function is `(16 - 4) / 2`. -/
theorem computeCostDerivatives_per_cost_witness :
    ((keyframeManager [3] 1).computeCostDerivatives keyframeCollaborators
        [squaredPositionCost 1] none 0 (fun _ => 3) (fun _ => none) (fun _ _ => none)
        1).value.2 0 0 = some 6 := by
  rw [computeCostDerivatives_per_cost keyframeCollaborators [squaredPositionCost 1] none
    (keyframeManager [3] 1) 0 (fun _ => 3) (fun _ => none) (fun _ _ => none) 1 0 (by decide)]
  simp [NewEvalManager.evaluateParameterPointItomp, NewEvalManager.evaluatePointRange,
    NewEvalManager.evaluatePointRangeLoops, forEachFrom, evaluateCostFunction, forLoop,
    evaluatePoint, squaredPositionCost, positionCost, NewEvalManager.setCost, MatrixXd.set,
    NewEvalManager.resetCostMatrix, keyframeManager, MatrixXd.Zero,
    NewEvalManager.performPartialForwardKinematicsAndDynamics, keyframeCollaborators,
    computeContactVariables, computeExternalForces, NewEvalManager.storeDynamics, StdVector.set,
    KeyframeStore.directChange, fdiv, refState]
  norm_num

/-- With a zero `eps` the quotient written by `computeDerivatives` is not a number. -/
theorem computeDerivatives_eps_zero (env : Collaborators F T K)
    (cfs : List (TrajectoryCost (NewEvalManager F T K R)))
    (ref : Option (NewEvalManager F T K R)) (self : NewEvalManager F T K R)
    (p : Nat) (parameters : Nat → ℚ) (derivative_out : Nat → Option ℚ) :
    (self.computeDerivatives env cfs ref p parameters derivative_out 0).value p = none := by
  rw [(computeDerivatives_spec env cfs ref self p parameters derivative_out 0).1]
  simp [fdiv]

/-- In exact arithmetic too, in the scenario of the specification (one joint, one point,
one cost function of weight 1 that reports the constant cost 2)
`computeDerivatives` with `eps = 0` divides by zero; what it writes is not the
number 0. -/
theorem computeDerivatives_constant_cost_eps_zero :
    IsConstantCost (constantCost 2 1 :
      TrajectoryCost (NewEvalManager KeyframeStore KeyframeStore Unit Unit)) ∧
    ((keyframeManager [0] 1).computeDerivatives keyframeCollaborators [constantCost 2 1] none
        0 (fun _ => 0) (fun _ => none) 0).value 0 = none ∧
    ((keyframeManager [0] 1).computeDerivatives keyframeCollaborators [constantCost 2 1] none
        0 (fun _ => 0) (fun _ => none) 0).value 0 ≠ some 0 := by
  have h := computeDerivatives_eps_zero keyframeCollaborators [constantCost 2 1] none
    (keyframeManager [0] 1) 0 (fun _ => 0) (fun _ => none)
  refine ⟨⟨⟨2, fun _ _ => rfl⟩, fun _ _ _ => rfl⟩, h, ?_⟩
  rw [h]
  simp

/-- In exact arithmetic: if every registered cost function is constant
(`IsConstantCost`), the trajectory store reports the same range and the same
index for the two perturbations of the parameter, and `eps` is not zero, then
`computeDerivatives` writes the derivative 0. -/
theorem computeDerivatives_constant_cost (env : Collaborators F T K)
    (cfs : List (TrajectoryCost (NewEvalManager F T K R)))
    (ref : Option (NewEvalManager F T K R)) (self : NewEvalManager F T K R)
    (p : Nat) (parameters : Nat → ℚ) (derivative_out : Nat → Option ℚ) (eps : ℚ)
    (hconst : ∀ cf, cf ∈ cfs → IsConstantCost cf)
    (hrange :
      (env.directChangeForDerivativeComputation
        (env.directChangeForDerivativeComputation self.itomp_trajectory_ p
          (parameters p + eps) true).1 p (parameters p - eps) false).2
      = (env.directChangeForDerivativeComputation self.itomp_trajectory_ p
          (parameters p + eps) true).2)
    (hindex :
      env.getTrajectoryIndex
        (env.directChangeForDerivativeComputation
          (env.directChangeForDerivativeComputation self.itomp_trajectory_ p
            (parameters p + eps) true).1 p (parameters p - eps) false).1 p
      = env.getTrajectoryIndex
          (env.directChangeForDerivativeComputation self.itomp_trajectory_ p
            (parameters p + eps) true).1 p)
    (heps : eps ≠ 0) :
    (self.computeDerivatives env cfs ref p parameters derivative_out eps).value p = some 0 := by
  rw [(computeDerivatives_spec env cfs ref self p parameters derivative_out eps).1]
  have hitomp := evaluateParameterPointItomp_itomp env cfs ref self (parameters p + eps) p true
  have hr1 := evaluateParameterPointItomp_range env cfs ref self (parameters p + eps) p true
  have hr2 := evaluateParameterPointItomp_range env cfs ref
    (self.evaluateParameterPointItomp env cfs ref (parameters p + eps) p true).mgr
    (parameters p - eps) p false
  rw [hitomp] at hr2
  have hreq : ((self.evaluateParameterPointItomp env cfs ref (parameters p + eps) p
        true).mgr.evaluateParameterPointItomp env cfs ref (parameters p - eps) p false).value
      = (self.evaluateParameterPointItomp env cfs ref (parameters p + eps) p true).value := by
    rw [hr2, hr1, hindex, hrange]
  have hsum : (∑ i in Finset.Ico
        ((self.evaluateParameterPointItomp env cfs ref (parameters p + eps) p
          true).mgr.evaluateParameterPointItomp env cfs ref (parameters p - eps) p
          false).value.1
        ((self.evaluateParameterPointItomp env cfs ref (parameters p + eps) p
          true).mgr.evaluateParameterPointItomp env cfs ref (parameters p - eps) p
          false).value.2,
      ∑ c in Finset.range cfs.length,
        ((self.evaluateParameterPointItomp env cfs ref (parameters p + eps) p
          true).mgr.evaluateParameterPointItomp env cfs ref (parameters p - eps) p
          false).mgr.evaluation_cost_matrix_.coeff i c)
      = ∑ i in Finset.Ico
          (self.evaluateParameterPointItomp env cfs ref (parameters p + eps) p true).value.1
          (self.evaluateParameterPointItomp env cfs ref (parameters p + eps) p true).value.2,
        ∑ c in Finset.range cfs.length,
          (self.evaluateParameterPointItomp env cfs ref (parameters p + eps) p
            true).mgr.evaluation_cost_matrix_.coeff i c := by
    rw [hreq]
    refine Finset.sum_congr rfl (fun i hi => Finset.sum_congr rfl (fun c hc => ?_))
    rw [Finset.mem_Ico] at hi
    rw [Finset.mem_range] at hc
    obtain ⟨a1, a2, _, _, ha⟩ := evaluateParameterPointItomp_entry env cfs ref self
      (parameters p + eps) p true c hc i hi.1 hi.2
    obtain ⟨b1, b2, _, _, hb⟩ := evaluateParameterPointItomp_entry env cfs ref
      (self.evaluateParameterPointItomp env cfs ref (parameters p + eps) p true).mgr
      (parameters p - eps) p false c hc i (by rw [hreq]; exact hi.1) (by rw [hreq]; exact hi.2)
    rw [ha, hb, hitomp, hindex]
    obtain ⟨⟨k, hk⟩, hinv⟩ := hconst cfs[c] (List.getElem_mem hc)
    rw [hinv b1 a1, hk b2, hk a2]
  rw [hsum]
  simp [fdiv, heps]

/-- Instance of `computeDerivatives_constant_cost`: the scenario of the specification
with `eps = 1`. -/
theorem computeDerivatives_constant_cost_witness :
    ((keyframeManager [0] 1).computeDerivatives keyframeCollaborators [constantCost 2 1] none
        0 (fun _ => 0) (fun _ => none) 1).value 0 = some 0 :=
  computeDerivatives_constant_cost keyframeCollaborators [constantCost 2 1] none
    (keyframeManager [0] 1) 0 (fun _ => 0) (fun _ => none) 1
    (by
      intro cf hcf
      rw [List.mem_singleton] at hcf
      subst hcf
      exact ⟨⟨2, fun _ _ => rfl⟩, fun _ _ _ => rfl⟩)
    rfl rfl (by norm_num)

/-! ### The one-joint robot with the squared position cost -/

theorem keyframe_getD_set_self (q : List ℚ) (p : Nat) (x : ℚ) (hp : p < q.length) :
    (q.set p x).getD p 0 = x := by
  simp [List.getD_eq_getElem?_getD, List.getElem?_set, hp]

theorem keyframe_getD_set_other (q : List ℚ) (p i : Nat) (x : ℚ) (hi : i ≠ p) :
    (q.set p x).getD i 0 = q.getD i 0 := by
  simp [List.getD_eq_getElem?_getD, List.getElem?_set, Ne.symm hi]

/-- Total cost `evaluate()` returns for the one-joint robot with joint positions `q`
and the cost `g` of the joint position, weight `w`. -/
theorem keyframe_evaluate_total (g : ℚ → ℚ) (q : List ℚ) (w : ℚ) :
    ((keyframeManager q 1).evaluate keyframeCollaborators [positionCost g w]).value
      = ∑ i in Finset.range q.length, w * g (q.getD i 0) := by
  obtain ⟨hval, hrows, hcols, hentries⟩ :=
    evaluate_spec keyframeCollaborators [positionCost g w] (keyframeManager q 1)
  have hn : keyframeCollaborators.getNumPoints
      ((keyframeManager q 1).evaluate keyframeCollaborators
        [positionCost g w]).mgr.full_trajectory_ = q.length := by
    rw [evaluate_full_trajectory, NewEvalManager.evaluatePropagated,
      (performFull_frame _ _ _ _).full_eq_dyn]
    simp [NewEvalManager.pushParameterTrajectory, keyframeManager, keyframeCollaborators,
      KeyframeStore.updateFromParameterTrajectory]
  rw [hval, hrows, hcols]
  show ∑ i in Finset.range q.length, ∑ c in Finset.range 1, _ = _
  refine Finset.sum_congr rfl (fun i hi => ?_)
  rw [Finset.mem_range] at hi
  rw [Finset.sum_range_one]
  obtain ⟨cost, feas, _, _, ⟨m, hm1, hm2⟩, hcoeff⟩ := hentries i 0 (by simp) (by rw [hn]; exact hi)
  rw [hcoeff]
  have hcost : cost = g (m.itomp_trajectory_.position.getD i 0) := by
    have h3 : (positionCost g w).evaluate m i = (feas, cost) := hm2
    simp only [positionCost, Prod.mk.injEq] at h3
    exact h3.2.symm
  rw [hcost, hm1]
  rfl

/-- The total cost of the one-joint robot as a function of the value `x` of parameter
`p`: the cost of point `p` plus a part that does not depend on `x`. -/
theorem keyframe_evaluate_total_parameter (g : ℚ → ℚ) (q : List ℚ) (w : ℚ) (p : Nat)
    (hp : p < q.length) (x : ℚ) :
    ((keyframeManager (q.set p x) 1).evaluate keyframeCollaborators [positionCost g w]).value
      = w * g x + ∑ i in (Finset.range q.length).erase p, w * g (q.getD i 0) := by
  rw [keyframe_evaluate_total, List.length_set,
    ← Finset.add_sum_erase (Finset.range q.length) _ (Finset.mem_range.2 hp),
    keyframe_getD_set_self q p x hp]
  congr 1
  refine Finset.sum_congr rfl (fun i hi => ?_)
  rw [keyframe_getD_set_other q p i x (Finset.ne_of_mem_erase hi)]

/-- What `computeDerivatives` writes for the one-joint robot with the cost `g` of the
joint position, weight `w`: the central difference of `w * g` at the parameter
value. -/
theorem keyframe_computeDerivatives (g : ℚ → ℚ)
    (self : NewEvalManager KeyframeStore KeyframeStore Unit Unit)
    (w : ℚ) (p : Nat) (hp : p < self.itomp_trajectory_.position.length)
    (ref : Option (NewEvalManager KeyframeStore KeyframeStore Unit Unit))
    (parameters : Nat → ℚ) (derivative_out : Nat → Option ℚ) (eps : ℚ) :
    (self.computeDerivatives keyframeCollaborators [positionCost g w] ref p parameters
      derivative_out eps).value p
      = fdiv (w * g (parameters p + eps) - w * g (parameters p - eps)) (2 * eps) := by
  rw [(computeDerivatives_spec keyframeCollaborators [positionCost g w] ref self p
    parameters derivative_out eps).1]
  have hitomp := evaluateParameterPointItomp_itomp keyframeCollaborators
    [positionCost g w] ref self (parameters p + eps) p true
  have hr1 : (self.evaluateParameterPointItomp keyframeCollaborators [positionCost g w]
      ref (parameters p + eps) p true).value = (p, p + 1) := by
    rw [evaluateParameterPointItomp_range]
    simp [keyframeCollaborators, KeyframeStore.directChange]
  have hr2 : ((self.evaluateParameterPointItomp keyframeCollaborators [positionCost g w]
      ref (parameters p + eps) p true).mgr.evaluateParameterPointItomp keyframeCollaborators
      [positionCost g w] ref (parameters p - eps) p false).value = (p, p + 1) := by
    rw [evaluateParameterPointItomp_range]
    simp [keyframeCollaborators, KeyframeStore.directChange]
  obtain ⟨a1, a2, _, ha2, ha⟩ := evaluateParameterPointItomp_entry keyframeCollaborators
    [positionCost g w] ref self (parameters p + eps) p true 0 (by simp) p
    (by rw [hr1]) (by rw [hr1]; exact Nat.lt_succ_self p)
  obtain ⟨b1, b2, _, hb2, hb⟩ := evaluateParameterPointItomp_entry keyframeCollaborators
    [positionCost g w] ref
    (self.evaluateParameterPointItomp keyframeCollaborators [positionCost g w]
      ref (parameters p + eps) p true).mgr (parameters p - eps) p false 0 (by simp) p
    (by rw [hr2]) (by rw [hr2]; exact Nat.lt_succ_self p)
  rw [hr1, hr2]
  simp only [List.length_singleton, Finset.sum_range_one, Nat.Ico_succ_singleton,
    Finset.sum_singleton]
  rw [ha, hb]
  have hplus : (([positionCost g w][0]).evaluate a2 p).2 = g (parameters p + eps) := by
    show g (a2.itomp_trajectory_.position.getD p 0) = _
    rw [ha2]
    show g ((self.itomp_trajectory_.position.set p (parameters p + eps)).getD p 0) = _
    rw [keyframe_getD_set_self _ _ _ hp]
  have hminus : (([positionCost g w][0]).evaluate b2 p).2 = g (parameters p - eps) := by
    show g (b2.itomp_trajectory_.position.getD p 0) = _
    rw [hb2, hitomp]
    show g (((self.itomp_trajectory_.position.set p (parameters p + eps)).set p
      (parameters p - eps)).getD p 0) = _
    rw [keyframe_getD_set_self _ _ _ (by simpa using hp)]
  have hw : ([positionCost g w][0]).weight = w := rfl
  have hi1 : ([positionCost g w][0]).isInvariant a1
      (keyframeCollaborators.getTrajectoryIndex
        (keyframeCollaborators.directChangeForDerivativeComputation self.itomp_trajectory_ p
          (parameters p + eps) true).1 p) = false := rfl
  have hi2 : ([positionCost g w][0]).isInvariant b1
      (keyframeCollaborators.getTrajectoryIndex
        (keyframeCollaborators.directChangeForDerivativeComputation
          (self.evaluateParameterPointItomp keyframeCollaborators [positionCost g w]
            ref (parameters p + eps) p true).mgr.itomp_trajectory_ p
          (parameters p - eps) false).1 p) = false := rfl
  rw [hi1, hi2]
  simp only [Bool.false_eq_true, if_false]
  rw [hw, hplus, hminus]

theorem polyEval_hasDerivAt (coeffs : List ℚ) (x : ℚ) :
    HasDerivAt (fun y : ℚ => polyEval coeffs y) (polyDerivEval coeffs x) x := by
  induction coeffs with
  | nil =>
    simp only [polyEval, polyDerivEval]
    exact hasDerivAt_const x 0
  | cons a q ih =>
    simp only [polyEval, polyDerivEval]
    have h := ((hasDerivAt_id x).mul ih).const_add a
    simpa [add_comm, mul_comm] using h

/-- Symmetric differences of a polynomial: the odd one minus its linear part is of
order `e ^ 3`, the even one of order `e ^ 2`. -/
theorem polyEval_central_bound (coeffs : List ℚ) (x : ℚ) :
    ∃ d a : ℚ, 0 ≤ d ∧ 0 ≤ a ∧ ∀ e : ℚ, |e| ≤ 1 →
      |polyEval coeffs (x + e) - polyEval coeffs (x - e) - 2 * e * polyDerivEval coeffs x|
        ≤ d * |e| ^ 3 ∧
      |polyEval coeffs (x + e) + polyEval coeffs (x - e) - 2 * polyEval coeffs x|
        ≤ a * |e| ^ 2 := by
  induction coeffs with
  | nil =>
    refine ⟨0, 0, le_refl _, le_refl _, fun e _ => ?_⟩
    simp [polyEval, polyDerivEval]
  | cons c q ih =>
    obtain ⟨d, a, hd, ha, h⟩ := ih
    refine ⟨|x| * d + a, |x| * a + d + 2 * |polyDerivEval q x|, by positivity, by positivity,
      fun e he => ?_⟩
    obtain ⟨h1, h2⟩ := h e he
    have he0 : 0 ≤ |e| := abs_nonneg e
    constructor
    · have heq : polyEval (c :: q) (x + e) - polyEval (c :: q) (x - e)
          - 2 * e * polyDerivEval (c :: q) x
          = x * (polyEval q (x + e) - polyEval q (x - e) - 2 * e * polyDerivEval q x)
            + e * (polyEval q (x + e) + polyEval q (x - e) - 2 * polyEval q x) := by
        simp only [polyEval, polyDerivEval]
        ring
      rw [heq]
      calc |x * (polyEval q (x + e) - polyEval q (x - e) - 2 * e * polyDerivEval q x)
            + e * (polyEval q (x + e) + polyEval q (x - e) - 2 * polyEval q x)|
          ≤ |x * (polyEval q (x + e) - polyEval q (x - e) - 2 * e * polyDerivEval q x)|
            + |e * (polyEval q (x + e) + polyEval q (x - e) - 2 * polyEval q x)| :=
            abs_add _ _
        _ = |x| * |polyEval q (x + e) - polyEval q (x - e) - 2 * e * polyDerivEval q x|
            + |e| * |polyEval q (x + e) + polyEval q (x - e) - 2 * polyEval q x| := by
            rw [abs_mul, abs_mul]
        _ ≤ |x| * (d * |e| ^ 3) + |e| * (a * |e| ^ 2) := by
            gcongr
        _ = (|x| * d + a) * |e| ^ 3 := by ring
    · have heq : polyEval (c :: q) (x + e) + polyEval (c :: q) (x - e)
          - 2 * polyEval (c :: q) x
          = x * (polyEval q (x + e) + polyEval q (x - e) - 2 * polyEval q x)
            + e * (polyEval q (x + e) - polyEval q (x - e) - 2 * e * polyDerivEval q x)
            + 2 * e ^ 2 * polyDerivEval q x := by
        simp only [polyEval, polyDerivEval]
        ring
      rw [heq]
      have he3 : |e| * |e| ^ 3 ≤ |e| ^ 2 := by
        have : |e| ^ 2 ≤ 1 := pow_le_one₀ he0 he
        nlinarith [pow_nonneg he0 2]
      calc |x * (polyEval q (x + e) + polyEval q (x - e) - 2 * polyEval q x)
            + e * (polyEval q (x + e) - polyEval q (x - e) - 2 * e * polyDerivEval q x)
            + 2 * e ^ 2 * polyDerivEval q x|
          ≤ |x * (polyEval q (x + e) + polyEval q (x - e) - 2 * polyEval q x)|
            + |e * (polyEval q (x + e) - polyEval q (x - e) - 2 * e * polyDerivEval q x)|
            + |2 * e ^ 2 * polyDerivEval q x| := abs_add_three _ _ _
        _ = |x| * |polyEval q (x + e) + polyEval q (x - e) - 2 * polyEval q x|
            + |e| * |polyEval q (x + e) - polyEval q (x - e) - 2 * e * polyDerivEval q x|
            + 2 * |e| ^ 2 * |polyDerivEval q x| := by
            rw [abs_mul, abs_mul, abs_mul, abs_mul, abs_pow, abs_two]
        _ ≤ |x| * (a * |e| ^ 2) + |e| * (d * |e| ^ 3) + 2 * |e| ^ 2 * |polyDerivEval q x| := by
            gcongr
        _ = |x| * a * |e| ^ 2 + d * (|e| * |e| ^ 3) + 2 * |e| ^ 2 * |polyDerivEval q x| := by
            ring
        _ ≤ |x| * a * |e| ^ 2 + d * |e| ^ 2 + 2 * |e| ^ 2 * |polyDerivEval q x| := by
            gcongr
        _ = (|x| * a + d + 2 * |polyDerivEval q x|) * |e| ^ 2 := by ring

/-- The central difference quotient of a weighted polynomial differs from its
derivative by at most a constant times `e ^ 2`. -/
theorem central_quotient_bound (coeffs : List ℚ) (x w : ℚ) :
    ∃ B : ℚ, 0 ≤ B ∧ ∀ e : ℚ, e ≠ 0 → |e| ≤ 1 →
      |(w * polyEval coeffs (x + e) - w * polyEval coeffs (x - e)) / (2 * e)
          - w * polyDerivEval coeffs x| ≤ B * e ^ 2 := by
  obtain ⟨d, a, hd, ha, h⟩ := polyEval_central_bound coeffs x
  refine ⟨|w| * d / 2, by positivity, fun e he0 he => ?_⟩
  have h1 := (h e he).1
  have hepos : 0 < |e| := abs_pos.2 he0
  have heq : (w * polyEval coeffs (x + e) - w * polyEval coeffs (x - e)) / (2 * e)
      - w * polyDerivEval coeffs x
      = w * (polyEval coeffs (x + e) - polyEval coeffs (x - e)
          - 2 * e * polyDerivEval coeffs x) / (2 * e) := by
    field_simp
    ring
  rw [heq, abs_div, abs_mul, abs_mul, abs_two]
  rw [div_le_iff₀ (by positivity)]
  calc |w| * |polyEval coeffs (x + e) - polyEval coeffs (x - e) - 2 * e * polyDerivEval coeffs x|
      ≤ |w| * (d * |e| ^ 3) := by gcongr
    _ = |w| * d / 2 * e ^ 2 * (2 * |e|) := by
      rw [← sq_abs e]
      ring

/-- In exact arithmetic, on the one-joint robot whose cost at a point is a polynomial of
the joint position (weight `w`), the total cost returned by `evaluate()`, as a function of
the value of parameter `p`, has the analytic derivative
`w * polyDerivEval coeffs q[p]` at the current value, and there is a constant `B`
such that for every `eps` with `0 < |eps| <= 1` the derivative written by
`computeDerivatives` is a number within `B * eps ^ 2` of it.  For the sum of
squared joint positions the derivative written is exactly `2 * w * q[p]` for
every `eps` other than 0, and the central difference of the square is exact:
`((x + eps)^2 - (x - eps)^2) / (2 * eps) = 2 * x`. -/
theorem keyframe_matches_analytic_gradient (q : List ℚ) (w : ℚ) (p : Nat)
    (hp : p < q.length)
    (self : NewEvalManager KeyframeStore KeyframeStore Unit Unit)
    (hq : self.itomp_trajectory_.position = q)
    (ref : Option (NewEvalManager KeyframeStore KeyframeStore Unit Unit))
    (derivative_out : Nat → Option ℚ) :
    (∀ coeffs : List ℚ,
      HasDerivAt
        (fun x : ℚ => ((keyframeManager (q.set p x) 1).evaluate keyframeCollaborators
          [polynomialPositionCost coeffs w]).value)
        (w * polyDerivEval coeffs (q.getD p 0)) (q.getD p 0) ∧
      ∃ B : ℚ, 0 ≤ B ∧ ∀ eps : ℚ, eps ≠ 0 → |eps| ≤ 1 →
        ∃ d, (self.computeDerivatives keyframeCollaborators [polynomialPositionCost coeffs w]
            ref p (fun i => q.getD i 0) derivative_out eps).value p = some d ∧
          |d - w * polyDerivEval coeffs (q.getD p 0)| ≤ B * eps ^ 2) ∧
    HasDerivAt
      (fun x : ℚ => ((keyframeManager (q.set p x) 1).evaluate keyframeCollaborators
        [squaredPositionCost w]).value)
      (2 * w * q.getD p 0) (q.getD p 0) ∧
    (∀ eps : ℚ, eps ≠ 0 →
      (self.computeDerivatives keyframeCollaborators [squaredPositionCost w] ref p
          (fun i => q.getD i 0) derivative_out eps).value p = some (2 * w * q.getD p 0) ∧
      ∀ x : ℚ, ((x + eps) ^ 2 - (x - eps) ^ 2) / (2 * eps) = 2 * x) := by
  have hp2 : p < self.itomp_trajectory_.position.length := by rw [hq]; exact hp
  refine ⟨fun coeffs => ⟨?_, ?_⟩, ?_, fun eps heps => ⟨?_, fun x => ?_⟩⟩
  · have hfun : (fun x : ℚ => ((keyframeManager (q.set p x) 1).evaluate keyframeCollaborators
          [polynomialPositionCost coeffs w]).value)
        = fun x : ℚ => w * polyEval coeffs x
            + ∑ i in (Finset.range q.length).erase p, w * polyEval coeffs (q.getD i 0) := by
      funext x
      exact keyframe_evaluate_total_parameter (polyEval coeffs) q w p hp x
    rw [hfun]
    exact ((polyEval_hasDerivAt coeffs (q.getD p 0)).const_mul w).add_const _
  · obtain ⟨B, hB, hbound⟩ := central_quotient_bound coeffs (q.getD p 0) w
    refine ⟨B, hB, fun eps heps hle => ?_⟩
    have h2 : (2 : ℚ) * eps ≠ 0 := mul_ne_zero (by norm_num) heps
    refine ⟨(w * polyEval coeffs (q.getD p 0 + eps) - w * polyEval coeffs (q.getD p 0 - eps))
      / (2 * eps), ?_, hbound eps heps hle⟩
    show (self.computeDerivatives keyframeCollaborators [positionCost (polyEval coeffs) w]
      ref p (fun i => q.getD i 0) derivative_out eps).value p = _
    rw [keyframe_computeDerivatives (polyEval coeffs) self w p hp2 ref (fun i => q.getD i 0)
      derivative_out eps]
    simp only [fdiv, h2, if_false]
  · have hfun : (fun x : ℚ => ((keyframeManager (q.set p x) 1).evaluate keyframeCollaborators
          [squaredPositionCost w]).value)
        = fun x : ℚ => w * x ^ 2
            + ∑ i in (Finset.range q.length).erase p, w * (q.getD i 0) ^ 2 := by
      funext x
      exact keyframe_evaluate_total_parameter (fun x => x ^ 2) q w p hp x
    rw [hfun]
    have h := (((hasDerivAt_id (q.getD p 0)).pow 2).const_mul w).add_const
      (∑ i in (Finset.range q.length).erase p, w * (q.getD i 0) ^ 2)
    convert h using 1
    simp
    ring
  · have h2 : (2 : ℚ) * eps ≠ 0 := mul_ne_zero (by norm_num) heps
    show (self.computeDerivatives keyframeCollaborators [positionCost (fun x => x ^ 2) w]
      ref p (fun i => q.getD i 0) derivative_out eps).value p = _
    rw [keyframe_computeDerivatives (fun x => x ^ 2) self w p hp2 ref (fun i => q.getD i 0)
      derivative_out eps]
    simp only [fdiv, h2, if_false]
    congr 1
    field_simp
    ring
  · have h2 : (2 : ℚ) * eps ≠ 0 := mul_ne_zero (by norm_num) heps
    field_simp
    ring

/-- Instance of `keyframe_matches_analytic_gradient`: joint position 3, `eps = 1`: the
derivative written in exact arithmetic is 6. -/
theorem keyframe_matches_analytic_gradient_instance :
    ((keyframeManager [3] 1).computeDerivatives keyframeCollaborators [squaredPositionCost 1]
        none 0 (fun i => [(3 : ℚ)].getD i 0) (fun _ => none) 1).value 0
      = some (2 * 1 * [(3 : ℚ)].getD 0 0) :=
  ((keyframe_matches_analytic_gradient [3] 1 0 (by decide)
    (keyframeManager [3] 1) rfl none (fun _ => none)).2.2 1 (by norm_num)).1

end Derivatives

/-! ## Restoring the trajectory -/

section Restore

variable {F T K R : Type}

theorem keyframe_restoreContract : RestoreContract keyframeCollaborators := by
  intro t p v1 v2
  rfl

theorem keyframe_restoreContractLegacy : RestoreContractLegacy keyframeCollaborators := by
  intro t group type point element v1 v2
  rfl

theorem SameExceptCost.group_eq {m1 m2 : NewEvalManager F T K R} (h : SameExceptCost m1 m2) :
    m2.planning_group_ = m1.planning_group_ := by
  rw [h]

theorem SameExceptDynamics.group_eq_dyn {m1 m2 : NewEvalManager F T K R}
    (h : SameExceptDynamics m1 m2) : m2.planning_group_ = m1.planning_group_ := by
  rw [h]

theorem SameExceptCost.parameter_eq {m1 m2 : NewEvalManager F T K R}
    (h : SameExceptCost m1 m2) : m2.parameter_trajectory_ = m1.parameter_trajectory_ := by
  rw [h]

theorem SameExceptDynamics.parameter_eq_dyn {m1 m2 : NewEvalManager F T K R}
    (h : SameExceptDynamics m1 m2) : m2.parameter_trajectory_ = m1.parameter_trajectory_ := by
  rw [h]

/-- Store calls and trajectory store of `computeDerivatives`. -/
theorem computeDerivatives_store (env : Collaborators F T K)
    (cfs : List (TrajectoryCost (NewEvalManager F T K R)))
    (ref : Option (NewEvalManager F T K R)) (self : NewEvalManager F T K R)
    (p : Nat) (parameters : Nat → ℚ) (derivative_out : Nat → Option ℚ) (eps : ℚ) :
    (self.computeDerivatives env cfs ref p parameters derivative_out eps).calls.filter
        Call.isStoreCall
      = [Call.directChangeForDerivativeComputation p (parameters p + eps) true,
         Call.directChangeForDerivativeComputation p (parameters p - eps) false,
         Call.restoreTrajectory]
    ∧ (self.computeDerivatives env cfs ref p parameters derivative_out eps).mgr.itomp_trajectory_
      = env.restoreTrajectory
          (env.directChangeForDerivativeComputation
            (env.directChangeForDerivativeComputation self.itomp_trajectory_ p
              (parameters p + eps) true).1 p (parameters p - eps) false).1 := by
  constructor
  · show (_ ++ _ ++ [Call.restoreTrajectory]).filter Call.isStoreCall = _
    rw [List.filter_append, List.filter_append, evaluateParameterPointItomp_store_calls,
      evaluateParameterPointItomp_store_calls]
    rfl
  · show env.restoreTrajectory _ = _
    rw [evaluateParameterPointItomp_itomp, evaluateParameterPointItomp_itomp]

/-- Store calls and trajectory store of `computeCostDerivatives`. -/
theorem computeCostDerivatives_store (env : Collaborators F T K)
    (cfs : List (TrajectoryCost (NewEvalManager F T K R)))
    (ref : Option (NewEvalManager F T K R)) (self : NewEvalManager F T K R)
    (p : Nat) (parameters : Nat → ℚ) (derivative_out : Nat → Option ℚ)
    (cost_derivative_out : Nat → Nat → Option ℚ) (eps : ℚ) :
    (self.computeCostDerivatives env cfs ref p parameters derivative_out cost_derivative_out
        eps).calls.filter Call.isStoreCall
      = [Call.directChangeForDerivativeComputation p (parameters p + eps) true,
         Call.directChangeForDerivativeComputation p (parameters p - eps) false,
         Call.restoreTrajectory]
    ∧ (self.computeCostDerivatives env cfs ref p parameters derivative_out cost_derivative_out
        eps).mgr.itomp_trajectory_
      = env.restoreTrajectory
          (env.directChangeForDerivativeComputation
            (env.directChangeForDerivativeComputation self.itomp_trajectory_ p
              (parameters p + eps) true).1 p (parameters p - eps) false).1 := by
  constructor
  · show (_ ++ _ ++ [Call.restoreTrajectory]).filter Call.isStoreCall = _
    rw [List.filter_append, List.filter_append, evaluateParameterPointItomp_store_calls,
      evaluateParameterPointItomp_store_calls]
    rfl
  · show env.restoreTrajectory _ = _
    rw [evaluateParameterPointItomp_itomp, evaluateParameterPointItomp_itomp]

/-- The full trajectory store and the planning group after the legacy
`evaluateParameterPoint`, and its store calls. -/
theorem evaluateParameterPoint_store (env : Collaborators F T K)
    (cfs : List (TrajectoryCost (NewEvalManager F T K R)))
    (ref : Option (NewEvalManager F T K R)) (self : NewEvalManager F T K R)
    (value : ℚ) (type point element : Nat) (first : Bool) :
    (self.evaluateParameterPoint env cfs ref value type point element first).mgr.full_trajectory_
      = (env.directChangeForDerivatives self.full_trajectory_ value self.planning_group_ type
          point element first).1
    ∧ (self.evaluateParameterPoint env cfs ref value type point element
        first).mgr.planning_group_ = self.planning_group_
    ∧ (self.evaluateParameterPoint env cfs ref value type point element
        first).mgr.parameter_trajectory_ = self.parameter_trajectory_
    ∧ (self.evaluateParameterPoint env cfs ref value type point element first).calls.filter
        Call.isStoreCall = [Call.directChangeForDerivatives value type point element first] := by
  unfold NewEvalManager.evaluateParameterPoint
  dsimp only
  refine ⟨?_, ?_, ?_, ?_⟩
  · rw [(evaluatePointRangeLegacy_same cfs _ _ _).full_eq,
      (performPartialLegacy_frame env ref _ _ _ _).full_eq_dyn]
  · rw [(evaluatePointRangeLegacy_same cfs _ _ _).group_eq,
      (performPartialLegacy_frame env ref _ _ _ _).group_eq_dyn]
  · rw [(evaluatePointRangeLegacy_same cfs _ _ _).parameter_eq,
      (performPartialLegacy_frame env ref _ _ _ _).parameter_eq_dyn]
  · rw [List.filter_cons_of_pos (by rfl), evaluatePointRangeLegacy_no_store_call]

/-- One element of the legacy `computeDerivatives`: two direct changes, then the
restore. -/
theorem computeDerivativesLegacyStep_store (env : Collaborators F T K)
    (cfs : List (TrajectoryCost (NewEvalManager F T K R)))
    (ref : Option (NewEvalManager F T K R)) (parameters : Nat → MatrixXd) (type point : Nat)
    (eps : ℚ) (i : Nat) (st : LegacyLoopState (NewEvalManager F T K R)) :
    (computeDerivativesLegacyStep env cfs ref parameters type point eps i st).calls.filter
        Call.isStoreCall
      = st.calls.filter Call.isStoreCall ++ legacyStoreCalls parameters type point eps i
    ∧ (computeDerivativesLegacyStep env cfs ref parameters type point eps i
        st).mgr.full_trajectory_
      = env.restoreBackupTrajectories
          (env.directChangeForDerivatives
            (env.directChangeForDerivatives st.mgr.full_trajectory_
              ((parameters type).coeff point i + eps) st.mgr.planning_group_ type point i true).1
            ((parameters type).coeff point i - eps) st.mgr.planning_group_ type point i false).1
    ∧ (computeDerivativesLegacyStep env cfs ref parameters type point eps i
        st).mgr.planning_group_ = st.mgr.planning_group_
    ∧ (computeDerivativesLegacyStep env cfs ref parameters type point eps i
        st).mgr.parameter_trajectory_ = st.mgr.parameter_trajectory_ := by
  obtain ⟨a1, a2, a3, a4⟩ := evaluateParameterPoint_store env cfs ref st.mgr
    ((parameters type).coeff point i + eps) type point i true
  obtain ⟨b1, b2, b3, b4⟩ := evaluateParameterPoint_store env cfs ref
    (st.mgr.evaluateParameterPoint env cfs ref ((parameters type).coeff point i + eps) type
      point i true).mgr ((parameters type).coeff point i - eps) type point i false
  refine ⟨?_, ?_, ?_, ?_⟩
  · show (st.calls ++ _ ++ _ ++ [Call.restoreBackupTrajectories]).filter Call.isStoreCall = _
    rw [List.filter_append, List.filter_append, List.filter_append, a4, b4]
    simp [legacyStoreCalls, Call.isStoreCall]
  · show env.restoreBackupTrajectories _ = _
    rw [b1, a1, a2]
  · show (_ : NewEvalManager F T K R).planning_group_ = _
    exact b2.trans a2
  · show (_ : NewEvalManager F T K R).parameter_trajectory_ = _
    exact b3.trans a3

/-- Store calls and full trajectory store of the legacy `computeDerivatives`. -/
theorem computeDerivativesLegacy_store (env : Collaborators F T K)
    (cfs : List (TrajectoryCost (NewEvalManager F T K R)))
    (ref : Option (NewEvalManager F T K R)) (self : NewEvalManager F T K R)
    (parameters : Nat → MatrixXd) (type point : Nat) (res : LegacyDerivatives) (eps : ℚ) :
    (self.computeDerivativesLegacy env cfs ref parameters type point res eps).calls.filter
        Call.isStoreCall
      = Call.updateFromParameterTrajectory ::
          (List.range (self.setParameters parameters).parameter_trajectory_.num_elements).flatMap
            (legacyStoreCalls parameters type point eps)
    ∧ (RestoreContractLegacy env →
        (self.computeDerivativesLegacy env cfs ref parameters type point res
            eps).mgr.full_trajectory_
          = env.updateFromParameterTrajectory self.full_trajectory_
              (self.setParameters parameters).parameter_trajectory_ self.planning_group_) := by
  have key : ∀ n : Nat,
      ((forLoop 0 n (computeDerivativesLegacyStep env cfs ref parameters type point eps)
          { mgr := { self.setParameters parameters with
              full_trajectory_ := env.updateFromParameterTrajectory
                (self.setParameters parameters).full_trajectory_
                (self.setParameters parameters).parameter_trajectory_
                (self.setParameters parameters).planning_group_
              parameter_modified_ := false },
            res := res, calls := [Call.updateFromParameterTrajectory] }).calls.filter
          Call.isStoreCall
        = Call.updateFromParameterTrajectory ::
            (List.range n).flatMap (legacyStoreCalls parameters type point eps))
      ∧ (RestoreContractLegacy env →
          (forLoop 0 n (computeDerivativesLegacyStep env cfs ref parameters type point eps)
            { mgr := { self.setParameters parameters with
                full_trajectory_ := env.updateFromParameterTrajectory
                  (self.setParameters parameters).full_trajectory_
                  (self.setParameters parameters).parameter_trajectory_
                  (self.setParameters parameters).planning_group_
                parameter_modified_ := false },
              res := res, calls := [Call.updateFromParameterTrajectory] }).mgr.full_trajectory_
            = env.updateFromParameterTrajectory self.full_trajectory_
                (self.setParameters parameters).parameter_trajectory_ self.planning_group_) := by
    intro n
    refine forLoop_inv
      (fun k (t : LegacyLoopState (NewEvalManager F T K R)) =>
        (t.calls.filter Call.isStoreCall = Call.updateFromParameterTrajectory ::
            (List.range k).flatMap (legacyStoreCalls parameters type point eps))
        ∧ (RestoreContractLegacy env →
            t.mgr.full_trajectory_
              = env.updateFromParameterTrajectory self.full_trajectory_
                  (self.setParameters parameters).parameter_trajectory_ self.planning_group_))
      0 n _ _ (Nat.zero_le _) ?_ ?_
    · exact ⟨rfl, fun _ => rfl⟩
    · rintro k t _ _ ⟨h1, h2⟩
      obtain ⟨s1, s2, _, _⟩ :=
        computeDerivativesLegacyStep_store env cfs ref parameters type point eps k t
      refine ⟨?_, ?_⟩
      · rw [s1, h1, List.range_succ, List.flatMap_append]
        simp
      · intro hc
        rw [s2, hc]
        exact h2 hc
  exact key _

/-- Counterexample to C10 as stated: the legacy `computeDerivatives` of the one-joint
robot, whose store honours the restore contract, called with the position
parameter 5 on a trajectory whose joint position is 0, leaves the full
trajectory different from the one before the call: it first pushes
`parameters` into it. -/
theorem computeDerivativesLegacy_changes_trajectory :
    RestoreContractLegacy keyframeCollaborators ∧
    ((keyframeManager [0] 1).computeDerivativesLegacy keyframeCollaborators [constantCost 2 1]
        none (fun _ => { rows := 1, cols := 1, coeff := fun _ _ => 5 }) 0 0
        { out := fun _ => none, d_p := fun _ => 0, d_m := fun _ => 0, cost_der := none }
        1).mgr.full_trajectory_ = { position := [5], backup := [] } ∧
    ((keyframeManager [0] 1).computeDerivativesLegacy keyframeCollaborators [constantCost 2 1]
        none (fun _ => { rows := 1, cols := 1, coeff := fun _ _ => 5 }) 0 0
        { out := fun _ => none, d_p := fun _ => 0, d_m := fun _ => 0, cost_der := none }
        1).mgr.full_trajectory_ ≠ (keyframeManager [0] 1).full_trajectory_ := by
  have h := (computeDerivativesLegacy_store keyframeCollaborators [constantCost 2 1] none
    (keyframeManager [0] 1) (fun _ => { rows := 1, cols := 1, coeff := fun _ _ => 5 }) 0 0
    { out := fun _ => none, d_p := fun _ => 0, d_m := fun _ => 0, cost_der := none }
    1).2 keyframe_restoreContractLegacy
  have h2 : ((keyframeManager [0] 1).computeDerivativesLegacy keyframeCollaborators
        [constantCost 2 1] none (fun _ => { rows := 1, cols := 1, coeff := fun _ _ => 5 }) 0 0
        { out := fun _ => none, d_p := fun _ => 0, d_m := fun _ => 0, cost_der := none }
        1).mgr.full_trajectory_ = { position := [5], backup := [] } := by
    rw [h]
    simp [keyframeCollaborators, KeyframeStore.updateFromParameterTrajectory,
      NewEvalManager.setParameters, keyframeManager, TRAJECTORY_TYPE_POSITION]
  refine ⟨keyframe_restoreContractLegacy, h2, ?_⟩
  rw [h2]
  simp [keyframeManager]

/-- C10, amended: `computeDerivatives(parameter_index, ...)` and `computeCostDerivatives`
make exactly three calls to the trajectory store, the first-of-pair change by
`+eps`, the second change by `-eps` and the restore, in this order; given the
restore contract of the store, the trajectory after the call equals the
trajectory before the call.  The legacy `computeDerivatives(parameters, type,
point, ...)` first pushes `parameters` into the full trajectory and then makes
the same three calls for every element; given the restore contract, the full
trajectory after the call is the one obtained by that push. -/
theorem derivative_operations_restore (env : Collaborators F T K)
    (cfs : List (TrajectoryCost (NewEvalManager F T K R)))
    (ref : Option (NewEvalManager F T K R)) (self : NewEvalManager F T K R)
    (p : Nat) (parameters : Nat → ℚ) (derivative_out : Nat → Option ℚ)
    (cost_derivative_out : Nat → Nat → Option ℚ) (eps : ℚ)
    (legacy_parameters : Nat → MatrixXd) (type point : Nat) (res : LegacyDerivatives) :
    ((self.computeDerivatives env cfs ref p parameters derivative_out eps).calls.filter
          Call.isStoreCall
        = [Call.directChangeForDerivativeComputation p (parameters p + eps) true,
           Call.directChangeForDerivativeComputation p (parameters p - eps) false,
           Call.restoreTrajectory]
      ∧ (RestoreContract env →
          (self.computeDerivatives env cfs ref p parameters derivative_out
            eps).mgr.itomp_trajectory_ = self.itomp_trajectory_))
    ∧ ((self.computeCostDerivatives env cfs ref p parameters derivative_out
          cost_derivative_out eps).calls.filter Call.isStoreCall
        = [Call.directChangeForDerivativeComputation p (parameters p + eps) true,
           Call.directChangeForDerivativeComputation p (parameters p - eps) false,
           Call.restoreTrajectory]
      ∧ (RestoreContract env →
          (self.computeCostDerivatives env cfs ref p parameters derivative_out
            cost_derivative_out eps).mgr.itomp_trajectory_ = self.itomp_trajectory_))
    ∧ ((self.computeDerivativesLegacy env cfs ref legacy_parameters type point res
          eps).calls.filter Call.isStoreCall
        = Call.updateFromParameterTrajectory ::
            (List.range
              (self.setParameters legacy_parameters).parameter_trajectory_.num_elements).flatMap
              (legacyStoreCalls legacy_parameters type point eps)
      ∧ (RestoreContractLegacy env →
          (self.computeDerivativesLegacy env cfs ref legacy_parameters type point res
              eps).mgr.full_trajectory_
            = env.updateFromParameterTrajectory self.full_trajectory_
                (self.setParameters legacy_parameters).parameter_trajectory_
                self.planning_group_)) := by
  obtain ⟨a1, a2⟩ := computeDerivatives_store env cfs ref self p parameters derivative_out eps
  obtain ⟨b1, b2⟩ := computeCostDerivatives_store env cfs ref self p parameters derivative_out
    cost_derivative_out eps
  refine ⟨⟨a1, fun hc => ?_⟩, ⟨b1, fun hc => ?_⟩,
    computeDerivativesLegacy_store env cfs ref self legacy_parameters type point res eps⟩
  · rw [a2, hc]
  · rw [b2, hc]

/-- Witness of C10: the one-joint robot, whose stores honour both restore contracts:
the trajectory after `computeDerivatives` is the trajectory before it. -/
theorem derivative_operations_restore_witness :
    RestoreContract keyframeCollaborators ∧ RestoreContractLegacy keyframeCollaborators ∧
    ((keyframeManager [3] 1).computeDerivatives keyframeCollaborators [squaredPositionCost 1]
        none 0 (fun _ => 3) (fun _ => none) 1).mgr.itomp_trajectory_
      = (keyframeManager [3] 1).itomp_trajectory_ :=
  ⟨keyframe_restoreContract, keyframe_restoreContractLegacy,
    (derivative_operations_restore keyframeCollaborators [squaredPositionCost 1] none
      (keyframeManager [3] 1) 0 (fun _ => 3) (fun _ => none) (fun _ _ => none) 1
      (fun _ => MatrixXd.Zero 1 1) 0 0
      { out := fun _ => none, d_p := fun _ => 0, d_m := fun _ => 0, cost_der := none }).1.2
      keyframe_restoreContract⟩

/-! ## Repeated derivative computations -/

theorem SameExceptEvaluation.trans_eval {m1 m2 m3 : NewEvalManager F T K R}
    (h12 : SameExceptEvaluation m1 m2) (h23 : SameExceptEvaluation m2 m3) :
    SameExceptEvaluation m1 m3 := by
  cases m1
  cases m2
  cases m3
  simp only [SameExceptEvaluation, NewEvalManager.mk.injEq] at *
  simp_all

theorem SameExceptCost.cost_to_eval {m1 m2 : NewEvalManager F T K R} (h : SameExceptCost m1 m2) :
    SameExceptEvaluation m1 m2 := by
  cases m1
  cases m2
  simp only [SameExceptCost, SameExceptEvaluation, NewEvalManager.mk.injEq] at *
  simp_all

theorem SameExceptDynamics.dyn_to_eval {m1 m2 : NewEvalManager F T K R}
    (h : SameExceptDynamics m1 m2) : SameExceptEvaluation m1 m2 := by
  cases m1
  cases m2
  simp only [SameExceptDynamics, SameExceptEvaluation, NewEvalManager.mk.injEq] at *
  simp_all

theorem SameExceptEvaluation.of_itomp (m : NewEvalManager F T K R) (t : T) :
    SameExceptEvaluation m { m with itomp_trajectory_ := t } := by
  cases m
  rfl

theorem evaluateParameterPointItomp_frame (env : Collaborators F T K)
    (cfs : List (TrajectoryCost (NewEvalManager F T K R)))
    (ref : Option (NewEvalManager F T K R)) (self : NewEvalManager F T K R)
    (value : ℚ) (p : Nat) (first : Bool) :
    SameExceptEvaluation self
      (self.evaluateParameterPointItomp env cfs ref value p first).mgr := by
  unfold NewEvalManager.evaluateParameterPointItomp
  dsimp only
  exact ((SameExceptEvaluation.of_itomp self _).trans_eval
    (performPartial_frame env ref _ _ _ _).dyn_to_eval).trans_eval
    (evaluatePointRange_same cfs _ _ _ _).cost_to_eval

theorem computeDerivatives_frame (env : Collaborators F T K)
    (cfs : List (TrajectoryCost (NewEvalManager F T K R)))
    (ref : Option (NewEvalManager F T K R)) (self : NewEvalManager F T K R)
    (p : Nat) (parameters : Nat → ℚ) (derivative_out : Nat → Option ℚ) (eps : ℚ) :
    SameExceptEvaluation self
      (self.computeDerivatives env cfs ref p parameters derivative_out eps).mgr :=
  ((evaluateParameterPointItomp_frame env cfs ref self _ p true).trans_eval
    (evaluateParameterPointItomp_frame env cfs ref _ _ p false)).trans_eval
    (SameExceptEvaluation.of_itomp _ _)

/-- With cost functions that read only the trajectory store, what
`evaluateParameterPointItomp` reports and writes in the reported range depends on
the manager only through its trajectory store. -/
theorem evaluateParameterPointItomp_congr (env : Collaborators F T K)
    (cfs : List (TrajectoryCost (NewEvalManager F T K R)))
    (hread : ∀ cf, cf ∈ cfs → ReadsTrajectoryOnly cf)
    (ref1 ref2 : Option (NewEvalManager F T K R)) (m1 m2 : NewEvalManager F T K R)
    (h : m1.itomp_trajectory_ = m2.itomp_trajectory_) (value : ℚ) (p : Nat) (first : Bool) :
    (m1.evaluateParameterPointItomp env cfs ref1 value p first).value
        = (m2.evaluateParameterPointItomp env cfs ref2 value p first).value
    ∧ (m1.evaluateParameterPointItomp env cfs ref1 value p first).mgr.itomp_trajectory_
        = (m2.evaluateParameterPointItomp env cfs ref2 value p first).mgr.itomp_trajectory_
    ∧ ∀ j, j < cfs.length → ∀ i,
        (m1.evaluateParameterPointItomp env cfs ref1 value p first).value.1 ≤ i →
        i < (m1.evaluateParameterPointItomp env cfs ref1 value p first).value.2 →
        (m1.evaluateParameterPointItomp env cfs ref1 value p
            first).mgr.evaluation_cost_matrix_.coeff i j
          = (m2.evaluateParameterPointItomp env cfs ref2 value p
              first).mgr.evaluation_cost_matrix_.coeff i j := by
  have hv : (m1.evaluateParameterPointItomp env cfs ref1 value p first).value
      = (m2.evaluateParameterPointItomp env cfs ref2 value p first).value := by
    rw [evaluateParameterPointItomp_range, evaluateParameterPointItomp_range, h]
  refine ⟨hv, ?_, ?_⟩
  · rw [evaluateParameterPointItomp_itomp, evaluateParameterPointItomp_itomp, h]
  · intro j hj i hb he
    obtain ⟨a1, a2, ha1, ha2, ha⟩ :=
      evaluateParameterPointItomp_entry env cfs ref1 m1 value p first j hj i hb he
    obtain ⟨b1, b2, hb1, hb2, hb3⟩ :=
      evaluateParameterPointItomp_entry env cfs ref2 m2 value p first j hj i
        (by rw [← hv]; exact hb) (by rw [← hv]; exact he)
    have hr := hread cfs[j] (List.getElem_mem hj)
    rw [ha, hb3, h, (hr a1 b1 (by rw [ha1, hb1, h])).2, (hr a2 b2 (by rw [ha2, hb2, h])).1]

/-- With cost functions that read only the trajectory store, the derivative written
by `computeDerivatives` depends on the manager only through its trajectory
store. -/
theorem computeDerivatives_congr (env : Collaborators F T K)
    (cfs : List (TrajectoryCost (NewEvalManager F T K R)))
    (hread : ∀ cf, cf ∈ cfs → ReadsTrajectoryOnly cf)
    (ref1 ref2 : Option (NewEvalManager F T K R)) (m1 m2 : NewEvalManager F T K R)
    (h : m1.itomp_trajectory_ = m2.itomp_trajectory_)
    (p : Nat) (parameters : Nat → ℚ) (out1 out2 : Nat → Option ℚ) (eps : ℚ) :
    (m1.computeDerivatives env cfs ref1 p parameters out1 eps).value p
      = (m2.computeDerivatives env cfs ref2 p parameters out2 eps).value p := by
  rw [(computeDerivatives_spec env cfs ref1 m1 p parameters out1 eps).1,
    (computeDerivatives_spec env cfs ref2 m2 p parameters out2 eps).1]
  obtain ⟨c1, c2, c3⟩ := evaluateParameterPointItomp_congr env cfs hread ref1 ref2 m1 m2 h
    (parameters p + eps) p true
  obtain ⟨d1, _, d3⟩ := evaluateParameterPointItomp_congr env cfs hread ref1 ref2
    (m1.evaluateParameterPointItomp env cfs ref1 (parameters p + eps) p true).mgr
    (m2.evaluateParameterPointItomp env cfs ref2 (parameters p + eps) p true).mgr c2
    (parameters p - eps) p false
  congr 1
  congr 1
  · rw [← c1]
    refine Finset.sum_congr rfl (fun i hi => Finset.sum_congr rfl (fun c hc => ?_))
    rw [Finset.mem_Ico] at hi
    exact c3 c (Finset.mem_range.1 hc) i hi.1 hi.2
  · rw [← d1]
    refine Finset.sum_congr rfl (fun i hi => Finset.sum_congr rfl (fun c hc => ?_))
    rw [Finset.mem_Ico] at hi
    exact d3 c (Finset.mem_range.1 hc) i hi.1 hi.2

/-- The cost matrix is not restored: on the one-joint robot with joint position 3 and
the squared position cost, whose store honours the restore contract, the entry
of the cost matrix that `evaluate()` left at 9 is 4 after
`computeDerivatives` with `eps = 1`: the call does not leave the cost matrix as
it found it. -/
theorem computeDerivatives_overwrites_cost_matrix :
    RestoreContract keyframeCollaborators ∧
    ((keyframeManager [3] 1).evaluate keyframeCollaborators
        [squaredPositionCost 1]).mgr.evaluation_cost_matrix_.coeff 0 0 = 9 ∧
    (((keyframeManager [3] 1).evaluate keyframeCollaborators
        [squaredPositionCost 1]).mgr.computeDerivatives keyframeCollaborators
        [squaredPositionCost 1] none 0 (fun _ => 3) (fun _ => none)
        1).mgr.evaluation_cost_matrix_.coeff 0 0 = 4 := by
  refine ⟨keyframe_restoreContract, ?_, ?_⟩
  · simp [NewEvalManager.evaluate, NewEvalManager.evaluatePointRangeLegacy,
      NewEvalManager.evaluatePointRangeLegacyLoops, forEachFrom, evaluateCostFunctionLegacy,
      forLoop, evaluatePoint, squaredPositionCost, positionCost, NewEvalManager.setCost, MatrixXd.set,
      NewEvalManager.resetCostMatrix, keyframeManager, MatrixXd.Zero,
      NewEvalManager.performFullForwardKinematicsAndDynamics, keyframeCollaborators,
      NewEvalManager.pushParameterTrajectory, KeyframeStore.updateFromParameterTrajectory,
      computeContactVariables, computeExternalForces, NewEvalManager.storeDynamics,
      StdVector.set]
    norm_num
  · simp [NewEvalManager.evaluate, NewEvalManager.evaluatePointRangeLegacy,
      NewEvalManager.evaluatePointRangeLegacyLoops, forEachFrom, evaluateCostFunctionLegacy,
      forLoop, evaluatePoint, squaredPositionCost, positionCost, NewEvalManager.setCost, MatrixXd.set,
      NewEvalManager.resetCostMatrix, keyframeManager, MatrixXd.Zero,
      NewEvalManager.performFullForwardKinematicsAndDynamics, keyframeCollaborators,
      NewEvalManager.pushParameterTrajectory, KeyframeStore.updateFromParameterTrajectory,
      computeContactVariables, computeExternalForces, NewEvalManager.storeDynamics,
      StdVector.set, NewEvalManager.computeDerivatives,
      NewEvalManager.evaluateParameterPointItomp, NewEvalManager.evaluatePointRange,
      NewEvalManager.evaluatePointRangeLoops, evaluateCostFunction,
      NewEvalManager.performPartialForwardKinematicsAndDynamics, KeyframeStore.directChange,
      refState]
    norm_num

/-- Frame of a derivative computation: given the restore contract of the trajectory
store, a call of
`computeDerivatives` leaves the trajectory as it found it and changes the
manager at most in the per-point dynamics state and the cost matrix; and when
the registered cost functions read only the trajectory, the derivative written
for a parameter `j` is the same whether or not `computeDerivatives` was called
for a parameter `i` before it. -/
theorem computeDerivatives_repeatable (env : Collaborators F T K)
    (cfs : List (TrajectoryCost (NewEvalManager F T K R)))
    (ref : Option (NewEvalManager F T K R)) (self : NewEvalManager F T K R)
    (hcontract : RestoreContract env)
    (i j : Nat) (parameters_i parameters_j : Nat → ℚ) (out_i out_j : Nat → Option ℚ)
    (eps_i eps_j : ℚ) :
    (self.computeDerivatives env cfs ref i parameters_i out_i eps_i).mgr.itomp_trajectory_
        = self.itomp_trajectory_
    ∧ (self.computeDerivatives env cfs ref i parameters_i out_i eps_i).mgr
        = { self with
            rbdl_models_ :=
              (self.computeDerivatives env cfs ref i parameters_i out_i eps_i).mgr.rbdl_models_
            joint_torques_ :=
              (self.computeDerivatives env cfs ref i parameters_i out_i eps_i).mgr.joint_torques_
            external_forces_ :=
              (self.computeDerivatives env cfs ref i parameters_i out_i
                eps_i).mgr.external_forces_
            contact_variables_ :=
              (self.computeDerivatives env cfs ref i parameters_i out_i
                eps_i).mgr.contact_variables_
            evaluation_cost_matrix_ :=
              (self.computeDerivatives env cfs ref i parameters_i out_i
                eps_i).mgr.evaluation_cost_matrix_ }
    ∧ ((∀ cf, cf ∈ cfs → ReadsTrajectoryOnly cf) →
        ((self.computeDerivatives env cfs ref i parameters_i out_i
            eps_i).mgr.computeDerivatives env cfs ref j parameters_j out_j eps_j).value j
          = (self.computeDerivatives env cfs ref j parameters_j out_j eps_j).value j) := by
  have hitomp : (self.computeDerivatives env cfs ref i parameters_i out_i
      eps_i).mgr.itomp_trajectory_ = self.itomp_trajectory_ := by
    rw [(computeDerivatives_store env cfs ref self i parameters_i out_i eps_i).2, hcontract]
  refine ⟨hitomp, ?_, fun hread => ?_⟩
  · have hframe := computeDerivatives_frame env cfs ref self i parameters_i out_i eps_i
    generalize (self.computeDerivatives env cfs ref i parameters_i out_i eps_i).mgr = m
      at hitomp hframe
    cases self
    cases m
    simp only [SameExceptEvaluation, NewEvalManager.mk.injEq] at *
    simp_all
  · exact computeDerivatives_congr env cfs hread ref ref _ _ hitomp j parameters_j out_j out_j
      eps_j

/-- Instance of `computeDerivatives_repeatable`: the one-joint robot with two points and
the squared position cost:
the derivative for parameter 1 is the same after a derivative computation for
parameter 0. -/
theorem computeDerivatives_repeatable_witness :
    RestoreContract keyframeCollaborators ∧
    (((keyframeManager [3, 5] 1).computeDerivatives keyframeCollaborators
        [squaredPositionCost 1] none 0 (fun _ => 3) (fun _ => none)
        1).mgr.computeDerivatives keyframeCollaborators [squaredPositionCost 1] none 1
        (fun _ => 5) (fun _ => none) 1).value 1
      = ((keyframeManager [3, 5] 1).computeDerivatives keyframeCollaborators
          [squaredPositionCost 1] none 1 (fun _ => 5) (fun _ => none) 1).value 1 :=
  ⟨keyframe_restoreContract,
    (computeDerivatives_repeatable keyframeCollaborators [squaredPositionCost 1] none
      (keyframeManager [3, 5] 1) keyframe_restoreContract 0 1 (fun _ => 3) (fun _ => 5)
      (fun _ => none) (fun _ => none) 1 1).2.2
      (by
        intro cf hcf
        rw [List.mem_singleton] at hcf
        subst hcf
        intro m1 m2 h
        refine ⟨?_, rfl⟩
        funext i
        simp [squaredPositionCost, positionCost, h])⟩

end Restore

/-! ## Resize of the cost matrix and the returned feasibility -/

section ResizeFeasible

variable {F T K R : Type}

/-- C17: for both overloads of `evaluatePointRange`, called with `C` registered cost
functions on a matrix whose column count differs from `C`: the matrix the
evaluation works on is the all-zero matrix with the same rows and `C` columns,
and on return (the call is total) the matrix has the same rows and `C`
columns, every entry outside the rows `[point_begin, point_end)` (and outside
the first `C` columns) is 0, and every entry inside is the freshly evaluated
one: `weight * cost` of an `evaluate` call made on a manager that differs from
the one at entry at most in the cost matrix (0 for a cost function that the
overload with an index found invariant). -/
theorem evaluatePointRange_resize_and_reset
    (cfs : List (TrajectoryCost (NewEvalManager F T K R))) (self : NewEvalManager F T K R)
    (point_begin point_end : Nat) (index : ItompTrajectoryIndex)
    (hcols : self.evaluation_cost_matrix_.cols ≠ cfs.length) :
    (self.resetCostMatrix cfs.length).evaluation_cost_matrix_
        = MatrixXd.Zero self.evaluation_cost_matrix_.rows cfs.length ∧
    ((self.evaluatePointRange cfs point_begin point_end index).mgr.evaluation_cost_matrix_.rows
        = self.evaluation_cost_matrix_.rows ∧
      (self.evaluatePointRange cfs point_begin point_end index).mgr.evaluation_cost_matrix_.cols
        = cfs.length ∧
      (∀ i j, ¬ (j < cfs.length ∧ point_begin ≤ i ∧ i < point_end) →
        (self.evaluatePointRange cfs point_begin point_end
          index).mgr.evaluation_cost_matrix_.coeff i j = 0) ∧
      (∀ (j : Nat) (hj : j < cfs.length) (i : Nat), point_begin ≤ i → i < point_end →
        ∃ m1 m2, SameExceptCost self m1 ∧ SameExceptCost self m2 ∧
          (self.evaluatePointRange cfs point_begin point_end
            index).mgr.evaluation_cost_matrix_.coeff i j
            = if cfs[j].isInvariant m1 index then 0
              else cfs[j].weight * (cfs[j].evaluate m2 i).2)) ∧
    ((self.evaluatePointRangeLegacy cfs point_begin point_end).mgr.evaluation_cost_matrix_.rows
        = self.evaluation_cost_matrix_.rows ∧
      (self.evaluatePointRangeLegacy cfs point_begin point_end).mgr.evaluation_cost_matrix_.cols
        = cfs.length ∧
      (∀ i j, ¬ (j < cfs.length ∧ point_begin ≤ i ∧ i < point_end) →
        (self.evaluatePointRangeLegacy cfs point_begin
          point_end).mgr.evaluation_cost_matrix_.coeff i j = 0) ∧
      (∀ (j : Nat) (hj : j < cfs.length) (i : Nat), point_begin ≤ i → i < point_end →
        ∃ m, SameExceptCost self m ∧
          (self.evaluatePointRangeLegacy cfs point_begin
            point_end).mgr.evaluation_cost_matrix_.coeff i j
            = cfs[j].weight * (cfs[j].evaluate m i).2)) := by
  have hreset : (self.resetCostMatrix cfs.length).evaluation_cost_matrix_
      = MatrixXd.Zero self.evaluation_cost_matrix_.rows cfs.length := by
    unfold NewEvalManager.resetCostMatrix
    rw [if_pos (Ne.symm hcols)]
  have hsame := SameExceptCost.of_resetCostMatrix self cfs.length
  refine ⟨hreset, ⟨?_, ?_, ?_, ?_⟩, ⟨?_, ?_, ?_, ?_⟩⟩
  · exact (evaluatePointRangeLoops_inv cfs self point_begin point_end index).rows.trans
      (resetCostMatrix_rows self _)
  · exact (evaluatePointRangeLoops_inv cfs self point_begin point_end index).cols.trans
      (resetCostMatrix_cols self _)
  · intro i j hij
    have h := (evaluatePointRangeLoops_inv cfs self point_begin point_end index).frame i j hij
    rw [hreset] at h
    exact h
  · intro j hj i hb he
    exact evaluatePointRange_entry cfs self point_begin point_end index j hj i hb he
  · exact (evaluatePointRangeLegacyLoops_inv cfs self point_begin point_end).rows.trans
      (resetCostMatrix_rows self _)
  · exact (evaluatePointRangeLegacyLoops_inv cfs self point_begin point_end).cols.trans
      (resetCostMatrix_cols self _)
  · intro i j hij
    have h := (evaluatePointRangeLegacyLoops_inv cfs self point_begin point_end).frame i j hij
    rw [hreset] at h
    exact h
  · intro j hj i hb he
    have inv := evaluatePointRangeLegacyLoops_inv cfs self point_begin point_end
    have hget : cfs[j]? = some cfs[j] := List.getElem?_eq_getElem hj
    obtain ⟨cost, feas, h1, _, h3⟩ := inv.evaluated j cfs[j] i hget hj hb he
    obtain ⟨cf, m, g1, g2, g3⟩ := inv.genuineEvaluate j i cost feas h1
    rw [hget] at g1
    cases g1
    refine ⟨m, hsame.trans_same g2, ?_⟩
    rw [g3]
    exact h3

/-- Witness of C17: a matrix with two rows and no column, holding nothing, evaluated
over row 1 with one cost function of weight 1 and cost 2: afterwards it has one
column and row 0 is zero. -/
theorem evaluatePointRange_resize_and_reset_witness :
    (keyframeManager [0, 0] 0).evaluation_cost_matrix_.cols ≠ 1 ∧
    ((keyframeManager [0, 0] 0).evaluatePointRange [constantCost 2 1] 1 2
        ⟨1, .POSITION, .JOINT, 0⟩).mgr.evaluation_cost_matrix_.cols = 1 ∧
    ((keyframeManager [0, 0] 0).evaluatePointRange [constantCost 2 1] 1 2
        ⟨1, .POSITION, .JOINT, 0⟩).mgr.evaluation_cost_matrix_.coeff 0 0 = 0 :=
  ⟨by decide,
    (evaluatePointRange_resize_and_reset [constantCost 2 1] (keyframeManager [0, 0] 0) 1 2
      ⟨1, .POSITION, .JOINT, 0⟩ (by decide)).2.1.2.1,
    (evaluatePointRange_resize_and_reset [constantCost 2 1] (keyframeManager [0, 0] 0) 1 2
      ⟨1, .POSITION, .JOINT, 0⟩ (by decide)).2.1.2.2.1 0 0 (by decide)⟩

/-- C18: after `evaluate()` the flag `last_trajectory_feasible_` is `false` on every input;
on the one-joint robot with one point and one cost function that reports its
only sample feasible, the conjunction of all the reported feasibility results
is `true` and the flag is `false`. -/
theorem evaluate_feasible_flag_is_false (env : Collaborators F T K)
    (cfs : List (TrajectoryCost (NewEvalManager F T K R))) (self : NewEvalManager F T K R) :
    (self.evaluate env cfs).mgr.last_trajectory_feasible_ = false ∧
    ((keyframeManager [0] 1).evaluate keyframeCollaborators
        [constantCost 2 1]).calls.all Call.feasible = true ∧
    Call.evaluate 0 0 2 true ∈
      ((keyframeManager [0] 1).evaluate keyframeCollaborators [constantCost 2 1]).calls ∧
    ((keyframeManager [0] 1).evaluate keyframeCollaborators
        [constantCost 2 1]).mgr.last_trajectory_feasible_ = false := by
  refine ⟨rfl, ?_, ?_, rfl⟩ <;> decide

/-- C19: both overloads of `evaluatePointRange` return `false` for every input; the
conjunction of the feasibility results of the `evaluate` calls they made is
accumulated in the local `is_feasible` and is not what is returned. -/
theorem evaluatePointRange_returns_false
    (cfs : List (TrajectoryCost (NewEvalManager F T K R))) (self : NewEvalManager F T K R)
    (point_begin point_end : Nat) (index : ItompTrajectoryIndex) :
    (self.evaluatePointRange cfs point_begin point_end index).value = false ∧
    (self.evaluatePointRangeLegacy cfs point_begin point_end).value = false ∧
    (self.evaluatePointRangeLoops cfs point_begin point_end index).is_feasible
      = (self.evaluatePointRange cfs point_begin point_end index).calls.all Call.feasible ∧
    (self.evaluatePointRangeLegacyLoops cfs point_begin point_end).is_feasible
      = (self.evaluatePointRangeLegacy cfs point_begin point_end).calls.all Call.feasible :=
  ⟨rfl, rfl, (evaluatePointRangeLoops_inv cfs self point_begin point_end index).feasible,
    (evaluatePointRangeLegacyLoops_inv cfs self point_begin point_end).feasible⟩

end ResizeFeasible

section ContactForces

variable {F T K R : Type}

theorem StdVector.set_set {α : Type} (v : StdVector α) (i : Nat) (a b : α) :
    (v.set i a).set i b = v.set i b := by
  cases v
  simp only [StdVector.set, StdVector.mk.injEq, true_and]
  funext k
  split <;> rfl

theorem StdVector.set_self {α : Type} (v : StdVector α) (i : Nat) :
    v.set i (v.elem i) = v := by
  cases v
  simp only [StdVector.set, StdVector.mk.injEq, true_and]
  funext k
  split
  · rename_i h
    rw [h]
  · rfl

theorem StdVector.elem_set {α : Type} (v : StdVector α) (i k : Nat) (a : α) :
    (v.set i a).elem k = if k = i then a else v.elem k := rfl

theorem forLoop_zero_eq_foldl {σ : Type} (n : Nat) (body : Nat → σ → σ) (s : σ) :
    forLoop 0 n body s = (List.range n).foldl (fun acc i => body i acc) s := by
  simp [forLoop, List.range_eq_range']

theorem foldl_flatMap_eq {α β σ : Type} (g : σ → β → σ) (f : α → List β) (l : List α) (s : σ) :
    (l.flatMap f).foldl g s = l.foldl (fun s a => (f a).foldl g s) s := by
  induction l generalizing s with
  | nil => rfl
  | cons a l ih => simp [List.flatMap_cons, List.foldl_append, ih]

/-- The force block is the run of its assignments over `contactOrder`. -/
theorem computeExternalForces_eq (env : Collaborators F T K) (self : NewEvalManager F T K R)
    (point : Nat) :
    computeExternalForces env self point
      = self.withForces point
          (assignExternalForces self.planning_group_ (self.contact_variables_.elem point)
            (contactOrder self.planning_group_.num_contacts env.NUM_ENDEFFECTOR_CONTACT_POINTS)
            (self.external_forces_.elem point)) := by
  have key : ∀ (order : List (Nat × Nat)) (s : NewEvalManager F T K R),
      order.foldl (fun (s : NewEvalManager F T K R) ic =>
        s.withForces point
          ((s.external_forces_.elem point).set (s.planning_group_.pointId ic)
            (contactSpatialForce ((s.contact_variables_.elem point).elem ic.1) ic.2))) s
        = s.withForces point
            (assignExternalForces s.planning_group_ (s.contact_variables_.elem point) order
              (s.external_forces_.elem point)) := by
    intro order
    induction order with
    | nil =>
      intro s
      simp [assignExternalForces, NewEvalManager.withForces, StdVector.set_self]
    | cons ic rest ih =>
      intro s
      rw [List.foldl_cons, ih]
      simp [assignExternalForces, NewEvalManager.withForces, StdVector.set_set,
        StdVector.elem_set]
  rw [← key]
  unfold computeExternalForces contactOrder
  rw [forLoop_zero_eq_foldl, foldl_flatMap_eq]
  congr 1
  funext s i
  rw [forLoop_zero_eq_foldl, List.foldl_map]
  rfl

/-- The contact block is the read from the trajectory followed by the run of its
projections over the contacts in ascending order. -/
theorem computeContactVariables_eq (env : Collaborators F T K)
    (fromTrajectory : StdVector ContactVariables → StdVector ContactVariables)
    (self : NewEvalManager F T K R) (point : Nat) :
    computeContactVariables env fromTrajectory self point
      = self.withContacts point
          (projectContacts env self.planning_group_ (self.rbdl_models_.elem point)
            (List.range self.planning_group_.num_contacts)
            (fromTrajectory (self.contact_variables_.elem point))) := by
  have key : ∀ (order : List Nat) (s : NewEvalManager F T K R),
      order.foldl (fun (s : NewEvalManager F T K R) i =>
        let cv := (s.contact_variables_.elem point).elem i
        let g := env.getNearestGroundPosition cv.position cv.orientation
        let cv1 := env.ComputeProjectedPointPositions cv g.1 g.2.1 (s.rbdl_models_.elem point)
          (s.planning_group_.contact_points_ i)
        let cvs := (s.contact_variables_.elem point).set i cv1
        { s with contact_variables_ := s.contact_variables_.set point cvs }) s
        = s.withContacts point
            (projectContacts env s.planning_group_ (s.rbdl_models_.elem point) order
              (s.contact_variables_.elem point)) := by
    intro order
    induction order with
    | nil =>
      intro s
      simp [projectContacts, NewEvalManager.withContacts, StdVector.set_self]
    | cons i rest ih =>
      intro s
      rw [List.foldl_cons, ih]
      simp [projectContacts, NewEvalManager.withContacts, StdVector.set_set,
        StdVector.elem_set]
  unfold computeContactVariables
  rw [forLoop_zero_eq_foldl]
  dsimp only
  rw [key]
  simp [NewEvalManager.withContacts, StdVector.set_set, StdVector.elem_set]

/-! ### Per-point view of the propagation -/

theorem pointState_setPointState (m : NewEvalManager F T K R) (i pt : Nat) (ps : PointState K) :
    (m.setPointState i ps).pointState pt = if pt = i then ps else m.pointState pt := by
  unfold NewEvalManager.setPointState NewEvalManager.pointState
  simp only [StdVector.elem_set]
  split <;> rfl

theorem setPointState_frame (m : NewEvalManager F T K R) (i : Nat) (ps : PointState K) :
    SameExceptDynamics m (m.setPointState i ps) :=
  SameExceptDynamics.of_fields m _ _ _ _

/-- A loop whose pass `i` replaces the per-point state of `i` by a function of that
state replaces, over `[b, e)`, the state of every point of the range by that
function of the state at entry, and nothing else. -/
theorem forLoop_pointwise (self : NewEvalManager F T K R) (b e : Nat)
    (body : Nat → NewEvalManager F T K R → NewEvalManager F T K R)
    (g : Nat → PointState K → PointState K)
    (hbody : ∀ i s, SameExceptDynamics self s →
      body i s = s.setPointState i (g i (s.pointState i))) :
    SameExceptDynamics self (forLoop b e body self) ∧
    ∀ pt, (forLoop b e body self).pointState pt
      = if b ≤ pt ∧ pt < e then g pt (self.pointState pt) else self.pointState pt := by
  rcases Nat.lt_or_ge e b with hlt | hge
  · rw [forLoop_empty _ _ _ _ (Nat.le_of_lt hlt)]
    refine ⟨SameExceptDynamics.rfl_dyn self, fun pt => ?_⟩
    rw [if_neg (by omega)]
  · refine forLoop_inv (fun i t => SameExceptDynamics self t ∧
      ∀ pt, t.pointState pt
        = if b ≤ pt ∧ pt < i then g pt (self.pointState pt) else self.pointState pt)
      b e body self hge ⟨SameExceptDynamics.rfl_dyn self, fun pt => ?_⟩ ?_
    · rw [if_neg (by omega)]
    · intro i t hbi hie ⟨hsame, hpt⟩
      rw [hbody i t hsame]
      refine ⟨hsame.trans_dyn (setPointState_frame _ _ _), fun pt => ?_⟩
      rw [pointState_setPointState]
      by_cases h : pt = i
      · subst h
        rw [if_pos rfl, if_pos ⟨hbi, Nat.lt_succ_self _⟩, hpt, if_neg (by omega)]
      · rw [if_neg h, hpt]
        by_cases h2 : b ≤ pt ∧ pt < i
        · rw [if_pos h2, if_pos ⟨h2.1, by omega⟩]
        · rw [if_neg h2, if_neg (by omega)]

theorem performFull_body_eq (env : Collaborators F T K) (s : NewEvalManager F T K R)
    (point : Nat) :
    (computeExternalForces env
        (computeContactVariables env (env.getContactVariables s.itomp_trajectory_ point) s point)
        point).storeDynamics point
      (env.updateFullKinematicsAndDynamics
        ((computeExternalForces env
          (computeContactVariables env (env.getContactVariables s.itomp_trajectory_ point) s
            point) point).rbdl_models_.elem point)
        (env.getTrajectoryPoint s.itomp_trajectory_ .POSITION .JOINT point)
        (env.getTrajectoryPoint s.itomp_trajectory_ .VELOCITY .JOINT point)
        (env.getTrajectoryPoint s.itomp_trajectory_ .ACCELERATION .JOINT point)
        ((computeExternalForces env
          (computeContactVariables env (env.getContactVariables s.itomp_trajectory_ point) s
            point) point).joint_torques_.elem point)
        (some ((computeExternalForces env
          (computeContactVariables env (env.getContactVariables s.itomp_trajectory_ point) s
            point) point).external_forces_.elem point)))
      = s.setPointState point
          (fullPropagationOfPoint env s.itomp_trajectory_ s.planning_group_ point
            (s.pointState point)) := by
  rw [computeExternalForces_eq, computeContactVariables_eq]
  cases s
  simp [NewEvalManager.storeDynamics, NewEvalManager.withForces, NewEvalManager.withContacts,
    NewEvalManager.setPointState, fullPropagationOfPoint, contactAndForceBlocks,
    contactAndForceBlocksIn,
    NewEvalManager.pointState, StdVector.elem_set, StdVector.set_set]

/-- Full propagation, point by point. -/
theorem performFull_pointState (env : Collaborators F T K) (self : NewEvalManager F T K R)
    (b e : Nat) (pt : Nat) :
    (self.performFullForwardKinematicsAndDynamics env b e).pointState pt
      = if b ≤ pt ∧ pt < e then
          fullPropagationOfPoint env self.itomp_trajectory_ self.planning_group_ pt
            (self.pointState pt)
        else self.pointState pt := by
  unfold NewEvalManager.performFullForwardKinematicsAndDynamics
  refine (forLoop_pointwise self b e _
    (fun i ps => fullPropagationOfPoint env self.itomp_trajectory_ self.planning_group_ i ps)
    ?_).2 pt
  intro i s hs
  dsimp only
  rw [performFull_body_eq, hs.itomp_eq_dyn, hs.group_eq_dyn]

theorem refState_pointState (ref : Option (NewEvalManager F T K R))
    (s : NewEvalManager F T K R) (point : Nat) :
    (refState ref s).pointState point = refPointState ref point (s.pointState point) := by
  cases ref <;> rfl

theorem copyUpdatedVariables_self (d : Bool) (m : Model K) : copyUpdatedVariables d m m = m := by
  cases d <;> rfl

theorem setPointState_pointState (s : NewEvalManager F T K R) (i : Nat) :
    s.setPointState i (s.pointState i) = s := by
  cases s
  simp [NewEvalManager.setPointState, NewEvalManager.pointState, StdVector.set_self]

/-- Partial propagation by the overload with an index, point by point. -/
theorem performPartial_pointState (env : Collaborators F T K)
    (ref : Option (NewEvalManager F T K R)) (self : NewEvalManager F T K R)
    (b e : Nat) (index : ItompTrajectoryIndex) (pt : Nat) :
    (self.performPartialForwardKinematicsAndDynamics env ref b e index).pointState pt
      = if b ≤ pt ∧ pt < e then
          partialPropagationOfPoint env self.itomp_trajectory_ self.planning_group_ index pt
            ((refState ref self).pointState pt) (self.pointState pt)
        else self.pointState pt := by
  unfold NewEvalManager.performPartialForwardKinematicsAndDynamics
  dsimp only
  -- first loop
  have h1 := forLoop_pointwise self b e
    (fun point s =>
      let r := (refState ref s).rbdl_models_.elem point
      let m := s.rbdl_models_.elem point
      let m1 : Model K := { m with f := r.f }
      let m2 : Model K :=
        if !decide (index.sub_component ≠ SubComponentType.JOINT) then
          { m1 with X_lambda := r.X_lambda, X_base := r.X_base, v := r.v, a := r.a, c := r.c }
        else m1
      { s with rbdl_models_ := s.rbdl_models_.set point m2 })
    (fun i ps => partialCopyOfPoint index (refPointState ref i ps) ps)
    (by
      intro i s _
      cases ref <;> cases s <;>
        simp [NewEvalManager.setPointState, NewEvalManager.pointState, copyUpdatedVariables,
          partialCopyOfPoint, StdVector.set_self, refState, refPointState])
  -- second loop
  have h2 := forLoop_pointwise _ b e
    (fun point (s : NewEvalManager F T K R) =>
      let q := env.getTrajectoryPoint s.itomp_trajectory_ .POSITION .JOINT point
      let q_dot := env.getTrajectoryPoint s.itomp_trajectory_ .VELOCITY .JOINT point
      let q_ddot := env.getTrajectoryPoint s.itomp_trajectory_ .ACCELERATION .JOINT point
      if decide (index.sub_component ≠ SubComponentType.JOINT) then
        let s1 := computeContactVariables env (env.getContactVariables s.itomp_trajectory_ point) s point
        let s2 := computeExternalForces env s1 point
        s2.storeDynamics point
          (env.updatePartialDynamics (s2.rbdl_models_.elem point) q q_dot q_ddot
            (s2.joint_torques_.elem point) (some (s2.external_forces_.elem point)))
      else
        let r := refState ref s
        let s1 : NewEvalManager F T K R :=
          { s with
            contact_variables_ := s.contact_variables_.set point (r.contact_variables_.elem point)
            joint_torques_ := s.joint_torques_.set point (r.joint_torques_.elem point)
            external_forces_ := s.external_forces_.set point (r.external_forces_.elem point) }
        s1.storeDynamics point
          (env.updatePartialKinematicsAndDynamics (s1.rbdl_models_.elem point) q q_dot q_ddot
            (s1.joint_torques_.elem point) (some (s1.external_forces_.elem point))
            (s1.planning_group_.group_joints_
              (env.getParameterJointIndex s1.itomp_trajectory_ index.element)).rbdl_affected_body_ids_))
    (fun i ps => partialUpdateOfPoint env self.itomp_trajectory_ self.planning_group_ index i
      (refPointState ref i ps) ps)
    (by
      intro i s hs
      have hs2 := h1.1.trans_dyn hs
      dsimp only
      split
      · rw [computeExternalForces_eq, computeContactVariables_eq, ← hs2.itomp_eq_dyn,
          ← hs2.group_eq_dyn]
        cases s
        simp [NewEvalManager.storeDynamics, NewEvalManager.withForces,
          NewEvalManager.withContacts, NewEvalManager.setPointState, contactAndForceBlocks,
          contactAndForceBlocksIn,
          NewEvalManager.pointState, StdVector.elem_set, StdVector.set_set,
          partialUpdateOfPoint, *]
      · rw [← hs2.itomp_eq_dyn, ← hs2.group_eq_dyn]
        cases ref <;> cases s <;>
          simp [NewEvalManager.storeDynamics, NewEvalManager.setPointState,
            NewEvalManager.pointState, StdVector.elem_set, StdVector.set_set,
            partialUpdateOfPoint, refState, refPointState, StdVector.set_self, *])
  rw [h2.2 pt, h1.2 pt]
  by_cases hpt : b ≤ pt ∧ pt < e
  · simp only [if_pos hpt]
    rw [refState_pointState]
    unfold partialPropagationOfPoint
    cases ref with
    | none => simp [refPointState, partialCopyOfPoint, copyUpdatedVariables_self]
    | some r => simp [refPointState]
  · simp only [if_neg hpt]

/-- The legacy overload returns at once on a full trajectory without velocity or
without acceleration. -/
theorem performPartialLegacy_early_return (env : Collaborators F T K)
    (ref : Option (NewEvalManager F T K R)) (self : NewEvalManager F T K R)
    (b e parameter_element : Nat)
    (h : env.hasVelocity self.full_trajectory_ = false ∨
      env.hasAcceleration self.full_trajectory_ = false) :
    self.performPartialForwardKinematicsAndDynamicsLegacy env ref b e parameter_element
      = self := by
  unfold NewEvalManager.performPartialForwardKinematicsAndDynamicsLegacy
  rcases h with h | h <;> simp [h]

/-- Partial propagation by the legacy overload, point by point. -/
theorem performPartialLegacy_pointState (env : Collaborators F T K)
    (ref : Option (NewEvalManager F T K R)) (self : NewEvalManager F T K R)
    (b e parameter_element : Nat) (pt : Nat)
    (hvel : env.hasVelocity self.full_trajectory_ = true)
    (hacc : env.hasAcceleration self.full_trajectory_ = true) :
    (self.performPartialForwardKinematicsAndDynamicsLegacy env ref b e
        parameter_element).pointState pt
      = if b ≤ pt ∧ pt < e then
          partialPropagationOfPointLegacy env self.full_trajectory_ self.planning_group_
            self.parameter_trajectory_.num_joints parameter_element pt
            ((refState ref self).pointState pt) (self.pointState pt)
        else self.pointState pt := by
  unfold NewEvalManager.performPartialForwardKinematicsAndDynamicsLegacy
  simp only [hvel, hacc, Bool.not_true, Bool.or_self, Bool.false_eq_true, if_false]
  have h1 := forLoop_pointwise self b e
    (fun point s =>
      let r := (refState ref s).rbdl_models_.elem point
      { s with rbdl_models_ := s.rbdl_models_.set point r })
    (fun i ps => { ps with model := (refPointState ref i ps).model })
    (by
      intro i s _
      cases ref <;> cases s <;>
        simp [NewEvalManager.setPointState, NewEvalManager.pointState,
          StdVector.set_self, refState, refPointState])
  have hnum := h1.1.parameter_eq_dyn
  have h2 := forLoop_pointwise _ b e
    (fun point (s : NewEvalManager F T K R) =>
      let q := env.getJointRow s.full_trajectory_ TRAJECTORY_TYPE_POSITION point
      let q_dot := env.getJointRow s.full_trajectory_ TRAJECTORY_TYPE_VELOCITY point
      let q_ddot := env.getJointRow s.full_trajectory_ TRAJECTORY_TYPE_ACCELERATION point
      if decide (parameter_element ≥ self.parameter_trajectory_.num_joints) then
        let s1 := computeContactVariables env
          (env.getContactVariablesFull s.full_trajectory_ point) s point
        let s2 := computeExternalForces env s1 point
        s2.storeDynamics point
          (env.updatePartialDynamics (s2.rbdl_models_.elem point) q q_dot q_ddot
            (s2.joint_torques_.elem point) (some (s2.external_forces_.elem point)))
      else
        let r := refState ref s
        let s1 : NewEvalManager F T K R :=
          { s with
            contact_variables_ := s.contact_variables_.set point (r.contact_variables_.elem point)
            joint_torques_ := s.joint_torques_.set point (r.joint_torques_.elem point)
            external_forces_ := s.external_forces_.set point (r.external_forces_.elem point) }
        s1.storeDynamics point
          (env.updatePartialKinematicsAndDynamics (s1.rbdl_models_.elem point) q q_dot q_ddot
            (s1.joint_torques_.elem point) (some (s1.external_forces_.elem point))
            (s1.planning_group_.group_joints_ parameter_element).rbdl_affected_body_ids_))
    (fun i ps => partialUpdateOfPointLegacy env self.full_trajectory_ self.planning_group_
      self.parameter_trajectory_.num_joints parameter_element i (refPointState ref i ps) ps)
    (by
      intro i s hs
      have hs2 := h1.1.trans_dyn hs
      dsimp only
      split
      · rw [computeExternalForces_eq, computeContactVariables_eq, ← hs2.full_eq_dyn,
          ← hs2.group_eq_dyn]
        cases s
        simp [NewEvalManager.storeDynamics, NewEvalManager.withForces,
          NewEvalManager.withContacts, NewEvalManager.setPointState, contactAndForceBlocks,
          contactAndForceBlocksIn,
          NewEvalManager.pointState, StdVector.elem_set, StdVector.set_set,
          partialUpdateOfPointLegacy, *]
      · rw [← hs2.full_eq_dyn, ← hs2.group_eq_dyn]
        cases ref <;> cases s <;>
          simp [NewEvalManager.storeDynamics, NewEvalManager.setPointState,
            NewEvalManager.pointState, StdVector.elem_set, StdVector.set_set,
            partialUpdateOfPointLegacy, refState, refPointState, StdVector.set_self, *])
  rw [hnum]
  rw [h2.2 pt, h1.2 pt]
  by_cases hpt : b ≤ pt ∧ pt < e
  · simp only [if_pos hpt]
    rw [refState_pointState]
    unfold partialPropagationOfPointLegacy
    cases ref with
    | none => simp [refPointState]
    | some r => simp [refPointState]
  · simp only [if_neg hpt]

/-! ### The force block -/

theorem assignExternalForces_concat (group : ItompPlanningGroup)
    (cvs : StdVector ContactVariables) (order : List (Nat × Nat)) (ic : Nat × Nat)
    (ext : StdVector SpatialVector) :
    assignExternalForces group cvs (order ++ [ic]) ext
      = (assignExternalForces group cvs order ext).set (group.pointId ic)
          (contactSpatialForce (cvs.elem ic.1) ic.2) := by
  simp [assignExternalForces, List.foldl_append]

theorem assignExternalForces_size (group : ItompPlanningGroup)
    (cvs : StdVector ContactVariables) (order : List (Nat × Nat))
    (ext : StdVector SpatialVector) :
    (assignExternalForces group cvs order ext).size = ext.size := by
  induction order using List.reverseRecOn with
  | nil => rfl
  | append_singleton order ic ih => rw [assignExternalForces_concat]; exact ih

/-- A body id to which no pair of the order is attached keeps its external force. -/
theorem assignExternalForces_not_attached (group : ItompPlanningGroup)
    (cvs : StdVector ContactVariables) (order : List (Nat × Nat))
    (ext : StdVector SpatialVector) (id : Nat)
    (h : ∀ ic ∈ order, group.pointId ic ≠ id) :
    (assignExternalForces group cvs order ext).elem id = ext.elem id := by
  induction order using List.reverseRecOn with
  | nil => rfl
  | append_singleton order ic ih =>
    rw [assignExternalForces_concat, StdVector.elem_set,
      if_neg (fun hid => h ic (by simp) hid.symm)]
    exact ih (fun jc hjc => h jc (by simp [hjc]))

/-- The last pair attached to a body id decides its external force. -/
theorem assignExternalForces_last (group : ItompPlanningGroup)
    (cvs : StdVector ContactVariables) (pre post : List (Nat × Nat)) (ic : Nat × Nat)
    (ext : StdVector SpatialVector)
    (h : ∀ jc ∈ post, group.pointId jc ≠ group.pointId ic) :
    (assignExternalForces group cvs (pre ++ ic :: post) ext).elem (group.pointId ic)
      = contactSpatialForce (cvs.elem ic.1) ic.2 := by
  have happ : pre ++ ic :: post = (pre ++ [ic]) ++ post := by simp
  have hsplit : assignExternalForces group cvs ((pre ++ [ic]) ++ post) ext
      = assignExternalForces group cvs post (assignExternalForces group cvs (pre ++ [ic]) ext) := by
    simp [assignExternalForces, List.foldl_append]
  rw [happ, hsplit, assignExternalForces_not_attached group cvs post _ _ h,
    assignExternalForces_concat, StdVector.elem_set, if_pos rfl]

/-- When the pairs attached to the body id of `ic` all carry the spatial force of `ic`,
that force is the one stored. -/
theorem assignExternalForces_of_mem (group : ItompPlanningGroup)
    (cvs : StdVector ContactVariables) (order : List (Nat × Nat)) (ic : Nat × Nat)
    (ext : StdVector SpatialVector) (hmem : ic ∈ order)
    (h : ∀ jc ∈ order, group.pointId jc = group.pointId ic →
      contactSpatialForce (cvs.elem jc.1) jc.2 = contactSpatialForce (cvs.elem ic.1) ic.2) :
    (assignExternalForces group cvs order ext).elem (group.pointId ic)
      = contactSpatialForce (cvs.elem ic.1) ic.2 := by
  induction order using List.reverseRecOn with
  | nil => cases hmem
  | append_singleton order jc ih =>
    rw [assignExternalForces_concat, StdVector.elem_set]
    by_cases hid : group.pointId ic = group.pointId jc
    · rw [if_pos hid]
      exact h jc (by simp) hid.symm
    · rw [if_neg hid]
      have hin : ic ∈ order := by
        rcases List.mem_append.mp hmem with h1 | h1
        · exact h1
        · rw [List.mem_singleton] at h1
          subst h1
          exact absurd rfl hid
      exact ih hin (fun kc hkc => h kc (by simp [hkc]))

/-- Under that condition the order of the assignments does not matter. -/
theorem assignExternalForces_perm (group : ItompPlanningGroup)
    (cvs : StdVector ContactVariables) (order1 order2 : List (Nat × Nat))
    (ext : StdVector SpatialVector) (hperm : order1.Perm order2)
    (h : ∀ ic ∈ order2, ∀ jc ∈ order2, group.pointId jc = group.pointId ic →
      contactSpatialForce (cvs.elem jc.1) jc.2 = contactSpatialForce (cvs.elem ic.1) ic.2) :
    assignExternalForces group cvs order1 ext = assignExternalForces group cvs order2 ext := by
  have hsize := (assignExternalForces_size group cvs order1 ext).trans
    (assignExternalForces_size group cvs order2 ext).symm
  have helem : ∀ id, (assignExternalForces group cvs order1 ext).elem id
      = (assignExternalForces group cvs order2 ext).elem id := by
    intro id
    by_cases hex : ∃ ic ∈ order2, group.pointId ic = id
    · obtain ⟨ic, hic, hid⟩ := hex
      subst hid
      rw [assignExternalForces_of_mem group cvs order2 ic ext hic (h ic hic),
        assignExternalForces_of_mem group cvs order1 ic ext (hperm.mem_iff.mpr hic)
          (fun jc hjc => h ic hic jc (hperm.mem_iff.mp hjc))]
    · have hno : ∀ ic ∈ order2, group.pointId ic ≠ id := fun ic hic hid => hex ⟨ic, hic, hid⟩
      rw [assignExternalForces_not_attached group cvs order2 ext id hno,
        assignExternalForces_not_attached group cvs order1 ext id
          (fun ic hic => hno ic (hperm.mem_iff.mp hic))]
  cases h1 : assignExternalForces group cvs order1 ext
  cases h2 : assignExternalForces group cvs order2 ext
  rw [h1, h2] at hsize helem
  simp only [StdVector.mk.injEq]
  exact ⟨hsize, funext helem⟩

theorem mem_contactOrder (n k : Nat) (ic : Nat × Nat) :
    ic ∈ contactOrder n k ↔ ic.1 < n ∧ ic.2 < k := by
  rcases ic with ⟨i, c⟩
  simp [contactOrder, List.mem_flatMap]

theorem projectContacts_concat (env : Collaborators F T K) (group : ItompPlanningGroup)
    (model : Model K) (order : List Nat) (i : Nat) (cvs : StdVector ContactVariables) :
    projectContacts env group model (order ++ [i]) cvs
      = (projectContacts env group model order cvs).set i
          (env.ComputeProjectedPointPositions ((projectContacts env group model order cvs).elem i)
            (env.getNearestGroundPosition
              ((projectContacts env group model order cvs).elem i).position
              ((projectContacts env group model order cvs).elem i).orientation).1
            (env.getNearestGroundPosition
              ((projectContacts env group model order cvs).elem i).position
              ((projectContacts env group model order cvs).elem i).orientation).2.1
            model (group.contact_points_ i)) := by
  simp [projectContacts, List.foldl_append]

/-- Projecting the contacts of a list without repetition projects each of them once,
from its value at entry. -/
theorem projectContacts_elem (env : Collaborators F T K) (group : ItompPlanningGroup)
    (model : Model K) (order : List Nat) (cvs : StdVector ContactVariables)
    (hnodup : order.Nodup) (i : Nat) :
    (projectContacts env group model order cvs).elem i
      = if i ∈ order then projectContact env group model i (cvs.elem i) else cvs.elem i := by
  induction order using List.reverseRecOn with
  | nil => simp [projectContacts]
  | append_singleton order j ih =>
    have hn : order.Nodup ∧ j ∉ order := by
      have := List.nodup_append.mp hnodup
      refine ⟨this.1, fun hj => ?_⟩
      exact this.2.2 hj (List.mem_singleton_self j)
    rw [projectContacts_concat, StdVector.elem_set]
    by_cases hij : i = j
    · subst hij
      rw [if_pos rfl, ih hn.1, if_neg hn.2, if_pos (by simp)]
      rfl
    · rw [if_neg hij, ih hn.1]
      simp [hij]

theorem projectContacts_size (env : Collaborators F T K) (group : ItompPlanningGroup)
    (model : Model K) (order : List Nat) (cvs : StdVector ContactVariables) :
    (projectContacts env group model order cvs).size = cvs.size := by
  induction order using List.reverseRecOn with
  | nil => rfl
  | append_singleton order j ih => rw [projectContacts_concat]; exact ih

theorem projectContacts_perm (env : Collaborators F T K) (group : ItompPlanningGroup)
    (model : Model K) (order1 order2 : List Nat) (cvs : StdVector ContactVariables)
    (hperm : order1.Perm order2) (hnodup : order2.Nodup) :
    projectContacts env group model order1 cvs = projectContacts env group model order2 cvs := by
  have hsize := (projectContacts_size env group model order1 cvs).trans
    (projectContacts_size env group model order2 cvs).symm
  have helem : ∀ i, (projectContacts env group model order1 cvs).elem i
      = (projectContacts env group model order2 cvs).elem i := by
    intro i
    rw [projectContacts_elem env group model order1 cvs (hperm.nodup_iff.mpr hnodup),
      projectContacts_elem env group model order2 cvs hnodup]
    simp [hperm.mem_iff]
  cases h1 : projectContacts env group model order1 cvs
  cases h2 : projectContacts env group model order2 cvs
  rw [h1, h2] at hsize helem
  simp only [StdVector.mk.injEq]
  exact ⟨hsize, funext helem⟩

theorem forces_eq_pointState (m : NewEvalManager F T K R) (pt : Nat) :
    m.external_forces_.elem pt = (m.pointState pt).forces := rfl

theorem contacts_eq_pointState (m : NewEvalManager F T K R) (pt : Nat) :
    m.contact_variables_.elem pt = (m.pointState pt).contacts := rfl

theorem contactSpatialForce_zero (cv : ContactVariables) (c : Nat)
    (h : cv.point_force c = Vector3.zero) : contactSpatialForce cv c = SpatialVectorZero := by
  simp [contactSpatialForce, h, Vector3.cross, Vector3.zero, SpatialVectorZero]

/-- Full propagation leaves at a point of its range the external forces that the
assignments of the force block make, from the forces at entry, with the
contact variables it leaves at that point. -/
theorem performFull_forces (env : Collaborators F T K) (self : NewEvalManager F T K R)
    (b e pt : Nat) (hb : b ≤ pt) (he : pt < e) :
    (self.performFullForwardKinematicsAndDynamics env b e).external_forces_.elem pt
      = assignExternalForces self.planning_group_
          ((self.performFullForwardKinematicsAndDynamics env b e).contact_variables_.elem pt)
          (contactOrder self.planning_group_.num_contacts env.NUM_ENDEFFECTOR_CONTACT_POINTS)
          (self.external_forces_.elem pt) := by
  rw [forces_eq_pointState, contacts_eq_pointState, performFull_pointState, if_pos ⟨hb, he⟩]
  rfl

/-- The same for partial propagation of a dynamics-only change. -/
theorem performPartial_forces (env : Collaborators F T K)
    (ref : Option (NewEvalManager F T K R)) (self : NewEvalManager F T K R)
    (b e pt : Nat) (index : ItompTrajectoryIndex) (hb : b ≤ pt) (he : pt < e)
    (hdyn : index.sub_component ≠ SubComponentType.JOINT) :
    (self.performPartialForwardKinematicsAndDynamics env ref b e index).external_forces_.elem pt
      = assignExternalForces self.planning_group_
          ((self.performPartialForwardKinematicsAndDynamics env ref b e
            index).contact_variables_.elem pt)
          (contactOrder self.planning_group_.num_contacts env.NUM_ENDEFFECTOR_CONTACT_POINTS)
          (self.external_forces_.elem pt) := by
  rw [forces_eq_pointState, contacts_eq_pointState, performPartial_pointState, if_pos ⟨hb, he⟩]
  simp [partialPropagationOfPoint, partialUpdateOfPoint, partialCopyOfPoint, hdyn,
    contactAndForceBlocks, contactAndForceBlocksIn, NewEvalManager.pointState]

/-- The external force of the body id of a sub contact point is zero after the force
block when every sub contact point attached to that id has a zero force. -/
theorem assignExternalForces_zero (group : ItompPlanningGroup)
    (cvs : StdVector ContactVariables) (n k : Nat) (ext : StdVector SpatialVector)
    (i c : Nat) (hi : i < n) (hc : c < k)
    (hzero : ∀ c2, c2 < k → (cvs.elem i).point_force c2 = Vector3.zero)
    (hother : ∀ i2 c2, i2 < n → c2 < k → i2 ≠ i →
      group.pointId (i2, c2) = group.pointId (i, c) →
      (cvs.elem i2).point_force c2 = Vector3.zero) :
    (assignExternalForces group cvs (contactOrder n k) ext).elem (group.pointId (i, c))
      = SpatialVectorZero := by
  have hall : ∀ jc ∈ contactOrder n k, group.pointId jc = group.pointId (i, c) →
      contactSpatialForce (cvs.elem jc.1) jc.2 = SpatialVectorZero := by
    intro jc hjc hid
    rw [mem_contactOrder] at hjc
    apply contactSpatialForce_zero
    by_cases h : jc.1 = i
    · rw [h]
      exact hzero jc.2 hjc.2
    · exact hother jc.1 jc.2 hjc.1 hjc.2 h hid
  rw [assignExternalForces_of_mem group cvs (contactOrder n k) (i, c) ext
    ((mem_contactOrder n k (i, c)).mpr ⟨hi, hc⟩)
    (fun jc hjc hid => (hall jc hjc hid).trans (contactSpatialForce_zero _ _ (hzero c hc)).symm)]
  exact contactSpatialForce_zero _ _ (hzero c hc)

/-- C12, as stated, fails: two contacts whose sub contact points are attached to the
same body ids, contact 0 with zero forces and contact 1 with the force
`(0, 0, 1)`; after full propagation of the point all the forces of contact 0
are zero and the external force of body 1, the body of its sub contact point 0,
is not zero. -/
theorem zero_force_contact_overwritten :
    (∀ c, c < keyframeCollaborators.NUM_ENDEFFECTOR_CONTACT_POINTS →
      ((((twoContactManager (fun c => c + 1) (fun c => c + 1) Vector3.zero
        ⟨0, 0, 1⟩).performFullForwardKinematicsAndDynamics keyframeCollaborators 0
        1).contact_variables_.elem 0).elem 0).point_force c = Vector3.zero) ∧
    (twoContactManager (fun c => c + 1) (fun c => c + 1) Vector3.zero
      ⟨0, 0, 1⟩).planning_group_.pointId (0, 0) = 1 ∧
    (((twoContactManager (fun c => c + 1) (fun c => c + 1) Vector3.zero
        ⟨0, 0, 1⟩).performFullForwardKinematicsAndDynamics keyframeCollaborators 0
        1).external_forces_.elem 0).elem 1 ≠ SpatialVectorZero := by
  refine ⟨?_, rfl, ?_⟩
  · intro c _
    rw [contacts_eq_pointState, performFull_pointState]
    simp [fullPropagationOfPoint, contactAndForceBlocks, contactAndForceBlocksIn,
      projectContacts, List.range_succ, twoContactManager, keyframeCollaborators,
      keyframeManager, NewEvalManager.pointState, StdVector.set]
  · rw [forces_eq_pointState, performFull_pointState]
    simp [fullPropagationOfPoint, contactAndForceBlocks, contactAndForceBlocksIn,
      assignExternalForces, contactOrder, projectContacts, List.range_succ, twoContactManager,
      keyframeCollaborators, keyframeManager, NewEvalManager.pointState, StdVector.set,
      contactSpatialForce, Vector3.cross, ItompPlanningGroup.pointId, SpatialVectorZero,
      Vector3.zero]

/-- C12, amended: for a point `pt` of the propagated range and a contact `i` whose sub
contact point forces are all zero after the contact block, the external force
that propagation stores for the body id of each sub contact point `c` of `i` is
the zero 6-vector, whatever the projected positions, provided every sub
contact point of another contact that is attached to the same body id has a
zero force as well.  This holds for full propagation and for partial
propagation of a dynamics-only change. -/
theorem external_force_zero_of_zero_forces (env : Collaborators F T K)
    (ref : Option (NewEvalManager F T K R)) (self : NewEvalManager F T K R)
    (b e pt : Nat) (index : ItompTrajectoryIndex) (hb : b ≤ pt) (he : pt < e) :
    (∀ i c, i < self.planning_group_.num_contacts → c < env.NUM_ENDEFFECTOR_CONTACT_POINTS →
      (∀ c2, c2 < env.NUM_ENDEFFECTOR_CONTACT_POINTS →
        (((self.performFullForwardKinematicsAndDynamics env b e).contact_variables_.elem
          pt).elem i).point_force c2 = Vector3.zero) →
      (∀ i2 c2, i2 < self.planning_group_.num_contacts →
        c2 < env.NUM_ENDEFFECTOR_CONTACT_POINTS → i2 ≠ i →
        self.planning_group_.pointId (i2, c2) = self.planning_group_.pointId (i, c) →
        (((self.performFullForwardKinematicsAndDynamics env b e).contact_variables_.elem
          pt).elem i2).point_force c2 = Vector3.zero) →
      ((self.performFullForwardKinematicsAndDynamics env b e).external_forces_.elem pt).elem
          (self.planning_group_.pointId (i, c)) = SpatialVectorZero) ∧
    (index.sub_component ≠ SubComponentType.JOINT →
      ∀ i c, i < self.planning_group_.num_contacts → c < env.NUM_ENDEFFECTOR_CONTACT_POINTS →
      (∀ c2, c2 < env.NUM_ENDEFFECTOR_CONTACT_POINTS →
        (((self.performPartialForwardKinematicsAndDynamics env ref b e
          index).contact_variables_.elem pt).elem i).point_force c2 = Vector3.zero) →
      (∀ i2 c2, i2 < self.planning_group_.num_contacts →
        c2 < env.NUM_ENDEFFECTOR_CONTACT_POINTS → i2 ≠ i →
        self.planning_group_.pointId (i2, c2) = self.planning_group_.pointId (i, c) →
        (((self.performPartialForwardKinematicsAndDynamics env ref b e
          index).contact_variables_.elem pt).elem i2).point_force c2 = Vector3.zero) →
      ((self.performPartialForwardKinematicsAndDynamics env ref b e
          index).external_forces_.elem pt).elem
          (self.planning_group_.pointId (i, c)) = SpatialVectorZero) := by
  constructor
  · intro i c hi hc hzero hother
    rw [performFull_forces env self b e pt hb he]
    exact assignExternalForces_zero _ _ _ _ _ i c hi hc hzero hother
  · intro hdyn i c hi hc hzero hother
    rw [performPartial_forces env ref self b e pt index hb he hdyn]
    exact assignExternalForces_zero _ _ _ _ _ i c hi hc hzero hother

theorem twoContact_contacts (ids0 ids1 : Nat → Nat) (f0 f1 : Vector3) :
    ((twoContactManager ids0 ids1 f0 f1).performFullForwardKinematicsAndDynamics
      keyframeCollaborators 0 1).contact_variables_.elem 0
      = (twoContactManager ids0 ids1 f0 f1).contact_variables_.elem 0 := by
  rw [contacts_eq_pointState, performFull_pointState]
  simp only [Nat.le_refl, Nat.lt_one_iff, and_self, if_true, fullPropagationOfPoint,
    contactAndForceBlocks, contactAndForceBlocksIn]
  show projectContacts _ _ _ (List.range 2) _ = _
  simp only [projectContacts, List.range_succ, List.range_zero, List.nil_append,
    List.singleton_append, List.foldl_cons, List.foldl_nil]
  simp [keyframeCollaborators, NewEvalManager.pointState, StdVector.set_self]

/-- Witness of C12: contact 0 on the bodies 1 to 4 with zero forces, contact 1 on the
bodies 5 to 8 with the force `(0, 0, 1)`: the external force of body 1 is zero
after full propagation. -/
theorem external_force_zero_of_zero_forces_witness :
    (((twoContactManager (fun c => c + 1) (fun c => c + 5) Vector3.zero
        ⟨0, 0, 1⟩).performFullForwardKinematicsAndDynamics keyframeCollaborators 0
        1).external_forces_.elem 0).elem 1 = SpatialVectorZero :=
  (external_force_zero_of_zero_forces keyframeCollaborators none
    (twoContactManager (fun c => c + 1) (fun c => c + 5) Vector3.zero ⟨0, 0, 1⟩) 0 1 0
    ⟨0, .POSITION, .CONTACT_FORCE, 0⟩ (by decide) (by decide)).1 0 0 (by decide) (by decide)
    (by
      intro c2 _
      rw [twoContact_contacts]
      rfl)
    (by
      intro i2 c2 hi2 hc2 hne hid
      exfalso
      have h1 : i2 = 1 := by
        have : i2 < 2 := hi2
        omega
      subst h1
      simp [twoContactManager, ItompPlanningGroup.pointId] at hid)

theorem SpatialVector.zero_add (a : SpatialVector) : SpatialVectorZero.add a = a := by
  rcases a with ⟨⟨_, _, _⟩, ⟨_, _, _⟩⟩
  simp [SpatialVector.add, SpatialVectorZero, Vector3.zero]

theorem contactOrder_nodup (n k : Nat) : (contactOrder n k).Nodup := by
  unfold contactOrder
  rw [List.nodup_flatMap]
  refine ⟨fun i _ => ?_, ?_⟩
  · exact (List.nodup_range k).map (fun a b h => by injection h)
  · refine List.Pairwise.imp_of_mem ?_ (List.nodup_range n)
    intro i j _ _ hij
    intro x hx hy
    rw [List.mem_map] at hx hy
    obtain ⟨_, _, h1⟩ := hx
    obtain ⟨_, _, h2⟩ := hy
    rw [← h2] at h1
    injection h1 with h3
    exact hij h3

theorem filter_eq_singleton {α : Type} (p : α → Bool) (a : α) (l : List α) (hnd : l.Nodup)
    (hmem : a ∈ l) (hp : ∀ x ∈ l, p x = true ↔ x = a) : l.filter p = [a] := by
  induction l with
  | nil => cases hmem
  | cons x xs ih =>
    rw [List.nodup_cons] at hnd
    by_cases hx : x = a
    · subst hx
      have hnil : xs.filter p = [] := by
        rw [List.filter_eq_nil_iff]
        intro y hy hpy
        have := (hp y (List.mem_cons_of_mem _ hy)).mp hpy
        subst this
        exact hnd.1 hy
      rw [List.filter_cons_of_pos ((hp x (List.mem_cons_self _ _)).mpr rfl), hnil]
    · have hin : a ∈ xs := by
        rcases List.mem_cons.mp hmem with h | h
        · exact absurd h.symm hx
        · exact h
      have hneg : ¬ p x = true := fun h => hx ((hp x (List.mem_cons_self _ _)).mp h)
      rw [List.filter_cons_of_neg hneg]
      exact ih hnd.2 hin (fun y hy => hp y (List.mem_cons_of_mem _ hy))

/-- For a body id to which exactly one pair is attached, the accumulation is the
spatial force of that pair. -/
theorem accumulatedExternalForce_unique (group : ItompPlanningGroup)
    (cvs : StdVector ContactVariables) (n k : Nat) (ic : Nat × Nat)
    (hmem : ic ∈ contactOrder n k)
    (huniq : ∀ jc ∈ contactOrder n k, group.pointId jc = group.pointId ic → jc = ic) :
    accumulatedExternalForce group cvs (contactOrder n k) (group.pointId ic)
      = contactSpatialForce (cvs.elem ic.1) ic.2 := by
  unfold accumulatedExternalForce
  rw [filter_eq_singleton _ ic _ (contactOrder_nodup n k) hmem]
  · simp [SpatialVector.zero_add]
  · intro x hx
    rw [decide_eq_true_iff]
    exact ⟨huniq x hx, fun h => by rw [h]⟩

/-- C13, amended: after full propagation of a point `pt` of the range, (1) the
external force stored for the body id of a pair (contact, sub contact point) to
whose id no later pair, in the order of the loops, is attached is the 6-vector
`(position x force, force)` of that pair: the force block assigns, it does not
accumulate; (2) a body id to which no pair is attached keeps the external force
it had before; (3) for a body id to which exactly one pair is attached, the
stored force is the sum over the pairs attached to it. -/
theorem external_force_is_last_assignment (env : Collaborators F T K)
    (self : NewEvalManager F T K R) (b e pt : Nat) (hb : b ≤ pt) (he : pt < e) :
    (∀ pre ic post,
      contactOrder self.planning_group_.num_contacts env.NUM_ENDEFFECTOR_CONTACT_POINTS
        = pre ++ ic :: post →
      (∀ jc ∈ post, self.planning_group_.pointId jc ≠ self.planning_group_.pointId ic) →
      ((self.performFullForwardKinematicsAndDynamics env b e).external_forces_.elem pt).elem
          (self.planning_group_.pointId ic)
        = contactSpatialForce
            (((self.performFullForwardKinematicsAndDynamics env b e).contact_variables_.elem
              pt).elem ic.1) ic.2) ∧
    (∀ id,
      (∀ ic ∈ contactOrder self.planning_group_.num_contacts
          env.NUM_ENDEFFECTOR_CONTACT_POINTS, self.planning_group_.pointId ic ≠ id) →
      ((self.performFullForwardKinematicsAndDynamics env b e).external_forces_.elem pt).elem id
        = (self.external_forces_.elem pt).elem id) ∧
    (∀ ic ∈ contactOrder self.planning_group_.num_contacts env.NUM_ENDEFFECTOR_CONTACT_POINTS,
      (∀ jc ∈ contactOrder self.planning_group_.num_contacts
          env.NUM_ENDEFFECTOR_CONTACT_POINTS,
        self.planning_group_.pointId jc = self.planning_group_.pointId ic → jc = ic) →
      ((self.performFullForwardKinematicsAndDynamics env b e).external_forces_.elem pt).elem
          (self.planning_group_.pointId ic)
        = accumulatedExternalForce self.planning_group_
            ((self.performFullForwardKinematicsAndDynamics env b e).contact_variables_.elem pt)
            (contactOrder self.planning_group_.num_contacts
              env.NUM_ENDEFFECTOR_CONTACT_POINTS)
            (self.planning_group_.pointId ic)) := by
  refine ⟨?_, ?_, ?_⟩
  · intro pre ic post horder hlast
    rw [performFull_forces env self b e pt hb he, horder]
    exact assignExternalForces_last _ _ pre post ic _ hlast
  · intro id hno
    rw [performFull_forces env self b e pt hb he]
    exact assignExternalForces_not_attached _ _ _ _ id hno
  · intro ic hic huniq
    rw [accumulatedExternalForce_unique _ _ _ _ ic hic huniq,
      performFull_forces env self b e pt hb he]
    exact assignExternalForces_of_mem _ _ _ ic _ hic
      (fun jc hjc hid => by rw [huniq jc hjc hid])

/-- Witness of C13 on the two contacts attached to the same bodies 1 to 4: the last pair
attached to body 1 is sub contact point 0 of contact 1, and the external force
of body 1 is the spatial force `((0, -1, 0), (0, 0, 1))` of that pair; body 0, to
which no pair is attached, keeps its zero force.  With contact 1 attached to the
bodies 5 to 8, exactly one pair is attached to body 1 and its external force is
the sum over the pairs attached to it. -/
theorem external_force_is_last_assignment_witness :
    contactOrder 2 keyframeCollaborators.NUM_ENDEFFECTOR_CONTACT_POINTS
      = [(0, 0), (0, 1), (0, 2), (0, 3)] ++ (1, 0) :: [(1, 1), (1, 2), (1, 3)] ∧
    (((twoContactManager (fun c => c + 1) (fun c => c + 1) ⟨0, 0, 2⟩
        ⟨0, 0, 1⟩).performFullForwardKinematicsAndDynamics keyframeCollaborators 0
        1).external_forces_.elem 0).elem 1
      = contactSpatialForce
          ((((twoContactManager (fun c => c + 1) (fun c => c + 1) ⟨0, 0, 2⟩
            ⟨0, 0, 1⟩).performFullForwardKinematicsAndDynamics keyframeCollaborators 0
            1).contact_variables_.elem 0).elem 1) 0 ∧
    contactSpatialForce
        ((((twoContactManager (fun c => c + 1) (fun c => c + 1) ⟨0, 0, 2⟩
          ⟨0, 0, 1⟩).performFullForwardKinematicsAndDynamics keyframeCollaborators 0
          1).contact_variables_.elem 0).elem 1) 0 = ⟨⟨0, -1, 0⟩, ⟨0, 0, 1⟩⟩ ∧
    (((twoContactManager (fun c => c + 1) (fun c => c + 1) ⟨0, 0, 2⟩
        ⟨0, 0, 1⟩).performFullForwardKinematicsAndDynamics keyframeCollaborators 0
        1).external_forces_.elem 0).elem 0 = SpatialVectorZero ∧
    (((twoContactManager (fun c => c + 1) (fun c => c + 5) ⟨0, 0, 2⟩
        ⟨0, 0, 1⟩).performFullForwardKinematicsAndDynamics keyframeCollaborators 0
        1).external_forces_.elem 0).elem 1
      = accumulatedExternalForce
          (twoContactManager (fun c => c + 1) (fun c => c + 5) ⟨0, 0, 2⟩
            ⟨0, 0, 1⟩).planning_group_
          (((twoContactManager (fun c => c + 1) (fun c => c + 5) ⟨0, 0, 2⟩
            ⟨0, 0, 1⟩).performFullForwardKinematicsAndDynamics keyframeCollaborators 0
            1).contact_variables_.elem 0)
          (contactOrder 2 keyframeCollaborators.NUM_ENDEFFECTOR_CONTACT_POINTS) 1 :=
  ⟨by decide,
    (external_force_is_last_assignment keyframeCollaborators
      (twoContactManager (fun c => c + 1) (fun c => c + 1) ⟨0, 0, 2⟩ ⟨0, 0, 1⟩) 0 1 0
      (by decide) (by decide)).1 [(0, 0), (0, 1), (0, 2), (0, 3)] (1, 0)
      [(1, 1), (1, 2), (1, 3)] (by decide) (by decide),
    by
      rw [twoContact_contacts]
      simp [twoContactManager, contactSpatialForce, Vector3.cross],
    (external_force_is_last_assignment keyframeCollaborators
      (twoContactManager (fun c => c + 1) (fun c => c + 1) ⟨0, 0, 2⟩ ⟨0, 0, 1⟩) 0 1 0
      (by decide) (by decide)).2.1 0 (by decide),
    (external_force_is_last_assignment keyframeCollaborators
      (twoContactManager (fun c => c + 1) (fun c => c + 5) ⟨0, 0, 2⟩ ⟨0, 0, 1⟩) 0 1 0
      (by decide) (by decide)).2.2 (0, 0) (by decide) (by decide)⟩

/-- Full propagation leaves at a point of its range the contact variables and the
external forces of the two blocks run in the order of the source. -/
theorem performFull_blocks (env : Collaborators F T K) (self : NewEvalManager F T K R)
    (b e pt : Nat) (hb : b ≤ pt) (he : pt < e) :
    (self.performFullForwardKinematicsAndDynamics env b e).contact_variables_.elem pt
      = (contactAndForceBlocks env self.planning_group_
          (env.getContactVariables self.itomp_trajectory_ pt) (self.pointState pt)).contacts ∧
    (self.performFullForwardKinematicsAndDynamics env b e).external_forces_.elem pt
      = (contactAndForceBlocks env self.planning_group_
          (env.getContactVariables self.itomp_trajectory_ pt) (self.pointState pt)).forces := by
  rw [forces_eq_pointState, contacts_eq_pointState, performFull_pointState, if_pos ⟨hb, he⟩]
  exact ⟨rfl, rfl⟩

/-- C14, as stated, fails: two contacts whose sub contact points are attached to the
same body ids, with the forces `(0, 0, 2)` and `(0, 0, 1)`; the two blocks run
with the contacts and the pairs in reverse order, a permutation, leave another
external force for body 1 than full propagation does. -/
theorem external_forces_depend_on_order :
    (List.range 2).reverse.Perm (List.range 2) ∧
    (contactOrder 2 keyframeCollaborators.NUM_ENDEFFECTOR_CONTACT_POINTS).reverse.Perm
      (contactOrder 2 keyframeCollaborators.NUM_ENDEFFECTOR_CONTACT_POINTS) ∧
    (((twoContactManager (fun c => c + 1) (fun c => c + 1) ⟨0, 0, 2⟩
        ⟨0, 0, 1⟩).performFullForwardKinematicsAndDynamics keyframeCollaborators 0
        1).external_forces_.elem 0).elem 1 = ⟨⟨0, -1, 0⟩, ⟨0, 0, 1⟩⟩ ∧
    ((contactAndForceBlocksIn keyframeCollaborators
        (twoContactManager (fun c => c + 1) (fun c => c + 1) ⟨0, 0, 2⟩
          ⟨0, 0, 1⟩).planning_group_
        (keyframeCollaborators.getContactVariables
          (twoContactManager (fun c => c + 1) (fun c => c + 1) ⟨0, 0, 2⟩
            ⟨0, 0, 1⟩).itomp_trajectory_ 0)
        (List.range 2).reverse
        (contactOrder 2 keyframeCollaborators.NUM_ENDEFFECTOR_CONTACT_POINTS).reverse
        ((twoContactManager (fun c => c + 1) (fun c => c + 1) ⟨0, 0, 2⟩
          ⟨0, 0, 1⟩).pointState 0)).forces).elem 1 = ⟨⟨0, -2, 0⟩, ⟨0, 0, 2⟩⟩ ∧
    ((contactAndForceBlocksIn keyframeCollaborators
        (twoContactManager (fun c => c + 1) (fun c => c + 1) ⟨0, 0, 2⟩
          ⟨0, 0, 1⟩).planning_group_
        (keyframeCollaborators.getContactVariables
          (twoContactManager (fun c => c + 1) (fun c => c + 1) ⟨0, 0, 2⟩
            ⟨0, 0, 1⟩).itomp_trajectory_ 0)
        (List.range 2).reverse
        (contactOrder 2 keyframeCollaborators.NUM_ENDEFFECTOR_CONTACT_POINTS).reverse
        ((twoContactManager (fun c => c + 1) (fun c => c + 1) ⟨0, 0, 2⟩
          ⟨0, 0, 1⟩).pointState 0)).forces).elem 1
      ≠ (((twoContactManager (fun c => c + 1) (fun c => c + 1) ⟨0, 0, 2⟩
        ⟨0, 0, 1⟩).performFullForwardKinematicsAndDynamics keyframeCollaborators 0
        1).external_forces_.elem 0).elem 1 := by
  have h1 : (((twoContactManager (fun c => c + 1) (fun c => c + 1) ⟨0, 0, 2⟩
        ⟨0, 0, 1⟩).performFullForwardKinematicsAndDynamics keyframeCollaborators 0
        1).external_forces_.elem 0).elem 1 = ⟨⟨0, -1, 0⟩, ⟨0, 0, 1⟩⟩ := by
    rw [forces_eq_pointState, performFull_pointState]
    simp [fullPropagationOfPoint, contactAndForceBlocks, contactAndForceBlocksIn,
      assignExternalForces, contactOrder, projectContacts, List.range_succ, twoContactManager,
      keyframeCollaborators, keyframeManager, NewEvalManager.pointState, StdVector.set,
      contactSpatialForce, Vector3.cross, ItompPlanningGroup.pointId]
  have h2 : ((contactAndForceBlocksIn keyframeCollaborators
        (twoContactManager (fun c => c + 1) (fun c => c + 1) ⟨0, 0, 2⟩
          ⟨0, 0, 1⟩).planning_group_
        (keyframeCollaborators.getContactVariables
          (twoContactManager (fun c => c + 1) (fun c => c + 1) ⟨0, 0, 2⟩
            ⟨0, 0, 1⟩).itomp_trajectory_ 0)
        (List.range 2).reverse
        (contactOrder 2 keyframeCollaborators.NUM_ENDEFFECTOR_CONTACT_POINTS).reverse
        ((twoContactManager (fun c => c + 1) (fun c => c + 1) ⟨0, 0, 2⟩
          ⟨0, 0, 1⟩).pointState 0)).forces).elem 1 = ⟨⟨0, -2, 0⟩, ⟨0, 0, 2⟩⟩ := by
    simp [contactAndForceBlocksIn,
      assignExternalForces, contactOrder, projectContacts, List.range_succ, twoContactManager,
      keyframeCollaborators, keyframeManager, NewEvalManager.pointState, StdVector.set,
      contactSpatialForce, Vector3.cross, ItompPlanningGroup.pointId]
  refine ⟨List.reverse_perm _, List.reverse_perm _, h1, h2, ?_⟩
  rw [h1, h2]
  simp

/-- C14, amended: for a point `pt` of the range of full propagation, the contact
block run over any permutation of the contacts followed by the force block run
over any permutation of the pairs (contact, sub contact point) leaves the
contact variables and the external forces that full propagation leaves,
provided any two pairs attached to the same body id carry the same spatial
force (in particular when the body ids of the pairs are pairwise distinct). -/
theorem external_forces_order_independent (env : Collaborators F T K)
    (self : NewEvalManager F T K R) (b e pt : Nat) (hb : b ≤ pt) (he : pt < e)
    (contacts : List Nat) (pairs : List (Nat × Nat))
    (hcontacts : contacts.Perm (List.range self.planning_group_.num_contacts))
    (hpairs : pairs.Perm
      (contactOrder self.planning_group_.num_contacts env.NUM_ENDEFFECTOR_CONTACT_POINTS))
    (hsame : ∀ ic ∈ contactOrder self.planning_group_.num_contacts
        env.NUM_ENDEFFECTOR_CONTACT_POINTS,
      ∀ jc ∈ contactOrder self.planning_group_.num_contacts
        env.NUM_ENDEFFECTOR_CONTACT_POINTS,
      self.planning_group_.pointId jc = self.planning_group_.pointId ic →
      contactSpatialForce
          (((self.performFullForwardKinematicsAndDynamics env b e).contact_variables_.elem
            pt).elem jc.1) jc.2
        = contactSpatialForce
          (((self.performFullForwardKinematicsAndDynamics env b e).contact_variables_.elem
            pt).elem ic.1) ic.2) :
    (contactAndForceBlocksIn env self.planning_group_
        (env.getContactVariables self.itomp_trajectory_ pt) contacts pairs
        (self.pointState pt)).contacts
      = (self.performFullForwardKinematicsAndDynamics env b e).contact_variables_.elem pt ∧
    (contactAndForceBlocksIn env self.planning_group_
        (env.getContactVariables self.itomp_trajectory_ pt) contacts pairs
        (self.pointState pt)).forces
      = (self.performFullForwardKinematicsAndDynamics env b e).external_forces_.elem pt := by
  have hblocks := performFull_blocks env self b e pt hb he
  have hcv : (contactAndForceBlocksIn env self.planning_group_
        (env.getContactVariables self.itomp_trajectory_ pt) contacts pairs
        (self.pointState pt)).contacts
      = (self.performFullForwardKinematicsAndDynamics env b e).contact_variables_.elem pt := by
    rw [hblocks.1]
    exact projectContacts_perm env _ _ contacts _ _ hcontacts (List.nodup_range _)
  refine ⟨hcv, ?_⟩
  rw [performFull_forces env self b e pt hb he]
  show assignExternalForces self.planning_group_
      (contactAndForceBlocksIn env self.planning_group_
        (env.getContactVariables self.itomp_trajectory_ pt) contacts pairs
        (self.pointState pt)).contacts pairs (self.pointState pt).forces = _
  rw [hcv]
  exact assignExternalForces_perm _ _ pairs _ _ hpairs hsame

/-- Pairs with pairwise distinct body ids: two pairs attached to the same body id are
the same pair. -/
theorem same_force_of_distinct_ids (group : ItompPlanningGroup)
    (cvs : StdVector ContactVariables) (pairs : List (Nat × Nat))
    (hnodup : (pairs.map group.pointId).Nodup) :
    ∀ ic ∈ pairs, ∀ jc ∈ pairs, group.pointId jc = group.pointId ic →
      contactSpatialForce (cvs.elem jc.1) jc.2 = contactSpatialForce (cvs.elem ic.1) ic.2 := by
  intro ic hic jc hjc hid
  rw [List.inj_on_of_nodup_map hnodup hjc hic hid]

/-- Witness of C14: contact 0 on the bodies 1 to 4 and contact 1 on the bodies 5 to 8;
the blocks run in reverse order leave the external forces of full propagation. -/
theorem external_forces_order_independent_witness :
    (contactAndForceBlocksIn keyframeCollaborators
        (twoContactManager (fun c => c + 1) (fun c => c + 5) ⟨0, 0, 2⟩
          ⟨0, 0, 1⟩).planning_group_
        (keyframeCollaborators.getContactVariables
          (twoContactManager (fun c => c + 1) (fun c => c + 5) ⟨0, 0, 2⟩
            ⟨0, 0, 1⟩).itomp_trajectory_ 0)
        (List.range 2).reverse
        (contactOrder 2 keyframeCollaborators.NUM_ENDEFFECTOR_CONTACT_POINTS).reverse
        ((twoContactManager (fun c => c + 1) (fun c => c + 5) ⟨0, 0, 2⟩
          ⟨0, 0, 1⟩).pointState 0)).forces
      = ((twoContactManager (fun c => c + 1) (fun c => c + 5) ⟨0, 0, 2⟩
          ⟨0, 0, 1⟩).performFullForwardKinematicsAndDynamics keyframeCollaborators 0
          1).external_forces_.elem 0 :=
  (external_forces_order_independent keyframeCollaborators
    (twoContactManager (fun c => c + 1) (fun c => c + 5) ⟨0, 0, 2⟩ ⟨0, 0, 1⟩) 0 1 0
    (by decide) (by decide) (List.range 2).reverse
    (contactOrder 2 keyframeCollaborators.NUM_ENDEFFECTOR_CONTACT_POINTS).reverse
    (List.reverse_perm _) (List.reverse_perm _)
    (same_force_of_distinct_ids _ _ _ (by decide))).2

end ContactForces

section PartialPropagation

variable {F T K R : Type}

theorem models_eq_pointState (m : NewEvalManager F T K R) (pt : Nat) :
    m.rbdl_models_.elem pt = (m.pointState pt).model := rfl

theorem torques_eq_pointState (m : NewEvalManager F T K R) (pt : Nat) :
    m.joint_torques_.elem pt = (m.pointState pt).torques := rfl

theorem Model.SameKinematics.trans_kin {m1 m2 m3 : Model K} (h1 : Model.SameKinematics m1 m2)
    (h2 : Model.SameKinematics m2 m3) : Model.SameKinematics m1 m3 :=
  ⟨h1.1.trans h2.1, h1.2.1.trans h2.2.1, h1.2.2.1.trans h2.2.2.1, h1.2.2.2.trans h2.2.2.2⟩

theorem Model.SameKinematics.symm_kin {m1 m2 : Model K} (h : Model.SameKinematics m1 m2) :
    Model.SameKinematics m2 m1 :=
  ⟨h.1.symm, h.2.1.symm, h.2.2.1.symm, h.2.2.2.symm⟩

theorem linkDynamics_keepsKinematics : KeepsKinematics contactCollaborators := by
  intro m q q_dot q_ddot tau ext
  exact ⟨rfl, rfl, rfl, rfl⟩

/-- Stale kinematic quantities survive the overload with an index: the canonical instance
holds the transform 3 for the moved
bodies of point 0, this instance the transform 2; after partial propagation of
a dynamics-only change (a contact force) by the overload with an index, with
a dynamics-only update that does not modify kinematic quantities, the
transform `X_base` of body 1 of point 0 is still 2, not the 3 of the
canonical instance. -/
theorem partial_propagation_keeps_stale_kinematics :
    KeepsKinematics contactCollaborators ∧
    (((contactManager [3] [1] 1 2).performPartialForwardKinematicsAndDynamics
        contactCollaborators (some (contactManager [3] [1] 1 3)) 0 1
        ⟨0, .POSITION, .CONTACT_FORCE, 0⟩).rbdl_models_.elem 0).X_base 1 = 2 ∧
    ((contactManager [3] [1] 1 3).rbdl_models_.elem 0).X_base 1 = 3 ∧
    ¬ Model.SameKinematics
      (((contactManager [3] [1] 1 2).performPartialForwardKinematicsAndDynamics
        contactCollaborators (some (contactManager [3] [1] 1 3)) 0 1
        ⟨0, .POSITION, .CONTACT_FORCE, 0⟩).rbdl_models_.elem 0)
      ((contactManager [3] [1] 1 3).rbdl_models_.elem 0) := by
  have h1 : (((contactManager [3] [1] 1 2).performPartialForwardKinematicsAndDynamics
        contactCollaborators (some (contactManager [3] [1] 1 3)) 0 1
        ⟨0, .POSITION, .CONTACT_FORCE, 0⟩).rbdl_models_.elem 0).X_base 1 = 2 := by
    rw [models_eq_pointState, performPartial_pointState]
    simp [partialPropagationOfPoint, partialUpdateOfPoint, partialCopyOfPoint,
      copyUpdatedVariables, contactCollaborators, DynamicsModel.updatePartialDynamics,
      contactAndForceBlocks, contactAndForceBlocksIn, NewEvalManager.pointState,
      contactManager, refState]
  have h2 : ((contactManager [3] [1] 1 3).rbdl_models_.elem 0).X_base 1 = 3 := by
    simp [contactManager]
  refine ⟨linkDynamics_keepsKinematics, h1, h2, ?_⟩
  intro h
  have h3 := congrFun h.2.1 1
  rw [h1, h2] at h3
  norm_num at h3

/-- Kinematic quantities after a dynamics-only change, for a point `pt` of the range and
a dynamics-only update that does not
modify kinematic quantities: (1) after partial propagation of a dynamics-only
change by the overload with an index, the kinematic quantities of `pt` are
those this instance had at `pt` before the call (only `f` is copied from the
canonical instance), so they equal those of the canonical instance exactly when
they did before; (2) after partial propagation of a dynamics-only change by
the legacy overload on a full trajectory with velocity and acceleration, the
kinematic quantities of `pt` equal those of the canonical instance; (3) on a
full trajectory without velocity or without acceleration the legacy overload
changes nothing. -/
theorem partial_propagation_kinematics (env : Collaborators F T K)
    (ref : Option (NewEvalManager F T K R)) (self : NewEvalManager F T K R)
    (b e pt : Nat) (index : ItompTrajectoryIndex) (parameter_element : Nat)
    (hkeep : KeepsKinematics env) (hb : b ≤ pt) (he : pt < e) :
    (index.sub_component ≠ SubComponentType.JOINT →
      Model.SameKinematics
        ((self.performPartialForwardKinematicsAndDynamics env ref b e index).rbdl_models_.elem
          pt)
        (self.rbdl_models_.elem pt) ∧
      (Model.SameKinematics
          ((self.performPartialForwardKinematicsAndDynamics env ref b e
            index).rbdl_models_.elem pt)
          ((refState ref self).rbdl_models_.elem pt) ↔
        Model.SameKinematics (self.rbdl_models_.elem pt)
          ((refState ref self).rbdl_models_.elem pt))) ∧
    (parameter_element ≥ self.parameter_trajectory_.num_joints →
      env.hasVelocity self.full_trajectory_ = true →
      env.hasAcceleration self.full_trajectory_ = true →
      Model.SameKinematics
        ((self.performPartialForwardKinematicsAndDynamicsLegacy env ref b e
          parameter_element).rbdl_models_.elem pt)
        ((refState ref self).rbdl_models_.elem pt)) ∧
    ((env.hasVelocity self.full_trajectory_ = false ∨
        env.hasAcceleration self.full_trajectory_ = false) →
      self.performPartialForwardKinematicsAndDynamicsLegacy env ref b e parameter_element
        = self) := by
  refine ⟨?_, ?_, performPartialLegacy_early_return env ref self b e parameter_element⟩
  · intro hdyn
    have hkept : Model.SameKinematics
        ((self.performPartialForwardKinematicsAndDynamics env ref b e index).rbdl_models_.elem
          pt)
        (self.rbdl_models_.elem pt) := by
      rw [models_eq_pointState, performPartial_pointState, if_pos ⟨hb, he⟩]
      simp only [partialPropagationOfPoint, partialUpdateOfPoint, partialCopyOfPoint, hdyn,
        ne_eq, not_false_eq_true, decide_True, if_true, contactAndForceBlocks,
        contactAndForceBlocksIn]
      refine (hkeep _ _ _ _ _ _).trans_kin ?_
      simp only [copyUpdatedVariables, Bool.not_true, Bool.false_eq_true, if_false]
      exact ⟨rfl, rfl, rfl, rfl⟩
    exact ⟨hkept, fun h => hkept.symm_kin.trans_kin h, fun h => hkept.trans_kin h⟩
  · intro hdyn hvel hacc
    rw [models_eq_pointState, performPartialLegacy_pointState env ref self b e
      parameter_element pt hvel hacc, if_pos ⟨hb, he⟩]
    simp only [partialPropagationOfPointLegacy, partialUpdateOfPointLegacy, hdyn,
      decide_True, if_true, contactAndForceBlocks, contactAndForceBlocksIn]
    refine (hkeep _ _ _ _ _ _).trans_kin ?_
    exact ⟨rfl, rfl, rfl, rfl⟩

/-- Instance of `partial_propagation_kinematics`: the legacy overload on the one-joint
robot with one contact,
this instance holding the transform 2 and the canonical instance the transform 3:
after partial propagation of a change of parameter element 1, not a joint,
the kinematic quantities of point 0 are those of the canonical instance. -/
theorem partial_propagation_kinematics_witness :
    KeepsKinematics contactCollaborators ∧
    Model.SameKinematics
      (((contactManager [3] [1] 1 2).performPartialForwardKinematicsAndDynamicsLegacy
        contactCollaborators (some (contactManager [3] [1] 1 3)) 0 1 1).rbdl_models_.elem 0)
      ((contactManager [3] [1] 1 3).rbdl_models_.elem 0) :=
  ⟨linkDynamics_keepsKinematics,
    (partial_propagation_kinematics contactCollaborators (some (contactManager [3] [1] 1 3))
      (contactManager [3] [1] 1 2) 0 1 0 ⟨0, .POSITION, .CONTACT_FORCE, 0⟩ 1
      linkDynamics_keepsKinematics (by decide) (by decide)).2.1 (by decide) rfl rfl⟩

/-- C16, as stated, fails: the legacy overload on a full trajectory without velocity
returns at once; the external force of body 2 of point 0, `(0, (0, 0, 1))` in the
canonical instance, which was propagated, stays zero in this instance, for a
change of parameter element 0, a joint. -/
theorem partial_propagation_legacy_copies_nothing :
    (0 : Nat) < (contactManager [3] [1] 1 3).parameter_trajectory_.num_joints ∧
    ((((contactManager [3] [1] 1 3).performFullForwardKinematicsAndDynamics
        contactCollaboratorsNoVelocity 0 1).external_forces_.elem 0).elem 2)
      = ⟨⟨0, 0, 0⟩, ⟨0, 0, 1⟩⟩ ∧
    ((((contactManager [3] [1] 1 3).performPartialForwardKinematicsAndDynamicsLegacy
        contactCollaboratorsNoVelocity
        (some ((contactManager [3] [1] 1 3).performFullForwardKinematicsAndDynamics
          contactCollaboratorsNoVelocity 0 1)) 0 1 0).external_forces_.elem 0).elem 2)
      = SpatialVectorZero ∧
    ((((contactManager [3] [1] 1 3).performPartialForwardKinematicsAndDynamicsLegacy
        contactCollaboratorsNoVelocity
        (some ((contactManager [3] [1] 1 3).performFullForwardKinematicsAndDynamics
          contactCollaboratorsNoVelocity 0 1)) 0 1 0).external_forces_.elem 0).elem 2)
      ≠ ((((contactManager [3] [1] 1 3).performFullForwardKinematicsAndDynamics
        contactCollaboratorsNoVelocity 0 1).external_forces_.elem 0).elem 2) := by
  have h1 : ((((contactManager [3] [1] 1 3).performFullForwardKinematicsAndDynamics
        contactCollaboratorsNoVelocity 0 1).external_forces_.elem 0).elem 2)
      = ⟨⟨0, 0, 0⟩, ⟨0, 0, 1⟩⟩ := by
    rw [forces_eq_pointState, performFull_pointState]
    simp [fullPropagationOfPoint, contactAndForceBlocks, contactAndForceBlocksIn,
      assignExternalForces, contactOrder, projectContacts, List.range_succ, contactManager,
      contactCollaborators, contactCollaboratorsNoVelocity, ContactStore.getContactVariables,
      NewEvalManager.pointState,
      StdVector.set, contactSpatialForce, Vector3.cross, ItompPlanningGroup.pointId,
      Vector3.zero]
  have h2 : ((((contactManager [3] [1] 1 3).performPartialForwardKinematicsAndDynamicsLegacy
        contactCollaboratorsNoVelocity
        (some ((contactManager [3] [1] 1 3).performFullForwardKinematicsAndDynamics
          contactCollaboratorsNoVelocity 0 1)) 0 1 0).external_forces_.elem 0).elem 2)
      = SpatialVectorZero := by
    rw [performPartialLegacy_early_return _ _ _ _ _ _ (Or.inl rfl)]
    rfl
  refine ⟨by decide, h1, h2, ?_⟩
  rw [h1, h2]
  simp [SpatialVectorZero, Vector3.zero]

/-- C16, amended: for a point `pt` of the range and a kinematics-affecting change,
after partial propagation by the overload with an index (the index is a joint),
and after partial propagation by the legacy overload (the element is below the
number of parameter joints) on a full trajectory with velocity and
acceleration: the contact variables and the external forces of `pt` are those of
the canonical instance, and the model and the joint torques of `pt` are what
the restricted update returns for the model copied from the canonical instance,
the joint torques and the external forces of the canonical instance
and the affected body ids of the group joint of the changed element
(`getParameterJointIndex(index.element)`, respectively `parameter_element`).  On
a full trajectory without velocity or without acceleration the legacy
overload changes nothing. -/
theorem partial_propagation_kinematic_change (env : Collaborators F T K)
    (ref : Option (NewEvalManager F T K R)) (self : NewEvalManager F T K R)
    (b e pt : Nat) (index : ItompTrajectoryIndex) (parameter_element : Nat)
    (hb : b ≤ pt) (he : pt < e) :
    (index.sub_component = SubComponentType.JOINT →
      (self.performPartialForwardKinematicsAndDynamics env ref b e
          index).contact_variables_.elem pt
        = (refState ref self).contact_variables_.elem pt ∧
      (self.performPartialForwardKinematicsAndDynamics env ref b e
          index).external_forces_.elem pt
        = (refState ref self).external_forces_.elem pt ∧
      ((self.performPartialForwardKinematicsAndDynamics env ref b e index).rbdl_models_.elem pt,
        (self.performPartialForwardKinematicsAndDynamics env ref b e
          index).joint_torques_.elem pt)
        = env.updatePartialKinematicsAndDynamics
            (copyUpdatedVariables false ((refState ref self).rbdl_models_.elem pt)
              (self.rbdl_models_.elem pt))
            (env.getTrajectoryPoint self.itomp_trajectory_ .POSITION .JOINT pt)
            (env.getTrajectoryPoint self.itomp_trajectory_ .VELOCITY .JOINT pt)
            (env.getTrajectoryPoint self.itomp_trajectory_ .ACCELERATION .JOINT pt)
            ((refState ref self).joint_torques_.elem pt)
            (some ((refState ref self).external_forces_.elem pt))
            (self.planning_group_.group_joints_
              (env.getParameterJointIndex self.itomp_trajectory_
                index.element)).rbdl_affected_body_ids_) ∧
    (parameter_element < self.parameter_trajectory_.num_joints →
      env.hasVelocity self.full_trajectory_ = true →
      env.hasAcceleration self.full_trajectory_ = true →
      (self.performPartialForwardKinematicsAndDynamicsLegacy env ref b e
          parameter_element).contact_variables_.elem pt
        = (refState ref self).contact_variables_.elem pt ∧
      (self.performPartialForwardKinematicsAndDynamicsLegacy env ref b e
          parameter_element).external_forces_.elem pt
        = (refState ref self).external_forces_.elem pt ∧
      ((self.performPartialForwardKinematicsAndDynamicsLegacy env ref b e
          parameter_element).rbdl_models_.elem pt,
        (self.performPartialForwardKinematicsAndDynamicsLegacy env ref b e
          parameter_element).joint_torques_.elem pt)
        = env.updatePartialKinematicsAndDynamics
            ((refState ref self).rbdl_models_.elem pt)
            (env.getJointRow self.full_trajectory_ TRAJECTORY_TYPE_POSITION pt)
            (env.getJointRow self.full_trajectory_ TRAJECTORY_TYPE_VELOCITY pt)
            (env.getJointRow self.full_trajectory_ TRAJECTORY_TYPE_ACCELERATION pt)
            ((refState ref self).joint_torques_.elem pt)
            (some ((refState ref self).external_forces_.elem pt))
            (self.planning_group_.group_joints_ parameter_element).rbdl_affected_body_ids_) ∧
    ((env.hasVelocity self.full_trajectory_ = false ∨
        env.hasAcceleration self.full_trajectory_ = false) →
      self.performPartialForwardKinematicsAndDynamicsLegacy env ref b e parameter_element
        = self) := by
  refine ⟨?_, ?_, performPartialLegacy_early_return env ref self b e parameter_element⟩
  · intro hjoint
    rw [contacts_eq_pointState, forces_eq_pointState, models_eq_pointState,
      torques_eq_pointState, performPartial_pointState, if_pos ⟨hb, he⟩]
    simp [partialPropagationOfPoint, partialUpdateOfPoint, partialCopyOfPoint, hjoint,
      NewEvalManager.pointState]
  · intro hjoint hvel hacc
    rw [contacts_eq_pointState, forces_eq_pointState, models_eq_pointState,
      torques_eq_pointState, performPartialLegacy_pointState env ref self b e
        parameter_element pt hvel hacc, if_pos ⟨hb, he⟩]
    simp [partialPropagationOfPointLegacy, partialUpdateOfPointLegacy, Nat.not_le.mpr hjoint,
      NewEvalManager.pointState]

/-- Witness of C16: the overload with an index on the one-joint robot with one contact:
after partial propagation of a joint change, the external forces of point 0 are
those of the canonical instance, which was propagated. -/
theorem partial_propagation_kinematic_change_witness :
    ((contactManager [3] [1] 1 3).performPartialForwardKinematicsAndDynamics
        contactCollaborators
        (some ((contactManager [3] [1] 1 3).performFullForwardKinematicsAndDynamics
          contactCollaborators 0 1)) 0 1 ⟨0, .POSITION, .JOINT, 0⟩).external_forces_.elem 0
      = ((contactManager [3] [1] 1 3).performFullForwardKinematicsAndDynamics
          contactCollaborators 0 1).external_forces_.elem 0 :=
  ((partial_propagation_kinematic_change contactCollaborators
    (some ((contactManager [3] [1] 1 3).performFullForwardKinematicsAndDynamics
      contactCollaborators 0 1))
    (contactManager [3] [1] 1 3) 0 1 0 ⟨0, .POSITION, .JOINT, 0⟩ 0 (by decide)
    (by decide)).1 rfl).2.1

end PartialPropagation

section CanonicalPointer

variable {F T K R : Type}

/-- One operation changes the static pointer only when it is a default construction
met with a `NULL` pointer, which sets it to the constructed manager. -/
theorem Process.step_pointer (env : Collaborators F T K) (setup : SetupCollaborators F T K R)
    (cfs : List (TrajectoryCost (NewEvalManager F T K R))) (unbound : NewEvalManager F T K R)
    (w w1 : Process F T K R) (op : Operation F T K)
    (h : w.step env setup cfs unbound op = some w1) :
    w1.ref_evaluation_manager_ = Process.pointerAfter w.ref_evaluation_manager_ op := by
  cases op with
  | construct this =>
    simp only [Process.step] at h
    cases hobj : w.objects this with
    | some m => simp [hobj] at h
    | none =>
      simp only [hobj, Process.store] at h
      cases hp : w.ref_evaluation_manager_ with
      | none =>
        simp only [hp, if_true, Option.some.injEq] at h
        rw [← h]
        rfl
      | some a =>
        simp only [hp, Option.some.injEq] at h
        simp at h
        rw [← h]
        rfl
  | copyConstruct this manager =>
    simp only [Process.step] at h
    cases h1 : w.objects this <;> cases h2 : w.objects manager <;>
      simp [h1, h2, Process.store] at h
    rw [← h]
    rfl
  | assign this manager =>
    simp only [Process.step] at h
    cases h1 : w.objects this <;> cases h2 : w.objects manager <;>
      simp [h1, h2, Process.store] at h
    rw [← h]
    rfl
  | callInitialize this full_trajectory itomp_trajectory rbdl_robot_model planning_group =>
    simp only [Process.step, Option.bind_eq_some, Option.map_eq_some'] at h
    obtain ⟨_, _, _, _, h⟩ := h
    rw [← h]
    rfl
  | evaluate this =>
    simp only [Process.step, Option.map_eq_some'] at h
    obtain ⟨_, _, h⟩ := h
    rw [← h]
    rfl
  | computeDerivatives this parameter_index parameters eps =>
    simp only [Process.step, Option.bind_eq_some, Option.map_eq_some'] at h
    obtain ⟨_, _, _, _, h⟩ := h
    rw [← h]
    rfl
  | computeCostDerivatives this parameter_index parameters eps =>
    simp only [Process.step, Option.bind_eq_some, Option.map_eq_some'] at h
    obtain ⟨_, _, _, _, h⟩ := h
    rw [← h]
    rfl
  | computeDerivativesLegacy this parameters type point eps =>
    simp only [Process.step, Option.bind_eq_some, Option.map_eq_some'] at h
    obtain ⟨_, _, _, _, h⟩ := h
    rw [← h]
    rfl

/-- Once the static pointer designates a manager, no sequence of operations changes
it. -/
theorem Process.run_pointer (env : Collaborators F T K) (setup : SetupCollaborators F T K R)
    (cfs : List (TrajectoryCost (NewEvalManager F T K R))) (unbound : NewEvalManager F T K R)
    (ops : List (Operation F T K)) (w w1 : Process F T K R) (a : Nat)
    (hp : w.ref_evaluation_manager_ = some a)
    (h : Process.run env setup cfs unbound ops w = some w1) :
    w1.ref_evaluation_manager_ = some a := by
  induction ops generalizing w with
  | nil =>
    simp only [Process.run, Option.some.injEq] at h
    rw [← h, hp]
  | cons op ops ih =>
    simp only [Process.run, Option.bind_eq_some] at h
    obtain ⟨w2, h2, h3⟩ := h
    refine ih w2 ?_ h3
    rw [Process.step_pointer env setup cfs unbound w w2 op h2, hp]
    cases op <;> rfl

/-- C20: in a process that starts with the static pointer `NULL`, after the first default
construction, of the manager at address `this`, and any sequence of further
operations (default constructions, copy constructions, assignments, calls
of `initialize`, `evaluate` and of the three derivative computations) that
C++ defines, the static pointer designates `this`.  Step by step: an operation
met with a pointer that designates a manager leaves it as it is, and a default
construction met with `NULL` sets it to the constructed manager. -/
theorem canonical_pointer_set_once (env : Collaborators F T K)
    (setup : SetupCollaborators F T K R)
    (cfs : List (TrajectoryCost (NewEvalManager F T K R))) (unbound : NewEvalManager F T K R)
    (this : Nat) (ops : List (Operation F T K)) (w1 : Process F T K R)
    (hrun : Process.run env setup cfs unbound (.construct this :: ops) Process.start
      = some w1) :
    w1.ref_evaluation_manager_ = some this ∧
    (∀ (w w2 : Process F T K R) (op : Operation F T K) (a : Nat),
      w.ref_evaluation_manager_ = some a → w.step env setup cfs unbound op = some w2 →
      w2.ref_evaluation_manager_ = some a) ∧
    (∀ (w w2 : Process F T K R) (a : Nat),
      w.ref_evaluation_manager_ = none →
      w.step env setup cfs unbound (.construct a) = some w2 →
      w2.ref_evaluation_manager_ = some a) ∧
    (∀ (w w2 : Process F T K R) (op : Operation F T K),
      w.ref_evaluation_manager_ = none → (∀ a, op ≠ .construct a) →
      w.step env setup cfs unbound op = some w2 → w2.ref_evaluation_manager_ = none) := by
  refine ⟨?_, ?_, ?_, ?_⟩
  · simp only [Process.run, Option.bind_eq_some] at hrun
    obtain ⟨w2, h2, h3⟩ := hrun
    refine Process.run_pointer env setup cfs unbound ops w2 w1 this ?_ h3
    rw [Process.step_pointer env setup cfs unbound _ w2 _ h2]
    rfl
  · intro w w2 op a hp h
    rw [Process.step_pointer env setup cfs unbound w w2 op h, hp]
    cases op <;> rfl
  · intro w w2 a hp h
    rw [Process.step_pointer env setup cfs unbound w w2 _ h, hp]
    rfl
  · intro w w2 op hp hop h
    rw [Process.step_pointer env setup cfs unbound w w2 op h, hp]
    cases op with
    | construct a => exact absurd rfl (hop a)
    | _ => rfl

/-- Witness of C20: on the one-joint robot, the manager at address 0 is constructed,
initialised and evaluated, a copy is constructed at address 1, another manager
is constructed at address 2 and assigned from the first, and derivatives are
computed on the copy: the static pointer designates address 0. -/
theorem canonical_pointer_set_once_witness :
    ∃ w1, Process.run keyframeCollaborators keyframeSetup [squaredPositionCost 1]
        (keyframeManager [] 0)
        [.construct 0,
         .callInitialize 0 ⟨[3, 5], []⟩ ⟨[3, 5], []⟩
           { mBodies := 2, f := (), X_lambda := (), X_base := (), v := (), a := (), c := () }
           { num_contacts := 0
             contact_points_ := fun _ => { rbdl_body_id := 0, contact_point_rbdl_ids := fun _ => 0 }
             group_joints_ := fun _ => { rbdl_affected_body_ids_ := [1] } },
         .evaluate 0, .copyConstruct 1 0, .construct 2, .assign 2 0,
         .computeDerivatives 1 0 (fun _ => 3) 1,
         .computeCostDerivatives 1 1 (fun _ => 5) 1,
         .computeDerivativesLegacy 2 (fun _ => MatrixXd.Zero 2 1) 0 0 1]
        Process.start = some w1 ∧
      w1.ref_evaluation_manager_ = some 0 := by
  have hsome : (Process.run keyframeCollaborators keyframeSetup [squaredPositionCost 1]
        (keyframeManager [] 0)
        [.construct 0,
         .callInitialize 0 ⟨[3, 5], []⟩ ⟨[3, 5], []⟩
           { mBodies := 2, f := (), X_lambda := (), X_base := (), v := (), a := (), c := () }
           { num_contacts := 0
             contact_points_ := fun _ => { rbdl_body_id := 0, contact_point_rbdl_ids := fun _ => 0 }
             group_joints_ := fun _ => { rbdl_affected_body_ids_ := [1] } },
         .evaluate 0, .copyConstruct 1 0, .construct 2, .assign 2 0,
         .computeDerivatives 1 0 (fun _ => 3) 1,
         .computeCostDerivatives 1 1 (fun _ => 5) 1,
         .computeDerivativesLegacy 2 (fun _ => MatrixXd.Zero 2 1) 0 0 1]
        Process.start).isSome = true := by
    decide
  obtain ⟨w1, h⟩ := Option.isSome_iff_exists.mp hsome
  exact ⟨w1, h, (canonical_pointer_set_once keyframeCollaborators keyframeSetup
    [squaredPositionCost 1] (keyframeManager [] 0) 0 _ w1 h).1⟩

end CanonicalPointer

section Equivalence

variable {F T K R : Type}

theorem Model.withKinematics_kinematics {B : Type} (m : Model (Nat → B))
    (kin : Nat → BodyKinematics B) : (m.withKinematics kin).kinematics = kin := by
  funext i
  rfl

theorem Model.withKinematics_self {B : Type} (m : Model (Nat → B)) :
    m.withKinematics m.kinematics = m := by
  cases m
  rfl

theorem projectContacts_model (env : Collaborators F T K) (hproj : ProjectionIgnoresModel env)
    (group : ItompPlanningGroup) (m1 m2 : Model K) (order : List Nat)
    (cvs : StdVector ContactVariables) :
    projectContacts env group m1 order cvs = projectContacts env group m2 order cvs := by
  induction order using List.reverseRecOn with
  | nil => rfl
  | append_singleton order i ih =>
    rw [projectContacts_concat, projectContacts_concat, ih, hproj _ _ _ m1 m2]

theorem contactAndForceBlocks_model (env : Collaborators F T K)
    (hproj : ProjectionIgnoresModel env) (group : ItompPlanningGroup)
    (fromTrajectory : StdVector ContactVariables → StdVector ContactVariables)
    (ps : PointState K) (m : Model K) :
    contactAndForceBlocks env group fromTrajectory { ps with model := m }
      = { contactAndForceBlocks env group fromTrajectory ps with model := m } := by
  simp only [contactAndForceBlocks, contactAndForceBlocksIn]
  rw [projectContacts_model env hproj group m ps.model]

/-- Partial propagation of a dynamics-only change leaves at a point of the range the
state that full propagation leaves, when the kinematic quantities held there
are those of the trajectory. -/
theorem partial_eq_full_dynamics_only {B : Type} (env : Collaborators F T (Nat → B))
    (d : DynamicsModel B) (hd : HasDynamicsModel env d) (hproj : ProjectionIgnoresModel env)
    (t : T) (group : ItompPlanningGroup) (index : ItompTrajectoryIndex) (pt : Nat)
    (rs ps : PointState (Nat → B))
    (hdyn : index.sub_component ≠ SubComponentType.JOINT)
    (hvalid : ∀ i, ps.model.kinematics i
      = d.forwardKinematics i (env.getTrajectoryPoint t .POSITION .JOINT pt)
          (env.getTrajectoryPoint t .VELOCITY .JOINT pt)
          (env.getTrajectoryPoint t .ACCELERATION .JOINT pt)) :
    partialPropagationOfPoint env t group index pt rs ps
      = fullPropagationOfPoint env t group pt ps := by
  have hkin : ps.model.kinematics
      = fun i => d.forwardKinematics i (env.getTrajectoryPoint t .POSITION .JOINT pt)
          (env.getTrajectoryPoint t .VELOCITY .JOINT pt)
          (env.getTrajectoryPoint t .ACCELERATION .JOINT pt) := funext hvalid
  simp only [partialPropagationOfPoint, partialUpdateOfPoint, partialCopyOfPoint,
    fullPropagationOfPoint, hdyn, ne_eq, not_false_eq_true, decide_True, if_true,
    copyUpdatedVariables, Bool.not_true, Bool.false_eq_true, if_false]
  rw [contactAndForceBlocks_model env hproj, hd.1, hd.2.1]
  simp only [DynamicsModel.updatePartialDynamics, DynamicsModel.updateFullKinematicsAndDynamics]
  rw [← hkin]
  have h1 : (contactAndForceBlocks env group (env.getContactVariables t pt) ps).model
      = ps.model := rfl
  rw [h1, Model.withKinematics_self]
  rfl

/-- Partial propagation of a kinematics-affecting change leaves at a point of the range
the state that full propagation leaves, when the canonical instance holds
there the contact variables and the external forces of the two blocks and,
for the bodies outside the affected set, the kinematic quantities of the
trajectory. -/
theorem partial_eq_full_kinematic {B : Type} (env : Collaborators F T (Nat → B))
    (d : DynamicsModel B) (hd : HasDynamicsModel env d)
    (t : T) (group : ItompPlanningGroup) (index : ItompTrajectoryIndex) (pt : Nat)
    (rs ps : PointState (Nat → B))
    (hjoint : index.sub_component = SubComponentType.JOINT)
    (hcontacts : rs.contacts
      = (contactAndForceBlocks env group (env.getContactVariables t pt) ps).contacts)
    (hforces : rs.forces
      = (contactAndForceBlocks env group (env.getContactVariables t pt) ps).forces)
    (hrest : ∀ i, i ∉ (group.group_joints_
        (env.getParameterJointIndex t index.element)).rbdl_affected_body_ids_ →
      rs.model.kinematics i
        = d.forwardKinematics i (env.getTrajectoryPoint t .POSITION .JOINT pt)
            (env.getTrajectoryPoint t .VELOCITY .JOINT pt)
            (env.getTrajectoryPoint t .ACCELERATION .JOINT pt)) :
    partialPropagationOfPoint env t group index pt rs ps
      = fullPropagationOfPoint env t group pt ps := by
  have hkin : (fun i =>
      if i ∈ (group.group_joints_
          (env.getParameterJointIndex t index.element)).rbdl_affected_body_ids_ then
        d.forwardKinematics i (env.getTrajectoryPoint t .POSITION .JOINT pt)
          (env.getTrajectoryPoint t .VELOCITY .JOINT pt)
          (env.getTrajectoryPoint t .ACCELERATION .JOINT pt)
      else (copyUpdatedVariables false rs.model ps.model).kinematics i)
      = fun i => d.forwardKinematics i (env.getTrajectoryPoint t .POSITION .JOINT pt)
          (env.getTrajectoryPoint t .VELOCITY .JOINT pt)
          (env.getTrajectoryPoint t .ACCELERATION .JOINT pt) := by
    funext i
    split
    · rfl
    · rename_i h
      exact hrest i h
  simp only [partialPropagationOfPoint, partialUpdateOfPoint, partialCopyOfPoint,
    fullPropagationOfPoint, hjoint, ne_eq, not_true_eq_false, decide_False,
    Bool.false_eq_true, if_false]
  rw [hd.1, hd.2.2]
  simp only [DynamicsModel.updatePartialKinematicsAndDynamics,
    DynamicsModel.updateFullKinematicsAndDynamics]
  rw [hkin, hcontacts, hforces]
  rfl

theorem SameExceptCost.pointState_eq {m1 m2 : NewEvalManager F T K R}
    (h : SameExceptCost m1 m2) (pt : Nat) : m2.pointState pt = m1.pointState pt := by
  rw [h]
  rfl

theorem evaluate_pointState (env : Collaborators F T K)
    (cfs : List (TrajectoryCost (NewEvalManager F T K R))) (self : NewEvalManager F T K R)
    (pt : Nat) :
    (self.evaluate env cfs).mgr.pointState pt = (self.evaluatePropagated env).pointState pt := by
  show ((self.evaluatePropagated env).evaluatePointRangeLegacy cfs 0 _).mgr.pointState pt = _
  exact (evaluatePointRangeLegacy_same cfs _ _ _).pointState_eq pt

theorem evaluateParameterPointItomp_pointState (env : Collaborators F T K)
    (cfs : List (TrajectoryCost (NewEvalManager F T K R)))
    (ref : Option (NewEvalManager F T K R)) (self : NewEvalManager F T K R)
    (value : ℚ) (p : Nat) (first : Bool) (pt : Nat) :
    (self.evaluateParameterPointItomp env cfs ref value p first).mgr.pointState pt
      = ((self.perturbed env p value first).performPartialForwardKinematicsAndDynamics env ref
          (self.evaluateParameterPointItomp env cfs ref value p first).value.1
          (self.evaluateParameterPointItomp env cfs ref value p first).value.2
          (env.getTrajectoryIndex (self.perturbed env p value first).itomp_trajectory_
            p)).pointState pt := by
  unfold NewEvalManager.evaluateParameterPointItomp
  dsimp only
  exact (evaluatePointRange_same cfs _ _ _ _).pointState_eq pt

theorem computeDerivatives_pointState (env : Collaborators F T K)
    (cfs : List (TrajectoryCost (NewEvalManager F T K R)))
    (ref : Option (NewEvalManager F T K R)) (self : NewEvalManager F T K R)
    (p : Nat) (parameters : Nat → ℚ) (derivative_out : Nat → Option ℚ) (eps : ℚ) (pt : Nat) :
    (self.computeDerivatives env cfs ref p parameters derivative_out eps).mgr.pointState pt
      = ((self.evaluateParameterPointItomp env cfs ref (parameters p + eps) p
          true).mgr.evaluateParameterPointItomp env cfs ref (parameters p - eps) p
          false).mgr.pointState pt := rfl

theorem computeDerivatives_itomp (env : Collaborators F T K)
    (cfs : List (TrajectoryCost (NewEvalManager F T K R)))
    (ref : Option (NewEvalManager F T K R)) (self : NewEvalManager F T K R)
    (p : Nat) (parameters : Nat → ℚ) (derivative_out : Nat → Option ℚ) (eps : ℚ) :
    (self.computeDerivatives env cfs ref p parameters derivative_out eps).mgr.itomp_trajectory_
      = env.restoreTrajectory
          (env.directChangeForDerivativeComputation
            (env.directChangeForDerivativeComputation self.itomp_trajectory_ p
              (parameters p + eps) true).1 p (parameters p - eps) false).1 := by
  show env.restoreTrajectory _ = _
  rw [evaluateParameterPointItomp_itomp, evaluateParameterPointItomp_itomp]

theorem evaluate_itomp (env : Collaborators F T K)
    (cfs : List (TrajectoryCost (NewEvalManager F T K R))) (self : NewEvalManager F T K R) :
    (self.evaluate env cfs).mgr.itomp_trajectory_ = self.itomp_trajectory_ := by
  show ((self.evaluatePropagated env).evaluatePointRangeLegacy cfs 0 _).mgr.itomp_trajectory_ = _
  rw [(evaluatePointRangeLegacy_same cfs _ _ _).itomp_eq, evaluatePropagated_itomp]

theorem evaluate_group (env : Collaborators F T K)
    (cfs : List (TrajectoryCost (NewEvalManager F T K R))) (self : NewEvalManager F T K R) :
    (self.evaluate env cfs).mgr.planning_group_ = self.planning_group_ := by
  show ((self.evaluatePropagated env).evaluatePointRangeLegacy cfs 0 _).mgr.planning_group_ = _
  rw [(evaluatePointRangeLegacy_same cfs _ _ _).group_eq]
  unfold NewEvalManager.evaluatePropagated
  rw [(performFull_frame env _ _ _).group_eq_dyn]
  unfold NewEvalManager.pushParameterTrajectory
  split <;> rfl

theorem SameExceptEvaluation.group_eq_eval {m1 m2 : NewEvalManager F T K R}
    (h : SameExceptEvaluation m1 m2) : m2.planning_group_ = m1.planning_group_ := by
  rw [h]

theorem evaluateParameterPointItomp_group (env : Collaborators F T K)
    (cfs : List (TrajectoryCost (NewEvalManager F T K R)))
    (ref : Option (NewEvalManager F T K R)) (self : NewEvalManager F T K R)
    (value : ℚ) (p : Nat) (first : Bool) :
    (self.evaluateParameterPointItomp env cfs ref value p first).mgr.planning_group_
      = self.planning_group_ :=
  (evaluateParameterPointItomp_frame env cfs ref self value p first).group_eq_eval

theorem computeDerivatives_group (env : Collaborators F T K)
    (cfs : List (TrajectoryCost (NewEvalManager F T K R)))
    (ref : Option (NewEvalManager F T K R)) (self : NewEvalManager F T K R)
    (p : Nat) (parameters : Nat → ℚ) (derivative_out : Nat → Option ℚ) (eps : ℚ) :
    (self.computeDerivatives env cfs ref p parameters derivative_out eps).mgr.planning_group_
      = self.planning_group_ :=
  (computeDerivatives_frame env cfs ref self p parameters derivative_out eps).group_eq_eval

theorem perturbed_pointState (env : Collaborators F T K) (self : NewEvalManager F T K R)
    (p : Nat) (value : ℚ) (first : Bool) (pt : Nat) :
    (self.perturbed env p value first).pointState pt = self.pointState pt := rfl

theorem perturbed_itomp (env : Collaborators F T K) (self : NewEvalManager F T K R)
    (p : Nat) (value : ℚ) (first : Bool) :
    (self.perturbed env p value first).itomp_trajectory_
      = (env.directChangeForDerivativeComputation self.itomp_trajectory_ p value first).1 := rfl

theorem perturbed_group (env : Collaborators F T K) (self : NewEvalManager F T K R)
    (p : Nat) (value : ℚ) (first : Bool) :
    (self.perturbed env p value first).planning_group_ = self.planning_group_ := rfl

theorem contactManager_pointState (q force : List ℚ) (cols : Nat) (x : ℚ) (pt : Nat) :
    (contactManager q force cols x).pointState pt
      = { model := (contactManager q force cols x).rbdl_models_.elem pt
          torques := (contactManager q force cols x).joint_torques_.elem pt
          forces := (contactManager q force cols x).external_forces_.elem pt
          contacts := (contactManager q force cols x).contact_variables_.elem pt } := rfl

theorem contactManager_itomp (q force : List ℚ) (cols : Nat) (x : ℚ) :
    (contactManager q force cols x).itomp_trajectory_
      = { position := q, force := force, backup := [] } := rfl

theorem contactManager_group (q force : List ℚ) (cols : Nat) (x : ℚ) :
    (contactManager q force cols x).planning_group_
      = { num_contacts := 1
          contact_points_ := fun _ =>
            { rbdl_body_id := 1, contact_point_rbdl_ids := fun c => c + 2 }
          group_joints_ := fun _ => { rbdl_affected_body_ids_ := [1, 2, 3, 4, 5] } } := rfl

theorem contactManager_modified (q force : List ℚ) (cols : Nat) (x : ℚ) :
    (contactManager q force cols x).parameter_modified_ = false := rfl

theorem pushParameterTrajectory_unmodified (env : Collaborators F T K)
    (self : NewEvalManager F T K R) (h : self.parameter_modified_ = false) :
    (self.pushParameterTrajectory env).1 = self := by
  simp [NewEvalManager.pushParameterTrajectory, h]

theorem worker_stale :
    (workerOfScenario.rbdl_models_.elem 0).X_base 1 = 2 := by
  rw [models_eq_pointState]
  unfold workerOfScenario canonicalOfScenario
  simp only [computeDerivatives_pointState, computeDerivatives_itomp,
    computeDerivatives_group, evaluateParameterPointItomp_range,
    evaluateParameterPointItomp_itomp, evaluate_itomp, evaluateParameterPointItomp_group,
    evaluate_group, refState, Option.getD_some, evaluate_pointState,
    NewEvalManager.evaluatePropagated, performFull_pointState,
    evaluateParameterPointItomp_pointState, performPartial_pointState,
    perturbed_pointState, perturbed_itomp, perturbed_group, contactManager_pointState,
    contactManager_itomp, contactManager_group,
    pushParameterTrajectory_unmodified _ _ (contactManager_modified _ _ _ _)]
  simp [contactManager, contactCollaborators,
    fullPropagationOfPoint, contactAndForceBlocks, contactAndForceBlocksIn,
    assignExternalForces, contactOrder, projectContacts, List.range_succ,
    ContactStore.getContactVariables, StdVector.set,
    contactSpatialForce, Vector3.cross, ItompPlanningGroup.pointId, Vector3.zero,
    DynamicsModel.updateFullKinematicsAndDynamics, linkDynamics, Model.withKinematics,
    Model.kinematics, ContactStore.directChange, ContactStore.getTrajectoryIndex,
    ContactStore.restore, SpatialVectorZero,
    partialPropagationOfPoint, partialUpdateOfPoint, partialCopyOfPoint, copyUpdatedVariables,
    DynamicsModel.updatePartialKinematicsAndDynamics, DynamicsModel.updatePartialDynamics]
  norm_num

theorem canonical_fresh :
    (canonicalOfScenario.rbdl_models_.elem 0).X_base 1 = 3 := by
  rw [models_eq_pointState]
  unfold canonicalOfScenario
  simp [evaluate_pointState, NewEvalManager.evaluatePropagated,
    performFull_pointState, contactManager_pointState,
    pushParameterTrajectory_unmodified, contactManager, contactCollaborators,
    fullPropagationOfPoint, contactAndForceBlocks, contactAndForceBlocksIn,
    DynamicsModel.updateFullKinematicsAndDynamics, linkDynamics, Model.withKinematics,
    Model.kinematics]

theorem worker_trajectory :
    workerOfScenario.itomp_trajectory_ = canonicalOfScenario.itomp_trajectory_ := by
  unfold workerOfScenario
  rw [computeDerivatives_itomp]
  unfold canonicalOfScenario
  rw [evaluate_itomp]
  simp [contactManager, contactCollaborators, ContactStore.directChange, ContactStore.restore]

theorem worker_partial_torque :
    ((workerOfScenario.perturbed contactCollaborators 1 2
        true).performPartialForwardKinematicsAndDynamics contactCollaborators
        (some canonicalOfScenario) 0 1 ⟨0, .POSITION, .CONTACT_FORCE, 0⟩).joint_torques_.elem 0
      = [2] := by
  rw [torques_eq_pointState]
  unfold workerOfScenario canonicalOfScenario
  simp only [computeDerivatives_pointState, computeDerivatives_itomp,
    computeDerivatives_group, evaluateParameterPointItomp_range,
    evaluateParameterPointItomp_itomp, evaluate_itomp, evaluateParameterPointItomp_group,
    evaluate_group, refState, Option.getD_some, evaluate_pointState,
    NewEvalManager.evaluatePropagated, performFull_pointState,
    evaluateParameterPointItomp_pointState, performPartial_pointState,
    perturbed_pointState, perturbed_itomp, perturbed_group, contactManager_pointState,
    contactManager_itomp, contactManager_group,
    pushParameterTrajectory_unmodified _ _ (contactManager_modified _ _ _ _)]
  simp [contactManager, contactCollaborators,
    fullPropagationOfPoint, contactAndForceBlocks, contactAndForceBlocksIn,
    assignExternalForces, contactOrder, projectContacts, List.range_succ,
    ContactStore.getContactVariables, StdVector.set,
    contactSpatialForce, Vector3.cross, ItompPlanningGroup.pointId, Vector3.zero,
    DynamicsModel.updateFullKinematicsAndDynamics, linkDynamics, Model.withKinematics,
    Model.kinematics, ContactStore.directChange, ContactStore.getTrajectoryIndex,
    ContactStore.restore, SpatialVectorZero,
    partialPropagationOfPoint, partialUpdateOfPoint, partialCopyOfPoint, copyUpdatedVariables,
    DynamicsModel.updatePartialKinematicsAndDynamics, DynamicsModel.updatePartialDynamics]
  norm_num

theorem worker_full_torque :
    ((workerOfScenario.perturbed contactCollaborators 1 2
        true).performFullForwardKinematicsAndDynamics contactCollaborators 0
        1).joint_torques_.elem 0 = [7] := by
  rw [torques_eq_pointState]
  unfold workerOfScenario canonicalOfScenario
  simp only [computeDerivatives_pointState, computeDerivatives_itomp,
    computeDerivatives_group, evaluateParameterPointItomp_range,
    evaluateParameterPointItomp_itomp, evaluate_itomp, evaluateParameterPointItomp_group,
    evaluate_group, refState, Option.getD_some, evaluate_pointState,
    NewEvalManager.evaluatePropagated, performFull_pointState,
    evaluateParameterPointItomp_pointState, performPartial_pointState,
    perturbed_pointState, perturbed_itomp, perturbed_group, contactManager_pointState,
    contactManager_itomp, contactManager_group,
    pushParameterTrajectory_unmodified _ _ (contactManager_modified _ _ _ _)]
  simp [contactManager, contactCollaborators,
    fullPropagationOfPoint, contactAndForceBlocks, contactAndForceBlocksIn,
    assignExternalForces, contactOrder, projectContacts, List.range_succ,
    ContactStore.getContactVariables, StdVector.set,
    contactSpatialForce, Vector3.cross, ItompPlanningGroup.pointId, Vector3.zero,
    DynamicsModel.updateFullKinematicsAndDynamics, linkDynamics, Model.withKinematics,
    Model.kinematics, ContactStore.directChange, ContactStore.getTrajectoryIndex,
    ContactStore.restore, SpatialVectorZero,
    partialPropagationOfPoint, partialUpdateOfPoint, partialCopyOfPoint, copyUpdatedVariables,
    DynamicsModel.updatePartialKinematicsAndDynamics, DynamicsModel.updatePartialDynamics]
  norm_num

theorem SameExceptCost.cost_pointView {m1 m2 : NewEvalManager F T K R}
    (h : SameExceptCost m1 m2) (i : Nat) : SamePointView i m1 m2 := by
  rw [h]
  exact ⟨rfl, rfl, rfl, rfl, rfl, rfl, rfl, rfl, rfl⟩

theorem SameExceptDynamics.dyn_pointView {self m1 m2 : NewEvalManager F T K R}
    (h1 : SameExceptDynamics self m1) (h2 : SameExceptDynamics self m2) (i : Nat)
    (hps : m1.pointState i = m2.pointState i) : SamePointView i m1 m2 := by
  refine ⟨?_, ?_, ?_, ?_, ?_, ?_, ?_, ?_, hps⟩ <;> rw [h1, h2]

theorem SamePointView.symm_view {i : Nat} {m1 m2 : NewEvalManager F T K R}
    (h : SamePointView i m1 m2) : SamePointView i m2 m1 :=
  ⟨h.1.symm, h.2.1.symm, h.2.2.1.symm, h.2.2.2.1.symm, h.2.2.2.2.1.symm, h.2.2.2.2.2.1.symm,
    h.2.2.2.2.2.2.1.symm, h.2.2.2.2.2.2.2.1.symm, h.2.2.2.2.2.2.2.2.symm⟩

theorem SamePointView.trans_view {i : Nat} {m1 m2 m3 : NewEvalManager F T K R}
    (h : SamePointView i m1 m2) (k : SamePointView i m2 m3) : SamePointView i m1 m3 :=
  ⟨h.1.trans k.1, h.2.1.trans k.2.1, h.2.2.1.trans k.2.2.1, h.2.2.2.1.trans k.2.2.2.1,
    h.2.2.2.2.1.trans k.2.2.2.2.1, h.2.2.2.2.2.1.trans k.2.2.2.2.2.1,
    h.2.2.2.2.2.2.1.trans k.2.2.2.2.2.2.1, h.2.2.2.2.2.2.2.1.trans k.2.2.2.2.2.2.2.1,
    h.2.2.2.2.2.2.2.2.trans k.2.2.2.2.2.2.2.2⟩

theorem evaluatePointRangeLegacy_entry (cfs : List (TrajectoryCost (NewEvalManager F T K R)))
    (self : NewEvalManager F T K R) (b e : Nat)
    (j : Nat) (hj : j < cfs.length) (i : Nat) (hb : b ≤ i) (he : i < e) :
    ∃ m, SameExceptCost self m ∧
      (self.evaluatePointRangeLegacy cfs b e).mgr.evaluation_cost_matrix_.coeff i j
        = cfs[j].weight * (cfs[j].evaluate m i).2 := by
  have inv := evaluatePointRangeLegacyLoops_inv cfs self b e
  have hsame := SameExceptCost.of_resetCostMatrix self cfs.length
  have hget : cfs[j]? = some cfs[j] := List.getElem?_eq_getElem hj
  obtain ⟨cost, feas, h1, _, h3⟩ := inv.evaluated j cfs[j] i hget hj hb he
  obtain ⟨cf, m, g1, g2, g3⟩ := inv.genuineEvaluate j i cost feas h1
  rw [hget] at g1
  cases g1
  refine ⟨m, hsame.trans_same g2, ?_⟩
  rw [g3]
  exact h3

/-- Under the sync condition, partial propagation and full propagation leave the same
state at a point of the range. -/
theorem partial_eq_full_pointState {B : Type} (env : Collaborators F T (Nat → B))
    (d : DynamicsModel B) (ref : Option (NewEvalManager F T (Nat → B) R))
    (self : NewEvalManager F T (Nat → B) R) (b e pt : Nat) (index : ItompTrajectoryIndex)
    (hd : HasDynamicsModel env d) (hproj : ProjectionIgnoresModel env)
    (hsync : InSync env d ref self index pt) (hb : b ≤ pt) (he : pt < e) :
    (self.performPartialForwardKinematicsAndDynamics env ref b e index).pointState pt
      = (self.performFullForwardKinematicsAndDynamics env 0 e).pointState pt := by
  rw [performPartial_pointState, performFull_pointState, if_pos ⟨hb, he⟩,
    if_pos ⟨Nat.zero_le _, he⟩]
  unfold InSync at hsync
  by_cases hdyn : index.sub_component ≠ SubComponentType.JOINT
  · simp only [hdyn, ne_eq, not_false_eq_true, if_true] at hsync
    exact partial_eq_full_dynamics_only env d hd hproj _ _ index pt _ _ hdyn hsync
  · simp only [hdyn, if_false] at hsync
    exact partial_eq_full_kinematic env d hd _ _ index pt _ _ (not_not.mp hdyn) hsync.1
      hsync.2.1 hsync.2.2

/-- Two differences between partial and full propagation.  (1) A cost function that
reports the cost 2 and declares
itself invariant: after partial propagation, `evaluatePointRange` with the index
leaves 0 in its entry of the row of point 0, after full propagation the
evaluation of `evaluate()` leaves 2.  (2) On the one-joint robot with one
contact, the worker on which the derivative for the joint position was
computed has the trajectory of the canonical instance again, but holds the
transform 2 for body 1 where the canonical instance holds 3; for the change of
the contact force to 2, partial propagation leaves the joint torque 2 at point
0 and full propagation on the same trajectory the joint torque 7. -/
theorem partial_propagation_differs_from_full :
    ((((keyframeManager [0] 1).performPartialForwardKinematicsAndDynamics keyframeCollaborators
          none 0 1 ⟨0, .POSITION, .JOINT, 0⟩).evaluatePointRange [invariantCost 2 1] 0 1
          ⟨0, .POSITION, .JOINT, 0⟩).mgr.evaluation_cost_matrix_.coeff 0 0 = 0 ∧
      (((keyframeManager [0] 1).performFullForwardKinematicsAndDynamics keyframeCollaborators 0
          1).evaluatePointRangeLegacy [invariantCost 2 1] 0
          1).mgr.evaluation_cost_matrix_.coeff 0 0 = 2) ∧
    (workerOfScenario.itomp_trajectory_ = canonicalOfScenario.itomp_trajectory_ ∧
      (workerOfScenario.rbdl_models_.elem 0).X_base 1 = 2 ∧
      (canonicalOfScenario.rbdl_models_.elem 0).X_base 1 = 3 ∧
      contactCollaborators.directChangeForDerivativeComputation
          workerOfScenario.itomp_trajectory_ 1 2 true
        = (⟨[3], [2], [([3], [1])]⟩, 0, 1) ∧
      contactCollaborators.getTrajectoryIndex
          (workerOfScenario.perturbed contactCollaborators 1 2 true).itomp_trajectory_ 1
        = ⟨0, .POSITION, .CONTACT_FORCE, 0⟩ ∧
      ((workerOfScenario.perturbed contactCollaborators 1 2
          true).performPartialForwardKinematicsAndDynamics contactCollaborators
          (some canonicalOfScenario) 0 1
          ⟨0, .POSITION, .CONTACT_FORCE, 0⟩).joint_torques_.elem 0 = [2] ∧
      ((workerOfScenario.perturbed contactCollaborators 1 2
          true).performFullForwardKinematicsAndDynamics contactCollaborators 0
          1).joint_torques_.elem 0 = [7]) := by
  refine ⟨⟨?_, ?_⟩, worker_trajectory, worker_stale, canonical_fresh, ?_, ?_,
    worker_partial_torque, worker_full_torque⟩
  · simp [NewEvalManager.evaluatePointRange, NewEvalManager.evaluatePointRangeLoops,
      forEachFrom, evaluateCostFunction, invariantCost, forLoop, zeroPoint,
      NewEvalManager.setCost, MatrixXd.set]
  · simp [NewEvalManager.evaluatePointRangeLegacy, NewEvalManager.evaluatePointRangeLegacyLoops,
      forEachFrom, evaluateCostFunctionLegacy, invariantCost, forLoop, evaluatePoint,
      NewEvalManager.setCost, MatrixXd.set]
  · rw [worker_trajectory]
    unfold canonicalOfScenario
    rw [evaluate_itomp]
    simp [contactManager, contactCollaborators, ContactStore.directChange]
  · rw [perturbed_itomp, worker_trajectory]
    unfold canonicalOfScenario
    rw [evaluate_itomp]
    simp [contactManager, contactCollaborators, ContactStore.directChange,
      ContactStore.getTrajectoryIndex]

/-- Partial and full propagation of an instance in sync: let the dynamics routines be
those of the dynamics model of the
specification and let the projection of the contacts not read the model.  For a
single scalar parameter change, `self` being the instance whose trajectory
holds the changed parameter, and a point `pt` of the affected range at which
the instance and the canonical instance are in sync for the change
(`InSync`): partial propagation leaves at `pt` the same joint torques, the same
model, the same external forces and the same contact variables as full
propagation over `[0, point_end)`; and for every cost function whose cost at a
point reads only the state of that point, `evaluatePointRange` with the index
after partial propagation leaves in row `pt` the entry that the evaluation of
`evaluate()` leaves after full propagation, unless the cost function declares
itself invariant for the index, in which case it leaves 0. -/
theorem partial_propagation_matches_full {B : Type} (env : Collaborators F T (Nat → B))
    (d : DynamicsModel B) (cfs : List (TrajectoryCost (NewEvalManager F T (Nat → B) R)))
    (ref : Option (NewEvalManager F T (Nat → B) R))
    (self : NewEvalManager F T (Nat → B) R) (b e pt : Nat) (index : ItompTrajectoryIndex)
    (hd : HasDynamicsModel env d) (hproj : ProjectionIgnoresModel env)
    (hsync : InSync env d ref self index pt) (hb : b ≤ pt) (he : pt < e) :
    (self.performPartialForwardKinematicsAndDynamics env ref b e index).joint_torques_.elem pt
      = (self.performFullForwardKinematicsAndDynamics env 0 e).joint_torques_.elem pt ∧
    (self.performPartialForwardKinematicsAndDynamics env ref b e index).rbdl_models_.elem pt
      = (self.performFullForwardKinematicsAndDynamics env 0 e).rbdl_models_.elem pt ∧
    (self.performPartialForwardKinematicsAndDynamics env ref b e index).external_forces_.elem pt
      = (self.performFullForwardKinematicsAndDynamics env 0 e).external_forces_.elem pt ∧
    (self.performPartialForwardKinematicsAndDynamics env ref b e
        index).contact_variables_.elem pt
      = (self.performFullForwardKinematicsAndDynamics env 0 e).contact_variables_.elem pt ∧
    ∀ (j : Nat) (hj : j < cfs.length), ReadsPointOnly cfs[j] →
      ∃ m, SameExceptCost (self.performPartialForwardKinematicsAndDynamics env ref b e index) m ∧
        ((self.performPartialForwardKinematicsAndDynamics env ref b e index).evaluatePointRange
            cfs b e index).mgr.evaluation_cost_matrix_.coeff pt j
          = if cfs[j].isInvariant m index then 0
            else ((self.performFullForwardKinematicsAndDynamics env 0 e).evaluatePointRangeLegacy
              cfs 0 e).mgr.evaluation_cost_matrix_.coeff pt j := by
  have hps := partial_eq_full_pointState env d ref self b e pt index hd hproj hsync hb he
  refine ⟨congrArg PointState.torques hps, congrArg PointState.model hps,
    congrArg PointState.forces hps, congrArg PointState.contacts hps, ?_⟩
  intro j hj hread
  obtain ⟨m1, m2, h1, h2, hentry⟩ := evaluatePointRange_entry cfs
    (self.performPartialForwardKinematicsAndDynamics env ref b e index) b e index j hj pt hb he
  obtain ⟨m3, h3, hfull⟩ := evaluatePointRangeLegacy_entry cfs
    (self.performFullForwardKinematicsAndDynamics env 0 e) 0 e j hj pt (Nat.zero_le _) he
  refine ⟨m1, h1, ?_⟩
  rw [hentry, hfull]
  have hview : SamePointView pt m2 m3 :=
    ((h2.cost_pointView pt).symm_view.trans_view
      ((performPartial_frame env ref self b e index).dyn_pointView
        (performFull_frame env self 0 e) pt hps)).trans_view (h3.cost_pointView pt)
  rw [hread m2 m3 pt hview]

theorem contactCollaborators_hasDynamicsModel :
    HasDynamicsModel contactCollaborators linkDynamics := ⟨rfl, rfl, rfl⟩

theorem contactCollaborators_projection : ProjectionIgnoresModel contactCollaborators := by
  intro cv position orientation m1 m2 contact_point
  rfl

theorem contactManager_inSync :
    InSync contactCollaborators linkDynamics (some (contactManager [3] [1] 1 3))
      (contactManager [3] [2] 1 3) ⟨0, .POSITION, .CONTACT_FORCE, 0⟩ 0 := by
  unfold InSync
  simp only [ne_eq, reduceCtorEq, not_false_eq_true, if_true]
  intro i
  by_cases h : i = 0 <;>
    simp [contactManager, Model.kinematics, linkDynamics, contactCollaborators, h]

/-- Instance of `partial_propagation_matches_full`: the one-joint robot with one contact,
joint position 3, whose kinematic
quantities are those of the trajectory; for the change of the contact force to
2, partial propagation and full propagation leave the same joint torques at
point 0. -/
theorem partial_propagation_matches_full_witness :
    HasDynamicsModel contactCollaborators linkDynamics ∧
    ProjectionIgnoresModel contactCollaborators ∧
    InSync contactCollaborators linkDynamics (some (contactManager [3] [1] 1 3))
      (contactManager [3] [2] 1 3) ⟨0, .POSITION, .CONTACT_FORCE, 0⟩ 0 ∧
    ((contactManager [3] [2] 1 3).performPartialForwardKinematicsAndDynamics
        contactCollaborators (some (contactManager [3] [1] 1 3)) 0 1
        ⟨0, .POSITION, .CONTACT_FORCE, 0⟩).joint_torques_.elem 0
      = ((contactManager [3] [2] 1 3).performFullForwardKinematicsAndDynamics
          contactCollaborators 0 1).joint_torques_.elem 0 :=
  ⟨contactCollaborators_hasDynamicsModel, contactCollaborators_projection,
    contactManager_inSync,
    (partial_propagation_matches_full contactCollaborators linkDynamics [constantCost 2 1]
      (some (contactManager [3] [1] 1 3)) (contactManager [3] [2] 1 3) 0 1 0
      ⟨0, .POSITION, .CONTACT_FORCE, 0⟩ contactCollaborators_hasDynamicsModel
      contactCollaborators_projection contactManager_inSync (by decide) (by decide)).1⟩

end Equivalence

section RangeFrame

variable {F T K R : Type}

/-! ## Frame of `evaluatePointRange` on the cost matrix -/

/-- Two matrices with the same shape and the same coefficients are equal. -/
theorem MatrixXd.eq_of_fields (m1 m2 : MatrixXd) (hrows : m1.rows = m2.rows)
    (hcols : m1.cols = m2.cols) (hcoeff : ∀ i j, m1.coeff i j = m2.coeff i j) : m1 = m2 := by
  cases m1
  cases m2
  simp only [MatrixXd.mk.injEq]
  exact ⟨hrows, hcols, funext fun i => funext fun j => hcoeff i j⟩

/-- C27: when the cost matrix has one column per registered cost function, both
overloads of `evaluatePointRange(point_begin, point_end, ...)` leave the row and
column counts as they are and every entry of a row outside
`[point_begin, point_end)` as it is; for an empty range
(`point_end <= point_begin`) the matrix afterwards is the matrix before. -/
theorem evaluatePointRange_changes_only_range
    (cfs : List (TrajectoryCost (NewEvalManager F T K R))) (self : NewEvalManager F T K R)
    (point_begin point_end : Nat) (index : ItompTrajectoryIndex)
    (hcols : self.evaluation_cost_matrix_.cols = cfs.length) :
    ((self.evaluatePointRange cfs point_begin point_end index).mgr.evaluation_cost_matrix_.rows
        = self.evaluation_cost_matrix_.rows ∧
      (self.evaluatePointRange cfs point_begin point_end index).mgr.evaluation_cost_matrix_.cols
        = self.evaluation_cost_matrix_.cols ∧
      (∀ i j, ¬ (point_begin ≤ i ∧ i < point_end) →
        (self.evaluatePointRange cfs point_begin point_end
          index).mgr.evaluation_cost_matrix_.coeff i j
          = self.evaluation_cost_matrix_.coeff i j) ∧
      (point_end ≤ point_begin →
        (self.evaluatePointRange cfs point_begin point_end index).mgr.evaluation_cost_matrix_
          = self.evaluation_cost_matrix_)) ∧
    ((self.evaluatePointRangeLegacy cfs point_begin point_end).mgr.evaluation_cost_matrix_.rows
        = self.evaluation_cost_matrix_.rows ∧
      (self.evaluatePointRangeLegacy cfs point_begin point_end).mgr.evaluation_cost_matrix_.cols
        = self.evaluation_cost_matrix_.cols ∧
      (∀ i j, ¬ (point_begin ≤ i ∧ i < point_end) →
        (self.evaluatePointRangeLegacy cfs point_begin
          point_end).mgr.evaluation_cost_matrix_.coeff i j
          = self.evaluation_cost_matrix_.coeff i j) ∧
      (point_end ≤ point_begin →
        (self.evaluatePointRangeLegacy cfs point_begin point_end).mgr.evaluation_cost_matrix_
          = self.evaluation_cost_matrix_)) := by
  have inv := evaluatePointRangeLoops_inv cfs self point_begin point_end index
  have invL := evaluatePointRangeLegacyLoops_inv cfs self point_begin point_end
  rw [resetCostMatrix_of_cols self cfs.length hcols] at inv invL
  have hframe : ∀ i j, ¬ (point_begin ≤ i ∧ i < point_end) →
      (self.evaluatePointRange cfs point_begin point_end
        index).mgr.evaluation_cost_matrix_.coeff i j
        = self.evaluation_cost_matrix_.coeff i j :=
    fun i j h => inv.frame i j (fun hc => h hc.2)
  have hframeL : ∀ i j, ¬ (point_begin ≤ i ∧ i < point_end) →
      (self.evaluatePointRangeLegacy cfs point_begin
        point_end).mgr.evaluation_cost_matrix_.coeff i j
        = self.evaluation_cost_matrix_.coeff i j :=
    fun i j h => invL.frame i j (fun hc => h hc.2)
  refine ⟨⟨inv.rows, inv.cols, hframe, ?_⟩, ⟨invL.rows, invL.cols, hframeL, ?_⟩⟩
  · intro he
    exact MatrixXd.eq_of_fields _ _ inv.rows inv.cols
      (fun i j => hframe i j (fun h => by omega))
  · intro he
    exact MatrixXd.eq_of_fields _ _ invL.rows invL.cols
      (fun i j => hframeL i j (fun h => by omega))

/-- Witness of C27: a matrix with two rows and one column for the one registered cost
function, evaluated over row 1: row 0 keeps its entry. -/
theorem evaluatePointRange_changes_only_range_witness :
    (keyframeManager [0, 0] 1).evaluation_cost_matrix_.cols = 1 ∧
    ((keyframeManager [0, 0] 1).evaluatePointRange [constantCost 2 1] 1 2
        ⟨1, .POSITION, .JOINT, 0⟩).mgr.evaluation_cost_matrix_.coeff 0 0
      = (keyframeManager [0, 0] 1).evaluation_cost_matrix_.coeff 0 0 :=
  ⟨rfl,
    (evaluatePointRange_changes_only_range [constantCost 2 1] (keyframeManager [0, 0] 1) 1 2
      ⟨1, .POSITION, .JOINT, 0⟩ rfl).1.2.2.1 0 0 (by decide)⟩

/-! ## The two index-based derivative operations -/

/-- C24: started from the same manager state, with the same parameter index, parameter
vector and `eps`, `computeCostDerivatives` writes to `derivative_out[parameter_index]`
the value that `computeDerivatives` writes there; both leave every other entry
of `derivative_out` as it was, make the same calls and leave the same manager
state. -/
theorem computeCostDerivatives_total_matches_computeDerivatives (env : Collaborators F T K)
    (cfs : List (TrajectoryCost (NewEvalManager F T K R)))
    (ref : Option (NewEvalManager F T K R)) (self : NewEvalManager F T K R)
    (p : Nat) (parameters : Nat → ℚ) (derivative_out derivative_out2 : Nat → Option ℚ)
    (cost_derivative_out : Nat → Nat → Option ℚ) (eps : ℚ) :
    (self.computeCostDerivatives env cfs ref p parameters derivative_out cost_derivative_out
        eps).value.1 p
      = (self.computeDerivatives env cfs ref p parameters derivative_out2 eps).value p ∧
    (self.computeCostDerivatives env cfs ref p parameters derivative_out cost_derivative_out
        eps).value.1
      = (self.computeDerivatives env cfs ref p parameters derivative_out eps).value ∧
    (∀ q, q ≠ p →
      (self.computeCostDerivatives env cfs ref p parameters derivative_out cost_derivative_out
        eps).value.1 q = derivative_out q) ∧
    (self.computeCostDerivatives env cfs ref p parameters derivative_out cost_derivative_out
        eps).calls
      = (self.computeDerivatives env cfs ref p parameters derivative_out2 eps).calls ∧
    (self.computeCostDerivatives env cfs ref p parameters derivative_out cost_derivative_out
        eps).mgr
      = (self.computeDerivatives env cfs ref p parameters derivative_out2 eps).mgr := by
  refine ⟨?_, rfl, ?_, rfl, rfl⟩
  · show Function.update derivative_out p _ p = Function.update derivative_out2 p _ p
    rw [Function.update_same, Function.update_same]
  · intro q hq
    show Function.update derivative_out p _ q = _
    rw [Function.update_noteq hq]

end RangeFrame

section HooksAndSums

variable {F T K R : Type}

/-! ## The hooks of `evaluate()` -/

theorem SameExceptCost.modified_eq {m1 m2 : NewEvalManager F T K R} (h : SameExceptCost m1 m2) :
    m2.parameter_modified_ = m1.parameter_modified_ := by
  rw [h]

theorem SameExceptDynamics.modified_eq_dyn {m1 m2 : NewEvalManager F T K R}
    (h : SameExceptDynamics m1 m2) : m2.parameter_modified_ = m1.parameter_modified_ := by
  rw [h]

/-- The calls of `evaluate()`, in order: the push of the parameters if the flag was set,
the pre-hooks, the calls of the evaluation of the full range, the post-hooks. -/
theorem evaluate_calls_eq (env : Collaborators F T K)
    (cfs : List (TrajectoryCost (NewEvalManager F T K R))) (self : NewEvalManager F T K R) :
    (self.evaluate env cfs).calls
      = (if self.parameter_modified_ then [Call.updateFromParameterTrajectory] else [])
        ++ (List.range cfs.length).map Call.preEvaluate
        ++ ((self.evaluatePropagated env).evaluatePointRangeLegacyLoops cfs 0
            (env.getNumPoints (self.evaluate env cfs).mgr.full_trajectory_)).calls
        ++ (List.range cfs.length).map Call.postEvaluate := by
  rw [evaluate_full_trajectory]
  have hpush : (self.pushParameterTrajectory env).2
      = if self.parameter_modified_ then [Call.updateFromParameterTrajectory] else [] := by
    unfold NewEvalManager.pushParameterTrajectory
    split <;> rfl
  rw [← hpush]
  rfl

/-- The parameter trajectory store and the flag after the head of `evaluate()`. -/
theorem pushParameterTrajectory_spec (env : Collaborators F T K)
    (self : NewEvalManager F T K R) :
    (self.pushParameterTrajectory env).1.parameter_modified_ = false ∧
    (self.pushParameterTrajectory env).1.full_trajectory_
      = if self.parameter_modified_ then
          env.updateFromParameterTrajectory self.full_trajectory_ self.parameter_trajectory_
            self.planning_group_
        else self.full_trajectory_ := by
  unfold NewEvalManager.pushParameterTrajectory
  by_cases h : self.parameter_modified_ = true
  · simp [h]
  · simp only [h]
    simpa using h

theorem count_map_range (f : Nat → Call) (hf : Function.Injective f) (n c : Nat) :
    ((List.range n).map f).count (f c) = if c < n then 1 else 0 := by
  rw [List.count_map_of_injective _ f hf, List.count_eq_of_nodup (List.nodup_range n)]
  simp

/-- C25: the calls of one `evaluate()` are, in this order: the push of the parameter
trajectory into the full trajectory if and only if the flag `parameter_modified_`
was set, `preEvaluate` on the cost functions `0, ..., C - 1`, the `evaluate`
calls of the full range (at least one for every cost function and point, and
nothing else), `postEvaluate` on the cost functions `0, ..., C - 1`.  Each hook is
called exactly once on each registered cost function, the full trajectory is
the pushed one exactly when the flag was set, and the flag is `false` on
return. -/
theorem evaluate_hooks_once (env : Collaborators F T K)
    (cfs : List (TrajectoryCost (NewEvalManager F T K R))) (self : NewEvalManager F T K R) :
    (∃ evals : List Call,
      (self.evaluate env cfs).calls
        = (if self.parameter_modified_ then [Call.updateFromParameterTrajectory] else [])
          ++ (List.range cfs.length).map Call.preEvaluate
          ++ evals
          ++ (List.range cfs.length).map Call.postEvaluate ∧
      (∀ ev, ev ∈ evals → ∃ c i cost feasible, c < cfs.length ∧
        i < env.getNumPoints (self.evaluate env cfs).mgr.full_trajectory_ ∧
        ev = Call.evaluate c i cost feasible) ∧
      (∀ c i, c < cfs.length →
        i < env.getNumPoints (self.evaluate env cfs).mgr.full_trajectory_ →
        ∃ cost feasible, Call.evaluate c i cost feasible ∈ evals)) ∧
    (∀ c, (self.evaluate env cfs).calls.count (Call.preEvaluate c)
      = if c < cfs.length then 1 else 0) ∧
    (∀ c, (self.evaluate env cfs).calls.count (Call.postEvaluate c)
      = if c < cfs.length then 1 else 0) ∧
    (self.evaluate env cfs).calls.count Call.updateFromParameterTrajectory
      = (if self.parameter_modified_ then 1 else 0) ∧
    (self.evaluate env cfs).mgr.full_trajectory_
      = (if self.parameter_modified_ then
          env.updateFromParameterTrajectory self.full_trajectory_ self.parameter_trajectory_
            self.planning_group_
        else self.full_trajectory_) ∧
    (self.evaluate env cfs).mgr.parameter_modified_ = false := by
  have inv := evaluate_inv env cfs self
  have hcalls := evaluate_calls_eq env cfs self
  have hshape : ∀ ev, ev ∈ ((self.evaluatePropagated env).evaluatePointRangeLegacyLoops cfs 0
      (env.getNumPoints (self.evaluate env cfs).mgr.full_trajectory_)).calls →
      ∃ c i cost feasible, c < cfs.length ∧
        i < env.getNumPoints (self.evaluate env cfs).mgr.full_trajectory_ ∧
        ev = Call.evaluate c i cost feasible := by
    intro ev hev
    obtain ⟨j, i, cost, feas, hj, _, hi, he⟩ := inv.shape ev hev
    exact ⟨j, i, cost, feas, hj, hi, he⟩
  have hpre_inj : Function.Injective Call.preEvaluate := fun a b h => by cases h; rfl
  have hpost_inj : Function.Injective Call.postEvaluate := fun a b h => by cases h; rfl
  refine ⟨⟨_, hcalls, hshape, ?_⟩, ?_, ?_, ?_, ?_, ?_⟩
  · intro c i hc hi
    have hget : cfs[c]? = some cfs[c] := List.getElem?_eq_getElem hc
    obtain ⟨cost, feas, h1, _, _⟩ := inv.evaluated c cfs[c] i hget hc (Nat.zero_le _) hi
    exact ⟨cost, feas, h1⟩
  · intro c
    rw [hcalls, List.count_append, List.count_append, List.count_append,
      count_map_range _ hpre_inj]
    have h1 : (if self.parameter_modified_ then [Call.updateFromParameterTrajectory]
        else ([] : List Call)).count (Call.preEvaluate c) = 0 := by
      split <;> simp
    have h2 : ((self.evaluatePropagated env).evaluatePointRangeLegacyLoops cfs 0
        (env.getNumPoints (self.evaluate env cfs).mgr.full_trajectory_)).calls.count
        (Call.preEvaluate c) = 0 := by
      rw [List.count_eq_zero]
      intro hin
      obtain ⟨_, _, _, _, _, _, he⟩ := hshape _ hin
      cases he
    have h3 : ((List.range cfs.length).map Call.postEvaluate).count (Call.preEvaluate c) = 0 := by
      rw [List.count_eq_zero]
      simp
    rw [h1, h2, h3]
    simp
  · intro c
    rw [hcalls, List.count_append, List.count_append, List.count_append,
      count_map_range _ hpost_inj]
    have h1 : (if self.parameter_modified_ then [Call.updateFromParameterTrajectory]
        else ([] : List Call)).count (Call.postEvaluate c) = 0 := by
      split <;> simp
    have h2 : ((self.evaluatePropagated env).evaluatePointRangeLegacyLoops cfs 0
        (env.getNumPoints (self.evaluate env cfs).mgr.full_trajectory_)).calls.count
        (Call.postEvaluate c) = 0 := by
      rw [List.count_eq_zero]
      intro hin
      obtain ⟨_, _, _, _, _, _, he⟩ := hshape _ hin
      cases he
    have h3 : ((List.range cfs.length).map Call.preEvaluate).count (Call.postEvaluate c) = 0 := by
      rw [List.count_eq_zero]
      simp
    rw [h1, h2, h3]
    simp
  · rw [hcalls, List.count_append, List.count_append, List.count_append]
    have h2 : ((self.evaluatePropagated env).evaluatePointRangeLegacyLoops cfs 0
        (env.getNumPoints (self.evaluate env cfs).mgr.full_trajectory_)).calls.count
        Call.updateFromParameterTrajectory = 0 := by
      rw [List.count_eq_zero]
      intro hin
      obtain ⟨_, _, _, _, _, _, he⟩ := hshape _ hin
      cases he
    have h3 : ((List.range cfs.length).map Call.preEvaluate).count
        Call.updateFromParameterTrajectory = 0 := by
      rw [List.count_eq_zero]
      simp
    have h4 : ((List.range cfs.length).map Call.postEvaluate).count
        Call.updateFromParameterTrajectory = 0 := by
      rw [List.count_eq_zero]
      simp
    rw [h2, h3, h4]
    split <;> simp
  · rw [evaluate_full_trajectory]
    exact ((performFull_frame env _ _ _).full_eq_dyn).trans (pushParameterTrajectory_spec env self).2
  · have h1 : (self.evaluate env cfs).mgr.parameter_modified_
        = ((self.evaluatePropagated env).evaluatePointRangeLegacyLoops cfs 0
          (env.getNumPoints (self.evaluatePropagated env).full_trajectory_)).mgr.parameter_modified_ :=
      rfl
    rw [h1, (evaluatePointRangeLegacyLoops_inv cfs _ _ _).same.modified_eq,
      (SameExceptCost.of_resetCostMatrix _ _).modified_eq]
    exact ((performFull_frame env _ _ _).modified_eq_dyn).trans
      (pushParameterTrajectory_spec env self).1

/-! ## Per-cost derivatives and the total derivative -/

/-- The sum of a block of the first `n` columns is the sum of the sums of its
columns. -/
theorem blockSum_columns (m : MatrixXd) (b e n : Nat) :
    m.blockSum b 0 (e - b) n = ∑ j in Finset.range n, m.blockSum b j (e - b) 1 := by
  rw [blockSum_range, Finset.sum_comm]
  exact Finset.sum_congr rfl (fun j _ => (blockSum_column m b e j).symm)

/-- Quotients of differences by a divisor other than zero add up to the quotient of
the difference of the sums. -/
theorem fdiv_sum (n : Nat) (a b : Nat → ℚ) (d : ℚ) (hd : d ≠ 0) :
    fdiv (∑ j in Finset.range n, a j - ∑ j in Finset.range n, b j) d
      = some (∑ j in Finset.range n, (a j - b j) / d) ∧
    ∀ j, fdiv (a j - b j) d = some ((a j - b j) / d) := by
  refine ⟨?_, fun j => by simp [fdiv, hd]⟩
  simp only [fdiv, hd, if_false]
  rw [← Finset.sum_sub_distrib, Finset.sum_div]

/-- A loop that rewrites row `j` of a table in pass `j`. -/
theorem rowLoop_spec {α : Type} (n : Nat) (h : Nat → α → α) (out : Nat → α) :
    forLoop 0 n (fun j out => Function.update out j (h j (out j))) out
      = fun j => if j < n then h j (out j) else out j := by
  refine forLoop_inv
    (fun k t => t = fun j => if j < k then h j (out j) else out j)
    0 n _ out (Nat.zero_le _) ?_ ?_
  · funext j
    simp
  · intro k t _ _ ht
    subst ht
    funext j
    by_cases hjk : j = k
    · subst hjk
      simp
    · rw [Function.update_noteq hjk]
      by_cases hlt : j < k
      · have : j < k + 1 := by omega
        simp [hlt, this]
      · have : ¬ j < k + 1 := by omega
        simp [hlt, this]

/-- What one pass of the loop of the legacy `computeDerivatives` writes for element `i`:
the quotient of the difference of two block sums to `out[i]`, the quotients of
the differences of their column sums to `cost_der[j][i]`. -/
theorem computeDerivativesLegacyStep_outputs (env : Collaborators F T K)
    (cfs : List (TrajectoryCost (NewEvalManager F T K R)))
    (ref : Option (NewEvalManager F T K R)) (parameters : Nat → MatrixXd) (type point : Nat)
    (eps : ℚ) (i : Nat) (st : LegacyLoopState (NewEvalManager F T K R)) :
    ∃ plus minus : Nat → ℚ,
      (computeDerivativesLegacyStep env cfs ref parameters type point eps i st).res.out
        = Function.update st.res.out i
            (fdiv (∑ j in Finset.range cfs.length, plus j
              - ∑ j in Finset.range cfs.length, minus j) (2 * eps)) ∧
      (computeDerivativesLegacyStep env cfs ref parameters type point eps i st).res.cost_der
        = st.res.cost_der.map fun cd j =>
            if j < cfs.length then Function.update (cd j) i (fdiv (plus j - minus j) (2 * eps))
            else cd j := by
  refine ⟨fun j => (st.mgr.evaluateParameterPoint env cfs ref
      ((parameters type).coeff point i + eps) type point i true).mgr.evaluation_cost_matrix_.blockSum
      (st.mgr.evaluateParameterPoint env cfs ref
        ((parameters type).coeff point i + eps) type point i true).value.1 j
      ((st.mgr.evaluateParameterPoint env cfs ref
        ((parameters type).coeff point i + eps) type point i true).value.2
        - (st.mgr.evaluateParameterPoint env cfs ref
        ((parameters type).coeff point i + eps) type point i true).value.1) 1,
    fun j => ((st.mgr.evaluateParameterPoint env cfs ref
      ((parameters type).coeff point i + eps) type point i true).mgr.evaluateParameterPoint env
        cfs ref ((parameters type).coeff point i - eps) type point i
        false).mgr.evaluation_cost_matrix_.blockSum
      ((st.mgr.evaluateParameterPoint env cfs ref
      ((parameters type).coeff point i + eps) type point i true).mgr.evaluateParameterPoint env
        cfs ref ((parameters type).coeff point i - eps) type point i false).value.1 j
      (((st.mgr.evaluateParameterPoint env cfs ref
      ((parameters type).coeff point i + eps) type point i true).mgr.evaluateParameterPoint env
        cfs ref ((parameters type).coeff point i - eps) type point i false).value.2
        - ((st.mgr.evaluateParameterPoint env cfs ref
      ((parameters type).coeff point i + eps) type point i true).mgr.evaluateParameterPoint env
        cfs ref ((parameters type).coeff point i - eps) type point i false).value.1) 1, ?_, ?_⟩
  · show Function.update st.res.out i _ = _
    rw [← blockSum_columns, ← blockSum_columns]
    rfl
  · unfold computeDerivativesLegacyStep
    dsimp only
    generalize st.mgr.evaluateParameterPoint env cfs ref
      ((parameters type).coeff point i + eps) type point i true = r1
    generalize r1.mgr.evaluateParameterPoint env cfs ref
      ((parameters type).coeff point i - eps) type point i false = r2
    rw [Option.map_map]
    congr 1
    funext cd
    simp only [Function.comp]
    rw [costDerivativeLoop_spec,
      rowLoop_spec (getNumActiveCostFunctions cfs) (fun (j : Nat) (row : Nat → Option ℚ) =>
        Function.update row i
        ((row i).bind fun dp => fdiv (dp - r2.mgr.evaluation_cost_matrix_.blockSum r2.value.1 j
          (r2.value.2 - r2.value.1) 1) (2 * eps)))]
    funext j
    by_cases hj : j < cfs.length
    · have hj2 : j < getNumActiveCostFunctions cfs := hj
      simp only [hj, hj2, if_true]
      funext k
      by_cases hk : k = i
      · subst hk
        simp
      · simp [Function.update_noteq hk]
    · have hj2 : ¬ j < getNumActiveCostFunctions cfs := hj
      simp only [hj, hj2, if_false]

/-- What `computeCostDerivatives` writes for parameter `p`: the quotient of the difference
of two block sums to `derivative_out[p]`, the quotients of the differences of
their column sums to `cost_derivative_out[j][p]`. -/
theorem computeCostDerivatives_outputs (env : Collaborators F T K)
    (cfs : List (TrajectoryCost (NewEvalManager F T K R)))
    (ref : Option (NewEvalManager F T K R)) (self : NewEvalManager F T K R)
    (p : Nat) (parameters : Nat → ℚ) (derivative_out : Nat → Option ℚ)
    (cost_derivative_out : Nat → Nat → Option ℚ) (eps : ℚ) :
    ∃ plus minus : Nat → ℚ,
      (self.computeCostDerivatives env cfs ref p parameters derivative_out cost_derivative_out
          eps).value.1 p
        = fdiv (∑ j in Finset.range cfs.length, plus j
            - ∑ j in Finset.range cfs.length, minus j) (2 * eps) ∧
      ∀ j, j < cfs.length →
        (self.computeCostDerivatives env cfs ref p parameters derivative_out
            cost_derivative_out eps).value.2 j p
          = fdiv (plus j - minus j) (2 * eps) := by
  unfold NewEvalManager.computeCostDerivatives
  dsimp only
  generalize self.evaluateParameterPointItomp env cfs ref (parameters p + eps) p true = r1
  generalize r1.mgr.evaluateParameterPointItomp env cfs ref (parameters p - eps) p false = r2
  refine ⟨fun j => r1.mgr.evaluation_cost_matrix_.blockSum r1.value.1 j
      (r1.value.2 - r1.value.1) 1,
    fun j => r2.mgr.evaluation_cost_matrix_.blockSum r2.value.1 j
      (r2.value.2 - r2.value.1) 1, ?_, ?_⟩
  · rw [Function.update_same, ← blockSum_columns, ← blockSum_columns]
    rfl
  · intro j hj
    rw [costDerivativeLoop_spec]
    have hj2 : j < getNumActiveCostFunctions cfs := hj
    simp only [hj2, if_true, Function.update_same]

/-- Invariant of the loop over the elements of the legacy `computeDerivatives`, for an
element `i` already processed: `out[i]` and the entries `cost_der[j][i]` are such
quotients. -/
theorem computeDerivativesLegacy_outputs (env : Collaborators F T K)
    (cfs : List (TrajectoryCost (NewEvalManager F T K R)))
    (ref : Option (NewEvalManager F T K R)) (self : NewEvalManager F T K R)
    (parameters : Nat → MatrixXd) (type point : Nat) (res : LegacyDerivatives) (eps : ℚ)
    (cd0 : Nat → Nat → Option ℚ) (hcd : res.cost_der = some cd0)
    (i : Nat) (hi : i < self.parameter_trajectory_.num_elements) :
    ∃ (cd : Nat → Nat → Option ℚ) (plus minus : Nat → ℚ),
      (self.computeDerivativesLegacy env cfs ref parameters type point res eps).value.cost_der
        = some cd ∧
      (self.computeDerivativesLegacy env cfs ref parameters type point res eps).value.out i
        = fdiv (∑ j in Finset.range cfs.length, plus j
            - ∑ j in Finset.range cfs.length, minus j) (2 * eps) ∧
      ∀ j, j < cfs.length → cd j i = fdiv (plus j - minus j) (2 * eps) := by
  have hnum : (self.setParameters parameters).parameter_trajectory_.num_elements
      = self.parameter_trajectory_.num_elements := by
    unfold NewEvalManager.setParameters
    dsimp only
    split <;> rfl
  have key := forLoop_inv
    (fun k (st : LegacyLoopState (NewEvalManager F T K R)) =>
      (∃ cd, st.res.cost_der = some cd) ∧
      ∀ i, i < k → ∃ (cd : Nat → Nat → Option ℚ) (plus minus : Nat → ℚ),
        st.res.cost_der = some cd ∧
        st.res.out i = fdiv (∑ j in Finset.range cfs.length, plus j
            - ∑ j in Finset.range cfs.length, minus j) (2 * eps) ∧
        ∀ j, j < cfs.length → cd j i = fdiv (plus j - minus j) (2 * eps))
    0 self.parameter_trajectory_.num_elements
    (computeDerivativesLegacyStep env cfs ref parameters type point eps)
    { mgr := { self.setParameters parameters with
        full_trajectory_ := env.updateFromParameterTrajectory
          (self.setParameters parameters).full_trajectory_
          (self.setParameters parameters).parameter_trajectory_
          (self.setParameters parameters).planning_group_
        parameter_modified_ := false },
      res := res, calls := [Call.updateFromParameterTrajectory] }
    (Nat.zero_le _) ⟨⟨cd0, hcd⟩, fun i h => absurd h (Nat.not_lt_zero i)⟩ ?_
  · have h := key.2 i hi
    rw [← hnum] at h
    exact h
  · intro k st _ _ hP
    obtain ⟨⟨cdk, hcdk⟩, hprev⟩ := hP
    obtain ⟨plus, minus, hout, hder⟩ :=
      computeDerivativesLegacyStep_outputs env cfs ref parameters type point eps k st
    rw [hcdk] at hder
    refine ⟨⟨_, hder⟩, ?_⟩
    intro i hik
    rcases Nat.lt_succ_iff_lt_or_eq.mp hik with hlt | heq
    · obtain ⟨cd, pl, mi, h1, h2, h3⟩ := hprev i hlt
      rw [hcdk] at h1
      cases h1
      have hne : i ≠ k := Nat.ne_of_lt hlt
      refine ⟨_, pl, mi, hder, ?_, ?_⟩
      · rw [hout, Function.update_noteq hne]
        exact h2
      · intro j hj
        simp only [hj, if_true, Function.update_noteq hne]
        exact h3 j hj
    · subst heq
      refine ⟨_, plus, minus, hder, ?_, ?_⟩
      · rw [hout, Function.update_same]
      · intro j hj
        simp only [hj, if_true, Function.update_same]

/-- C26: in exact arithmetic, for every parameter index `p`: when `eps` is not zero,
`computeCostDerivatives` writes a number to `derivative_out[p]` and to
`cost_derivative_out[j][p]` for every cost function `j`, and the sum of the latter
over all cost functions is the former; when `eps` is zero it writes no number
to any of them (each is a quotient by `2 * eps`).  The same holds, for every
element `i`, for `out[i]` and the column `cost_der[.][i]` of the legacy
`computeDerivatives` called with a table `cost_der`. -/
theorem per_cost_derivatives_sum_to_total (env : Collaborators F T K)
    (cfs : List (TrajectoryCost (NewEvalManager F T K R)))
    (ref : Option (NewEvalManager F T K R)) (self : NewEvalManager F T K R)
    (p : Nat) (parameters : Nat → ℚ) (derivative_out : Nat → Option ℚ)
    (cost_derivative_out : Nat → Nat → Option ℚ) (eps : ℚ) :
    ((eps ≠ 0 → ∃ (total : ℚ) (per_cost : Nat → ℚ),
        (self.computeCostDerivatives env cfs ref p parameters derivative_out
          cost_derivative_out eps).value.1 p = some total ∧
        (∀ j, j < cfs.length →
          (self.computeCostDerivatives env cfs ref p parameters derivative_out
            cost_derivative_out eps).value.2 j p = some (per_cost j)) ∧
        ∑ j in Finset.range cfs.length, per_cost j = total) ∧
      (eps = 0 →
        (self.computeCostDerivatives env cfs ref p parameters derivative_out
          cost_derivative_out eps).value.1 p = none ∧
        ∀ j, j < cfs.length →
          (self.computeCostDerivatives env cfs ref p parameters derivative_out
            cost_derivative_out eps).value.2 j p = none)) ∧
    (∀ (legacy_parameters : Nat → MatrixXd) (type point : Nat) (res : LegacyDerivatives)
        (cd0 : Nat → Nat → Option ℚ), res.cost_der = some cd0 →
      ∀ i, i < self.parameter_trajectory_.num_elements →
        ∃ cd : Nat → Nat → Option ℚ,
          (self.computeDerivativesLegacy env cfs ref legacy_parameters type point res
            eps).value.cost_der = some cd ∧
          (eps ≠ 0 → ∃ (total : ℚ) (per_cost : Nat → ℚ),
            (self.computeDerivativesLegacy env cfs ref legacy_parameters type point res
              eps).value.out i = some total ∧
            (∀ j, j < cfs.length → cd j i = some (per_cost j)) ∧
            ∑ j in Finset.range cfs.length, per_cost j = total) ∧
          (eps = 0 →
            (self.computeDerivativesLegacy env cfs ref legacy_parameters type point res
              eps).value.out i = none ∧
            ∀ j, j < cfs.length → cd j i = none)) := by
  refine ⟨?_, ?_⟩
  · obtain ⟨plus, minus, h1, h2⟩ := computeCostDerivatives_outputs env cfs ref self p
      parameters derivative_out cost_derivative_out eps
    refine ⟨fun heps => ?_, fun heps => ?_⟩
    · have hd : 2 * eps ≠ 0 := mul_ne_zero two_ne_zero heps
      obtain ⟨f1, f2⟩ := fdiv_sum cfs.length plus minus (2 * eps) hd
      exact ⟨_, fun j => (plus j - minus j) / (2 * eps), h1.trans f1,
        fun j hj => (h2 j hj).trans (f2 j), rfl⟩
    · subst heps
      refine ⟨h1.trans (by simp [fdiv]), fun j hj => (h2 j hj).trans (by simp [fdiv])⟩
  · intro legacy_parameters type point res cd0 hcd i hi
    obtain ⟨cd, plus, minus, h0, h1, h2⟩ := computeDerivativesLegacy_outputs env cfs ref self
      legacy_parameters type point res eps cd0 hcd i hi
    refine ⟨cd, h0, fun heps => ?_, fun heps => ?_⟩
    · have hd : 2 * eps ≠ 0 := mul_ne_zero two_ne_zero heps
      obtain ⟨f1, f2⟩ := fdiv_sum cfs.length plus minus (2 * eps) hd
      exact ⟨_, fun j => (plus j - minus j) / (2 * eps), h1.trans f1,
        fun j hj => (h2 j hj).trans (f2 j), rfl⟩
    · subst heps
      refine ⟨h1.trans (by simp [fdiv]), fun j hj => (h2 j hj).trans (by simp [fdiv])⟩

end HooksAndSums

section ParameterRoundTrip

variable {F T K R : Type}

/-! ## Round trip of the parameters -/

/-- C22: `setParameters(P)` followed by `getParameters(Q)` leaves in `Q` the position
parameters of `P` and, when the parameter trajectory has velocities, the
velocity parameters of `P`; when it has none, the velocity entry of `Q`, like
every other entry of `Q`, is as the caller passed it.  `setParameters` sets the
flag `parameter_modified_` and does not change whether the parameter trajectory
has velocities. -/
theorem setParameters_getParameters_round_trip (self : NewEvalManager F T K R)
    (P Q : Nat → MatrixXd) :
    (self.setParameters P).getParameters Q TRAJECTORY_TYPE_POSITION
      = P TRAJECTORY_TYPE_POSITION ∧
    (self.setParameters P).getParameters Q TRAJECTORY_TYPE_VELOCITY
      = (if self.parameter_trajectory_.has_velocity then P TRAJECTORY_TYPE_VELOCITY
        else Q TRAJECTORY_TYPE_VELOCITY) ∧
    (∀ type, type ≠ TRAJECTORY_TYPE_POSITION → type ≠ TRAJECTORY_TYPE_VELOCITY →
      (self.setParameters P).getParameters Q type = Q type) ∧
    (self.setParameters P).parameter_modified_ = true ∧
    (self.setParameters P).parameter_trajectory_.has_velocity
      = self.parameter_trajectory_.has_velocity := by
  have hne : TRAJECTORY_TYPE_POSITION ≠ TRAJECTORY_TYPE_VELOCITY := by decide
  cases hv : self.parameter_trajectory_.has_velocity
  · refine ⟨?_, ?_, ?_, rfl, ?_⟩
    · simp [NewEvalManager.getParameters, NewEvalManager.setParameters, hv]
    · simp [NewEvalManager.getParameters, NewEvalManager.setParameters, hv,
        Function.update_noteq hne.symm]
    · intro type h1 h2
      simp [NewEvalManager.getParameters, NewEvalManager.setParameters, hv,
        Function.update_noteq h1]
    · simp [NewEvalManager.setParameters, hv]
  · refine ⟨?_, ?_, ?_, rfl, ?_⟩
    · simp [NewEvalManager.getParameters, NewEvalManager.setParameters, hv,
        Function.update_noteq hne]
    · simp [NewEvalManager.getParameters, NewEvalManager.setParameters, hv]
    · intro type h1 h2
      simp [NewEvalManager.getParameters, NewEvalManager.setParameters, hv,
        Function.update_noteq h1, Function.update_noteq h2]
    · simp [NewEvalManager.setParameters, hv]

end ParameterRoundTrip

section Allocation

variable {F T K R : Type}

/-! ## Allocation by `initialize` -/

theorem tryForLoop_succ {σ : Type} (b e : Nat) (h : b ≤ e) (body : Nat → σ → Option σ) (s : σ) :
    tryForLoop b (e + 1) body s = (tryForLoop b e body s).bind (body e) := by
  unfold tryForLoop
  have h1 : e + 1 - b = (e - b) + 1 := by omega
  rw [h1, List.range'_1_concat, List.foldl_append]
  have h2 : b + (e - b) = e := by omega
  simp [h2]

/-- Loop rule for a loop whose body can fail: an invariant that holds at entry and that
every pass which returns keeps, holds when the loop returns. -/
theorem tryForLoop_inv {σ : Type} (P : σ → Prop) (b e : Nat) (body : Nat → σ → Option σ)
    (s0 s : σ) (h : tryForLoop b e body s0 = some s) (h0 : P s0)
    (hstep : ∀ i t t1, b ≤ i → i < e → P t → body i t = some t1 → P t1) : P s := by
  by_cases hbe : b ≤ e
  · induction e, hbe using Nat.le_induction generalizing s with
    | base =>
      simp [tryForLoop] at h
      subst h
      exact h0
    | succ n hn ih =>
      rw [tryForLoop_succ b n hn, Option.bind_eq_some] at h
      obtain ⟨t, ht, hs⟩ := h
      exact hstep n t s hn (Nat.lt_succ_self n)
        (ih t ht (fun i u u1 hi hlt => hstep i u u1 hi (Nat.lt_succ_of_lt hlt))) hs
  · have hz : e - b = 0 := by omega
    simp [tryForLoop, hz] at h
    subst h
    exact h0

/-- Loop rule for a loop whose body can fail: when every pass on a state with the
invariant returns a state with the invariant, the loop returns. -/
theorem tryForLoop_returns {σ : Type} (P : σ → Prop) (b e : Nat) (body : Nat → σ → Option σ)
    (s0 : σ) (h0 : P s0)
    (hstep : ∀ i t, b ≤ i → i < e → P t → ∃ t1, body i t = some t1 ∧ P t1) :
    ∃ s, tryForLoop b e body s0 = some s ∧ P s := by
  by_cases hbe : b ≤ e
  · induction e, hbe using Nat.le_induction with
    | base => exact ⟨s0, by simp [tryForLoop], h0⟩
    | succ n hn ih =>
      obtain ⟨t, ht, hP⟩ := ih (fun i u hi hlt => hstep i u hi (Nat.lt_succ_of_lt hlt))
      obtain ⟨t1, ht1, hP1⟩ := hstep n t hn (Nat.lt_succ_self n) hP
      exact ⟨t1, by rw [tryForLoop_succ b n hn, ht]; exact ht1, hP1⟩
  · have hz : e - b = 0 := by omega
    exact ⟨s0, by simp [tryForLoop, hz], h0⟩

theorem foldl_bind_none {σ : Type} (body : Nat → σ → Option σ) (l : List Nat) :
    l.foldl (fun acc i => acc.bind (body i)) (none : Option σ) = none := by
  induction l with
  | nil => rfl
  | cons x xs ih => simpa using ih

/-- A loop whose first pass fails, fails. -/
theorem tryForLoop_fails {σ : Type} (b e : Nat) (body : Nat → σ → Option σ) (s : σ)
    (hbe : b < e) (h : body b s = none) : tryForLoop b e body s = none := by
  unfold tryForLoop
  have h1 : e - b = (e - b - 1) + 1 := by omega
  rw [h1, List.range'_succ, List.foldl_cons]
  simp only [Option.some_bind, h]
  exact foldl_bind_none body _

/-- A pass of the loop over the contacts that returns keeps the number of contact
variables of the point. -/
theorem initializeContact_size (env : Collaborators F T K) (setup : SetupCollaborators F T K R)
    (group : ItompPlanningGroup) (r : Model K × List ℚ) (i : Nat)
    (st st1 : StdVector ContactVariables × StdVector SpatialVector)
    (h : initializeContact env setup group r i st = some st1) : st1.1.size = st.1.size := by
  unfold initializeContact at h
  dsimp only at h
  rw [Option.map_eq_some'] at h
  obtain ⟨u, _, hu⟩ := h
  rw [← hu]
  rfl

/-- One pass of the loop over the points of `initializeContactVariables` that returns
changes, of the per-point arrays, only the model and the contact variables of
its point, and keeps the number of contact variables of every point, the
planning group and the best cost. -/
theorem initializeContactVariablesOfPoint_frame (env : Collaborators F T K)
    (setup : SetupCollaborators F T K R) (point : Nat) (s s1 : NewEvalManager F T K R)
    (h : initializeContactVariablesOfPoint env setup point s = some s1) :
    s1.external_forces_ = s.external_forces_ ∧
    s1.joint_torques_ = s.joint_torques_ ∧
    s1.robot_state_ = s.robot_state_ ∧
    s1.evaluation_cost_matrix_ = s.evaluation_cost_matrix_ ∧
    s1.rbdl_models_.size = s.rbdl_models_.size ∧
    s1.contact_variables_.size = s.contact_variables_.size ∧
    (∀ i, (s1.contact_variables_.elem i).size = (s.contact_variables_.elem i).size) ∧
    s1.planning_group_ = s.planning_group_ ∧
    s1.best_cost_ = s.best_cost_ := by
  unfold initializeContactVariablesOfPoint at h
  dsimp only at h
  rw [Option.map_eq_some'] at h
  obtain ⟨st, hst, hs1⟩ := h
  subst hs1
  refine ⟨rfl, rfl, rfl, rfl, rfl, rfl, ?_, rfl, rfl⟩
  intro i
  have hsize : st.1.size = (s.contact_variables_.elem point).size :=
    tryForLoop_inv
      (fun u : StdVector ContactVariables × StdVector SpatialVector =>
        u.1.size = (s.contact_variables_.elem point).size) _ _ _ _ _ hst rfl
      (fun k u u1 _ _ hu hk => (initializeContact_size env setup _ _ k u u1 hk).trans hu)
  by_cases hi : i = point
  · subst hi
    simp only [StdVector.set, if_true]
    exact hsize
  · simp only [StdVector.set, hi, if_false]

/-- The loop of `initializeContactVariables` that resizes the contact variables of every
point: the number of points is kept, every point has `num_contacts` contact
variables. -/
theorem resizeContactVariables_spec (cv1 : StdVector (StdVector ContactVariables))
    (num_contacts : Nat) (val : ContactVariables) :
    (forLoop 0 cv1.size (fun i cv =>
        cv.set i ((cv.elem i).resize num_contacts val)) cv1).size = cv1.size ∧
    ∀ i, i < cv1.size →
      ((forLoop 0 cv1.size (fun i cv =>
        cv.set i ((cv.elem i).resize num_contacts val)) cv1).elem i).size = num_contacts := by
  have key := forLoop_inv
    (fun k (cv : StdVector (StdVector ContactVariables)) =>
      cv.size = cv1.size ∧ ∀ i, i < k → (cv.elem i).size = num_contacts)
    0 cv1.size (fun i cv => cv.set i ((cv.elem i).resize num_contacts val)) cv1
    (Nat.zero_le _) ⟨rfl, fun i h => absurd h (Nat.not_lt_zero i)⟩ ?_
  · exact key
  · intro k cv _ _ hP
    refine ⟨hP.1, ?_⟩
    intro i hik
    by_cases hi : i = k
    · subst hi
      simp [StdVector.set, StdVector.resize]
    · have hlt : i < k := by omega
      simp only [StdVector.set, hi, if_false]
      exact hP.2 i hlt

/-- The loop over the contacts of `initializeContactVariables` returns when there is no
contact, or a contact has no sub contact point, or `tau` has at least three
rows. -/
theorem initializeContact_loop_returns (env : Collaborators F T K)
    (setup : SetupCollaborators F T K R) (group : ItompPlanningGroup) (r : Model K × List ℚ)
    (n : Nat) (st : StdVector ContactVariables × StdVector SpatialVector)
    (hblock : n = 0 ∨ env.NUM_ENDEFFECTOR_CONTACT_POINTS = 0 ∨ 3 ≤ r.2.length) :
    ∃ st1, tryForLoop 0 n (initializeContact env setup group r) st = some st1 := by
  obtain ⟨st1, h, _⟩ := tryForLoop_returns (fun _ => True) 0 n
    (initializeContact env setup group r) st trivial (fun i u _ hi _ => by
      unfold initializeContact
      dsimp only
      obtain ⟨v, hv, _⟩ := tryForLoop_returns (fun _ => True) 0
        env.NUM_ENDEFFECTOR_CONTACT_POINTS (initializeContactPoint setup group r.1 r.2 i)
        ({ setup.setVariable (u.1.elem i) 0 with
            position := setup.X_base_r r.1 (group.contact_points_ i).rbdl_body_id
            orientation := setup.X_base_E r.1 (group.contact_points_ i).rbdl_body_id }, u.2)
        trivial (fun j v _ hj _ => by
          rcases hblock with h0 | h0 | h0
          · omega
          · omega
          · exact ⟨initializeContactPointAssign setup group r.1 r.2 i j v,
              by unfold initializeContactPoint; rw [if_neg (Nat.not_lt.mpr h0)], trivial⟩)
      exact ⟨_, by rw [hv]; rfl, trivial⟩)
  exact ⟨st1, h⟩

/-- One pass of the loop over the points of `initializeContactVariables` returns when the
planning group has no contact, or a contact has no sub contact point, or the
dynamics update leaves at least three joint torques. -/
theorem initializeContactVariablesOfPoint_returns (env : Collaborators F T K)
    (setup : SetupCollaborators F T K R) (point : Nat) (s : NewEvalManager F T K R)
    (hblock : s.planning_group_.num_contacts = 0 ∨ env.NUM_ENDEFFECTOR_CONTACT_POINTS = 0 ∨
      ∀ m q q_dot q_ddot tau,
        3 ≤ (env.updateFullKinematicsAndDynamics m q q_dot q_ddot tau none).2.length) :
    ∃ s1, initializeContactVariablesOfPoint env setup point s = some s1 := by
  unfold initializeContactVariablesOfPoint
  dsimp only
  obtain ⟨st, hst⟩ := initializeContact_loop_returns env setup s.planning_group_
    (env.updateFullKinematicsAndDynamics (s.rbdl_models_.elem point)
      (env.getJointRow s.full_trajectory_ TRAJECTORY_TYPE_POSITION point)
      (env.getJointRow s.full_trajectory_ TRAJECTORY_TYPE_VELOCITY point)
      (env.getJointRow s.full_trajectory_ TRAJECTORY_TYPE_ACCELERATION point)
      (setup.VectorXd (env.getJointRow s.full_trajectory_ TRAJECTORY_TYPE_POSITION point).length)
      none)
    s.planning_group_.num_contacts
    (s.contact_variables_.elem point,
      { size := (env.updateFullKinematicsAndDynamics (s.rbdl_models_.elem point)
          (env.getJointRow s.full_trajectory_ TRAJECTORY_TYPE_POSITION point)
          (env.getJointRow s.full_trajectory_ TRAJECTORY_TYPE_VELOCITY point)
          (env.getJointRow s.full_trajectory_ TRAJECTORY_TYPE_ACCELERATION point)
          (setup.VectorXd
            (env.getJointRow s.full_trajectory_ TRAJECTORY_TYPE_POSITION point).length)
          none).1.mBodies,
        elem := fun _ => SpatialVectorZero })
    (by
      rcases hblock with h0 | h0 | h0
      · exact Or.inl h0
      · exact Or.inr (Or.inl h0)
      · exact Or.inr (Or.inr (h0 _ _ _ _ _)))
  exact ⟨_, by rw [hst]; rfl⟩

/-- One pass of the loop over the points of `initializeContactVariables` does not return
when the planning group has a contact with a sub contact point and the dynamics
update leaves fewer than three joint torques. -/
theorem initializeContactVariablesOfPoint_fails (env : Collaborators F T K)
    (setup : SetupCollaborators F T K R) (point : Nat) (s : NewEvalManager F T K R)
    (hcontacts : 0 < s.planning_group_.num_contacts)
    (hpoints : 0 < env.NUM_ENDEFFECTOR_CONTACT_POINTS)
    (htau : ∀ m q q_dot q_ddot tau,
      (env.updateFullKinematicsAndDynamics m q q_dot q_ddot tau none).2.length < 3) :
    initializeContactVariablesOfPoint env setup point s = none := by
  unfold initializeContactVariablesOfPoint
  dsimp only
  rw [tryForLoop_fails 0 _ _ _ hcontacts]
  · rfl
  · unfold initializeContact
    dsimp only
    rw [tryForLoop_fails 0 _ _ _ hpoints]
    · rfl
    · unfold initializeContactPoint
      rw [if_pos (htau _ _ _ _ _)]

/-- What `initialize` allocates.  Given the assertion of `initializeContactVariables` and
that no block of `tau` is taken outside the vector (the trajectory has no
velocity or no acceleration, or the planning group has no contact, or a contact
has no sub contact point, or the dynamics update leaves at least three joint
torques), `initialize` returns; afterwards the cost matrix is the zero matrix
with one row per point and one column per cost function, every per-point array
has one entry per point, every point has one contact variable per contact, and
the external forces of a point are those the array held before at that
position, if it held any, and one zero vector per body otherwise. -/
theorem initialize_spec (env : Collaborators F T K) (setup : SetupCollaborators F T K R)
    (cfs : List (TrajectoryCost (NewEvalManager F T K R))) (self : NewEvalManager F T K R)
    (full_trajectory : F) (itomp_trajectory : T) (rbdl_robot_model : Model K)
    (planning_group : ItompPlanningGroup)
    (hassert : planning_group.num_contacts = setup.PlanningParameters_getNumContacts)
    (hblock : (env.hasVelocity full_trajectory = false ∨
        env.hasAcceleration full_trajectory = false) ∨
      planning_group.num_contacts = 0 ∨ env.NUM_ENDEFFECTOR_CONTACT_POINTS = 0 ∨
      ∀ m q q_dot q_ddot tau,
        3 ≤ (env.updateFullKinematicsAndDynamics m q q_dot q_ddot tau none).2.length) :
    ∃ m, ( NewEvalManager.initialize env setup cfs self full_trajectory itomp_trajectory
        rbdl_robot_model planning_group) = some m ∧
      m.evaluation_cost_matrix_ = MatrixXd.Zero (env.getNumPoints full_trajectory) cfs.length ∧
      m.rbdl_models_.size = env.getNumPoints full_trajectory ∧
      m.joint_torques_.size = env.getNumPoints full_trajectory ∧
      m.external_forces_.size = env.getNumPoints full_trajectory ∧
      m.robot_state_.size = env.getNumPoints full_trajectory ∧
      m.contact_variables_.size = env.getNumPoints full_trajectory ∧
      (∀ i, i < env.getNumPoints full_trajectory →
        (m.contact_variables_.elem i).size = planning_group.num_contacts) ∧
      m.external_forces_ = self.external_forces_.resize (env.getNumPoints full_trajectory)
        { size := rbdl_robot_model.mBodies, elem := fun _ => SpatialVectorZero } := by
  unfold NewEvalManager.initialize
  dsimp only
  unfold NewEvalManager.initializeContactVariables
  dsimp only
  rw [if_neg (not_not.mpr hassert)]
  obtain ⟨hsize, hinner⟩ := resizeContactVariables_spec
    (self.contact_variables_.resize (env.getNumPoints full_trajectory)
      { size := 0, elem := fun _ => setup.defaultContactVariables })
    planning_group.num_contacts setup.defaultContactVariables
  have hsize1 : (self.contact_variables_.resize (env.getNumPoints full_trajectory)
      { size := 0, elem := fun _ => setup.defaultContactVariables }).size
      = env.getNumPoints full_trajectory := rfl
  rw [hsize1] at hsize hinner
  split
  · exact ⟨_, rfl, rfl, rfl, rfl, rfl, rfl, hsize, hinner, rfl⟩
  · rename_i hvel
    have hblock2 : planning_group.num_contacts = 0 ∨ env.NUM_ENDEFFECTOR_CONTACT_POINTS = 0 ∨
        ∀ m q q_dot q_ddot tau,
          3 ≤ (env.updateFullKinematicsAndDynamics m q q_dot q_ddot tau none).2.length := by
      rcases hblock with h0 | h0
      · exfalso
        apply hvel
        rcases h0 with h1 | h1 <;> simp [h1]
      · exact h0
    have key : ∀ (init : NewEvalManager F T K R) (o : Option (NewEvalManager F T K R)),
        tryForLoop 0 (env.getNumPoints full_trajectory)
          (initializeContactVariablesOfPoint env setup) init = o →
        (init.evaluation_cost_matrix_
            = MatrixXd.Zero (env.getNumPoints full_trajectory) (getNumActiveCostFunctions cfs) ∧
          init.rbdl_models_.size = env.getNumPoints full_trajectory ∧
          init.joint_torques_.size = env.getNumPoints full_trajectory ∧
          init.external_forces_.size = env.getNumPoints full_trajectory ∧
          init.robot_state_.size = env.getNumPoints full_trajectory ∧
          init.contact_variables_.size = env.getNumPoints full_trajectory ∧
          (∀ i, i < env.getNumPoints full_trajectory →
            (init.contact_variables_.elem i).size = planning_group.num_contacts) ∧
          init.external_forces_ = self.external_forces_.resize (env.getNumPoints full_trajectory)
            { size := rbdl_robot_model.mBodies, elem := fun _ => SpatialVectorZero } ∧
          init.planning_group_ = planning_group) →
        ∃ s, o = some s ∧
          (s.evaluation_cost_matrix_
            = MatrixXd.Zero (env.getNumPoints full_trajectory) (getNumActiveCostFunctions cfs) ∧
          s.rbdl_models_.size = env.getNumPoints full_trajectory ∧
          s.joint_torques_.size = env.getNumPoints full_trajectory ∧
          s.external_forces_.size = env.getNumPoints full_trajectory ∧
          s.robot_state_.size = env.getNumPoints full_trajectory ∧
          s.contact_variables_.size = env.getNumPoints full_trajectory ∧
          (∀ i, i < env.getNumPoints full_trajectory →
            (s.contact_variables_.elem i).size = planning_group.num_contacts) ∧
          s.external_forces_ = self.external_forces_.resize (env.getNumPoints full_trajectory)
            { size := rbdl_robot_model.mBodies, elem := fun _ => SpatialVectorZero } ∧
          s.planning_group_ = planning_group) := by
      intro init o ho h0
      rw [← ho]
      refine tryForLoop_returns
        (fun s : NewEvalManager F T K R =>
          s.evaluation_cost_matrix_
            = MatrixXd.Zero (env.getNumPoints full_trajectory) (getNumActiveCostFunctions cfs) ∧
          s.rbdl_models_.size = env.getNumPoints full_trajectory ∧
          s.joint_torques_.size = env.getNumPoints full_trajectory ∧
          s.external_forces_.size = env.getNumPoints full_trajectory ∧
          s.robot_state_.size = env.getNumPoints full_trajectory ∧
          s.contact_variables_.size = env.getNumPoints full_trajectory ∧
          (∀ i, i < env.getNumPoints full_trajectory →
            (s.contact_variables_.elem i).size = planning_group.num_contacts) ∧
          s.external_forces_ = self.external_forces_.resize (env.getNumPoints full_trajectory)
            { size := rbdl_robot_model.mBodies, elem := fun _ => SpatialVectorZero } ∧
          s.planning_group_ = planning_group)
        0 (env.getNumPoints full_trajectory) (initializeContactVariablesOfPoint env setup) init
        h0 ?_
      intro point s _ _ hP
      obtain ⟨p1, p2, p3, p4, p5, p6, p7, p8, p9⟩ := hP
      obtain ⟨s1, hs1⟩ := initializeContactVariablesOfPoint_returns env setup point s
        (by rw [p9]; exact hblock2)
      obtain ⟨f1, f2, f3, f4, f5, f6, f7, f8, _⟩ :=
        initializeContactVariablesOfPoint_frame env setup point s s1 hs1
      refine ⟨s1, hs1, f4.trans p1, f5.trans p2, ?_, ?_, ?_, f6.trans p6, ?_, f1.trans p8,
        f8.trans p9⟩
      · rw [f2]
        exact p3
      · rw [f1]
        exact p4
      · rw [f3]
        exact p5
      · intro i hi
        exact (f7 i).trans (p7 i hi)
    generalize ho : tryForLoop 0 (env.getNumPoints full_trajectory)
      (initializeContactVariablesOfPoint env setup) _ = o
    obtain ⟨s, hs, q1, q2, q3, q4, q5, q6, q7, q8, _⟩ :=
      key _ o ho ⟨rfl, rfl, rfl, rfl, rfl, hsize, hinner, rfl, rfl⟩
    subst hs
    exact ⟨_, rfl, q1, q2, q3, q4, q5, q6, q7, q8⟩

/-- When `initialize` returns, the best cost is the one before. -/
theorem initialize_best (env : Collaborators F T K) (setup : SetupCollaborators F T K R)
    (cfs : List (TrajectoryCost (NewEvalManager F T K R))) (self m : NewEvalManager F T K R)
    (full_trajectory : F) (itomp_trajectory : T) (rbdl_robot_model : Model K)
    (planning_group : ItompPlanningGroup)
    (h : ( NewEvalManager.initialize env setup cfs self full_trajectory itomp_trajectory
      rbdl_robot_model planning_group) = some m) : m.best_cost_ = self.best_cost_ := by
  unfold NewEvalManager.initialize at h
  dsimp only at h
  rw [Option.map_eq_some'] at h
  obtain ⟨m2, h2, hm⟩ := h
  subst hm
  show m2.best_cost_ = _
  unfold NewEvalManager.initializeContactVariables at h2
  dsimp only at h2
  split at h2
  · cases h2
  · split at h2
    · cases h2
      rfl
    · rw [Option.map_eq_some'] at h2
      obtain ⟨m3, h3, hm3⟩ := h2
      subst hm3
      show m3.best_cost_ = _
      exact tryForLoop_inv
        (fun s : NewEvalManager F T K R => s.best_cost_ = self.best_cost_) _ _ _ _ _ h3 rfl
        (fun point s s1 _ _ hs hs1 =>
          (initializeContactVariablesOfPoint_frame env setup point s s1 hs1).2.2.2.2.2.2.2.2.trans
            hs)

/-- Where the block of `tau` is taken outside the vector, `initialize` does not return:
a trajectory with velocity and acceleration and at least one point, a planning
group with a contact that has a sub contact point, and a dynamics update that
leaves fewer than three joint torques. -/
theorem initialize_fails_on_short_tau (env : Collaborators F T K)
    (setup : SetupCollaborators F T K R)
    (cfs : List (TrajectoryCost (NewEvalManager F T K R))) (self : NewEvalManager F T K R)
    (full_trajectory : F) (itomp_trajectory : T) (rbdl_robot_model : Model K)
    (planning_group : ItompPlanningGroup)
    (hvel : env.hasVelocity full_trajectory = true)
    (hacc : env.hasAcceleration full_trajectory = true)
    (hpoint : 0 < env.getNumPoints full_trajectory)
    (hcontacts : 0 < planning_group.num_contacts)
    (hpoints : 0 < env.NUM_ENDEFFECTOR_CONTACT_POINTS)
    (htau : ∀ m q q_dot q_ddot tau,
      (env.updateFullKinematicsAndDynamics m q q_dot q_ddot tau none).2.length < 3) :
    ( NewEvalManager.initialize env setup cfs self full_trajectory itomp_trajectory
      rbdl_robot_model planning_group) = none := by
  unfold NewEvalManager.initialize
  dsimp only
  unfold NewEvalManager.initializeContactVariables
  dsimp only
  split
  · rfl
  · rw [if_neg (by simp [hvel, hacc])]
    rw [tryForLoop_fails 0 _ _ _ hpoint]
    · rfl
    · exact initializeContactVariablesOfPoint_fails env setup 0 _ hcontacts hpoints htau

/-- On the one-joint robot with velocity and two contacts the block of three rows is
taken of a `tau` with one row: `initialize` does not return. -/
theorem initialize_fails_on_one_joint :
    ( NewEvalManager.initialize keyframeCollaborators
        { keyframeSetup with PlanningParameters_getNumContacts := 2 } [constantCost 2 1]
        (NewEvalManager.defaultConstructed (keyframeManager [] 0)) ⟨[0], []⟩ ⟨[0], []⟩
        { mBodies := 10, f := (), X_lambda := (), X_base := (), v := (), a := (), c := () }
        (twoContactManager (fun c => c + 1) (fun c => c + 5) ⟨0, 0, 2⟩
          ⟨0, 0, 1⟩).planning_group_) = none := by
  unfold NewEvalManager.initialize
  dsimp only
  unfold NewEvalManager.initializeContactVariables
  dsimp only
  rw [if_neg (by decide)]
  rw [if_neg (by simp [keyframeCollaborators])]
  rw [tryForLoop_fails 0 _ _ _ (by decide)]
  · rfl
  · unfold initializeContactVariablesOfPoint
    dsimp only
    rw [tryForLoop_fails 0 _ _ _ (by decide)]
    · rfl
    · unfold initializeContact
      dsimp only
      rw [tryForLoop_fails 0 _ _ _ (by decide)]
      · rfl
      · unfold initializeContactPoint
        rw [if_pos (by simp [keyframeCollaborators, keyframeSetup])]

end Allocation

section CanonicalInstance

variable {F T K R : Type}

/-! ## The canonical instance under perturbation work -/

/-- A member function call on the manager at `this` leaves every other manager of the
process as it is. -/
theorem Process.store_objects_other (w : Process F T K R) (this a : Nat)
    (m : NewEvalManager F T K R) (h : a ≠ this) : (w.store this m).objects a = w.objects a := by
  simp [Process.store, h]

/-- A member function call on the manager at `this` leaves its outcome at `this`. -/
theorem Process.store_objects_self (w : Process F T K R) (this : Nat)
    (m : NewEvalManager F T K R) : (w.store this m).objects this = some m := by
  simp [Process.store]

/-- What a manager other than the canonical one reads through the static pointer. -/
theorem Process.canonical_other (w : Process F T K R) (c this : Nat)
    (r : NewEvalManager F T K R) (hptr : w.ref_evaluation_manager_ = some c)
    (hc : w.objects c = some r) (hne : this ≠ c) : w.canonical this = some (some r) := by
  simp [Process.canonical, hptr, hc, Ne.symm hne]

/-- C21, as stated, fails: the canonical instance can itself run a derivative
computation.  In the process of the scenario the static pointer designates the
manager at address 0, which holds the transform 3 for body 1 of point 0;
`computeDerivatives` for parameter 0 (the joint position) with `eps = 1`, called
on that manager, returns, and afterwards the canonical instance holds the
transform 2 there, that of the perturbation by `-eps`. -/
theorem canonical_instance_changed_by_own_derivatives :
    processOfScenario.ref_evaluation_manager_ = some 0 ∧
    (∃ r, processOfScenario.objects 0 = some r ∧ (r.rbdl_models_.elem 0).X_base 1 = 3) ∧
    ∃ w1, processOfScenario.step contactCollaborators contactSetup [constantCost 2 1]
        canonicalOfScenario (.computeDerivatives 0 0 (fun _ => 3) 1) = some w1 ∧
      w1.ref_evaluation_manager_ = some 0 ∧
      ∃ r1, w1.objects 0 = some r1 ∧ (r1.rbdl_models_.elem 0).X_base 1 = 2 := by
  refine ⟨rfl, ⟨canonicalOfScenario, rfl, canonical_fresh⟩, ?_⟩
  refine ⟨_, rfl, rfl, _, rfl, ?_⟩
  rw [models_eq_pointState]
  unfold canonicalOfScenario
  simp only [computeDerivatives_pointState, computeDerivatives_itomp,
    computeDerivatives_group, evaluateParameterPointItomp_range,
    evaluateParameterPointItomp_itomp, evaluate_itomp, evaluateParameterPointItomp_group,
    evaluate_group, refState, Option.getD_none, evaluate_pointState,
    NewEvalManager.evaluatePropagated, performFull_pointState,
    evaluateParameterPointItomp_pointState, performPartial_pointState,
    perturbed_pointState, perturbed_itomp, perturbed_group, contactManager_pointState,
    contactManager_itomp, contactManager_group,
    pushParameterTrajectory_unmodified _ _ (contactManager_modified _ _ _ _)]
  simp [contactManager, contactCollaborators,
    fullPropagationOfPoint, contactAndForceBlocks, contactAndForceBlocksIn,
    assignExternalForces, contactOrder, projectContacts, List.range_succ,
    ContactStore.getContactVariables, StdVector.set,
    contactSpatialForce, Vector3.cross, ItompPlanningGroup.pointId, Vector3.zero,
    DynamicsModel.updateFullKinematicsAndDynamics, linkDynamics, Model.withKinematics,
    Model.kinematics, ContactStore.directChange, ContactStore.getTrajectoryIndex,
    ContactStore.restore, SpatialVectorZero, refPointState,
    partialPropagationOfPoint, partialUpdateOfPoint, partialCopyOfPoint, copyUpdatedVariables,
    DynamicsModel.updatePartialKinematicsAndDynamics, DynamicsModel.updatePartialDynamics]
  norm_num

/-- C21, amended: when the static pointer designates the manager at address `c`, for
every manager at another address `this` that runs partial propagation (either
overload) or a derivative computation (`computeDerivatives`, `computeCostDerivatives`,
the legacy `computeDerivatives`): the call returns, the worker reads the state
`r` of the canonical instance, and the canonical instance is afterwards the
manager `r` it was before, so its per-point dynamics models, joint torques,
external forces and contact variables are the same. -/
theorem canonical_instance_not_mutated (env : Collaborators F T K)
    (setup : SetupCollaborators F T K R)
    (cfs : List (TrajectoryCost (NewEvalManager F T K R))) (unbound : NewEvalManager F T K R)
    (w : Process F T K R) (c this : Nat) (r t : NewEvalManager F T K R)
    (hptr : w.ref_evaluation_manager_ = some c) (hc : w.objects c = some r)
    (ht : w.objects this = some t) (hne : this ≠ c) :
    (∀ point_begin point_end index,
      ∃ w1, w.partialCallWithIndex env this point_begin point_end index = some w1 ∧
        w1.objects c = some r ∧
        w1.objects this = some (t.performPartialForwardKinematicsAndDynamics env (some r)
          point_begin point_end index)) ∧
    (∀ point_begin point_end parameter_element,
      ∃ w1, w.partialCallLegacy env this point_begin point_end parameter_element = some w1 ∧
        w1.objects c = some r ∧
        w1.objects this = some (t.performPartialForwardKinematicsAndDynamicsLegacy env (some r)
          point_begin point_end parameter_element)) ∧
    (∀ p parameters eps,
      ∃ w1, w.step env setup cfs unbound (.computeDerivatives this p parameters eps) = some w1 ∧
        w1.objects c = some r ∧
        w1.objects this = some (t.computeDerivatives env cfs (some r) p parameters
          (fun _ => none) eps).mgr) ∧
    (∀ p parameters eps,
      ∃ w1, w.step env setup cfs unbound (.computeCostDerivatives this p parameters eps)
          = some w1 ∧
        w1.objects c = some r ∧
        w1.objects this = some (t.computeCostDerivatives env cfs (some r) p parameters
          (fun _ => none) (fun _ _ => none) eps).mgr) ∧
    (∀ parameters type point eps,
      ∃ w1, w.step env setup cfs unbound
          (.computeDerivativesLegacy this parameters type point eps) = some w1 ∧
        w1.objects c = some r ∧
        w1.objects this = some (t.computeDerivativesLegacy env cfs (some r) parameters type
          point { out := fun _ => none, d_p := fun _ => 0, d_m := fun _ => 0, cost_der := none }
          eps).mgr) := by
  have hcan := Process.canonical_other w c this r hptr hc hne
  have hother : ∀ m, (w.store this m).objects c = some r := fun m =>
    (Process.store_objects_other w this c m (Ne.symm hne)).trans hc
  have hself : ∀ m, (w.store this m).objects this = some m :=
    Process.store_objects_self w this
  refine ⟨?_, ?_, ?_, ?_, ?_⟩
  · intro b e index
    refine ⟨_, ?_, hother _, hself _⟩
    simp [Process.partialCallWithIndex, ht, hcan]
  · intro b e element
    refine ⟨_, ?_, hother _, hself _⟩
    simp [Process.partialCallLegacy, ht, hcan]
  · intro p parameters eps
    refine ⟨_, ?_, hother _, hself _⟩
    simp [Process.step, ht, hcan]
  · intro p parameters eps
    refine ⟨_, ?_, hother _, hself _⟩
    simp [Process.step, ht, hcan]
  · intro parameters type point eps
    refine ⟨_, ?_, hother _, hself _⟩
    simp [Process.step, ht, hcan]

/-- Witness of C21: in the process of the scenario the copy at address 1 computes the
derivative for parameter 0; the canonical instance at address 0 is afterwards
what it was. -/
theorem canonical_instance_not_mutated_witness :
    processOfScenario.ref_evaluation_manager_ = some 0 ∧
    ∃ w1, processOfScenario.step contactCollaborators contactSetup [constantCost 2 1]
        canonicalOfScenario (.computeDerivatives 1 0 (fun _ => 3) 1) = some w1 ∧
      w1.objects 0 = some canonicalOfScenario := by
  refine ⟨rfl, ?_⟩
  obtain ⟨w1, h1, h2, _⟩ := (canonical_instance_not_mutated contactCollaborators contactSetup
    [constantCost 2 1] canonicalOfScenario processOfScenario 0 1 canonicalOfScenario
    (canonicalOfScenario.copyConstructed contactSetup) rfl rfl rfl (by decide)).2.2.1
    0 (fun _ => 3) 1
  exact ⟨w1, h1, h2⟩

end CanonicalInstance

section BestCostAndHistory

variable {F T K R : Type}

/-! ## The history array of `printTrajectoryCost` -/

theorem appendSubCosts_spec (n : Nat) (m : MatrixXd) (cost_vec : Nat → List ℚ)
    (acc : List Nat) :
    appendSubCosts n m (cost_vec, acc)
      = (fun c => if c < n then cost_vec c ++ [m.blockSum 0 c m.rows 1] else cost_vec c,
          acc ++ List.range n) := by
  unfold appendSubCosts
  refine forLoop_inv
    (fun k (st : (Nat → List ℚ) × List Nat) =>
      st = (fun c => if c < k then cost_vec c ++ [m.blockSum 0 c m.rows 1] else cost_vec c,
        acc ++ List.range k))
    0 n _ _ (Nat.zero_le _) ?_ ?_
  · simp
  · intro k st _ _ hst
    subst hst
    refine Prod.ext ?_ ?_
    · funext c
      by_cases hck : c = k
      · subst hck
        simp
      · simp only [Function.update_noteq hck]
        by_cases hlt : c < k
        · have : c < k + 1 := by omega
          simp [hlt, this]
        · have : ¬ c < k + 1 := by omega
          simp [hlt, this]
    · simp [List.range_succ, List.append_assoc]

theorem dumpAccesses_mem (n a : Nat) (h : a ∈ dumpAccesses n) : a < n := by
  unfold dumpAccesses at h
  have key := forLoop_preserves (fun acc : List Nat => ∀ a, a ∈ acc → a < n) 0 15000
    (fun _ acc => forLoop 0 n (fun c acc => acc ++ [c]) acc) []
    (fun a h => absurd h (List.not_mem_nil a))
    (fun _ acc _ _ hacc => by
      have inner := forLoop_inv (fun k (l : List Nat) => ∀ a, a ∈ l → a < n) 0 n
        (fun c acc => acc ++ [c]) acc (Nat.zero_le _) hacc
        (fun c l _ hc hl a ha => by
          rcases List.mem_append.mp ha with h1 | h1
          · exact hl a h1
          · rw [List.mem_singleton] at h1
            omega)
      exact inner)
  exact key a h

theorem mem_dump_of_ite (p : Prop) [Decidable p] (n a : Nat)
    (h : a ∈ (if p then dumpAccesses n else [])) : a < n := by
  by_cases hp : p
  · rw [if_pos hp] at h
    exact dumpAccesses_mem n a h
  · rw [if_neg hp] at h
    exact absurd h (List.not_mem_nil a)

/-- The printing branch of `printTrajectoryCost`, taken when `details` is set and the
cost is a new best. -/
theorem printTrajectoryCost_printing
    (cfs : List (TrajectoryCost (NewEvalManager F T K R))) (cost_vec : Nat → List ℚ)
    (self : NewEvalManager F T K R) (iteration : Int) (details : Bool)
    (hd : details = true) (hbest : self.evaluation_cost_matrix_.sum < self.best_cost_) :
    ∃ dump : List Nat,
      (self.printTrajectoryCost cfs cost_vec iteration details).accesses
        = List.range cfs.length ++ [0] ++ dump ∧
      (∀ a, a ∈ dump → a < cfs.length) ∧
      (self.printTrajectoryCost cfs cost_vec iteration details).cost_vec
        = fun c => if c < cfs.length then
            cost_vec c ++ [self.evaluation_cost_matrix_.blockSum 0 c
              self.evaluation_cost_matrix_.rows 1]
          else cost_vec c := by
  unfold NewEvalManager.printTrajectoryCost
  have h1 : decide (self.evaluation_cost_matrix_.sum < self.best_cost_) = true :=
    decide_eq_true hbest
  simp only [hd, h1, Bool.not_true, Bool.or_self, Bool.false_eq_true, if_false, if_true]
  rw [appendSubCosts_spec]
  exact ⟨_, rfl, fun a ha => mem_dump_of_ite _ _ a ha, rfl⟩

theorem printTrajectoryCost_silent
    (cfs : List (TrajectoryCost (NewEvalManager F T K R))) (cost_vec : Nat → List ℚ)
    (self : NewEvalManager F T K R) (iteration : Int) (details : Bool)
    (h : details = false ∨ ¬ self.evaluation_cost_matrix_.sum < self.best_cost_) :
    (self.printTrajectoryCost cfs cost_vec iteration details).accesses = [] ∧
    (self.printTrajectoryCost cfs cost_vec iteration details).cost_vec = cost_vec := by
  unfold NewEvalManager.printTrajectoryCost
  rcases h with h | h
  · simp [h]
  · simp [h]

/-- C30: when `details` is true and the cost is a new best, `printTrajectoryCost`
subscripts its static array of 3 vectors once per registered cost function,
with `c` for the `c`-th function, to append the column sum to `cost_vec[c]`,
which grows by exactly that entry; its other subscripts are the `0` of the size
test and, in the dump, subscripts below the number of cost functions.  All
subscripts of the call are within the bounds of the array if and only if at
most 3 cost functions are registered.  When `details` is false or the cost is not
a new best, the array is not subscripted and keeps its contents. -/
theorem printTrajectoryCost_history_accesses
    (cfs : List (TrajectoryCost (NewEvalManager F T K R))) (cost_vec : Nat → List ℚ)
    (self : NewEvalManager F T K R) (iteration : Int) (details : Bool) :
    (details = true → self.evaluation_cost_matrix_.sum < self.best_cost_ →
      (∃ dump : List Nat,
        (self.printTrajectoryCost cfs cost_vec iteration details).accesses
          = List.range cfs.length ++ [0] ++ dump ∧
        ∀ a, a ∈ dump → a < cfs.length) ∧
      (∀ c, c < cfs.length →
        (self.printTrajectoryCost cfs cost_vec iteration details).cost_vec c
          = cost_vec c ++ [self.evaluation_cost_matrix_.blockSum 0 c
              self.evaluation_cost_matrix_.rows 1]) ∧
      (∀ c, cfs.length ≤ c →
        (self.printTrajectoryCost cfs cost_vec iteration details).cost_vec c = cost_vec c) ∧
      ((∀ c, c < cfs.length → c < COST_VEC_LENGTH) ↔ cfs.length ≤ 3) ∧
      ((∀ a, a ∈ (self.printTrajectoryCost cfs cost_vec iteration details).accesses →
          a < COST_VEC_LENGTH) ↔ cfs.length ≤ 3)) ∧
    ((details = false ∨ ¬ self.evaluation_cost_matrix_.sum < self.best_cost_) →
      (self.printTrajectoryCost cfs cost_vec iteration details).accesses = [] ∧
      (self.printTrajectoryCost cfs cost_vec iteration details).cost_vec = cost_vec) := by
  refine ⟨?_, printTrajectoryCost_silent cfs cost_vec self iteration details⟩
  intro hd hbest
  obtain ⟨dump, hacc, hdump, hvec⟩ :=
    printTrajectoryCost_printing cfs cost_vec self iteration details hd hbest
  have hpush : (∀ c, c < cfs.length → c < COST_VEC_LENGTH) ↔ cfs.length ≤ 3 := by
    constructor
    · intro h
      by_contra hgt
      have h3 := h 3 (by omega)
      simp [COST_VEC_LENGTH] at h3
    · intro h c hc
      show c < 3
      omega
  refine ⟨⟨dump, hacc, hdump⟩, ?_, ?_, hpush, ?_⟩
  · intro c hc
    rw [hvec]
    simp [hc]
  · intro c hc
    rw [hvec]
    have : ¬ c < cfs.length := by omega
    simp [this]
  · rw [hacc]
    constructor
    · intro h
      by_contra hgt
      have h3 := h 3 (by
        simp only [List.mem_append, List.mem_range]
        exact Or.inl (Or.inl (by omega)))
      simp [COST_VEC_LENGTH] at h3
    · intro h a ha
      show a < 3
      simp only [List.mem_append, List.mem_range, List.mem_singleton] at ha
      rcases ha with (h1 | h1) | h1
      · omega
      · omega
      · have := hdump a h1
        omega

/-! ## The best cost -/

theorem SameExceptCost.best_eq {m1 m2 : NewEvalManager F T K R} (h : SameExceptCost m1 m2) :
    m2.best_cost_ = m1.best_cost_ := by
  rw [h]

theorem SameExceptDynamics.best_eq_dyn {m1 m2 : NewEvalManager F T K R}
    (h : SameExceptDynamics m1 m2) : m2.best_cost_ = m1.best_cost_ := by
  rw [h]

theorem SameExceptEvaluation.best_eq_eval {m1 m2 : NewEvalManager F T K R}
    (h : SameExceptEvaluation m1 m2) : m2.best_cost_ = m1.best_cost_ := by
  rw [h]

theorem evaluate_best (env : Collaborators F T K)
    (cfs : List (TrajectoryCost (NewEvalManager F T K R))) (self : NewEvalManager F T K R) :
    (self.evaluate env cfs).mgr.best_cost_ = self.best_cost_ := by
  show ((self.evaluatePropagated env).evaluatePointRangeLegacy cfs 0 _).mgr.best_cost_ = _
  rw [(evaluatePointRangeLegacy_same cfs _ _ _).best_eq]
  unfold NewEvalManager.evaluatePropagated
  rw [(performFull_frame env _ _ _).best_eq_dyn]
  unfold NewEvalManager.pushParameterTrajectory
  split <;> rfl

theorem computeDerivatives_best (env : Collaborators F T K)
    (cfs : List (TrajectoryCost (NewEvalManager F T K R)))
    (ref : Option (NewEvalManager F T K R)) (self : NewEvalManager F T K R)
    (p : Nat) (parameters : Nat → ℚ) (derivative_out : Nat → Option ℚ) (eps : ℚ) :
    (self.computeDerivatives env cfs ref p parameters derivative_out eps).mgr.best_cost_
      = self.best_cost_ :=
  (computeDerivatives_frame env cfs ref self p parameters derivative_out eps).best_eq_eval

theorem computeCostDerivatives_best (env : Collaborators F T K)
    (cfs : List (TrajectoryCost (NewEvalManager F T K R)))
    (ref : Option (NewEvalManager F T K R)) (self : NewEvalManager F T K R)
    (p : Nat) (parameters : Nat → ℚ) (derivative_out : Nat → Option ℚ)
    (cost_derivative_out : Nat → Nat → Option ℚ) (eps : ℚ) :
    (self.computeCostDerivatives env cfs ref p parameters derivative_out cost_derivative_out
      eps).mgr.best_cost_ = self.best_cost_ :=
  computeDerivatives_best env cfs ref self p parameters derivative_out eps

theorem evaluateParameterPoint_best (env : Collaborators F T K)
    (cfs : List (TrajectoryCost (NewEvalManager F T K R)))
    (ref : Option (NewEvalManager F T K R)) (self : NewEvalManager F T K R)
    (value : ℚ) (type point element : Nat) (first : Bool) :
    (self.evaluateParameterPoint env cfs ref value type point element first).mgr.best_cost_
      = self.best_cost_ := by
  unfold NewEvalManager.evaluateParameterPoint
  dsimp only
  rw [(evaluatePointRangeLegacy_same cfs _ _ _).best_eq,
    (performPartialLegacy_frame env ref _ _ _ _).best_eq_dyn]

theorem computeDerivativesLegacy_best (env : Collaborators F T K)
    (cfs : List (TrajectoryCost (NewEvalManager F T K R)))
    (ref : Option (NewEvalManager F T K R)) (self : NewEvalManager F T K R)
    (parameters : Nat → MatrixXd) (type point : Nat) (res : LegacyDerivatives) (eps : ℚ) :
    (self.computeDerivativesLegacy env cfs ref parameters type point res eps).mgr.best_cost_
      = self.best_cost_ := by
  unfold NewEvalManager.computeDerivativesLegacy
  dsimp only
  refine forLoop_preserves
    (fun st : LegacyLoopState (NewEvalManager F T K R) => st.mgr.best_cost_ = self.best_cost_)
    _ _ _ _ ?_ ?_
  · unfold NewEvalManager.setParameters
    rfl
  · intro i st _ _ hst
    show ((st.mgr.evaluateParameterPoint env cfs ref _ type point i true).mgr.evaluateParameterPoint
      env cfs ref _ type point i false).mgr.best_cost_ = _
    rw [evaluateParameterPoint_best, evaluateParameterPoint_best]
    exact hst

/-- Of the operations of the process, only the assignment changes the best cost of a
manager that exists before and after, and it sets it to the best cost of the
manager assigned. -/
theorem Process.step_best_cost (env : Collaborators F T K) (setup : SetupCollaborators F T K R)
    (cfs : List (TrajectoryCost (NewEvalManager F T K R))) (unbound : NewEvalManager F T K R)
    (w w1 : Process F T K R) (op : Operation F T K)
    (h : w.step env setup cfs unbound op = some w1) (a : Nat) (m m1 : NewEvalManager F T K R)
    (hm : w.objects a = some m) (hm1 : w1.objects a = some m1) :
    m1.best_cost_ = m.best_cost_ ∨
    ∃ manager src, op = .assign a manager ∧ w.objects manager = some src ∧
      m1.best_cost_ = src.best_cost_ := by
  have hstore : ∀ (this : Nat) (t : NewEvalManager F T K R), w1 = w.store this t →
      (a ≠ this → m1 = m) ∧ (a = this → m1 = t) := by
    intro this t hw
    subst hw
    refine ⟨fun hne => ?_, fun heq => ?_⟩
    · rw [Process.store_objects_other w this a t hne, hm] at hm1
      exact (Option.some.inj hm1).symm
    · subst heq
      rw [Process.store_objects_self] at hm1
      exact (Option.some.inj hm1).symm
  cases op with
  | construct this =>
    simp only [Process.step] at h
    cases hobj : w.objects this with
    | some m0 => simp [hobj] at h
    | none =>
      have hne : a ≠ this := fun heq => by
        subst heq
        rw [hobj] at hm
        cases hm
      have hobj1 : w1.objects a = w.objects a := by
        simp only [hobj] at h
        split at h <;> cases h <;> simp [Process.store, hne]
      rw [hobj1, hm] at hm1
      cases hm1
      exact Or.inl rfl
  | copyConstruct this manager =>
    simp only [Process.step] at h
    cases h1 : w.objects this <;> cases h2 : w.objects manager <;> simp [h1, h2] at h
    have hne : a ≠ this := fun heq => by
      subst heq
      rw [h1] at hm
      cases hm
    rw [((hstore this _ h.symm).1 hne)]
    exact Or.inl rfl
  | assign this manager =>
    simp only [Process.step] at h
    cases h1 : w.objects this <;> cases h2 : w.objects manager <;> simp [h1, h2] at h
    rename_i t src
    by_cases ha : a = this
    · rw [(hstore this _ h.symm).2 ha]
      subst ha
      exact Or.inr ⟨manager, src, rfl, h2, rfl⟩
    · rw [(hstore this _ h.symm).1 ha]
      exact Or.inl rfl
  | callInitialize this full_trajectory itomp_trajectory rbdl_robot_model planning_group =>
    simp only [Process.step, Option.bind_eq_some, Option.map_eq_some'] at h
    obtain ⟨t, ht, t1, hinit, h⟩ := h
    by_cases ha : a = this
    · rw [(hstore this _ h.symm).2 ha]
      subst ha
      rw [ht] at hm
      cases hm
      exact Or.inl (initialize_best env setup cfs _ _ _ _ _ _ hinit)
    · rw [(hstore this _ h.symm).1 ha]
      exact Or.inl rfl
  | evaluate this =>
    simp only [Process.step, Option.map_eq_some'] at h
    obtain ⟨t, ht, h⟩ := h
    by_cases ha : a = this
    · rw [(hstore this _ h.symm).2 ha]
      subst ha
      rw [ht] at hm
      cases hm
      exact Or.inl (evaluate_best env cfs _)
    · rw [(hstore this _ h.symm).1 ha]
      exact Or.inl rfl
  | computeDerivatives this parameter_index parameters eps =>
    simp only [Process.step, Option.bind_eq_some, Option.map_eq_some'] at h
    obtain ⟨t, ht, ref, _, h⟩ := h
    by_cases ha : a = this
    · rw [(hstore this _ h.symm).2 ha]
      subst ha
      rw [ht] at hm
      cases hm
      exact Or.inl (computeDerivatives_best env cfs _ _ _ _ _ _)
    · rw [(hstore this _ h.symm).1 ha]
      exact Or.inl rfl
  | computeCostDerivatives this parameter_index parameters eps =>
    simp only [Process.step, Option.bind_eq_some, Option.map_eq_some'] at h
    obtain ⟨t, ht, ref, _, h⟩ := h
    by_cases ha : a = this
    · rw [(hstore this _ h.symm).2 ha]
      subst ha
      rw [ht] at hm
      cases hm
      exact Or.inl (computeCostDerivatives_best env cfs _ _ _ _ _ _ _)
    · rw [(hstore this _ h.symm).1 ha]
      exact Or.inl rfl
  | computeDerivativesLegacy this parameters type point eps =>
    simp only [Process.step, Option.bind_eq_some, Option.map_eq_some'] at h
    obtain ⟨t, ht, ref, _, h⟩ := h
    by_cases ha : a = this
    · rw [(hstore this _ h.symm).2 ha]
      subst ha
      rw [ht] at hm
      cases hm
      exact Or.inl (computeDerivativesLegacy_best env cfs _ _ _ _ _ _ _)
    · rw [(hstore this _ h.symm).1 ha]
      exact Or.inl rfl

/-- Partial propagation, called on a manager of the process, leaves the best cost of
every manager as it is. -/
theorem Process.partialCall_best_cost (env : Collaborators F T K) (w w1 : Process F T K R)
    (this point_begin point_end : Nat) (a : Nat) (m m1 : NewEvalManager F T K R)
    (hm : w.objects a = some m) (hm1 : w1.objects a = some m1) :
    (∀ index, w.partialCallWithIndex env this point_begin point_end index = some w1 →
      m1.best_cost_ = m.best_cost_) ∧
    (∀ parameter_element,
      w.partialCallLegacy env this point_begin point_end parameter_element = some w1 →
      m1.best_cost_ = m.best_cost_) := by
  refine ⟨fun index h => ?_, fun parameter_element h => ?_⟩
  · simp only [Process.partialCallWithIndex, Option.bind_eq_some, Option.map_eq_some'] at h
    obtain ⟨t, ht, ref, _, h⟩ := h
    subst h
    by_cases ha : a = this
    · subst ha
      rw [Process.store_objects_self] at hm1
      rw [ht] at hm
      cases hm
      cases hm1
      exact (performPartial_frame env ref _ _ _ _).best_eq_dyn
    · rw [Process.store_objects_other w this a _ ha, hm] at hm1
      cases hm1
      rfl
  · simp only [Process.partialCallLegacy, Option.bind_eq_some, Option.map_eq_some'] at h
    obtain ⟨t, ht, ref, _, h⟩ := h
    subst h
    by_cases ha : a = this
    · subst ha
      rw [Process.store_objects_self] at hm1
      rw [ht] at hm
      cases hm
      cases hm1
      exact (performPartialLegacy_frame env ref _ _ _ _).best_eq_dyn
    · rw [Process.store_objects_other w this a _ ha, hm] at hm1
      cases hm1
      rfl

/-- What `printTrajectoryCost` does to the manager: the best cost becomes the minimum of
the best cost and the sum of the cost matrix, nothing else changes. -/
theorem printTrajectoryCost_mgr
    (cfs : List (TrajectoryCost (NewEvalManager F T K R))) (cost_vec : Nat → List ℚ)
    (self : NewEvalManager F T K R) (iteration : Int) (details : Bool) :
    (self.printTrajectoryCost cfs cost_vec iteration details).mgr
      = { self with best_cost_ := min self.best_cost_ self.evaluation_cost_matrix_.sum } := by
  unfold NewEvalManager.printTrajectoryCost
  by_cases hbest : self.evaluation_cost_matrix_.sum < self.best_cost_
  · have hmin : min self.best_cost_ self.evaluation_cost_matrix_.sum
        = self.evaluation_cost_matrix_.sum := min_eq_right (le_of_lt hbest)
    rw [hmin]
    cases details <;> simp [hbest]
  · have hmin : min self.best_cost_ self.evaluation_cost_matrix_.sum = self.best_cost_ :=
      min_eq_left (not_lt.mp hbest)
    rw [hmin]
    cases details <;> simp [hbest]

/-- C28, as stated, fails: the assignment `operator=` raises the best cost too.  The
manager of the one-joint robot, evaluated with the cost 2 and printed, has the
best cost 2; assigning a fresh manager to it leaves it with the best cost of
that manager, the largest finite double. -/
theorem best_cost_raised_by_assignment :
    ((((keyframeManager [0] 1).evaluate keyframeCollaborators
        [positionCost (fun _ => 2) 1]).mgr.printTrajectoryCost [positionCost (fun _ => 2) 1]
        (fun _ => []) 0 false).mgr).best_cost_ = 2 ∧
    (((((keyframeManager [0] 1).evaluate keyframeCollaborators
        [positionCost (fun _ => 2) 1]).mgr.printTrajectoryCost [positionCost (fun _ => 2) 1]
        (fun _ => []) 0 false).mgr).assign keyframeSetup (keyframeManager [0] 1)).best_cost_
      = DBL_MAX ∧
    (2 : ℚ) < DBL_MAX := by
  have hsum : ((keyframeManager [0] 1).evaluate keyframeCollaborators
      [positionCost (fun _ => 2) 1]).mgr.evaluation_cost_matrix_.sum = 2 := by
    show ((keyframeManager [0] 1).evaluate keyframeCollaborators
      [positionCost (fun _ => 2) 1]).value = 2
    rw [keyframe_evaluate_total]
    simp
  have hbest : ((keyframeManager [0] 1).evaluate keyframeCollaborators
      [positionCost (fun _ => 2) 1]).mgr.best_cost_ = DBL_MAX := by
    rw [evaluate_best]
    rfl
  have hlt : (2 : ℚ) < DBL_MAX := by norm_num [DBL_MAX]
  refine ⟨?_, rfl, hlt⟩
  rw [printTrajectoryCost_mgr]
  show min _ _ = 2
  rw [hsum, hbest]
  exact min_eq_right (le_of_lt hlt)

/-- C28, amended: after `printTrajectoryCost`, whatever `iteration`, `details` and the
history array, the manager is the manager before with the best cost replaced
by the minimum of the best cost and the sum of the cost matrix, so the best
cost does not increase and is not above the printed cost.
`resetBestTrajectoryCost` sets the best cost of the manager it is called on to
the largest finite double and changes nothing else, in this manager and in the
other managers of the process.  Of the operations of the process (constructions,
assignment, `initialize`, `evaluate`, the derivative computations) and the partial
propagations, only the assignment `operator=` changes the best cost of a manager
that exists, to the best cost of the manager assigned; a default constructed
manager has the largest finite double as best cost. -/
theorem best_cost_after_printTrajectoryCost (env : Collaborators F T K)
    (setup : SetupCollaborators F T K R)
    (cfs : List (TrajectoryCost (NewEvalManager F T K R))) (unbound : NewEvalManager F T K R)
    (cost_vec : Nat → List ℚ) (self : NewEvalManager F T K R) (iteration : Int)
    (details : Bool) :
    ((self.printTrajectoryCost cfs cost_vec iteration details).mgr
        = { self with best_cost_ := min self.best_cost_ self.evaluation_cost_matrix_.sum } ∧
      (self.printTrajectoryCost cfs cost_vec iteration details).mgr.best_cost_
        = min self.best_cost_ self.evaluation_cost_matrix_.sum ∧
      (self.printTrajectoryCost cfs cost_vec iteration details).mgr.best_cost_
        ≤ self.best_cost_ ∧
      (self.printTrajectoryCost cfs cost_vec iteration details).mgr.best_cost_
        ≤ (self.printTrajectoryCost cfs cost_vec iteration
            details).mgr.evaluation_cost_matrix_.sum) ∧
    (self.resetBestTrajectoryCost = { self with best_cost_ := DBL_MAX } ∧
      ∀ (w w1 : Process F T K R) (this : Nat), w.resetBestTrajectoryCost this = some w1 →
        w1.ref_evaluation_manager_ = w.ref_evaluation_manager_ ∧
        (∃ t, w.objects this = some t ∧
          w1.objects this = some { t with best_cost_ := DBL_MAX }) ∧
        ∀ a, a ≠ this → w1.objects a = w.objects a) ∧
    (∀ (w w1 : Process F T K R) (op : Operation F T K),
      w.step env setup cfs unbound op = some w1 →
      ∀ (a : Nat) (m m1 : NewEvalManager F T K R),
        w.objects a = some m → w1.objects a = some m1 →
        m1.best_cost_ = m.best_cost_ ∨
        ∃ manager src, op = .assign a manager ∧ w.objects manager = some src ∧
          m1.best_cost_ = src.best_cost_) ∧
    (∀ (w w1 : Process F T K R) (this point_begin point_end a : Nat)
        (m m1 : NewEvalManager F T K R), w.objects a = some m → w1.objects a = some m1 →
      (∀ index, w.partialCallWithIndex env this point_begin point_end index = some w1 →
        m1.best_cost_ = m.best_cost_) ∧
      (∀ parameter_element,
        w.partialCallLegacy env this point_begin point_end parameter_element = some w1 →
        m1.best_cost_ = m.best_cost_)) ∧
    unbound.defaultConstructed.best_cost_ = DBL_MAX := by
  have hmgr := printTrajectoryCost_mgr cfs cost_vec self iteration details
  refine ⟨⟨hmgr, ?_, ?_, ?_⟩, ⟨rfl, ?_⟩, ?_, ?_, rfl⟩
  · rw [hmgr]
  · rw [hmgr]
    exact min_le_left _ _
  · rw [hmgr]
    exact min_le_right _ _
  · intro w w1 this h
    unfold Process.resetBestTrajectoryCost at h
    rw [Option.map_eq_some'] at h
    obtain ⟨t, ht, h⟩ := h
    subst h
    exact ⟨rfl, ⟨t, ht, Process.store_objects_self w this _⟩,
      fun a ha => Process.store_objects_other w this a _ ha⟩
  · intro w w1 op h a m m1 hm hm1
    exact Process.step_best_cost env setup cfs unbound w w1 op h a m m1 hm hm1
  · intro w w1 this point_begin point_end a m m1 hm hm1
    exact Process.partialCall_best_cost env w w1 this point_begin point_end a m m1 hm hm1

end BestCostAndHistory

section BestThreadResult

variable {F T K R : Type}

/-! ## The best thread result -/

/-- Invariant of the loop `// find best cost result` when it reaches thread `k`. -/
theorem findBestCostResult_inv {J : Type} (n : Nat) (self : ItompPlannerNode J) :
    (forLoop 0 n findBestCostResult
        (({ self with last_min_cost_trajectory_ := 0 } : ItompPlannerNode J), DBL_MAX)).1.optimizers_
      = self.optimizers_ ∧
    (forLoop 0 n findBestCostResult
        (({ self with last_min_cost_trajectory_ := 0 } : ItompPlannerNode J),
          DBL_MAX)).1.threadTrajectories_ = self.threadTrajectories_ ∧
    (forLoop 0 n findBestCostResult
        (({ self with last_min_cost_trajectory_ := 0 } : ItompPlannerNode J), DBL_MAX)).1.trajectory_
      = self.trajectory_ ∧
    (((forLoop 0 n findBestCostResult
          (({ self with last_min_cost_trajectory_ := 0 } : ItompPlannerNode J),
            DBL_MAX)).1.last_min_cost_trajectory_ = 0 ∧
        ∀ j, j < n → (self.optimizers_.elem j).isSucceed = true →
          DBL_MAX ≤ (self.optimizers_.elem j).getBestCost) ∨
      ((forLoop 0 n findBestCostResult
          (({ self with last_min_cost_trajectory_ := 0 } : ItompPlannerNode J),
            DBL_MAX)).1.last_min_cost_trajectory_ < n ∧
        self.Qualifies (forLoop 0 n findBestCostResult
          (({ self with last_min_cost_trajectory_ := 0 } : ItompPlannerNode J),
            DBL_MAX)).1.last_min_cost_trajectory_ ∧
        (∀ j, j < n → (self.optimizers_.elem j).isSucceed = true →
          (self.optimizers_.elem (forLoop 0 n findBestCostResult
            (({ self with last_min_cost_trajectory_ := 0 } : ItompPlannerNode J),
              DBL_MAX)).1.last_min_cost_trajectory_).getBestCost
            ≤ (self.optimizers_.elem j).getBestCost) ∧
        ∀ j, j < (forLoop 0 n findBestCostResult
            (({ self with last_min_cost_trajectory_ := 0 } : ItompPlannerNode J),
              DBL_MAX)).1.last_min_cost_trajectory_ →
          (self.optimizers_.elem j).isSucceed = true →
          (self.optimizers_.elem (forLoop 0 n findBestCostResult
            (({ self with last_min_cost_trajectory_ := 0 } : ItompPlannerNode J),
              DBL_MAX)).1.last_min_cost_trajectory_).getBestCost
            < (self.optimizers_.elem j).getBestCost)) := by
  have key := forLoop_inv
    (fun k (st : ItompPlannerNode J × ℚ) =>
      st.1.optimizers_ = self.optimizers_ ∧
      st.1.threadTrajectories_ = self.threadTrajectories_ ∧
      st.1.trajectory_ = self.trajectory_ ∧
      ((st.2 = DBL_MAX ∧ st.1.last_min_cost_trajectory_ = 0 ∧
          ∀ j, j < k → (self.optimizers_.elem j).isSucceed = true →
            DBL_MAX ≤ (self.optimizers_.elem j).getBestCost) ∨
        (st.1.last_min_cost_trajectory_ < k ∧
          (self.optimizers_.elem st.1.last_min_cost_trajectory_).isSucceed = true ∧
          (self.optimizers_.elem st.1.last_min_cost_trajectory_).getBestCost = st.2 ∧
          st.2 < DBL_MAX ∧
          (∀ j, j < k → (self.optimizers_.elem j).isSucceed = true →
            st.2 ≤ (self.optimizers_.elem j).getBestCost) ∧
          ∀ j, j < st.1.last_min_cost_trajectory_ →
            (self.optimizers_.elem j).isSucceed = true →
            st.2 < (self.optimizers_.elem j).getBestCost)))
    0 n findBestCostResult
    (({ self with last_min_cost_trajectory_ := 0 } : ItompPlannerNode J), DBL_MAX)
    (Nat.zero_le _)
    ⟨rfl, rfl, rfl, Or.inl ⟨rfl, rfl, fun j h => absurd h (Nat.not_lt_zero j)⟩⟩ ?_
  · obtain ⟨h1, h2, h3, h4⟩ := key
    refine ⟨h1, h2, h3, ?_⟩
    rcases h4 with ⟨_, hz, hall⟩ | ⟨hlt, hs, hc, hb, hmin, hfirst⟩
    · exact Or.inl ⟨hz, hall⟩
    · refine Or.inr ⟨hlt, ⟨hs, by rw [hc]; exact hb⟩, ?_, ?_⟩
      · intro j hj hsj
        rw [hc]
        exact hmin j hj hsj
      · intro j hj hsj
        rw [hc]
        exact hfirst j hj hsj
  · intro k st _ _ hP
    obtain ⟨h1, h2, h3, h4⟩ := hP
    have hopt : st.1.optimizers_.elem k = self.optimizers_.elem k := by rw [h1]
    unfold findBestCostResult
    dsimp only
    rw [hopt]
    by_cases hc : ((self.optimizers_.elem k).getBestCost < st.2
        && (self.optimizers_.elem k).isSucceed) = true
    · rw [if_pos hc]
      rw [Bool.and_eq_true, decide_eq_true_eq] at hc
      obtain ⟨hlt, hsk⟩ := hc
      refine ⟨h1, h2, h3, Or.inr ⟨Nat.lt_succ_self k, hsk, rfl, ?_, ?_, ?_⟩⟩
      · rcases h4 with ⟨hb, _, _⟩ | ⟨_, _, _, hb, _, _⟩
        · rw [hb] at hlt
          exact hlt
        · exact lt_trans hlt hb
      · intro j hj hsj
        rcases Nat.lt_succ_iff_lt_or_eq.mp hj with hjk | hjk
        · rcases h4 with ⟨hb, _, hall⟩ | ⟨_, _, _, _, hmin, _⟩
          · rw [hb] at hlt
            exact le_trans (le_of_lt hlt) (hall j hjk hsj)
          · exact le_trans (le_of_lt hlt) (hmin j hjk hsj)
        · rw [hjk]
      · intro j hjk hsj
        rcases h4 with ⟨hb, _, hall⟩ | ⟨_, _, _, _, hmin, _⟩
        · rw [hb] at hlt
          exact lt_of_lt_of_le hlt (hall j hjk hsj)
        · exact lt_of_lt_of_le hlt (hmin j hjk hsj)
    · rw [if_neg hc]
      rw [Bool.and_eq_true, decide_eq_true_eq, not_and] at hc
      have hk : (self.optimizers_.elem k).isSucceed = true →
          st.2 ≤ (self.optimizers_.elem k).getBestCost :=
        fun hsk => not_lt.mp (fun hlt => hc hlt hsk)
      refine ⟨h1, h2, h3, ?_⟩
      rcases h4 with ⟨hb, hz, hall⟩ | ⟨hlt, hs, hcost, hb, hmin, hfirst⟩
      · refine Or.inl ⟨hb, hz, ?_⟩
        intro j hj hsj
        rcases Nat.lt_succ_iff_lt_or_eq.mp hj with hjk | hjk
        · exact hall j hjk hsj
        · rw [hjk, ← hb]
          rw [hjk] at hsj
          exact hk hsj
      · refine Or.inr ⟨Nat.lt_succ_of_lt hlt, hs, hcost, hb, ?_, hfirst⟩
        intro j hj hsj
        rcases Nat.lt_succ_iff_lt_or_eq.mp hj with hjk | hjk
        · exact hmin j hjk hsj
        · rw [hjk]
          rw [hjk] at hsj
          exact hk hsj

/-- The loop that copies the result to the thread trajectories: every thread below `n`
other than the selected one gets the two trajectories of the node, nothing else
changes. -/
theorem copyResultToThread_loop {J : Type} (acc : TrajectoryAccessors J) (hacc : acc.GetSet)
    (n : Nat) (s0 : ItompPlannerNode J) :
    (forLoop 0 n (copyResultToThread acc) s0).last_min_cost_trajectory_
      = s0.last_min_cost_trajectory_ ∧
    (forLoop 0 n (copyResultToThread acc) s0).trajectory_ = s0.trajectory_ ∧
    (forLoop 0 n (copyResultToThread acc) s0).optimizers_ = s0.optimizers_ ∧
    (forLoop 0 n (copyResultToThread acc) s0).threadTrajectories_.size
      = s0.threadTrajectories_.size ∧
    (∀ i, i < n → i ≠ s0.last_min_cost_trajectory_ →
      acc.getTrajectory ((forLoop 0 n (copyResultToThread acc) s0).threadTrajectories_.elem i)
        = acc.getTrajectory s0.trajectory_ ∧
      acc.getContactTrajectory
          ((forLoop 0 n (copyResultToThread acc) s0).threadTrajectories_.elem i)
        = acc.getContactTrajectory s0.trajectory_) ∧
    (∀ i, (n ≤ i ∨ i = s0.last_min_cost_trajectory_) →
      (forLoop 0 n (copyResultToThread acc) s0).threadTrajectories_.elem i
        = s0.threadTrajectories_.elem i) := by
  refine forLoop_inv
    (fun k (s : ItompPlannerNode J) =>
      s.last_min_cost_trajectory_ = s0.last_min_cost_trajectory_ ∧
      s.trajectory_ = s0.trajectory_ ∧
      s.optimizers_ = s0.optimizers_ ∧
      s.threadTrajectories_.size = s0.threadTrajectories_.size ∧
      (∀ i, i < k → i ≠ s0.last_min_cost_trajectory_ →
        acc.getTrajectory (s.threadTrajectories_.elem i) = acc.getTrajectory s0.trajectory_ ∧
        acc.getContactTrajectory (s.threadTrajectories_.elem i)
          = acc.getContactTrajectory s0.trajectory_) ∧
      (∀ i, (k ≤ i ∨ i = s0.last_min_cost_trajectory_) →
        s.threadTrajectories_.elem i = s0.threadTrajectories_.elem i))
    0 n (copyResultToThread acc) s0 (Nat.zero_le _)
    ⟨rfl, rfl, rfl, rfl, fun i h => absurd h (Nat.not_lt_zero i), fun _ _ => rfl⟩ ?_
  intro k s _ _ hP
  obtain ⟨h1, h2, h3, h4, h5, h6⟩ := hP
  unfold copyResultToThread
  by_cases hk : k = s.last_min_cost_trajectory_
  · rw [if_neg (not_not.mpr hk)]
    refine ⟨h1, h2, h3, h4, ?_, ?_⟩
    · intro i hi hne
      have hik : i ≠ k := fun h => hne (by rw [h, hk, h1])
      exact h5 i (by omega) hne
    · intro i hi
      refine h6 i ?_
      rcases hi with hi | hi
      · exact Or.inl (by omega)
      · exact Or.inr hi
  · rw [if_pos hk]
    dsimp only
    refine ⟨h1, h2, h3, h4, ?_, ?_⟩
    · intro i hi hne
      by_cases hik : i = k
      · subst hik
        simp only [StdVector.set, if_true]
        rw [hacc.2.2, hacc.1, hacc.2.1, h2]
        exact ⟨rfl, rfl⟩
      · simp only [StdVector.set, hik, if_false]
        exact h5 i (by omega) hne
    · intro i hi
      have hik : i ≠ k := by
        rcases hi with hi | hi
        · omega
        · intro h
          exact hk (by rw [← h, hi, h1])
      simp only [StdVector.set, hik, if_false]
      refine h6 i ?_
      rcases hi with hi | hi
      · exact Or.inl (by omega)
      · exact Or.inr hi

/-- C29: `updateTrajectoryToBestResult`, with accessors of the trajectory objects that
return what was assigned.  If some optimizer below `num_trajectories` succeeded
with a best cost below the largest finite double, the selected index is below
`num_trajectories`, its optimizer succeeded with such a cost, no succeeded
optimizer has a smaller best cost and every succeeded optimizer with a smaller
index has a greater best cost; if none qualifies the selected index is 0.
Afterwards the joint and contact trajectories of the main trajectory and of
every thread trajectory below `num_trajectories` are those of the selected
thread, which is left as it was. -/
theorem updateTrajectoryToBestResult_selects_best {J : Type} (acc : TrajectoryAccessors J)
    (hacc : acc.GetSet) (num_trajectories : Nat) (self : ItompPlannerNode J) :
    ((∃ i, i < num_trajectories ∧ self.Qualifies i) →
      (self.updateTrajectoryToBestResult acc num_trajectories).last_min_cost_trajectory_
        < num_trajectories ∧
      self.Qualifies
        (self.updateTrajectoryToBestResult acc num_trajectories).last_min_cost_trajectory_ ∧
      (∀ j, j < num_trajectories → (self.optimizers_.elem j).isSucceed = true →
        (self.optimizers_.elem (self.updateTrajectoryToBestResult acc
          num_trajectories).last_min_cost_trajectory_).getBestCost
          ≤ (self.optimizers_.elem j).getBestCost) ∧
      ∀ j, j < (self.updateTrajectoryToBestResult acc
          num_trajectories).last_min_cost_trajectory_ →
        (self.optimizers_.elem j).isSucceed = true →
        (self.optimizers_.elem (self.updateTrajectoryToBestResult acc
          num_trajectories).last_min_cost_trajectory_).getBestCost
          < (self.optimizers_.elem j).getBestCost) ∧
    ((¬ ∃ i, i < num_trajectories ∧ self.Qualifies i) →
      (self.updateTrajectoryToBestResult acc num_trajectories).last_min_cost_trajectory_ = 0) ∧
    (acc.getTrajectory (self.updateTrajectoryToBestResult acc num_trajectories).trajectory_
        = acc.getTrajectory (self.threadTrajectories_.elem
            (self.updateTrajectoryToBestResult acc num_trajectories).last_min_cost_trajectory_) ∧
      acc.getContactTrajectory
          (self.updateTrajectoryToBestResult acc num_trajectories).trajectory_
        = acc.getContactTrajectory (self.threadTrajectories_.elem
            (self.updateTrajectoryToBestResult acc
              num_trajectories).last_min_cost_trajectory_)) ∧
    (∀ i, i < num_trajectories →
      acc.getTrajectory
          ((self.updateTrajectoryToBestResult acc num_trajectories).threadTrajectories_.elem i)
        = acc.getTrajectory (self.threadTrajectories_.elem
            (self.updateTrajectoryToBestResult acc num_trajectories).last_min_cost_trajectory_) ∧
      acc.getContactTrajectory
          ((self.updateTrajectoryToBestResult acc num_trajectories).threadTrajectories_.elem i)
        = acc.getContactTrajectory (self.threadTrajectories_.elem
            (self.updateTrajectoryToBestResult acc
              num_trajectories).last_min_cost_trajectory_)) ∧
    (self.updateTrajectoryToBestResult acc num_trajectories).threadTrajectories_.elem
        (self.updateTrajectoryToBestResult acc num_trajectories).last_min_cost_trajectory_
      = self.threadTrajectories_.elem
          (self.updateTrajectoryToBestResult acc num_trajectories).last_min_cost_trajectory_ ∧
    (self.updateTrajectoryToBestResult acc num_trajectories).threadTrajectories_.size
      = self.threadTrajectories_.size ∧
    (self.updateTrajectoryToBestResult acc num_trajectories).optimizers_ = self.optimizers_ := by
  obtain ⟨f1, f2, f3, f4⟩ := findBestCostResult_inv num_trajectories self
  obtain ⟨c1, c2, c3, c4, c5, c6⟩ := copyResultToThread_loop acc hacc num_trajectories
    ({ (forLoop 0 num_trajectories findBestCostResult
        (({ self with last_min_cost_trajectory_ := 0 } : ItompPlannerNode J), DBL_MAX)).1 with
      trajectory_ := acc.setContactTrajectory
        (acc.setTrajectory
          (forLoop 0 num_trajectories findBestCostResult
            (({ self with last_min_cost_trajectory_ := 0 } : ItompPlannerNode J),
              DBL_MAX)).1.trajectory_
          (acc.getTrajectory
            ((forLoop 0 num_trajectories findBestCostResult
              (({ self with last_min_cost_trajectory_ := 0 } : ItompPlannerNode J),
                DBL_MAX)).1.threadTrajectories_.elem
              (forLoop 0 num_trajectories findBestCostResult
                (({ self with last_min_cost_trajectory_ := 0 } : ItompPlannerNode J),
                  DBL_MAX)).1.last_min_cost_trajectory_)))
        (acc.getContactTrajectory
          ((forLoop 0 num_trajectories findBestCostResult
            (({ self with last_min_cost_trajectory_ := 0 } : ItompPlannerNode J),
              DBL_MAX)).1.threadTrajectories_.elem
            (forLoop 0 num_trajectories findBestCostResult
              (({ self with last_min_cost_trajectory_ := 0 } : ItompPlannerNode J),
                DBL_MAX)).1.last_min_cost_trajectory_)) } : ItompPlannerNode J)
  have hlast : (self.updateTrajectoryToBestResult acc num_trajectories).last_min_cost_trajectory_
      = (forLoop 0 num_trajectories findBestCostResult
          (({ self with last_min_cost_trajectory_ := 0 } : ItompPlannerNode J),
            DBL_MAX)).1.last_min_cost_trajectory_ := c1
  have htraj : (self.updateTrajectoryToBestResult acc num_trajectories).trajectory_
      = acc.setContactTrajectory
          (acc.setTrajectory self.trajectory_
            (acc.getTrajectory (self.threadTrajectories_.elem
              (self.updateTrajectoryToBestResult acc
                num_trajectories).last_min_cost_trajectory_)))
          (acc.getContactTrajectory (self.threadTrajectories_.elem
            (self.updateTrajectoryToBestResult acc
              num_trajectories).last_min_cost_trajectory_)) := by
    rw [hlast]
    refine c2.trans ?_
    show acc.setContactTrajectory (acc.setTrajectory _ (acc.getTrajectory (_)))
      (acc.getContactTrajectory _) = _
    rw [f2, f3]
  have hget : acc.getTrajectory (self.updateTrajectoryToBestResult acc
        num_trajectories).trajectory_
      = acc.getTrajectory (self.threadTrajectories_.elem
          (self.updateTrajectoryToBestResult acc num_trajectories).last_min_cost_trajectory_) := by
    rw [htraj, hacc.2.2, hacc.1]
  have hgetc : acc.getContactTrajectory (self.updateTrajectoryToBestResult acc
        num_trajectories).trajectory_
      = acc.getContactTrajectory (self.threadTrajectories_.elem
          (self.updateTrajectoryToBestResult acc num_trajectories).last_min_cost_trajectory_) := by
    rw [htraj, hacc.2.1]
  have hsel : (self.updateTrajectoryToBestResult acc num_trajectories).threadTrajectories_.elem
        (self.updateTrajectoryToBestResult acc num_trajectories).last_min_cost_trajectory_
      = self.threadTrajectories_.elem
          (self.updateTrajectoryToBestResult acc num_trajectories).last_min_cost_trajectory_ := by
    rw [hlast]
    refine (c6 _ (Or.inr rfl)).trans ?_
    show (forLoop 0 num_trajectories findBestCostResult _).1.threadTrajectories_.elem _ = _
    rw [f2]
  refine ⟨?_, ?_, ⟨hget, hgetc⟩, ?_, hsel, ?_, ?_⟩
  · intro hq
    rw [hlast]
    rcases f4 with ⟨_, hall⟩ | h
    · obtain ⟨i, hi, hs, hc⟩ := hq
      exact absurd hc (not_lt.mpr (hall i hi hs))
    · exact h
  · intro hq
    rw [hlast]
    rcases f4 with ⟨hz, _⟩ | ⟨hlt, hqual, _, _⟩
    · exact hz
    · exact absurd ⟨_, hlt, hqual⟩ hq
  · intro i hi
    by_cases his : i = (self.updateTrajectoryToBestResult acc
        num_trajectories).last_min_cost_trajectory_
    · rw [his, hsel]
      exact ⟨rfl, rfl⟩
    · have hne : i ≠ (forLoop 0 num_trajectories findBestCostResult
          (({ self with last_min_cost_trajectory_ := 0 } : ItompPlannerNode J),
            DBL_MAX)).1.last_min_cost_trajectory_ := by
        rw [← hlast]
        exact his
      obtain ⟨g1, g2⟩ := c5 i hi hne
      have g1' : acc.getTrajectory
          ((self.updateTrajectoryToBestResult acc num_trajectories).threadTrajectories_.elem i)
          = acc.getTrajectory (self.updateTrajectoryToBestResult acc
              num_trajectories).trajectory_ := g1.trans (by rw [← c2]; rfl)
      have g2' : acc.getContactTrajectory
          ((self.updateTrajectoryToBestResult acc num_trajectories).threadTrajectories_.elem i)
          = acc.getContactTrajectory (self.updateTrajectoryToBestResult acc
              num_trajectories).trajectory_ := g2.trans (by rw [← c2]; rfl)
      exact ⟨g1'.trans hget, g2'.trans hgetc⟩
  · refine c4.trans ?_
    show (forLoop 0 num_trajectories findBestCostResult _).1.threadTrajectories_.size = _
    rw [f2]
  · exact c3.trans f1

/-- The node with two threads evaluated: thread 1, with the best cost 3, is selected
and the main trajectory gets its joint trajectory of two rows. -/
theorem twoThreadNode_selected :
    (twoThreadNode.updateTrajectoryToBestResult pairAccessors 2).last_min_cost_trajectory_ = 1 ∧
    (twoThreadNode.updateTrajectoryToBestResult pairAccessors 2).trajectory_.1.rows = 2 ∧
    ((twoThreadNode.updateTrajectoryToBestResult pairAccessors
      2).threadTrajectories_.elem 0).1.rows = 2 := by
  have h5 : (5 : ℚ) < DBL_MAX := by norm_num [DBL_MAX]
  have h3 : (3 : ℚ) < 5 := by norm_num
  simp [ItompPlannerNode.updateTrajectoryToBestResult, forLoop, findBestCostResult,
    copyResultToThread, twoThreadNode, pairAccessors, StdVector.set, MatrixXd.Zero, h5, h3,
    List.range']

/-- Witness of C29: two threads that succeeded with the best costs 5 and 3; the result
is copied from the selected thread. -/
theorem updateTrajectoryToBestResult_selects_best_witness :
    pairAccessors.GetSet ∧
    pairAccessors.getTrajectory
        (twoThreadNode.updateTrajectoryToBestResult pairAccessors 2).trajectory_
      = pairAccessors.getTrajectory (twoThreadNode.threadTrajectories_.elem
          (twoThreadNode.updateTrajectoryToBestResult pairAccessors
            2).last_min_cost_trajectory_) :=
  ⟨⟨fun _ _ => rfl, fun _ _ => rfl, fun _ _ => rfl⟩,
    (updateTrajectoryToBestResult_selects_best pairAccessors
      ⟨fun _ _ => rfl, fun _ _ => rfl, fun _ _ => rfl⟩ 2 twoThreadNode).2.2.1.1⟩

end BestThreadResult

section StaleKinematics

variable {F T K R : Type}

/-! ## The kinematic quantities a derivative computation leaves behind -/

theorem SameExceptEvaluation.full_eq_eval {m1 m2 : NewEvalManager F T K R}
    (h : SameExceptEvaluation m1 m2) : m2.full_trajectory_ = m1.full_trajectory_ := by
  rw [h]

theorem SameExceptEvaluation.parameter_eq_eval {m1 m2 : NewEvalManager F T K R}
    (h : SameExceptEvaluation m1 m2) :
    m2.parameter_trajectory_ = m1.parameter_trajectory_ := by
  rw [h]

theorem worker_full_trajectory :
    workerOfScenario.full_trajectory_ = ⟨[3], [1], []⟩ := by
  unfold workerOfScenario
  rw [(computeDerivatives_frame _ _ _ _ _ _ _ _).full_eq_eval]
  unfold canonicalOfScenario
  rw [evaluate_full_trajectory]
  simp [NewEvalManager.evaluatePropagated, (performFull_frame _ _ _ _).full_eq_dyn,
    NewEvalManager.pushParameterTrajectory, contactManager]

theorem worker_group :
    workerOfScenario.planning_group_ = (contactManager [3] [1] 1 0).planning_group_ := by
  unfold workerOfScenario
  rw [computeDerivatives_group]
  unfold canonicalOfScenario
  rw [evaluate_group]

theorem worker_num_joints :
    workerOfScenario.parameter_trajectory_.num_joints = 1 := by
  unfold workerOfScenario
  rw [(computeDerivatives_frame _ _ _ _ _ _ _ _).parameter_eq_eval]
  unfold canonicalOfScenario
  have h : ((contactManager [3] [1] 1 0).evaluate contactCollaborators
      [constantCost 2 1]).mgr.parameter_trajectory_
      = (contactManager [3] [1] 1 0).parameter_trajectory_ := by
    show ((NewEvalManager.evaluatePropagated contactCollaborators
      (contactManager [3] [1] 1 0)).evaluatePointRangeLegacy [constantCost 2 1] 0
        _).mgr.parameter_trajectory_ = _
    rw [(evaluatePointRangeLegacy_same _ _ _ _).parameter_eq]
    unfold NewEvalManager.evaluatePropagated
    rw [(performFull_frame _ _ _ _).parameter_eq_dyn]
    simp [NewEvalManager.pushParameterTrajectory, contactManager]
  rw [h]
  rfl

/-- The overload with an index leaves the stale transform in the worker. -/
theorem worker_partial_kinematics :
    (((workerOfScenario.perturbed contactCollaborators 1 2
        true).performPartialForwardKinematicsAndDynamics contactCollaborators
        (some canonicalOfScenario) 0 1
        ⟨0, .POSITION, .CONTACT_FORCE, 0⟩).rbdl_models_.elem 0).X_base 1 = 2 := by
  rw [models_eq_pointState]
  unfold workerOfScenario canonicalOfScenario
  simp only [computeDerivatives_pointState, computeDerivatives_itomp,
    computeDerivatives_group, evaluateParameterPointItomp_range,
    evaluateParameterPointItomp_itomp, evaluate_itomp, evaluateParameterPointItomp_group,
    evaluate_group, refState, Option.getD_some, evaluate_pointState,
    NewEvalManager.evaluatePropagated, performFull_pointState,
    evaluateParameterPointItomp_pointState, performPartial_pointState,
    perturbed_pointState, perturbed_itomp, perturbed_group, contactManager_pointState,
    contactManager_itomp, contactManager_group,
    pushParameterTrajectory_unmodified _ _ (contactManager_modified _ _ _ _)]
  simp [contactManager, contactCollaborators,
    fullPropagationOfPoint, contactAndForceBlocks, contactAndForceBlocksIn,
    assignExternalForces, contactOrder, projectContacts, List.range_succ,
    ContactStore.getContactVariables, StdVector.set,
    contactSpatialForce, Vector3.cross, ItompPlanningGroup.pointId, Vector3.zero,
    DynamicsModel.updateFullKinematicsAndDynamics, linkDynamics, Model.withKinematics,
    Model.kinematics, ContactStore.directChange, ContactStore.getTrajectoryIndex,
    ContactStore.restore, SpatialVectorZero,
    partialPropagationOfPoint, partialUpdateOfPoint, partialCopyOfPoint, copyUpdatedVariables,
    DynamicsModel.updatePartialKinematicsAndDynamics, DynamicsModel.updatePartialDynamics]
  norm_num

theorem perturbedLegacy_pointState (env : Collaborators F T K) (self : NewEvalManager F T K R)
    (value : ℚ) (type point element : Nat) (first : Bool) (pt : Nat) :
    (self.perturbedLegacy env value type point element first).pointState pt
      = self.pointState pt := rfl

/-- The legacy overload, on the same worker and for the same change made in the full
trajectory store, copies the model of the canonical instance: the transform is
the 3 of the canonical instance and the joint torque the 7 of full
propagation. -/
theorem worker_legacy_state :
    (((workerOfScenario.perturbedLegacy contactCollaborators 2 0 0 1
        true).performPartialForwardKinematicsAndDynamicsLegacy contactCollaborators
        (some canonicalOfScenario) 0 1 1).rbdl_models_.elem 0).X_base 1 = 3 ∧
    ((workerOfScenario.perturbedLegacy contactCollaborators 2 0 0 1
        true).performPartialForwardKinematicsAndDynamicsLegacy contactCollaborators
        (some canonicalOfScenario) 0 1 1).joint_torques_.elem 0 = [7] := by
  rw [models_eq_pointState, torques_eq_pointState,
    performPartialLegacy_pointState _ _ _ _ _ _ _ rfl rfl]
  have hfull : (workerOfScenario.perturbedLegacy contactCollaborators 2 0 0 1
      true).full_trajectory_ = ⟨[3], [2], [([3], [1])]⟩ := by
    show (contactCollaborators.directChangeForDerivatives workerOfScenario.full_trajectory_ 2
      workerOfScenario.planning_group_ 0 0 1 true).1 = _
    rw [worker_full_trajectory]
    simp [contactCollaborators, ContactStore.directChange]
  have hgroup : (workerOfScenario.perturbedLegacy contactCollaborators 2 0 0 1
      true).planning_group_ = (contactManager [3] [1] 1 0).planning_group_ := worker_group
  have hjoints : (workerOfScenario.perturbedLegacy contactCollaborators 2 0 0 1
      true).parameter_trajectory_.num_joints = 1 := worker_num_joints
  rw [hfull, hgroup, hjoints, perturbedLegacy_pointState]
  unfold workerOfScenario canonicalOfScenario
  simp only [computeDerivatives_pointState, computeDerivatives_itomp,
    computeDerivatives_group, evaluateParameterPointItomp_range,
    evaluateParameterPointItomp_itomp, evaluate_itomp, evaluateParameterPointItomp_group,
    evaluate_group, refState, Option.getD_some, evaluate_pointState,
    NewEvalManager.evaluatePropagated, performFull_pointState,
    evaluateParameterPointItomp_pointState, performPartial_pointState,
    perturbed_pointState, perturbed_itomp, perturbed_group, contactManager_pointState,
    contactManager_itomp, contactManager_group,
    pushParameterTrajectory_unmodified _ _ (contactManager_modified _ _ _ _)]
  simp [contactManager, contactCollaborators,
    fullPropagationOfPoint, contactAndForceBlocks, contactAndForceBlocksIn,
    assignExternalForces, contactOrder, projectContacts, List.range_succ,
    ContactStore.getContactVariables, StdVector.set,
    contactSpatialForce, Vector3.cross, ItompPlanningGroup.pointId, Vector3.zero,
    DynamicsModel.updateFullKinematicsAndDynamics, linkDynamics, Model.withKinematics,
    Model.kinematics, ContactStore.directChange, ContactStore.getTrajectoryIndex,
    ContactStore.restore, SpatialVectorZero,
    partialPropagationOfPoint, partialUpdateOfPoint, partialCopyOfPoint, copyUpdatedVariables,
    partialPropagationOfPointLegacy, partialUpdateOfPointLegacy,
    DynamicsModel.updatePartialKinematicsAndDynamics, DynamicsModel.updatePartialDynamics]
  norm_num

/-- C15 fails on the code by a defect of the overload with an index.  On the one-joint
robot with one contact, whose dynamics-only update does not modify kinematic
quantities, the worker is a manager on which `computeDerivatives` was called for
the joint position: it holds the trajectory of the canonical instance again,
but the transform 2 for body 1 of point 0 where the canonical instance holds 3.
The change of the contact force to 2 is a dynamics-only change of range
`[0, 1)`.  After partial propagation by the overload with an index the
transform is still 2: the kinematic quantities of the point are not those of
the canonical instance.  The legacy overload, called on the same worker for
the same change, copies the model: the transform is the 3 of the canonical
instance. -/
theorem partial_propagation_index_skips_kinematics_copy :
    KeepsKinematics contactCollaborators ∧
    workerOfScenario.itomp_trajectory_ = canonicalOfScenario.itomp_trajectory_ ∧
    (canonicalOfScenario.rbdl_models_.elem 0).X_base 1 = 3 ∧
    (workerOfScenario.rbdl_models_.elem 0).X_base 1 = 2 ∧
    contactCollaborators.directChangeForDerivativeComputation
        workerOfScenario.itomp_trajectory_ 1 2 true
      = (⟨[3], [2], [([3], [1])]⟩, 0, 1) ∧
    contactCollaborators.getTrajectoryIndex
        (workerOfScenario.perturbed contactCollaborators 1 2 true).itomp_trajectory_ 1
      = ⟨0, .POSITION, .CONTACT_FORCE, 0⟩ ∧
    (((workerOfScenario.perturbed contactCollaborators 1 2
        true).performPartialForwardKinematicsAndDynamics contactCollaborators
        (some canonicalOfScenario) 0 1
        ⟨0, .POSITION, .CONTACT_FORCE, 0⟩).rbdl_models_.elem 0).X_base 1 = 2 ∧
    ¬ Model.SameKinematics
      (((workerOfScenario.perturbed contactCollaborators 1 2
        true).performPartialForwardKinematicsAndDynamics contactCollaborators
        (some canonicalOfScenario) 0 1
        ⟨0, .POSITION, .CONTACT_FORCE, 0⟩).rbdl_models_.elem 0)
      (canonicalOfScenario.rbdl_models_.elem 0) ∧
    (1 : Nat) ≥ (workerOfScenario.perturbedLegacy contactCollaborators 2 0 0 1
      true).parameter_trajectory_.num_joints ∧
    (((workerOfScenario.perturbedLegacy contactCollaborators 2 0 0 1
        true).performPartialForwardKinematicsAndDynamicsLegacy contactCollaborators
        (some canonicalOfScenario) 0 1 1).rbdl_models_.elem 0).X_base 1 = 3 := by
  refine ⟨linkDynamics_keepsKinematics, worker_trajectory, canonical_fresh, worker_stale, ?_, ?_,
    worker_partial_kinematics, ?_, ?_, worker_legacy_state.1⟩
  · rw [worker_trajectory]
    unfold canonicalOfScenario
    rw [evaluate_itomp]
    simp [contactManager, contactCollaborators, ContactStore.directChange]
  · rw [perturbed_itomp, worker_trajectory]
    unfold canonicalOfScenario
    rw [evaluate_itomp]
    simp [contactManager, contactCollaborators, ContactStore.directChange,
      ContactStore.getTrajectoryIndex]
  · intro h
    have h3 := congrFun h.2.1 1
    rw [worker_partial_kinematics, canonical_fresh] at h3
    norm_num at h3
  · show 1 ≥ workerOfScenario.parameter_trajectory_.num_joints
    rw [worker_num_joints]

end StaleKinematics

section DerivativeOrder

variable {F T K R : Type}

/-! ## Order of the derivative computations -/

theorem SameExceptCost.torques_eq {m1 m2 : NewEvalManager F T K R}
    (h : SameExceptCost m1 m2) : m2.joint_torques_ = m1.joint_torques_ := by
  rw [h]

/-- With the squared joint torque as only cost function, the entry that
`evaluateParameterPointItomp` leaves for a point of the reported range is the
weight times the square of the joint torque it leaves at the point. -/
theorem evaluateParameterPointItomp_torque_entry (env : Collaborators F T K)
    (ref : Option (NewEvalManager F T K R)) (self : NewEvalManager F T K R)
    (w value : ℚ) (p : Nat) (first : Bool) (i : Nat)
    (hb : (self.evaluateParameterPointItomp env [squaredTorqueCost w] ref value p
      first).value.1 ≤ i)
    (he : i < (self.evaluateParameterPointItomp env [squaredTorqueCost w] ref value p
      first).value.2) :
    (self.evaluateParameterPointItomp env [squaredTorqueCost w] ref value p
        first).mgr.evaluation_cost_matrix_.coeff i 0
      = w * (((self.evaluateParameterPointItomp env [squaredTorqueCost w] ref value p
          first).mgr.joint_torques_.elem i).getD 0 0) ^ 2 := by
  unfold NewEvalManager.evaluateParameterPointItomp at hb he ⊢
  dsimp only at hb he ⊢
  obtain ⟨m1, m2, _, h2, h3⟩ := evaluatePointRange_entry [squaredTorqueCost w] _ _ _ _ 0
    (by simp) i hb he
  rw [h3, (evaluatePointRange_same _ _ _ _ _).torques_eq, ← h2.torques_eq]
  rfl

/-- The range `evaluateParameterPointItomp` reports for the contact force of the one-joint
robot with one contact and one point is `[0, 1)`. -/
theorem contactForce_range
    (costs : List (TrajectoryCost (NewEvalManager ContactStore ContactStore (Nat → ℚ) Unit)))
    (ref : Option (NewEvalManager ContactStore ContactStore (Nat → ℚ) Unit))
    (self : NewEvalManager ContactStore ContactStore (Nat → ℚ) Unit)
    (hlen : self.itomp_trajectory_.position.length = 1) (value : ℚ) (first : Bool) :
    (self.evaluateParameterPointItomp contactCollaborators costs ref value 1 first).value
      = (0, 1) := by
  rw [evaluateParameterPointItomp_range]
  simp [contactCollaborators, ContactStore.directChange, ContactStore.getTrajectoryIndex, hlen]

/-- The perturbation of the contact force keeps the number of joint positions. -/
theorem contactForce_length
    (costs : List (TrajectoryCost (NewEvalManager ContactStore ContactStore (Nat → ℚ) Unit)))
    (ref : Option (NewEvalManager ContactStore ContactStore (Nat → ℚ) Unit))
    (self : NewEvalManager ContactStore ContactStore (Nat → ℚ) Unit)
    (hlen : self.itomp_trajectory_.position.length = 1) (value : ℚ) (first : Bool) :
    (self.evaluateParameterPointItomp contactCollaborators costs ref value 1
      first).mgr.itomp_trajectory_.position.length = 1 := by
  rw [evaluateParameterPointItomp_itomp]
  simp [contactCollaborators, ContactStore.directChange, hlen]

/-- What `computeDerivatives` writes for the contact force of the one-joint robot with
one contact and one point, with the squared joint torque as cost: the central
difference of the squared joint torques left by the two perturbations. -/
theorem computeDerivatives_torque_formula
    (ref : Option (NewEvalManager ContactStore ContactStore (Nat → ℚ) Unit))
    (self : NewEvalManager ContactStore ContactStore (Nat → ℚ) Unit)
    (hlen : self.itomp_trajectory_.position.length = 1)
    (parameters : Nat → ℚ) (out : Nat → Option ℚ) (eps : ℚ) :
    (self.computeDerivatives contactCollaborators [squaredTorqueCost 1] ref 1 parameters out
        eps).value 1
      = fdiv
          (1 * (((self.evaluateParameterPointItomp contactCollaborators [squaredTorqueCost 1]
              ref (parameters 1 + eps) 1 true).mgr.joint_torques_.elem 0).getD 0 0) ^ 2
            - 1 * ((((self.evaluateParameterPointItomp contactCollaborators
              [squaredTorqueCost 1] ref (parameters 1 + eps) 1
              true).mgr.evaluateParameterPointItomp contactCollaborators [squaredTorqueCost 1]
              ref (parameters 1 - eps) 1 false).mgr.joint_torques_.elem 0).getD 0 0) ^ 2)
          (2 * eps) := by
  rw [(computeDerivatives_spec contactCollaborators [squaredTorqueCost 1] ref self 1
    parameters out eps).1]
  have hr1 := contactForce_range [squaredTorqueCost 1] ref self hlen (parameters 1 + eps) true
  have hlen2 := contactForce_length [squaredTorqueCost 1] ref self hlen (parameters 1 + eps)
    true
  have hr2 := contactForce_range [squaredTorqueCost 1] ref _ hlen2 (parameters 1 - eps) false
  have ha := evaluateParameterPointItomp_torque_entry contactCollaborators ref self 1
    (parameters 1 + eps) 1 true 0 (by rw [hr1]) (by rw [hr1]; decide)
  have hb := evaluateParameterPointItomp_torque_entry contactCollaborators ref
    (self.evaluateParameterPointItomp contactCollaborators [squaredTorqueCost 1]
      ref (parameters 1 + eps) 1 true).mgr 1 (parameters 1 - eps) 1 false 0
    (by rw [hr2]) (by rw [hr2]; decide)
  rw [hr1, hr2]
  simp only [List.length_singleton, Finset.sum_range_one, Nat.Ico_succ_singleton,
    Finset.sum_singleton]
  rw [ha, hb]

theorem canonicalWithTorqueCost_length :
    canonicalWithTorqueCost.itomp_trajectory_.position.length = 1 := by
  unfold canonicalWithTorqueCost
  rw [evaluate_itomp]
  rfl

/-- The derivative for the contact force, computed first. -/
theorem derivative_of_force_alone :
    (canonicalWithTorqueCost.computeDerivatives contactCollaborators [squaredTorqueCost 1]
        (some canonicalWithTorqueCost) 1 parametersOfScenario (fun _ => none) 1).value 1
      = some (-88) := by
  rw [computeDerivatives_torque_formula _ _ canonicalWithTorqueCost_length]
  rw [torques_eq_pointState, torques_eq_pointState]
  unfold canonicalWithTorqueCost
  simp only [computeDerivatives_pointState, computeDerivatives_itomp,
    computeDerivatives_group, evaluateParameterPointItomp_range,
    evaluateParameterPointItomp_itomp, evaluate_itomp, evaluateParameterPointItomp_group,
    evaluate_group, refState, Option.getD_some, evaluate_pointState,
    NewEvalManager.evaluatePropagated, performFull_pointState,
    evaluateParameterPointItomp_pointState, performPartial_pointState,
    perturbed_pointState, perturbed_itomp, perturbed_group, contactManager_pointState,
    contactManager_itomp, contactManager_group,
    pushParameterTrajectory_unmodified _ _ (contactManager_modified _ _ _ _)]
  simp [contactManager, contactCollaborators, parametersOfScenario,
    fullPropagationOfPoint, contactAndForceBlocks, contactAndForceBlocksIn,
    assignExternalForces, contactOrder, projectContacts, List.range_succ,
    ContactStore.getContactVariables, StdVector.set,
    contactSpatialForce, Vector3.cross, ItompPlanningGroup.pointId, Vector3.zero,
    DynamicsModel.updateFullKinematicsAndDynamics, linkDynamics, Model.withKinematics,
    Model.kinematics, ContactStore.directChange, ContactStore.getTrajectoryIndex,
    ContactStore.restore, SpatialVectorZero, fdiv,
    partialPropagationOfPoint, partialUpdateOfPoint, partialCopyOfPoint, copyUpdatedVariables,
    DynamicsModel.updatePartialKinematicsAndDynamics, DynamicsModel.updatePartialDynamics]
  norm_num

/-- The manager after the derivative computation for the joint position. -/
theorem afterJoint_trajectory :
    (canonicalWithTorqueCost.computeDerivatives contactCollaborators [squaredTorqueCost 1]
        (some canonicalWithTorqueCost) 0 parametersOfScenario (fun _ => none)
        1).mgr.itomp_trajectory_ = canonicalWithTorqueCost.itomp_trajectory_ := by
  rw [computeDerivatives_itomp]
  unfold canonicalWithTorqueCost
  rw [evaluate_itomp]
  simp [contactManager, contactCollaborators, ContactStore.directChange, ContactStore.restore,
    parametersOfScenario]

/-- The derivative for the contact force, computed after the one for the joint position. -/
theorem derivative_of_force_after_joint :
    ((canonicalWithTorqueCost.computeDerivatives contactCollaborators [squaredTorqueCost 1]
        (some canonicalWithTorqueCost) 0 parametersOfScenario (fun _ => none)
        1).mgr.computeDerivatives contactCollaborators [squaredTorqueCost 1]
        (some canonicalWithTorqueCost) 1 parametersOfScenario (fun _ => none) 1).value 1
      = some (-48) := by
  rw [computeDerivatives_torque_formula _ _
    (by rw [afterJoint_trajectory]; exact canonicalWithTorqueCost_length)]
  rw [torques_eq_pointState, torques_eq_pointState]
  unfold canonicalWithTorqueCost
  simp only [computeDerivatives_pointState, computeDerivatives_itomp,
    computeDerivatives_group, evaluateParameterPointItomp_range,
    evaluateParameterPointItomp_itomp, evaluate_itomp, evaluateParameterPointItomp_group,
    evaluate_group, refState, Option.getD_some, evaluate_pointState,
    NewEvalManager.evaluatePropagated, performFull_pointState,
    evaluateParameterPointItomp_pointState, performPartial_pointState,
    perturbed_pointState, perturbed_itomp, perturbed_group, contactManager_pointState,
    contactManager_itomp, contactManager_group,
    pushParameterTrajectory_unmodified _ _ (contactManager_modified _ _ _ _)]
  simp [contactManager, contactCollaborators, parametersOfScenario,
    fullPropagationOfPoint, contactAndForceBlocks, contactAndForceBlocksIn,
    assignExternalForces, contactOrder, projectContacts, List.range_succ,
    ContactStore.getContactVariables, StdVector.set,
    contactSpatialForce, Vector3.cross, ItompPlanningGroup.pointId, Vector3.zero,
    DynamicsModel.updateFullKinematicsAndDynamics, linkDynamics, Model.withKinematics,
    Model.kinematics, ContactStore.directChange, ContactStore.getTrajectoryIndex,
    ContactStore.restore, SpatialVectorZero, fdiv,
    partialPropagationOfPoint, partialUpdateOfPoint, partialCopyOfPoint, copyUpdatedVariables,
    DynamicsModel.updatePartialKinematicsAndDynamics, DynamicsModel.updatePartialDynamics]
  norm_num

/-- C9 fails on the code by a defect of partial propagation.  On the one-joint robot with
one contact and one point, joint position 3 and contact force 1, with the squared
joint torque as only cost function and `eps = 1`, a worker that holds the state
of the evaluated canonical instance writes the derivative -88 for the contact
force when `computeDerivatives` is called for it first, and the derivative -48
when `computeDerivatives` was called for the joint position before, although
that call restored the trajectory of the worker. -/
theorem computeDerivatives_depends_on_order :
    (canonicalWithTorqueCost.computeDerivatives contactCollaborators [squaredTorqueCost 1]
        (some canonicalWithTorqueCost) 0 parametersOfScenario (fun _ => none)
        1).mgr.itomp_trajectory_ = canonicalWithTorqueCost.itomp_trajectory_ ∧
    (canonicalWithTorqueCost.computeDerivatives contactCollaborators [squaredTorqueCost 1]
        (some canonicalWithTorqueCost) 1 parametersOfScenario (fun _ => none) 1).value 1
      = some (-88) ∧
    ((canonicalWithTorqueCost.computeDerivatives contactCollaborators [squaredTorqueCost 1]
        (some canonicalWithTorqueCost) 0 parametersOfScenario (fun _ => none)
        1).mgr.computeDerivatives contactCollaborators [squaredTorqueCost 1]
        (some canonicalWithTorqueCost) 1 parametersOfScenario (fun _ => none) 1).value 1
      = some (-48) ∧
    (canonicalWithTorqueCost.computeDerivatives contactCollaborators [squaredTorqueCost 1]
        (some canonicalWithTorqueCost) 1 parametersOfScenario (fun _ => none) 1).value 1
      ≠ ((canonicalWithTorqueCost.computeDerivatives contactCollaborators [squaredTorqueCost 1]
        (some canonicalWithTorqueCost) 0 parametersOfScenario (fun _ => none)
        1).mgr.computeDerivatives contactCollaborators [squaredTorqueCost 1]
        (some canonicalWithTorqueCost) 1 parametersOfScenario (fun _ => none) 1).value 1 := by
  refine ⟨afterJoint_trajectory, derivative_of_force_alone, derivative_of_force_after_joint, ?_⟩
  rw [derivative_of_force_alone, derivative_of_force_after_joint]
  intro h
  injection h with h
  norm_num at h

/-- With the squared joint torque as only cost function, the entry that
`evaluatePointRange` with an index writes for a point of the range is the weight
times the square of the joint torque of the point. -/
theorem evaluatePointRange_torque_entry (self : NewEvalManager F T K R) (w : ℚ) (b e : Nat)
    (index : ItompTrajectoryIndex) (i : Nat) (hb : b ≤ i) (he : i < e) :
    (self.evaluatePointRange [squaredTorqueCost w] b e index).mgr.evaluation_cost_matrix_.coeff
        i 0
      = w * ((self.joint_torques_.elem i).getD 0 0) ^ 2 := by
  obtain ⟨m1, m2, _, h2, h3⟩ := evaluatePointRange_entry [squaredTorqueCost w] self b e index 0
    (by simp) i hb he
  rw [h3, ← h2.torques_eq]
  rfl

/-- C11 fails on the code by a defect of the overload with an index.  On the one-joint
robot with one contact the worker is a manager on which `computeDerivatives` was
called for the joint position: it holds the trajectory of the canonical instance
again, but the transform 2 for body 1 of point 0 where the canonical instance
holds 3.  For the single change of the contact force to 2, of range `[0, 1)`,
partial propagation by the overload with an index leaves the joint torque 2 at
point 0, while full propagation over `[0, 1)` on the same perturbed trajectory
leaves the joint torque 7; `evaluatePointRange` over the range, with the squared
joint torque as cost, then writes 4 after partial and 49 after full propagation.
The legacy overload, called on the same worker for the same change, leaves the
joint torque 7 of full propagation. -/
theorem partial_propagation_stale_torque :
    workerOfScenario.itomp_trajectory_ = canonicalOfScenario.itomp_trajectory_ ∧
    (canonicalOfScenario.rbdl_models_.elem 0).X_base 1 = 3 ∧
    (workerOfScenario.rbdl_models_.elem 0).X_base 1 = 2 ∧
    contactCollaborators.directChangeForDerivativeComputation
        workerOfScenario.itomp_trajectory_ 1 2 true
      = (⟨[3], [2], [([3], [1])]⟩, 0, 1) ∧
    contactCollaborators.getTrajectoryIndex
        (workerOfScenario.perturbed contactCollaborators 1 2 true).itomp_trajectory_ 1
      = ⟨0, .POSITION, .CONTACT_FORCE, 0⟩ ∧
    ((workerOfScenario.perturbed contactCollaborators 1 2
        true).performPartialForwardKinematicsAndDynamics contactCollaborators
        (some canonicalOfScenario) 0 1
        ⟨0, .POSITION, .CONTACT_FORCE, 0⟩).joint_torques_.elem 0 = [2] ∧
    ((workerOfScenario.perturbed contactCollaborators 1 2
        true).performFullForwardKinematicsAndDynamics contactCollaborators 0
        1).joint_torques_.elem 0 = [7] ∧
    ((workerOfScenario.perturbed contactCollaborators 1 2
        true).performPartialForwardKinematicsAndDynamics contactCollaborators
        (some canonicalOfScenario) 0 1
        ⟨0, .POSITION, .CONTACT_FORCE, 0⟩).joint_torques_.elem 0
      ≠ ((workerOfScenario.perturbed contactCollaborators 1 2
          true).performFullForwardKinematicsAndDynamics contactCollaborators 0
          1).joint_torques_.elem 0 ∧
    ((((workerOfScenario.perturbed contactCollaborators 1 2
        true).performPartialForwardKinematicsAndDynamics contactCollaborators
        (some canonicalOfScenario) 0 1
        ⟨0, .POSITION, .CONTACT_FORCE, 0⟩).evaluatePointRange [squaredTorqueCost 1] 0 1
        ⟨0, .POSITION, .CONTACT_FORCE, 0⟩).mgr.evaluation_cost_matrix_.coeff 0 0 = 4 ∧
      (((workerOfScenario.perturbed contactCollaborators 1 2
        true).performFullForwardKinematicsAndDynamics contactCollaborators 0
        1).evaluatePointRange [squaredTorqueCost 1] 0 1
        ⟨0, .POSITION, .CONTACT_FORCE, 0⟩).mgr.evaluation_cost_matrix_.coeff 0 0 = 49) ∧
    ((workerOfScenario.perturbedLegacy contactCollaborators 2 0 0 1
        true).performPartialForwardKinematicsAndDynamicsLegacy contactCollaborators
        (some canonicalOfScenario) 0 1 1).joint_torques_.elem 0 = [7] := by
  refine ⟨worker_trajectory, canonical_fresh, worker_stale, ?_, ?_, worker_partial_torque,
    worker_full_torque, ?_, ⟨?_, ?_⟩, worker_legacy_state.2⟩
  · rw [worker_trajectory]
    unfold canonicalOfScenario
    rw [evaluate_itomp]
    simp [contactManager, contactCollaborators, ContactStore.directChange]
  · rw [perturbed_itomp, worker_trajectory]
    unfold canonicalOfScenario
    rw [evaluate_itomp]
    simp [contactManager, contactCollaborators, ContactStore.directChange,
      ContactStore.getTrajectoryIndex]
  · rw [worker_partial_torque, worker_full_torque]
    decide
  · rw [evaluatePointRange_torque_entry _ _ _ _ _ _ (Nat.le_refl 0) (by decide),
      worker_partial_torque]
    norm_num
  · rw [evaluatePointRange_torque_entry _ _ _ _ _ _ (Nat.le_refl 0) (by decide),
      worker_full_torque]
    norm_num

end DerivativeOrder

section ForceBlock

variable {F T K R : Type}

/-! ## The force block assigns and does not reset -/

/-- When `initialize` returns, the planning group is the one passed. -/
theorem initialize_group (env : Collaborators F T K) (setup : SetupCollaborators F T K R)
    (cfs : List (TrajectoryCost (NewEvalManager F T K R))) (self m : NewEvalManager F T K R)
    (full_trajectory : F) (itomp_trajectory : T) (rbdl_robot_model : Model K)
    (planning_group : ItompPlanningGroup)
    (h : ( NewEvalManager.initialize env setup cfs self full_trajectory itomp_trajectory
      rbdl_robot_model planning_group) = some m) : m.planning_group_ = planning_group := by
  unfold NewEvalManager.initialize at h
  dsimp only at h
  rw [Option.map_eq_some'] at h
  obtain ⟨m2, h2, hm⟩ := h
  subst hm
  show m2.planning_group_ = _
  unfold NewEvalManager.initializeContactVariables at h2
  dsimp only at h2
  split at h2
  · cases h2
  · split at h2
    · cases h2
      rfl
    · rw [Option.map_eq_some'] at h2
      obtain ⟨m3, h3, hm3⟩ := h2
      subst hm3
      show m3.planning_group_ = _
      exact tryForLoop_inv
        (fun s : NewEvalManager F T K R => s.planning_group_ = planning_group) _ _ _ _ _ h3 rfl
        (fun point s s1 _ _ hs hs1 =>
          (initializeContactVariablesOfPoint_frame env setup point s s1 hs1).2.2.2.2.2.2.2.1.trans
            hs)

/-- Full propagation keeps the number of points of the external-force array. -/
theorem performFull_forces_size (env : Collaborators F T K) (self : NewEvalManager F T K R)
    (b e : Nat) :
    (self.performFullForwardKinematicsAndDynamics env b e).external_forces_.size
      = self.external_forces_.size := by
  unfold NewEvalManager.performFullForwardKinematicsAndDynamics
  exact forLoop_preserves
    (fun s : NewEvalManager F T K R => s.external_forces_.size = self.external_forces_.size)
    _ _ _ _ rfl (fun point s _ _ h => by
      refine Eq.trans ?_ h
      show (computeExternalForces env (computeContactVariables env _ s point)
        point).external_forces_.size = _
      unfold computeExternalForces
      refine Eq.trans (forLoop_preserves
        (fun t : NewEvalManager F T K R => t.external_forces_.size
          = (computeContactVariables env
              (env.getContactVariables s.itomp_trajectory_ point) s point).external_forces_.size)
        _ _ _ _ rfl (fun i t _ _ h => ?_)) ?_
      · refine Eq.trans ?_ h
        exact forLoop_preserves
          (fun u : NewEvalManager F T K R => u.external_forces_.size = t.external_forces_.size)
          _ _ _ _ rfl (fun c u _ _ h => h)
      · unfold computeContactVariables
        exact forLoop_preserves
          (fun t : NewEvalManager F T K R => t.external_forces_.size = s.external_forces_.size)
          _ _ _ _ rfl (fun i t _ _ h => h))

/-- The external force that full propagation leaves for body 1 of the one-joint robot
with two contacts on the same bodies. -/
theorem twoContact_force_of_body_one :
    (((twoContactManager (fun c => c + 1) (fun c => c + 1) ⟨0, 0, 2⟩
        ⟨0, 0, 1⟩).performFullForwardKinematicsAndDynamics keyframeCollaborators 0
        1).external_forces_.elem 0).elem 1 = ⟨⟨0, -1, 0⟩, ⟨0, 0, 1⟩⟩ := by
  rw [forces_eq_pointState, performFull_pointState]
  simp [fullPropagationOfPoint, contactAndForceBlocks, contactAndForceBlocksIn,
    assignExternalForces, contactOrder, projectContacts, List.range_succ, twoContactManager,
    keyframeCollaborators, keyframeManager, NewEvalManager.pointState, StdVector.set,
    contactSpatialForce, Vector3.cross, ItompPlanningGroup.pointId]

/-- C13, as stated, fails, in two ways.  (1) Two contacts whose sub contact points are
attached to the same body ids, with the forces `(0, 0, 2)` and `(0, 0, 1)`: after
full propagation the external force of body 1 is the spatial force
`((0, -1, 0), (0, 0, 1))` of the sub contact point of contact 1, not the sum
`((0, -3, 0), (0, 0, 3))` over the two sub contact points attached to body 1.
(2) `initialize` on that manager with a planning group without contacts returns
a manager in which no sub contact point is attached to body 1; after full
propagation the external force of body 1 is still `((0, -1, 0), (0, 0, 1))`, not
the empty sum, the zero vector. -/
theorem external_force_neither_sum_nor_reset :
    ((((twoContactManager (fun c => c + 1) (fun c => c + 1) ⟨0, 0, 2⟩
        ⟨0, 0, 1⟩).performFullForwardKinematicsAndDynamics keyframeCollaborators 0
        1).external_forces_.elem 0).elem 1 = ⟨⟨0, -1, 0⟩, ⟨0, 0, 1⟩⟩ ∧
      accumulatedExternalForce
        (twoContactManager (fun c => c + 1) (fun c => c + 1) ⟨0, 0, 2⟩
          ⟨0, 0, 1⟩).planning_group_
        (((twoContactManager (fun c => c + 1) (fun c => c + 1) ⟨0, 0, 2⟩
          ⟨0, 0, 1⟩).performFullForwardKinematicsAndDynamics keyframeCollaborators 0
          1).contact_variables_.elem 0)
        (contactOrder 2 keyframeCollaborators.NUM_ENDEFFECTOR_CONTACT_POINTS) 1
        = ⟨⟨0, -3, 0⟩, ⟨0, 0, 3⟩⟩) ∧
    ∃ m, ( NewEvalManager.initialize keyframeCollaborators keyframeSetup [constantCost 2 1]
        ((twoContactManager (fun c => c + 1) (fun c => c + 1) ⟨0, 0, 2⟩
          ⟨0, 0, 1⟩).performFullForwardKinematicsAndDynamics keyframeCollaborators 0 1)
        ⟨[0], []⟩ ⟨[0], []⟩
        { mBodies := 10, f := (), X_lambda := (), X_base := (), v := (), a := (), c := () }
        (keyframeManager [0] 1).planning_group_) = some m ∧
      (∀ ic ∈ contactOrder m.planning_group_.num_contacts
          keyframeCollaborators.NUM_ENDEFFECTOR_CONTACT_POINTS,
        m.planning_group_.pointId ic ≠ 1) ∧
      ((m.performFullForwardKinematicsAndDynamics keyframeCollaborators 0
        1).external_forces_.elem 0).elem 1 = ⟨⟨0, -1, 0⟩, ⟨0, 0, 1⟩⟩ ∧
      accumulatedExternalForce m.planning_group_
        ((m.performFullForwardKinematicsAndDynamics keyframeCollaborators 0
          1).contact_variables_.elem 0)
        (contactOrder m.planning_group_.num_contacts
          keyframeCollaborators.NUM_ENDEFFECTOR_CONTACT_POINTS) 1 = SpatialVectorZero := by
  have h2 : accumulatedExternalForce
      (twoContactManager (fun c => c + 1) (fun c => c + 1) ⟨0, 0, 2⟩ ⟨0, 0, 1⟩).planning_group_
      (((twoContactManager (fun c => c + 1) (fun c => c + 1) ⟨0, 0, 2⟩
        ⟨0, 0, 1⟩).performFullForwardKinematicsAndDynamics keyframeCollaborators 0
        1).contact_variables_.elem 0)
      (contactOrder 2 keyframeCollaborators.NUM_ENDEFFECTOR_CONTACT_POINTS) 1
      = ⟨⟨0, -3, 0⟩, ⟨0, 0, 3⟩⟩ := by
    rw [twoContact_contacts]
    simp [accumulatedExternalForce, contactOrder, List.range_succ, twoContactManager,
      keyframeCollaborators, contactSpatialForce, Vector3.cross, ItompPlanningGroup.pointId,
      SpatialVector.add, SpatialVectorZero, Vector3.zero, List.filter]
    norm_num
  refine ⟨⟨twoContact_force_of_body_one, h2⟩, ?_⟩
  obtain ⟨m, hm, _, _, _, _, _, _, _, hforces⟩ := initialize_spec
    keyframeCollaborators keyframeSetup [constantCost 2 1]
    ((twoContactManager (fun c => c + 1) (fun c => c + 1) ⟨0, 0, 2⟩
      ⟨0, 0, 1⟩).performFullForwardKinematicsAndDynamics keyframeCollaborators 0 1)
    ⟨[0], []⟩ ⟨[0], []⟩
    { mBodies := 10, f := (), X_lambda := (), X_base := (), v := (), a := (), c := () }
    (keyframeManager [0] 1).planning_group_ rfl (Or.inr (Or.inl rfl))
  have hgroup := initialize_group _ _ _ _ _ _ _ _ _ hm
  have hnone : ∀ ic ∈ contactOrder m.planning_group_.num_contacts
      keyframeCollaborators.NUM_ENDEFFECTOR_CONTACT_POINTS,
      m.planning_group_.pointId ic ≠ 1 := by
    rw [hgroup]
    intro ic hic
    simp [contactOrder, keyframeManager] at hic
  have hsize : ((twoContactManager (fun c => c + 1) (fun c => c + 1) ⟨0, 0, 2⟩
      ⟨0, 0, 1⟩).performFullForwardKinematicsAndDynamics keyframeCollaborators 0
      1).external_forces_.size = 1 := by
    rw [performFull_forces_size]
    rfl
  have hold : (m.external_forces_.elem 0).elem 1 = ⟨⟨0, -1, 0⟩, ⟨0, 0, 1⟩⟩ := by
    rw [hforces]
    have h0 : keyframeCollaborators.getNumPoints (⟨[0], []⟩ : KeyframeStore) = 1 := rfl
    simp only [StdVector.resize, hsize, h0]
    rw [if_pos (by decide)]
    exact twoContact_force_of_body_one
  refine ⟨m, hm, hnone, ?_, ?_⟩
  · rw [performFull_forces keyframeCollaborators m 0 1 0 (Nat.le_refl 0) (by decide),
      assignExternalForces_not_attached _ _ _ _ 1 hnone]
    exact hold
  · rw [hgroup]
    rfl

end ForceBlock

section Doubles

variable {F T K R : Type}

/-! ## Arithmetic of doubles -/

theorem roundNearestEven_eq (x : ℚ) (n : ℤ) (h : |x - n| < 1 / 2) : roundNearestEven x = n := by
  rw [abs_lt] at h
  unfold roundNearestEven
  by_cases hx : (n : ℚ) ≤ x
  · have hf : ⌊x⌋ = n := by
      rw [Int.floor_eq_iff]
      constructor
      · exact hx
      · linarith [h.2]
    rw [hf, if_pos (by linarith [h.2])]
  · have hf : ⌊x⌋ = n - 1 := by
      rw [Int.floor_eq_iff]
      push_cast
      constructor <;> linarith [h.1]
    have h1 : ¬ (x - ((n - 1 : ℤ) : ℚ) < 1 / 2) := by
      push_cast
      linarith [h.1]
    have h2 : (1 : ℚ) / 2 < x - ((n - 1 : ℤ) : ℚ) := by
      push_cast
      linarith [h.1]
    rw [hf, if_neg h1, if_pos h2]
    ring

theorem log_eq_of_bounds (m : ℚ) (e : ℤ) (h1 : (2 : ℚ) ^ e ≤ m) (h2 : m < (2 : ℚ) ^ (e + 1)) :
    Int.log 2 m = e := by
  have hpos : 0 < m := lt_of_lt_of_le (by positivity) h1
  have ha : e ≤ Int.log 2 m :=
    (Int.zpow_le_iff_le_log (by norm_num) hpos).1 (by exact_mod_cast h1)
  have hb : Int.log 2 m < e + 1 :=
    (Int.lt_zpow_iff_log_lt (by norm_num) hpos).1 (by exact_mod_cast h2)
  omega

/-- Rounding of a magnitude of the binade `[2 ^ e, 2 ^ (e + 1))` that lies within half a
unit of the integer multiple `n` of the spacing. -/
theorem roundMagnitude_eq (m : ℚ) (e n : ℤ) (he : -1022 ≤ e) (h1 : (2 : ℚ) ^ e ≤ m)
    (h2 : m < (2 : ℚ) ^ (e + 1)) (h : |m / (2 : ℚ) ^ (e - 52) - n| < 1 / 2) :
    Double.roundMagnitude m = n * (2 : ℚ) ^ (e - 52) := by
  unfold Double.roundMagnitude Double.quantum
  rw [log_eq_of_bounds m e h1 h2, max_eq_left he, roundNearestEven_eq _ n h]

theorem roundNearestEven_zero : roundNearestEven 0 = 0 :=
  roundNearestEven_eq 0 0 (by norm_num)

theorem roundMagnitude_zero : Double.roundMagnitude 0 = 0 := by
  unfold Double.roundMagnitude
  rw [zero_div, roundNearestEven_zero]
  simp

theorem DBL_MAX_pos : 0 < DBL_MAX := by
  unfold DBL_MAX
  norm_num

theorem ofSignMagnitude_zero (s : Bool) : Double.ofSignMagnitude s 0 = .finite s 0 := by
  unfold Double.ofSignMagnitude
  rw [roundMagnitude_zero, if_neg (not_lt.2 (le_of_lt DBL_MAX_pos))]

theorem quantum_pos (m : ℚ) : 0 < Double.quantum m := by
  unfold Double.quantum
  positivity

theorem quantum_ge (m : ℚ) : (2 : ℚ) ^ (-1074 : ℤ) ≤ Double.quantum m := by
  unfold Double.quantum
  exact zpow_le_zpow_right₀ (by norm_num) (by have := le_max_right (Int.log 2 m) (-1022); omega)

theorem quantum_le (m : ℚ) (h : (2 : ℚ) ^ (-1074 : ℤ) ≤ m) : Double.quantum m ≤ m := by
  have hpos : 0 < m := lt_of_lt_of_le (by positivity) h
  unfold Double.quantum
  by_cases hl : -1022 ≤ Int.log 2 m
  · rw [max_eq_left hl]
    calc (2 : ℚ) ^ (Int.log 2 m - 52) ≤ (2 : ℚ) ^ (Int.log 2 m) :=
          zpow_le_zpow_right₀ (by norm_num) (by omega)
      _ ≤ m := by exact_mod_cast Int.zpow_log_le_self (by norm_num) hpos
  · rw [max_eq_right (by omega)]
    exact h

theorem roundNearestEven_ge_floor (x : ℚ) : ⌊x⌋ ≤ roundNearestEven x := by
  unfold roundNearestEven
  split
  · exact le_refl _
  · split
    · omega
    · split <;> omega

theorem roundNearestEven_nonneg (x : ℚ) (h : 0 ≤ x) : 0 ≤ roundNearestEven x :=
  le_trans (Int.floor_nonneg.2 h) (roundNearestEven_ge_floor x)

theorem roundNearestEven_pos (x : ℚ) (h : 1 ≤ x) : 1 ≤ roundNearestEven x :=
  le_trans (Int.le_floor.2 (by exact_mod_cast h)) (roundNearestEven_ge_floor x)

/-- A magnitude of at least the smallest positive double does not round to zero. -/
theorem roundMagnitude_pos (m : ℚ) (h : (2 : ℚ) ^ (-1074 : ℤ) ≤ m) :
    0 < Double.roundMagnitude m := by
  unfold Double.roundMagnitude
  have hq := quantum_pos m
  have h1 : 1 ≤ m / Double.quantum m := by
    rw [le_div_iff₀ hq, one_mul]
    exact quantum_le m h
  have h2 : (1 : ℚ) ≤ (roundNearestEven (m / Double.quantum m) : ℚ) := by
    exact_mod_cast roundNearestEven_pos _ h1
  positivity

/-- A rounded magnitude other than zero is at least the smallest positive double. -/
theorem roundMagnitude_ge (m : ℚ) (hm : 0 ≤ m) (h : Double.roundMagnitude m ≠ 0) :
    (2 : ℚ) ^ (-1074 : ℤ) ≤ Double.roundMagnitude m := by
  unfold Double.roundMagnitude at h ⊢
  have hq := quantum_pos m
  have h0 : 0 ≤ roundNearestEven (m / Double.quantum m) :=
    roundNearestEven_nonneg _ (div_nonneg hm (le_of_lt hq))
  have h1 : roundNearestEven (m / Double.quantum m) ≠ 0 := by
    intro h2
    apply h
    rw [h2]
    simp
  have h2 : (1 : ℚ) ≤ (roundNearestEven (m / Double.quantum m) : ℚ) := by
    have : 1 ≤ roundNearestEven (m / Double.quantum m) := by omega
    exact_mod_cast this
  calc (2 : ℚ) ^ (-1074 : ℤ) ≤ Double.quantum m := quantum_ge m
    _ = 1 * Double.quantum m := (one_mul _).symm
    _ ≤ roundNearestEven (m / Double.quantum m) * Double.quantum m := by gcongr

theorem ofRat_two : Double.ofRat 2 = .finite false 2 := by
  unfold Double.ofRat Double.ofSignMagnitude
  have h : Double.roundMagnitude |(2 : ℚ)| = 2 := by
    rw [abs_of_pos (by norm_num : (0 : ℚ) < 2),
      roundMagnitude_eq 2 1 (2 ^ 52) (by norm_num) (by norm_num) (by norm_num)
        (by norm_num [abs_lt])]
    norm_num
  rw [h, if_neg (by unfold DBL_MAX; norm_num)]
  simp

/-- The double of `eps`, when finite and not zero. -/
theorem ofRat_finite_nonzero (eps : ℚ) (hfin : (Double.ofRat eps).isFinite = true)
    (h0 : (Double.ofRat eps).toRat ≠ 0) :
    Double.ofRat eps = .finite (decide (eps < 0)) (Double.roundMagnitude |eps|) ∧
    (2 : ℚ) ^ (-1074 : ℤ) ≤ Double.roundMagnitude |eps| := by
  unfold Double.ofRat Double.ofSignMagnitude at hfin h0 ⊢
  by_cases hbig : DBL_MAX < Double.roundMagnitude |eps|
  · rw [if_pos hbig] at hfin
    simp [Double.isFinite] at hfin
  · rw [if_neg hbig] at h0 ⊢
    refine ⟨rfl, roundMagnitude_ge _ (abs_nonneg eps) ?_⟩
    intro hz
    apply h0
    simp [Double.toRat, hz]

/-- A non-negative rational is rounded as a magnitude. -/
theorem ofRat_of_nonneg (q : ℚ) (h : 0 ≤ q) : Double.ofRat q = Double.ofSignMagnitude false q := by
  unfold Double.ofRat
  rw [abs_of_nonneg h, decide_eq_false (not_lt.2 h)]

theorem ofRat_zero : Double.ofRat 0 = .finite false 0 := by
  rw [ofRat_of_nonneg 0 (le_refl 0), ofSignMagnitude_zero]

/-- A magnitude that is a multiple of the spacing of its binade and not above the
largest finite double is a double. -/
theorem ofSignMagnitude_of_exact (s : Bool) (m : ℚ) (e n : ℤ) (he : -1022 ≤ e)
    (h1 : (2 : ℚ) ^ e ≤ m) (h2 : m < (2 : ℚ) ^ (e + 1)) (hn : m = n * (2 : ℚ) ^ (e - 52))
    (hmax : m ≤ DBL_MAX) : Double.ofSignMagnitude s m = .finite s m := by
  have hq : (0 : ℚ) < (2 : ℚ) ^ (e - 52) := by positivity
  have h : Double.roundMagnitude m = m := by
    rw [roundMagnitude_eq m e n he h1 h2 (by
      rw [hn, mul_div_assoc, div_self (ne_of_gt hq), mul_one, sub_self, abs_zero]
      norm_num)]
    exact hn.symm
  unfold Double.ofSignMagnitude
  rw [h, if_neg (not_lt.2 hmax)]

theorem ofSignMagnitude_one (s : Bool) : Double.ofSignMagnitude s 1 = .finite s 1 :=
  ofSignMagnitude_of_exact s 1 0 (2 ^ 52) (by norm_num) (by norm_num) (by norm_num)
    (by norm_num) (by unfold DBL_MAX; norm_num)

theorem ofSignMagnitude_two (s : Bool) : Double.ofSignMagnitude s 2 = .finite s 2 :=
  ofSignMagnitude_of_exact s 2 1 (2 ^ 52) (by norm_num) (by norm_num) (by norm_num)
    (by norm_num) (by unfold DBL_MAX; norm_num)

/-- Twice the largest finite double overflows. -/
theorem ofSignMagnitude_overflow (s : Bool) :
    Double.ofSignMagnitude s (2 * DBL_MAX) = .infinite s := by
  have h : Double.roundMagnitude (2 * DBL_MAX) = 2 * DBL_MAX := by
    rw [roundMagnitude_eq (2 * DBL_MAX) 1024 (2 ^ 53 - 1) (by norm_num)
      (by unfold DBL_MAX; norm_num) (by unfold DBL_MAX; norm_num)
      (by unfold DBL_MAX; norm_num)]
    unfold DBL_MAX
    norm_num
  unfold Double.ofSignMagnitude
  rw [h, if_pos (by linarith [DBL_MAX_pos])]

theorem Double.nan_div (b : Double) : Double.nan.div b = .nan := by
  cases b <;> rfl

theorem Double.isFinite_of_add (a b : Double) (h : (a.add b).isFinite = true) :
    a.isFinite = true ∧ b.isFinite = true := by
  cases a with
  | nan => cases b <;> simp [Double.add, Double.isFinite] at h
  | infinite s =>
    cases b with
    | nan => simp [Double.add, Double.isFinite] at h
    | finite t b => simp [Double.add, Double.isFinite] at h
    | infinite t =>
      by_cases hst : s = t <;> simp [Double.add, Double.isFinite, hst] at h
  | finite s a =>
    cases b with
    | nan => simp [Double.add, Double.isFinite] at h
    | infinite t => simp [Double.add, Double.isFinite] at h
    | finite t b => exact ⟨rfl, rfl⟩

/-- The quotient `(S - S) / (2 * eps)` in doubles, for a non-zero finite `eps`: a zero
when `S` is finite, a NaN otherwise. -/
theorem Double.central_difference_of_equal (S : Double) (eps : ℚ)
    (hfin : (Double.ofRat eps).isFinite = true) (h0 : (Double.ofRat eps).toRat ≠ 0) :
    (S.sub S).div ((Double.ofRat 2).mul (Double.ofRat eps))
      = if S.isFinite then .finite (decide (eps < 0)) 0 else .nan := by
  obtain ⟨he, hge⟩ := ofRat_finite_nonzero eps hfin h0
  rw [he, ofRat_two]
  cases S with
  | nan =>
    have hsub : Double.nan.sub Double.nan = .nan := rfl
    rw [hsub, Double.nan_div]
    rfl
  | infinite s =>
    have hsub : (Double.infinite s).sub (Double.infinite s) = .nan := by
      cases s <;> rfl
    rw [hsub, Double.nan_div]
    rfl
  | finite s a =>
    have hsub : (Double.finite s a).sub (Double.finite s a) = .finite false 0 := by
      cases s <;> simp [Double.sub, Double.neg, Double.add, Double.toRat]
    rw [hsub]
    simp only [Double.isFinite, if_true, Double.mul, Bool.false_xor]
    unfold Double.ofSignMagnitude
    have hpos : 0 < Double.roundMagnitude (2 * Double.roundMagnitude |eps|) :=
      roundMagnitude_pos _ (by
        have : (0 : ℚ) < (2 : ℚ) ^ (-1074 : ℤ) := by positivity
        linarith)
    by_cases hbig : DBL_MAX < Double.roundMagnitude (2 * Double.roundMagnitude |eps|)
    · rw [if_pos hbig]
      simp [Double.div]
    · rw [if_neg hbig]
      simp only [Double.div, if_neg (ne_of_gt hpos), zero_div, Bool.false_xor]
      exact ofSignMagnitude_zero _

/-! ## `computeDerivatives` in doubles -/

/-- Blocks with the same entries have the same entries in doubles. -/
theorem blockEntries_congr (m1 m2 : MatrixXd) (startRow startCol blockRows blockCols : Nat)
    (h : ∀ i, i < blockRows → ∀ j, j < blockCols →
      m1.coeff (startRow + i) (startCol + j) = m2.coeff (startRow + i) (startCol + j)) :
    m1.blockEntries startRow startCol blockRows blockCols
      = m2.blockEntries startRow startCol blockRows blockCols := by
  unfold MatrixXd.blockEntries
  simp only [List.flatMap]
  congr 1
  refine List.map_congr_left (fun j hj => List.map_congr_left (fun i hi => ?_))
  rw [h i (List.mem_range.1 hi) j (List.mem_range.1 hj)]

/-- What `computeDerivativesDouble` returns when the two perturbed values are finite: the
quotient of the difference of the two sums by `2 * eps`, all in doubles, in the
entry of the parameter, the other entries as before. -/
theorem computeDerivativesDouble_spec (env : Collaborators F T K)
    (cfs : List (TrajectoryCost (NewEvalManager F T K R)))
    (ref : Option (NewEvalManager F T K R)) (self : NewEvalManager F T K R)
    (p : Nat) (parameters : Nat → ℚ) (derivative_out : Nat → Double) (eps : ℚ)
    (hplus : ((Double.ofRat (parameters p)).add (Double.ofRat eps)).isFinite = true)
    (hminus : ((Double.ofRat (parameters p)).sub (Double.ofRat eps)).isFinite = true) :
    ∃ r, self.computeDerivativesDouble env cfs ref p parameters derivative_out eps = some r ∧
      r.value p
        = ((self.perturbedSumDouble env cfs ref
              ((Double.ofRat (parameters p)).add (Double.ofRat eps)).toRat p true).sub
            ((self.evaluateParameterPointItomp env cfs ref
              ((Double.ofRat (parameters p)).add (Double.ofRat eps)).toRat p
              true).mgr.perturbedSumDouble env cfs ref
              ((Double.ofRat (parameters p)).sub (Double.ofRat eps)).toRat p false)).div
            ((Double.ofRat 2).mul (Double.ofRat eps)) ∧
      ∀ q, q ≠ p → r.value q = derivative_out q := by
  unfold NewEvalManager.computeDerivativesDouble
  dsimp only
  rw [hplus, hminus]
  refine ⟨_, rfl, ?_, ?_⟩
  · show Function.update derivative_out p _ p = _
    rw [Function.update_same]
    rfl
  · intro q hq
    show Function.update derivative_out p _ q = _
    rw [Function.update_noteq hq]

/-- With constant cost functions and a store that reports the same range and the same
index for the two perturbations, the second perturbation leaves the entries of
the first in the reported range. -/
theorem constantCost_perturbations (env : Collaborators F T K)
    (cfs : List (TrajectoryCost (NewEvalManager F T K R)))
    (ref : Option (NewEvalManager F T K R)) (self : NewEvalManager F T K R)
    (p : Nat) (v1 v2 : ℚ)
    (hconst : ∀ cf, cf ∈ cfs → IsConstantCost cf)
    (hrange :
      (env.directChangeForDerivativeComputation
        (env.directChangeForDerivativeComputation self.itomp_trajectory_ p v1 true).1 p v2
        false).2
      = (env.directChangeForDerivativeComputation self.itomp_trajectory_ p v1 true).2)
    (hindex :
      env.getTrajectoryIndex
        (env.directChangeForDerivativeComputation
          (env.directChangeForDerivativeComputation self.itomp_trajectory_ p v1 true).1 p v2
          false).1 p
      = env.getTrajectoryIndex
          (env.directChangeForDerivativeComputation self.itomp_trajectory_ p v1 true).1 p) :
    ((self.evaluateParameterPointItomp env cfs ref v1 p true).mgr.evaluateParameterPointItomp
        env cfs ref v2 p false).value
      = (self.evaluateParameterPointItomp env cfs ref v1 p true).value ∧
    ∀ i, (self.evaluateParameterPointItomp env cfs ref v1 p true).value.1 ≤ i →
      i < (self.evaluateParameterPointItomp env cfs ref v1 p true).value.2 →
      ∀ c, c < cfs.length →
        ((self.evaluateParameterPointItomp env cfs ref v1 p
            true).mgr.evaluateParameterPointItomp env cfs ref v2 p
            false).mgr.evaluation_cost_matrix_.coeff i c
          = (self.evaluateParameterPointItomp env cfs ref v1 p
              true).mgr.evaluation_cost_matrix_.coeff i c := by
  have hitomp := evaluateParameterPointItomp_itomp env cfs ref self v1 p true
  have hr1 := evaluateParameterPointItomp_range env cfs ref self v1 p true
  have hr2 := evaluateParameterPointItomp_range env cfs ref
    (self.evaluateParameterPointItomp env cfs ref v1 p true).mgr v2 p false
  rw [hitomp] at hr2
  have hreq : ((self.evaluateParameterPointItomp env cfs ref v1 p
        true).mgr.evaluateParameterPointItomp env cfs ref v2 p false).value
      = (self.evaluateParameterPointItomp env cfs ref v1 p true).value := by
    rw [hr2, hr1, hindex, hrange]
  refine ⟨hreq, fun i hb he c hc => ?_⟩
  obtain ⟨a1, a2, _, _, ha⟩ := evaluateParameterPointItomp_entry env cfs ref self
    v1 p true c hc i hb he
  obtain ⟨b1, b2, _, _, hb2⟩ := evaluateParameterPointItomp_entry env cfs ref
    (self.evaluateParameterPointItomp env cfs ref v1 p true).mgr
    v2 p false c hc i (by rw [hreq]; exact hb) (by rw [hreq]; exact he)
  rw [ha, hb2, hitomp, hindex]
  obtain ⟨⟨k, hk⟩, hinv⟩ := hconst cfs[c] (List.getElem_mem hc)
  rw [hinv b1 a1, hk b2, hk a2]

/-- With constant cost functions the two sums in doubles are the same double. -/
theorem constantCost_sums (env : Collaborators F T K)
    (cfs : List (TrajectoryCost (NewEvalManager F T K R)))
    (ref : Option (NewEvalManager F T K R)) (self : NewEvalManager F T K R)
    (p : Nat) (v1 v2 : ℚ)
    (hconst : ∀ cf, cf ∈ cfs → IsConstantCost cf)
    (hrange :
      (env.directChangeForDerivativeComputation
        (env.directChangeForDerivativeComputation self.itomp_trajectory_ p v1 true).1 p v2
        false).2
      = (env.directChangeForDerivativeComputation self.itomp_trajectory_ p v1 true).2)
    (hindex :
      env.getTrajectoryIndex
        (env.directChangeForDerivativeComputation
          (env.directChangeForDerivativeComputation self.itomp_trajectory_ p v1 true).1 p v2
          false).1 p
      = env.getTrajectoryIndex
          (env.directChangeForDerivativeComputation self.itomp_trajectory_ p v1 true).1 p) :
    (self.evaluateParameterPointItomp env cfs ref v1 p true).mgr.perturbedSumDouble env cfs
        ref v2 p false
      = self.perturbedSumDouble env cfs ref v1 p true := by
  obtain ⟨hreq, hentries⟩ := constantCost_perturbations env cfs ref self p v1 v2 hconst hrange
    hindex
  unfold NewEvalManager.perturbedSumDouble MatrixXd.blockSumDouble
  dsimp only
  rw [hreq]
  congr 1
  refine blockEntries_congr _ _ _ _ _ _ (fun i hi j hj => ?_)
  rw [Nat.zero_add]
  exact hentries _ (Nat.le_add_right _ _) (by omega) j hj

/-- C7, amended: if every registered cost function is constant (`IsConstantCost`), the
trajectory store reports the same range and the same index for the two
perturbations of the parameter, the two perturbed values `value + eps` and
`value - eps` are finite doubles and the double `eps` is not zero, then
`computeDerivatives` returns, and what it writes for the parameter is a zero
(with the sign of `eps`) when the sum of the weighted costs of the affected range
is finite in doubles, and a NaN when that sum is not finite. -/
theorem computeDerivatives_constant_cost_in_doubles (env : Collaborators F T K)
    (cfs : List (TrajectoryCost (NewEvalManager F T K R)))
    (ref : Option (NewEvalManager F T K R)) (self : NewEvalManager F T K R)
    (p : Nat) (parameters : Nat → ℚ) (derivative_out : Nat → Double) (eps : ℚ)
    (hconst : ∀ cf, cf ∈ cfs → IsConstantCost cf)
    (hplus : ((Double.ofRat (parameters p)).add (Double.ofRat eps)).isFinite = true)
    (hminus : ((Double.ofRat (parameters p)).sub (Double.ofRat eps)).isFinite = true)
    (hrange :
      (env.directChangeForDerivativeComputation
        (env.directChangeForDerivativeComputation self.itomp_trajectory_ p
          ((Double.ofRat (parameters p)).add (Double.ofRat eps)).toRat true).1 p
        ((Double.ofRat (parameters p)).sub (Double.ofRat eps)).toRat false).2
      = (env.directChangeForDerivativeComputation self.itomp_trajectory_ p
          ((Double.ofRat (parameters p)).add (Double.ofRat eps)).toRat true).2)
    (hindex :
      env.getTrajectoryIndex
        (env.directChangeForDerivativeComputation
          (env.directChangeForDerivativeComputation self.itomp_trajectory_ p
            ((Double.ofRat (parameters p)).add (Double.ofRat eps)).toRat true).1 p
          ((Double.ofRat (parameters p)).sub (Double.ofRat eps)).toRat false).1 p
      = env.getTrajectoryIndex
          (env.directChangeForDerivativeComputation self.itomp_trajectory_ p
            ((Double.ofRat (parameters p)).add (Double.ofRat eps)).toRat true).1 p)
    (heps : (Double.ofRat eps).toRat ≠ 0) :
    ∃ r, self.computeDerivativesDouble env cfs ref p parameters derivative_out eps = some r ∧
      r.value p
        = if (self.perturbedSumDouble env cfs ref
              ((Double.ofRat (parameters p)).add (Double.ofRat eps)).toRat p true).isFinite
          then Double.finite (decide (eps < 0)) 0
          else Double.nan := by
  obtain ⟨r, hr, hval, _⟩ := computeDerivativesDouble_spec env cfs ref self p parameters
    derivative_out eps hplus hminus
  refine ⟨r, hr, ?_⟩
  rw [hval, constantCost_sums env cfs ref self p _ _ hconst hrange hindex]
  exact Double.central_difference_of_equal _ eps
    (Double.isFinite_of_add _ _ hplus).2 heps

/-! ### The one-joint robot in doubles -/

/-- The range and the entry of a perturbation of the one-joint robot with one cost
function that never declares itself invariant. -/
theorem keyframe_perturbation
    (cf : TrajectoryCost (NewEvalManager KeyframeStore KeyframeStore Unit Unit))
    (hinv : ∀ m index, cf.isInvariant m index = false)
    (ref : Option (NewEvalManager KeyframeStore KeyframeStore Unit Unit))
    (self : NewEvalManager KeyframeStore KeyframeStore Unit Unit)
    (v : ℚ) (p : Nat) (first : Bool) :
    (self.evaluateParameterPointItomp keyframeCollaborators [cf] ref v p first).value
      = (p, p + 1) ∧
    ∃ m : NewEvalManager KeyframeStore KeyframeStore Unit Unit,
      m.itomp_trajectory_.position = self.itomp_trajectory_.position.set p v ∧
      (self.evaluateParameterPointItomp keyframeCollaborators [cf] ref v p
          first).mgr.evaluation_cost_matrix_.coeff p 0 = cf.weight * (cf.evaluate m p).2 := by
  have hr : (self.evaluateParameterPointItomp keyframeCollaborators [cf] ref v p first).value
      = (p, p + 1) := by
    rw [evaluateParameterPointItomp_range]
    simp [keyframeCollaborators, KeyframeStore.directChange]
  refine ⟨hr, ?_⟩
  obtain ⟨m1, m2, _, h2, h⟩ := evaluateParameterPointItomp_entry keyframeCollaborators
    [cf] ref self v p first 0 (by simp) p (by rw [hr]) (by rw [hr]; exact Nat.lt_succ_self p)
  refine ⟨m2, ?_, ?_⟩
  · rw [h2]
    rfl
  · rw [h]
    have h0 : ([cf][0]) = cf := rfl
    rw [h0, hinv]
    simp

/-- The sum in doubles that a perturbation of the one-joint robot leaves: the double
of the weighted cost of the perturbed point. -/
theorem keyframe_perturbedSumDouble
    (cf : TrajectoryCost (NewEvalManager KeyframeStore KeyframeStore Unit Unit))
    (hinv : ∀ m index, cf.isInvariant m index = false)
    (ref : Option (NewEvalManager KeyframeStore KeyframeStore Unit Unit))
    (self : NewEvalManager KeyframeStore KeyframeStore Unit Unit)
    (v : ℚ) (p : Nat) (first : Bool) :
    ∃ m : NewEvalManager KeyframeStore KeyframeStore Unit Unit,
      m.itomp_trajectory_.position = self.itomp_trajectory_.position.set p v ∧
      self.perturbedSumDouble keyframeCollaborators [cf] ref v p first
        = Double.ofRat (cf.weight * (cf.evaluate m p).2) := by
  obtain ⟨hr, m, hm, h⟩ := keyframe_perturbation cf hinv ref self v p first
  refine ⟨m, hm, ?_⟩
  unfold NewEvalManager.perturbedSumDouble MatrixXd.blockSumDouble MatrixXd.blockEntries
  dsimp only
  rw [hr]
  simp [getNumActiveCostFunctions, Double.sum, List.range_succ, h]

theorem keyframe_constant_sumDouble (k w : ℚ)
    (ref : Option (NewEvalManager KeyframeStore KeyframeStore Unit Unit))
    (self : NewEvalManager KeyframeStore KeyframeStore Unit Unit)
    (v : ℚ) (p : Nat) (first : Bool) :
    self.perturbedSumDouble keyframeCollaborators [constantCost k w] ref v p first
      = Double.ofRat (w * k) := by
  obtain ⟨m, _, h⟩ := keyframe_perturbedSumDouble (constantCost k w) (fun _ _ => rfl) ref self
    v p first
  rw [h]
  rfl

theorem keyframe_position_sumDouble (g : ℚ → ℚ) (w : ℚ)
    (ref : Option (NewEvalManager KeyframeStore KeyframeStore Unit Unit))
    (self : NewEvalManager KeyframeStore KeyframeStore Unit Unit)
    (v : ℚ) (p : Nat) (hp : p < self.itomp_trajectory_.position.length) (first : Bool) :
    self.perturbedSumDouble keyframeCollaborators [positionCost g w] ref v p first
      = Double.ofRat (w * g v) := by
  obtain ⟨m, hm, h⟩ := keyframe_perturbedSumDouble (positionCost g w) (fun _ _ => rfl) ref self
    v p first
  rw [h]
  show Double.ofRat (w * g (m.itomp_trajectory_.position.getD p 0)) = _
  rw [hm, keyframe_getD_set_self _ _ _ hp]

theorem keyframe_perturbed_length
    (cfs : List (TrajectoryCost (NewEvalManager KeyframeStore KeyframeStore Unit Unit)))
    (ref : Option (NewEvalManager KeyframeStore KeyframeStore Unit Unit))
    (self : NewEvalManager KeyframeStore KeyframeStore Unit Unit)
    (v : ℚ) (p : Nat) (first : Bool) :
    (self.evaluateParameterPointItomp keyframeCollaborators cfs ref v p
      first).mgr.itomp_trajectory_.position.length = self.itomp_trajectory_.position.length := by
  rw [evaluateParameterPointItomp_itomp]
  simp [keyframeCollaborators, KeyframeStore.directChange]

theorem ofRat_one : Double.ofRat 1 = .finite false 1 := by
  rw [ofRat_of_nonneg 1 (by norm_num), ofSignMagnitude_one]

theorem zero_add_zero : (Double.ofRat 0).add (Double.ofRat 0) = .finite false 0 := by
  rw [ofRat_zero]
  simp [Double.add, Double.toRat]

theorem zero_sub_zero : (Double.ofRat 0).sub (Double.ofRat 0) = .finite false 0 := by
  rw [ofRat_zero]
  simp [Double.sub, Double.neg, Double.add, Double.toRat]

theorem zero_add_one : (Double.ofRat 0).add (Double.ofRat 1) = .finite false 1 := by
  rw [ofRat_zero, ofRat_one]
  simp [Double.add, Double.toRat, ofSignMagnitude_one]

theorem zero_sub_one : (Double.ofRat 0).sub (Double.ofRat 1) = .finite true 1 := by
  rw [ofRat_zero, ofRat_one]
  simp [Double.sub, Double.neg, Double.add, Double.toRat, ofSignMagnitude_one]

/-- C7, as stated, fails on the doubles of the code, in two ways.  (1) In the scenario of
the specification (one joint, one point, one cost function of weight 1 that
reports the constant cost 2) `computeDerivatives` with `eps = 0` divides `0.0` by
`0.0` and writes a NaN.  (2) With the constant cost `DBL_MAX` and the weight 2 the
weighted cost overflows, the two sums are infinite, and `computeDerivatives` with
`eps = 1` divides the NaN `inf - inf` by 2 and writes a NaN. -/
theorem computeDerivatives_constant_cost_writes_nan :
    (IsConstantCost (constantCost 2 1 :
        TrajectoryCost (NewEvalManager KeyframeStore KeyframeStore Unit Unit)) ∧
      ((keyframeManager [0] 1).computeDerivativesDouble keyframeCollaborators
          [constantCost 2 1] none 0 (fun _ => 0) (fun _ => .finite false 0) 0).map
        (fun r => r.value 0) = some Double.nan) ∧
    (IsConstantCost (constantCost DBL_MAX 2 :
        TrajectoryCost (NewEvalManager KeyframeStore KeyframeStore Unit Unit)) ∧
      (keyframeManager [0] 1).perturbedSumDouble keyframeCollaborators
          [constantCost DBL_MAX 2] none 1 0 true = Double.infinite false ∧
      ((keyframeManager [0] 1).computeDerivativesDouble keyframeCollaborators
          [constantCost DBL_MAX 2] none 0 (fun _ => 0) (fun _ => .finite false 0) 1).map
        (fun r => r.value 0) = some Double.nan) := by
  refine ⟨⟨⟨⟨2, fun _ _ => rfl⟩, fun _ _ _ => rfl⟩, ?_⟩,
    ⟨⟨DBL_MAX, fun _ _ => rfl⟩, fun _ _ _ => rfl⟩, ?_, ?_⟩
  · obtain ⟨r, hr, hval, _⟩ := computeDerivativesDouble_spec keyframeCollaborators
      [constantCost 2 1] none (keyframeManager [0] 1) 0 (fun _ => 0) (fun _ => .finite false 0)
      0 (by rw [zero_add_zero]; rfl) (by rw [zero_sub_zero]; rfl)
    rw [hr, Option.map_some', hval, keyframe_constant_sumDouble, keyframe_constant_sumDouble,
      ofRat_zero, ofRat_two]
    have h2 : Double.ofRat (1 * 2) = .finite false 2 := by
      rw [one_mul, ofRat_two]
    rw [h2]
    simp [Double.sub, Double.neg, Double.add, Double.toRat, Double.mul, Double.div,
      ofSignMagnitude_zero]
  · rw [keyframe_constant_sumDouble, ofRat_of_nonneg _ (by linarith [DBL_MAX_pos]),
      ofSignMagnitude_overflow]
  · obtain ⟨r, hr, hval, _⟩ := computeDerivativesDouble_spec keyframeCollaborators
      [constantCost DBL_MAX 2] none (keyframeManager [0] 1) 0 (fun _ => 0)
      (fun _ => .finite false 0) 1 (by rw [zero_add_one]; rfl) (by rw [zero_sub_one]; rfl)
    rw [hr, Option.map_some', hval, keyframe_constant_sumDouble, keyframe_constant_sumDouble,
      ofRat_of_nonneg _ (by linarith [DBL_MAX_pos]), ofSignMagnitude_overflow]
    have hsub : (Double.infinite false).sub (Double.infinite false) = .nan := rfl
    rw [hsub, Double.nan_div]

/-- Witness of C7: the scenario of the specification with `eps = 1`: the perturbed values
1 and -1 are finite, the sum of the weighted costs is the double 2, and
`computeDerivatives` writes the zero `+0.0`. -/
theorem computeDerivatives_constant_cost_in_doubles_witness :
    (keyframeManager [0] 1).perturbedSumDouble keyframeCollaborators [constantCost 2 1] none
        ((Double.ofRat 0).add (Double.ofRat 1)).toRat 0 true = .finite false 2 ∧
    ∃ r, (keyframeManager [0] 1).computeDerivativesDouble keyframeCollaborators
        [constantCost 2 1] none 0 (fun _ => 0) (fun _ => .nan) 1 = some r ∧
      r.value 0 = .finite false 0 := by
  have hS : (keyframeManager [0] 1).perturbedSumDouble keyframeCollaborators
      [constantCost 2 1] none ((Double.ofRat 0).add (Double.ofRat 1)).toRat 0 true
      = .finite false 2 := by
    rw [keyframe_constant_sumDouble, one_mul, ofRat_two]
  obtain ⟨r, hr, hval⟩ := computeDerivatives_constant_cost_in_doubles keyframeCollaborators
    [constantCost 2 1] none (keyframeManager [0] 1) 0 (fun _ => 0) (fun _ => .nan) 1
    (by
      intro cf hcf
      rw [List.mem_singleton] at hcf
      subst hcf
      exact ⟨⟨2, fun _ _ => rfl⟩, fun _ _ _ => rfl⟩)
    (by rw [zero_add_one]; rfl) (by rw [zero_sub_one]; rfl) rfl rfl
    (by rw [ofRat_one]; simp [Double.toRat])
  refine ⟨hS, r, hr, ?_⟩
  rw [hval, hS]
  simp [Double.isFinite]

/-! ### The central difference in exact arithmetic and in doubles -/

/-- Sum of two non-negative doubles that are not both zero. -/
theorem Double.add_of_pos (a b : ℚ) (h : 0 < a + b) :
    (Double.finite false a).add (Double.finite false b)
      = Double.ofSignMagnitude false (a + b) := by
  show (if a + b = 0 then _ else Double.ofSignMagnitude (decide (a + b < 0)) |a + b|) = _
  rw [if_neg (ne_of_gt h), abs_of_pos h, decide_eq_false (not_lt.2 (le_of_lt h))]

/-- Difference of two non-negative doubles, the first the larger. -/
theorem Double.sub_of_pos (a b : ℚ) (h : 0 < a - b) :
    (Double.finite false a).sub (Double.finite false b)
      = Double.ofSignMagnitude false (a - b) := by
  show (if a + -b = 0 then _ else Double.ofSignMagnitude (decide (a + -b < 0)) |a + -b|) = _
  rw [← sub_eq_add_neg, if_neg (ne_of_gt h), abs_of_pos h,
    decide_eq_false (not_lt.2 (le_of_lt h))]

/-- Quotient of two non-negative doubles, the divisor not zero. -/
theorem Double.div_of_pos (a b : ℚ) (hb : b ≠ 0) :
    (Double.finite false a).div (Double.finite false b)
      = Double.ofSignMagnitude false (a / b) := by
  simp only [Double.div, if_neg hb]
  rfl

theorem ofRat_three : Double.ofRat 3 = .finite false 3 := by
  rw [ofRat_of_nonneg 3 (by norm_num)]
  exact ofSignMagnitude_of_exact false 3 1 (3 * 2 ^ 51) (by norm_num) (by norm_num)
    (by norm_num) (by norm_num) (by unfold DBL_MAX; norm_num)

/-- In doubles, on the one-joint robot with joint position 3, the squared joint position
as cost and `eps = 1`, no operation of `computeDerivatives` rounds: the perturbed
values are 4 and 2, the sums 16 and 4, and 6 is written. -/
theorem keyframe_derivative_in_doubles :
    ((keyframeManager [3] 1).computeDerivativesDouble keyframeCollaborators
        [squaredPositionCost 1] none 0 (fun _ => 3) (fun _ => .nan) 1).map
      (fun r => r.value 0) = some (.finite false 6) := by
  have h4 : (Double.ofRat 3).add (Double.ofRat 1) = .finite false 4 := by
    rw [ofRat_three, ofRat_one, Double.add_of_pos _ _ (by norm_num)]
    have : (3 : ℚ) + 1 = 4 := by norm_num
    rw [this]
    exact ofSignMagnitude_of_exact false 4 2 (2 ^ 52) (by norm_num) (by norm_num)
      (by norm_num) (by norm_num) (by unfold DBL_MAX; norm_num)
  have h2 : (Double.ofRat 3).sub (Double.ofRat 1) = .finite false 2 := by
    rw [ofRat_three, ofRat_one, Double.sub_of_pos _ _ (by norm_num)]
    have : (3 : ℚ) - 1 = 2 := by norm_num
    rw [this, ofSignMagnitude_two]
  obtain ⟨r, hr, hval, _⟩ := computeDerivativesDouble_spec keyframeCollaborators
    [squaredPositionCost 1] none (keyframeManager [3] 1) 0 (fun _ => 3) (fun _ => .nan)
    1 (by rw [h4]; rfl) (by rw [h2]; rfl)
  rw [hr, Option.map_some', hval, h4, h2]
  unfold squaredPositionCost
  rw [keyframe_position_sumDouble _ _ _ _ _ _ (by decide),
    keyframe_position_sumDouble _ _ _ _ _ _ (by rw [keyframe_perturbed_length]; decide)]
  have h16 : Double.ofRat (1 * (Double.finite false 4).toRat ^ 2) = .finite false 16 := by
    have : (1 : ℚ) * (Double.finite false 4).toRat ^ 2 = 16 := by
      simp [Double.toRat]
      norm_num
    rw [this, ofRat_of_nonneg 16 (by norm_num)]
    exact ofSignMagnitude_of_exact false 16 4 (2 ^ 52) (by norm_num) (by norm_num)
      (by norm_num) (by norm_num) (by unfold DBL_MAX; norm_num)
  have h4b : Double.ofRat (1 * (Double.finite false 2).toRat ^ 2) = .finite false 4 := by
    have : (1 : ℚ) * (Double.finite false 2).toRat ^ 2 = 4 := by
      simp [Double.toRat]
      norm_num
    rw [this, ofRat_of_nonneg 4 (by norm_num)]
    exact ofSignMagnitude_of_exact false 4 2 (2 ^ 52) (by norm_num) (by norm_num)
      (by norm_num) (by norm_num) (by unfold DBL_MAX; norm_num)
  have h12 : (Double.finite false 16).sub (Double.finite false 4) = .finite false 12 := by
    rw [Double.sub_of_pos _ _ (by norm_num)]
    have : (16 : ℚ) - 4 = 12 := by norm_num
    rw [this]
    exact ofSignMagnitude_of_exact false 12 3 (12 * 2 ^ 49) (by norm_num) (by norm_num)
      (by norm_num) (by norm_num) (by unfold DBL_MAX; norm_num)
  have hd : (Double.ofRat 2).mul (Double.ofRat 1) = .finite false 2 := by
    rw [ofRat_two, ofRat_one]
    show Double.ofSignMagnitude false (2 * 1) = _
    rw [mul_one, ofSignMagnitude_two]
  rw [h16, h4b, h12, hd]
  rw [Double.div_of_pos _ _ (by norm_num)]
  have : (12 : ℚ) / 2 = 6 := by norm_num
  rw [this]
  exact congrArg some (ofSignMagnitude_of_exact false 6 2 (6 * 2 ^ 50) (by norm_num)
    (by norm_num) (by norm_num) (by norm_num) (by unfold DBL_MAX; norm_num))

end Doubles

end itomp_cio_planner
